import Mathlib

/-!
# SVG4FNA: the deferred GPU renderer of `src/native/nanovg_gpu.c`

A shallow embedding of the batching renderer, and of the hole classifier of
`src/native/nanovg_svg.c`, and a verification of their specification.

Modelling conventions, used throughout:

* C `int` is an unbounded `Int` (signed overflow is undefined behaviour in C
  and is not modelled); `size_t` values are reduced modulo `2 ^ 64`.
* C `float` is an exact rational `ℚ` (rounding and infinities are not
  modelled; the one place that produces NaN, `getLineCrossing`, returns an
  `Option ℚ`). What is proved of a computed `float` is therefore proved of
  exact arithmetic. The crossing test of the hole classifier, whose outcome
  depends on rounding, has a second model in IEEE 754 binary32
  (`getLineCrossingF32`), used to show where the two differ.
* A set of flag bits is a `Nat`, tested with `&&&`.
* A failed `assert` ends the program: a function with an `assert` returns an
  `Option`, `none` when the assertion fails.
* A C array reached through a pointer is a total map `Int → α` from element
  index to element; the allocated capacity is tracked by the separate
  capacity field exactly as in the source, so an access past the capacity
  (undefined behaviour in C) is visible as an index outside the capacity.
* `void*` handles are natural numbers, `0` being `NULL`.
* `realloc` may fail: every function that calls it takes the outcome of
  that attempt as a Boolean, consulted only on the path that calls `realloc`.
* The backend function-pointer table is modelled by the ordered list of
  backend invocations (`GpuOp`) a function performs; values a backend returns
  are read from a `Backend` parameter.
* The functions and constants of the nanovg library that the renderer uses
  (nanovg.h, nanovg.c) are a parameter `Nanovg`.
* A submit function holds its call record in a local value and stores it to
  `calls` where it returns; the source writes the same fields through a
  pointer into `calls` as it goes, and nothing reads that slot in between.
-/

namespace SVG4FNA

/-! ## Data model -/

/-- `NVGvertex` of nanovg.h: position and texture coordinate. -/
structure NVGvertex where
  x : ℚ
  y : ℚ
  u : ℚ
  v : ℚ
deriving DecidableEq, Inhabited

/-- `NVGcolor` of nanovg.h. -/
structure NVGcolor where
  r : ℚ
  g : ℚ
  b : ℚ
  a : ℚ
deriving DecidableEq, Inhabited

/-- `NVGcompositeOperationState` of nanovg.h: four blend factors. -/
structure NVGcompositeOperationState where
  srcRGB : Int
  dstRGB : Int
  srcAlpha : Int
  dstAlpha : Int
deriving DecidableEq, Inhabited

/-- A 2x3 affine transform `float[6]`, entries `t[0]` .. `t[5]`. -/
structure Xform where
  t0 : ℚ
  t1 : ℚ
  t2 : ℚ
  t3 : ℚ
  t4 : ℚ
  t5 : ℚ
deriving DecidableEq, Inhabited

/-- The padded 3x4 matrix `float[12]` of a uniform block, entries `m[0]` .. `m[11]`. -/
structure Mat3x4 where
  m0 : ℚ
  m1 : ℚ
  m2 : ℚ
  m3 : ℚ
  m4 : ℚ
  m5 : ℚ
  m6 : ℚ
  m7 : ℚ
  m8 : ℚ
  m9 : ℚ
  m10 : ℚ
  m11 : ℚ
deriving DecidableEq, Inhabited

/-- `NVGpaint` of nanovg.h. -/
structure NVGpaint where
  xform : Xform
  extent0 : ℚ
  extent1 : ℚ
  radius : ℚ
  feather : ℚ
  innerColor : NVGcolor
  outerColor : NVGcolor
  image : Int
deriving DecidableEq, Inhabited

/-- `NVGscissor` of nanovg.h. -/
structure NVGscissor where
  xform : Xform
  extent0 : ℚ
  extent1 : ℚ
deriving DecidableEq, Inhabited

/-- `NVGpath` of nanovg.h, restricted to the fields the renderer reads: the
fan-described fill polygon (`fill`, `nfill`), the stroke/fringe strip
(`stroke`, `nstroke`) and the `convex` mark. The two vertex pointers are maps
from element index to vertex. -/
structure NVGpath where
  fill : Int → NVGvertex
  nfill : Int
  stroke : Int → NVGvertex
  nstroke : Int
  convex : Int

/-- The enum `RenderType`. -/
inductive RenderType where
  | RENDERTYPE_NONE
  | RENDERTYPE_FILL
  | RENDERTYPE_CONVEXFILL
  | RENDERTYPE_STROKE
  | RENDERTYPE_TRIANGLES
deriving DecidableEq, Inhabited

/-- The enum `RenderShader`, by value: `RENDERSHADER_FILLGRAD`. -/
def RENDERSHADER_FILLGRAD : Int := 0

/-- The enum value `RENDERSHADER_FILLIMG`. -/
def RENDERSHADER_FILLIMG : Int := 1

/-- The enum value `RENDERSHADER_SIMPLE`. -/
def RENDERSHADER_SIMPLE : Int := 2

/-- The enum value `RENDERSHADER_IMG`. -/
def RENDERSHADER_IMG : Int := 3

/-- The struct view of the union `RenderUniforms`: one paint uniform block. -/
structure RenderUniforms where
  scissorMat : Mat3x4
  paintMat : Mat3x4
  innerCol : NVGcolor
  outerCol : NVGcolor
  scissorExt0 : ℚ
  scissorExt1 : ℚ
  scissorScale0 : ℚ
  scissorScale1 : ℚ
  extent0 : ℚ
  extent1 : ℚ
  radius : ℚ
  feather : ℚ
  strokeMult : ℚ
  strokeThr : ℚ
  texType : Int
  type : Int
deriving DecidableEq, Inhabited

/-- `struct RenderDrawCall`. -/
structure RenderDrawCall where
  type : RenderType
  image : Int
  pathOffset : Int
  pathCount : Int
  triangleOffset : Int
  triangleCount : Int
  uniformOffset : Int
  blendOp : NVGcompositeOperationState
deriving DecidableEq, Inhabited

/-- `struct RenderPath`: the fill range and the stroke range of one sub-path. -/
structure RenderPath where
  fillOffset : Int
  fillCount : Int
  strokeOffset : Int
  strokeCount : Int
deriving DecidableEq, Inhabited

/-- The constant `NVG_MAX_TEXTURES`. -/
def NVG_MAX_TEXTURES : Int := 128

/-- `struct RenderTexture`; `userdata` is the backend handle, `0` for `NULL`. -/
structure RenderTexture where
  userdata : Nat
  type : Int
  flags : Nat
  width : Int
  height : Int
deriving DecidableEq, Inhabited

/-- The flag `NVG_ANTIALIAS` of `NVGcreateFlags`. -/
def NVG_ANTIALIAS : Nat := 1

/-- The flag `NVG_STENCIL_STROKES` of `NVGcreateFlags`. -/
def NVG_STENCIL_STROKES : Nat := 2

/-- The flag `NVG_DEBUG` of `NVGcreateFlags`. -/
def NVG_DEBUG : Nat := 4

/-- The enum `nvgStencilCompareFunction`. -/
inductive nvgStencilCompareFunction where
  | ALWAYS
  | NEVER
  | LESS
  | LESSEQUAL
  | EQUAL
  | GREATEREQUAL
  | GREATER
  | NOTEQUAL
deriving DecidableEq, Inhabited

/-- The enum `nvgStencilOperation`. -/
inductive nvgStencilOperation where
  | KEEP
  | ZERO
  | REPLACE
  | INCREMENT
  | DECREMENT
  | INCREMENTSATURATION
  | DECREMENTSATURATION
  | INVERT
deriving DecidableEq, Inhabited

/-- `struct RenderContext` without the backend function pointers (their
invocations are recorded as `GpuOp` lists). The four per-frame arenas are the
maps `calls`, `paths`, `verts` and `uniforms` with their capacity (`c...`) and
used-count (`n...`) fields; `uniforms` is keyed by the byte offset of a block. -/
structure RenderContext where
  flags : Nat
  vertexBuffer : Nat
  vertexBufferSize : Int
  textures : Int → RenderTexture
  calls : Int → RenderDrawCall
  ccalls : Int
  ncalls : Int
  paths : Int → RenderPath
  cpaths : Int
  npaths : Int
  verts : Int → NVGvertex
  cverts : Int
  nverts : Int
  uniforms : Int → RenderUniforms
  cuniforms : Int
  nuniforms : Int
  fragSize : Int

/-- The all-zero value `memset` leaves in a `RenderDrawCall`. -/
def RenderDrawCall.zero : RenderDrawCall :=
  { type := RenderType.RENDERTYPE_NONE, image := 0, pathOffset := 0, pathCount := 0,
    triangleOffset := 0, triangleCount := 0, uniformOffset := 0,
    blendOp := { srcRGB := 0, dstRGB := 0, srcAlpha := 0, dstAlpha := 0 } }

/-- The all-zero value `memset` leaves in a `RenderPath`. -/
def RenderPath.zero : RenderPath :=
  { fillOffset := 0, fillCount := 0, strokeOffset := 0, strokeCount := 0 }

/-- The all-zero 3x4 matrix. -/
def Mat3x4.zero : Mat3x4 :=
  { m0 := 0, m1 := 0, m2 := 0, m3 := 0, m4 := 0, m5 := 0,
    m6 := 0, m7 := 0, m8 := 0, m9 := 0, m10 := 0, m11 := 0 }

/-- The all-zero colour. -/
def NVGcolor.zero : NVGcolor := { r := 0, g := 0, b := 0, a := 0 }

/-- The all-zero value `memset` leaves in a `RenderUniforms` block. -/
def RenderUniforms.zero : RenderUniforms :=
  { scissorMat := Mat3x4.zero, paintMat := Mat3x4.zero,
    innerCol := NVGcolor.zero, outerCol := NVGcolor.zero,
    scissorExt0 := 0, scissorExt1 := 0, scissorScale0 := 0, scissorScale1 := 0,
    extent0 := 0, extent1 := 0, radius := 0, feather := 0,
    strokeMult := 0, strokeThr := 0, texType := 0, type := 0 }

/-- The all-zero `RenderTexture`. -/
def RenderTexture.zero : RenderTexture :=
  { userdata := 0, type := 0, flags := 0, width := 0, height := 0 }

/-- The renderer `nvgGpuCreate` builds: `memset` to zero, then the three
creation flags. -/
def nvgGpuCreate : RenderContext :=
  { flags := NVG_ANTIALIAS ||| NVG_STENCIL_STROKES ||| NVG_DEBUG,
    vertexBuffer := 0, vertexBufferSize := 0,
    textures := fun _ => RenderTexture.zero,
    calls := fun _ => RenderDrawCall.zero, ccalls := 0, ncalls := 0,
    paths := fun _ => RenderPath.zero, cpaths := 0, npaths := 0,
    verts := fun _ => { x := 0, y := 0, u := 0, v := 0 }, cverts := 0, nverts := 0,
    uniforms := fun _ => RenderUniforms.zero, cuniforms := 0, nuniforms := 0,
    fragSize := 0 }

/-- The store `a[i] = v` on an array map. -/
def poke {α : Type} (a : Int → α) (i : Int) (v : α) : Int → α :=
  fun j => if j = i then v else a j

/-- The libc call `memcpy(&a[dst], src, n * sizeof a[0])` on an array map. -/
def memcpy {α : Type} (a : Int → α) (dst : Int) (src : Int → α) (n : Int) : Int → α :=
  fun j => if dst ≤ j ∧ j < dst + n then src (j - dst) else a j

/-! ## Arena reservation -/

/-- The macro `INTERNAL_maxi`. -/
def INTERNAL_maxi (x y : Int) : Int := if x > y then x else y

/-- `INTERNAL_allocCall`: `none` is the `NULL` return, `some i` the pointer
`&gl->calls[i]`. `reallocOk` is the outcome of the `realloc` attempt. -/
def INTERNAL_allocCall (reallocOk : Bool) (gl : RenderContext) : Option Int × RenderContext :=
  if gl.ncalls = gl.ccalls then
    let ccalls := INTERNAL_maxi (gl.ncalls + 1) 128 + Int.tdiv gl.ccalls 2
    if reallocOk = false then (none, gl)
    else
      let gl1 := { gl with ccalls := ccalls }
      (some gl1.ncalls,
        { gl1 with calls := poke gl1.calls gl1.ncalls RenderDrawCall.zero,
                   ncalls := gl1.ncalls + 1 })
  else
    (some gl.ncalls,
      { gl with calls := poke gl.calls gl.ncalls RenderDrawCall.zero,
                ncalls := gl.ncalls + 1 })

/-- `INTERNAL_allocPaths`: returns `-1` on `realloc` failure, else the path
used-count before the call. -/
def INTERNAL_allocPaths (reallocOk : Bool) (gl : RenderContext) (n : Int) : Int × RenderContext :=
  if gl.npaths = gl.cpaths then
    let cpaths := INTERNAL_maxi (gl.npaths + n) 128 + Int.tdiv gl.cpaths 2
    if reallocOk = false then (-1, gl)
    else
      let gl1 := { gl with cpaths := cpaths }
      (gl1.npaths, { gl1 with npaths := gl1.npaths + n })
  else
    (gl.npaths, { gl with npaths := gl.npaths + n })

/-- `INTERNAL_allocVerts`: returns `-1` on `realloc` failure, else the vertex
used-count before the call. -/
def INTERNAL_allocVerts (reallocOk : Bool) (gl : RenderContext) (n : Int) : Int × RenderContext :=
  if gl.nverts + n > gl.cverts then
    let cverts := INTERNAL_maxi (gl.nverts + n) 4096 + Int.tdiv gl.cverts 2
    if reallocOk = false then (-1, gl)
    else
      let gl1 := { gl with cverts := cverts }
      (gl1.nverts, { gl1 with nverts := gl1.nverts + n })
  else
    (gl.nverts, { gl with nverts := gl.nverts + n })

/-- `INTERNAL_allocFragUniforms`: returns `-1` on `realloc` failure, else the
byte offset `nuniforms * fragSize` of the first new block. -/
def INTERNAL_allocFragUniforms (reallocOk : Bool) (gl : RenderContext) (n : Int) :
    Int × RenderContext :=
  let structSize := gl.fragSize
  if gl.nuniforms + n > gl.cuniforms then
    let cuniforms := INTERNAL_maxi (gl.nuniforms + n) 128 + Int.tdiv gl.cuniforms 2
    if reallocOk = false then (-1, gl)
    else
      let gl1 := { gl with cuniforms := cuniforms }
      (gl1.nuniforms * structSize, { gl1 with nuniforms := gl1.nuniforms + n })
  else
    (gl.nuniforms * structSize, { gl with nuniforms := gl.nuniforms + n })

/-! ## External collaborators -/

/-- The part of the nanovg library (nanovg.h, nanovg.c, libm) the renderer
calls or names, taken as a parameter: the affine-transform utilities, the
square root, and the image-flag and texture-type constants. Every theorem
below holds for every value of this parameter. -/
structure Nanovg where
  nvgTransformInverse : Xform → Xform
  nvgTransformTranslate : ℚ → ℚ → Xform
  nvgTransformScale : ℚ → ℚ → Xform
  nvgTransformMultiply : Xform → Xform → Xform
  sqrtf : ℚ → ℚ
  NVG_IMAGE_FLIPY : Nat
  NVG_IMAGE_PREMULTIPLIED : Nat
  NVG_TEXTURE_RGBA : Int
  NVG_IMAGE_GENERATE_MIPMAPS : Nat
  NVG_IMAGE_REPEATX : Nat
  NVG_IMAGE_REPEATY : Nat
  NVG_IMAGE_NEAREST : Nat

/-- The values the backend returns: the handle of a created vertex buffer,
given the requested byte size, and the handle of a created texture, given the
arguments `isRGBA`, `width`, `height`, `nearest`, `repeatX`, `repeatY`. -/
structure Backend where
  createVertexBuffer : Int → Nat
  createTexture : Int → Int → Int → Int → Int → Int → Nat

/-- One invocation of a backend function pointer, with its arguments. The
`ptr` of `updateVertexBuffer` is recorded as the `count` vertices the backend
reads from the start of the vertex array; the `data` of `updateTexture` is the
pixel pointer, `0` for `NULL`. -/
inductive GpuOp where
  | createContext
  | deleteContext
  | createVertexBuffer (size : Int)
  | deleteVertexBuffer (buffer : Nat)
  | updateVertexBuffer (buffer : Nat) (ptr : List NVGvertex) (count : Int) (stride : Int)
  | createTexture (isRGBA : Int) (width : Int) (height : Int) (nearest : Int)
      (repeatX : Int) (repeatY : Int)
  | deleteTexture (texture : Nat)
  | updateTexture (texture : Nat) (x : Int) (y : Int) (w : Int) (h : Int) (data : Nat)
  | updateUniformBuffer (uniforms : RenderUniforms) (uniformLength : Int)
  | updateShader (enableAA : Int) (fillType : Int) (texType : Int)
  | updateSampler (texture : Nat)
  | setViewport (width : ℚ) (height : ℚ)
  | resetState
  | toggleColorWriteMask (enabled : Int)
  | updateBlendFunction (blendOp : NVGcompositeOperationState)
  | toggleStencil (enabled : Int)
  | updateStencilFunction (stencilFunc : nvgStencilCompareFunction)
      (stencilFail : nvgStencilOperation) (stencilDepthBufferFail : nvgStencilOperation)
      (stencilPass : nvgStencilOperation) (ccwStencilFail : nvgStencilOperation)
      (ccwStencilDepthBufferFail : nvgStencilOperation) (ccwStencilPass : nvgStencilOperation)
  | toggleCullMode (enabled : Int)
  | applyState (vertexBuffer : Nat)
  | drawPrimitives (triStrip : Int) (vertexOffset : Int) (vertexCount : Int)
deriving DecidableEq

/-- The outcome of each `realloc` attempt one submit operation can make, one
per arena. -/
structure ReallocOracle where
  calls : Bool
  paths : Bool
  verts : Bool
  uniforms : Bool

/-- The size `sizeof(NVGvertex)`: four floats. -/
def sizeofNVGvertex : Int := 16

/-- The size `sizeof(frag->uniformArray)`: 11 rows of four floats. -/
def sizeofUniformArray : Int := 176

/-- Conversion of an integer to `size_t` (64 bits). -/
def sizeT (x : Int) : Int := x % 2 ^ 64

/-! ## Paint conversion -/

/-- `INTERNAL_findTexture`: `none` is the `NULL` return, `some t` the slot found. -/
def INTERNAL_findTexture (gl : RenderContext) (id : Int) : Option RenderTexture :=
  if id < 0 ∨ id ≥ NVG_MAX_TEXTURES then none
  else if (gl.textures id).userdata = 0 then none
  else some (gl.textures id)

/-- `INTERNAL_premulColor`. -/
def INTERNAL_premulColor (c : NVGcolor) : NVGcolor :=
  { c with r := c.r * c.a, g := c.g * c.a, b := c.b * c.a }

/-- `INTERNAL_xformToMat3x4`. -/
def INTERNAL_xformToMat3x4 (t : Xform) : Mat3x4 :=
  { m0 := t.t0, m1 := t.t1, m2 := 0, m3 := 0,
    m4 := t.t2, m5 := t.t3, m6 := 0, m7 := 0,
    m8 := t.t4, m9 := t.t5, m10 := 1, m11 := 0 }

/-- The call `memset(frag, 0, sizeof(*frag))`: whatever the block held is
overwritten with zeros. -/
def memsetUniforms (_frag : RenderUniforms) : RenderUniforms := RenderUniforms.zero

/-- `INTERNAL_convertPaint`. `frag` is the content of the destination block
before the call; the result is the return value and the content of the
destination block after the call. -/
def INTERNAL_convertPaint (nv : Nanovg) (gl : RenderContext) (frag : RenderUniforms)
    (paint : NVGpaint) (scissor : NVGscissor) (width fringe strokeThr : ℚ) :
    Int × RenderUniforms :=
  let frag0 := memsetUniforms frag
  let frag1 := { frag0 with innerCol := INTERNAL_premulColor paint.innerColor,
                            outerCol := INTERNAL_premulColor paint.outerColor }
  let frag2 :=
    if scissor.extent0 < -(1 / 2) ∨ scissor.extent1 < -(1 / 2) then
      { frag1 with scissorMat := Mat3x4.zero,
                   scissorExt0 := 1, scissorExt1 := 1,
                   scissorScale0 := 1, scissorScale1 := 1 }
    else
      let invxform := nv.nvgTransformInverse scissor.xform
      { frag1 with scissorMat := INTERNAL_xformToMat3x4 invxform,
                   scissorExt0 := scissor.extent0, scissorExt1 := scissor.extent1,
                   scissorScale0 :=
                     nv.sqrtf (scissor.xform.t0 * scissor.xform.t0
                       + scissor.xform.t2 * scissor.xform.t2) / fringe,
                   scissorScale1 :=
                     nv.sqrtf (scissor.xform.t1 * scissor.xform.t1
                       + scissor.xform.t3 * scissor.xform.t3) / fringe }
  let frag3 := { frag2 with extent0 := paint.extent0, extent1 := paint.extent1,
                            strokeMult := (width * (1 / 2) + fringe * (1 / 2)) / fringe,
                            strokeThr := strokeThr }
  if paint.image ≠ 0 then
    match INTERNAL_findTexture gl paint.image with
    | none => (0, frag3)
    | some tex =>
      let invxform :=
        if (tex.flags &&& nv.NVG_IMAGE_FLIPY) ≠ 0 then
          let m1 := nv.nvgTransformTranslate 0 (frag3.extent1 * (1 / 2))
          let m1a := nv.nvgTransformMultiply m1 paint.xform
          let m2 := nv.nvgTransformScale 1 (-1)
          let m2a := nv.nvgTransformMultiply m2 m1a
          let m1b := nv.nvgTransformTranslate 0 (-frag3.extent1 * (1 / 2))
          let m1c := nv.nvgTransformMultiply m1b m2a
          nv.nvgTransformInverse m1c
        else
          nv.nvgTransformInverse paint.xform
      let frag4 := { frag3 with type := RENDERSHADER_FILLIMG }
      let frag5 :=
        if tex.type = nv.NVG_TEXTURE_RGBA then
          { frag4 with texType := if (tex.flags &&& nv.NVG_IMAGE_PREMULTIPLIED) ≠ 0 then 0 else 1 }
        else
          { frag4 with texType := 2 }
      (1, { frag5 with paintMat := INTERNAL_xformToMat3x4 invxform })
  else
    let frag4 := { frag3 with type := RENDERSHADER_FILLGRAD,
                              radius := paint.radius, feather := paint.feather }
    let invxform := nv.nvgTransformInverse paint.xform
    (1, { frag4 with paintMat := INTERNAL_xformToMat3x4 invxform })

/-! ## Dispatch of one recorded call -/

/-- `INTERNAL_setUniforms`: the backend invocations that bind the block at
byte offset `uniformOffset` and, if resolvable, the texture `image`. -/
def INTERNAL_setUniforms (gl : RenderContext) (uniformOffset : Int) (image : Int) : List GpuOp :=
  let frag := gl.uniforms uniformOffset
  [GpuOp.updateUniformBuffer frag sizeofUniformArray,
   GpuOp.updateShader (if (gl.flags &&& NVG_ANTIALIAS) ≠ 0 then 1 else 0) frag.type frag.texType]
  ++ (if image ≠ 0 then
        match INTERNAL_findTexture gl image with
        | some tex => [GpuOp.updateSampler tex.userdata]
        | none => []
      else [])

/-- The loop `for (i = 0; i < npaths; i++) drawPrimitives(0, paths[i].fillOffset,
paths[i].fillCount)` with `paths = &gl->paths[pathOffset]`. -/
def drawFills (gl : RenderContext) (pathOffset npaths : Int) : List GpuOp :=
  (List.range npaths.toNat).map fun (i : Nat) =>
    GpuOp.drawPrimitives 0 (gl.paths (pathOffset + i)).fillOffset
      (gl.paths (pathOffset + i)).fillCount

/-- The loop `for (i = 0; i < npaths; i++) drawPrimitives(1, paths[i].strokeOffset,
paths[i].strokeCount)` with `paths = &gl->paths[pathOffset]`. -/
def drawStrokes (gl : RenderContext) (pathOffset npaths : Int) : List GpuOp :=
  (List.range npaths.toNat).map fun (i : Nat) =>
    GpuOp.drawPrimitives 1 (gl.paths (pathOffset + i)).strokeOffset
      (gl.paths (pathOffset + i)).strokeCount

open nvgStencilCompareFunction nvgStencilOperation

/-- `INTERNAL_fill`: the stencil-based fill of a general (concave) shape. -/
def INTERNAL_fill (gl : RenderContext) (call : RenderDrawCall) : List GpuOp :=
  [GpuOp.toggleColorWriteMask 0,
   GpuOp.toggleStencil 1,
   GpuOp.updateStencilFunction ALWAYS KEEP KEEP INCREMENT KEEP KEEP DECREMENT,
   GpuOp.toggleCullMode 0]
  ++ INTERNAL_setUniforms gl call.uniformOffset 0
  ++ [GpuOp.applyState gl.vertexBuffer]
  ++ drawFills gl call.pathOffset call.pathCount
  ++ [GpuOp.toggleColorWriteMask 1,
      GpuOp.toggleCullMode 1]
  ++ INTERNAL_setUniforms gl (call.uniformOffset + gl.fragSize) call.image
  ++ (if (gl.flags &&& NVG_ANTIALIAS) ≠ 0 then
        [GpuOp.updateStencilFunction EQUAL KEEP KEEP KEEP KEEP KEEP KEEP,
         GpuOp.applyState gl.vertexBuffer]
        ++ drawStrokes gl call.pathOffset call.pathCount
      else [])
  ++ [GpuOp.updateStencilFunction NOTEQUAL ZERO ZERO ZERO ZERO ZERO ZERO,
      GpuOp.applyState gl.vertexBuffer,
      GpuOp.drawPrimitives 1 call.triangleOffset call.triangleCount,
      GpuOp.toggleStencil 0]

/-- `INTERNAL_convexFill`. -/
def INTERNAL_convexFill (gl : RenderContext) (call : RenderDrawCall) : List GpuOp :=
  INTERNAL_setUniforms gl call.uniformOffset call.image
  ++ [GpuOp.applyState gl.vertexBuffer]
  ++ (List.range call.pathCount.toNat).flatMap fun (i : Nat) =>
      [GpuOp.drawPrimitives 0 (gl.paths (call.pathOffset + i)).fillOffset
        (gl.paths (call.pathOffset + i)).fillCount]
      ++ (if (gl.paths (call.pathOffset + i)).strokeCount > 0 then
            [GpuOp.drawPrimitives 1 (gl.paths (call.pathOffset + i)).strokeOffset
              (gl.paths (call.pathOffset + i)).strokeCount]
          else [])

/-- `INTERNAL_stroke`. -/
def INTERNAL_stroke (gl : RenderContext) (call : RenderDrawCall) : List GpuOp :=
  if (gl.flags &&& NVG_STENCIL_STROKES) ≠ 0 then
    [GpuOp.toggleStencil 1,
     GpuOp.updateStencilFunction EQUAL KEEP KEEP INCREMENTSATURATION
       KEEP KEEP INCREMENTSATURATION]
    ++ INTERNAL_setUniforms gl (call.uniformOffset + gl.fragSize) call.image
    ++ [GpuOp.applyState gl.vertexBuffer]
    ++ drawStrokes gl call.pathOffset call.pathCount
    ++ INTERNAL_setUniforms gl call.uniformOffset call.image
    ++ [GpuOp.updateStencilFunction EQUAL KEEP KEEP KEEP KEEP KEEP KEEP,
        GpuOp.applyState gl.vertexBuffer]
    ++ drawStrokes gl call.pathOffset call.pathCount
    ++ [GpuOp.toggleColorWriteMask 0,
        GpuOp.updateStencilFunction ALWAYS ZERO ZERO ZERO ZERO ZERO ZERO,
        GpuOp.applyState gl.vertexBuffer]
    ++ drawStrokes gl call.pathOffset call.pathCount
    ++ [GpuOp.toggleColorWriteMask 1,
        GpuOp.toggleStencil 0]
  else
    INTERNAL_setUniforms gl call.uniformOffset call.image
    ++ [GpuOp.applyState gl.vertexBuffer]
    ++ drawStrokes gl call.pathOffset call.pathCount

/-- `INTERNAL_triangles`. -/
def INTERNAL_triangles (gl : RenderContext) (call : RenderDrawCall) : List GpuOp :=
  INTERNAL_setUniforms gl call.uniformOffset call.image
  ++ [GpuOp.drawPrimitives 0 call.triangleOffset call.triangleCount]

/-! ## The frame executor -/

/-- The dispatch by `call->type` in the loop of `nvg_gpu_renderFlush`. -/
def dispatchCall (ctx : RenderContext) (call : RenderDrawCall) : List GpuOp :=
  if call.type = RenderType.RENDERTYPE_FILL then INTERNAL_fill ctx call
  else if call.type = RenderType.RENDERTYPE_CONVEXFILL then INTERNAL_convexFill ctx call
  else if call.type = RenderType.RENDERTYPE_STROKE then INTERNAL_stroke ctx call
  else if call.type = RenderType.RENDERTYPE_TRIANGLES then INTERNAL_triangles ctx call
  else []

/-- The body of the loop `for (int i = 0; i < ctx->ncalls; i++)` of
`nvg_gpu_renderFlush`, for the calls `i`, `i + 1`, ... , `i + n - 1`. -/
def flushCalls (ctx : RenderContext) : Nat → Int → List GpuOp
  | 0, _ => []
  | n + 1, i =>
      (GpuOp.updateBlendFunction (ctx.calls i).blendOp :: dispatchCall ctx (ctx.calls i))
        ++ flushCalls ctx n (i + 1)

/-- `nvg_gpu_renderCancel`, which is also the code at the label `reset` of
`nvg_gpu_renderFlush`. -/
def nvg_gpu_renderCancel (ctx : RenderContext) : RenderContext :=
  { ctx with nverts := 0, npaths := 0, ncalls := 0, nuniforms := 0 }

/-- The vertex-buffer refit of `nvg_gpu_renderFlush`: the context after it and
the backend invocations it makes. -/
def flushVertexBuffer (be : Backend) (ctx : RenderContext) : RenderContext × List GpuOp :=
  if ctx.vertexBuffer = 0 ∨ sizeT (ctx.nverts * sizeofNVGvertex) > ctx.vertexBufferSize then
    let size := sizeT (ctx.nverts * sizeofNVGvertex)
    ({ ctx with vertexBufferSize := size, vertexBuffer := be.createVertexBuffer size },
     (if ctx.vertexBuffer ≠ 0 then [GpuOp.deleteVertexBuffer ctx.vertexBuffer] else [])
       ++ [GpuOp.createVertexBuffer size])
  else (ctx, [])

/-- `nvg_gpu_renderFlush`: the context after the flush and the backend
invocations of the flush, in order. -/
def nvg_gpu_renderFlush (be : Backend) (ctx : RenderContext) : RenderContext × List GpuOp :=
  if ctx.ncalls ≤ 0 then (nvg_gpu_renderCancel ctx, [])
  else
    let vb := flushVertexBuffer be ctx
    let ctx1 := vb.1
    (nvg_gpu_renderCancel ctx1,
     [GpuOp.resetState]
     ++ vb.2
     ++ [GpuOp.updateVertexBuffer ctx1.vertexBuffer
          ((List.range ctx1.nverts.toNat).map fun (i : Nat) => ctx1.verts (i : Int))
          ctx1.nverts sizeofNVGvertex]
     ++ flushCalls ctx1 ctx1.ncalls.toNat 0)

/-! ## The draw-call recorder -/

/-- `INTERNAL_maxVertCount`. -/
def INTERNAL_maxVertCount (paths : List NVGpath) : Int :=
  paths.foldl
    (fun count p => (if p.nfill > 0 then count + (p.nfill - 2) * 3 else count) + p.nstroke) 0

/-- The code at the label `error` of the three submit functions. -/
def rollbackCall (ctx : RenderContext) : RenderContext :=
  if ctx.ncalls > 0 then { ctx with ncalls := ctx.ncalls - 1 } else ctx

/-- The fan-to-list loop of `nvg_gpu_renderFill`,
`for (int i = 2; i < path->nfill; i += 1, dst += 3)`: the first argument is
the number of iterations left, `i` and `dst` the loop variables, `verts` the
vertex array. -/
def fanToList (fill : Int → NVGvertex) :
    Nat → Int → Int → (Int → NVGvertex) → (Int → NVGvertex)
  | 0, _, _, verts => verts
  | n + 1, i, dst, verts =>
      fanToList fill n (i + 1) (dst + 3)
        (poke (poke (poke verts dst (fill (i - 1))) (dst + 1) (fill i)) (dst + 2) (fill 0))

/-- The body of the sub-path loop of `nvg_gpu_renderFill` for one sub-path:
the path range written to `copy`, the vertex array and `offset` after it. -/
def fillCopyPath (path : NVGpath) (verts : Int → NVGvertex) (offset : Int) :
    RenderPath × (Int → NVGvertex) × Int :=
  let copy := RenderPath.zero
  let r1 : RenderPath × (Int → NVGvertex) × Int :=
    if path.nfill > 0 then
      let copy1 := { copy with fillOffset := offset, fillCount := (path.nfill - 2) * 3 }
      (copy1, fanToList path.fill (path.nfill - 2).toNat 2 offset verts,
        offset + copy1.fillCount)
    else (copy, verts, offset)
  if path.nstroke > 0 then
    ({ r1.1 with strokeOffset := r1.2.2, strokeCount := path.nstroke },
      memcpy r1.2.1 r1.2.2 path.stroke path.nstroke,
      r1.2.2 + path.nstroke)
  else r1

/-- The sub-path loop of `nvg_gpu_renderFill`, from sub-path index `i` on:
the context and `offset` after it. -/
def fillCopyPaths (pathOffset : Int) :
    List NVGpath → Int → RenderContext → Int → RenderContext × Int
  | [], _, ctx, offset => (ctx, offset)
  | path :: rest, i, ctx, offset =>
      let r := fillCopyPath path ctx.verts offset
      fillCopyPaths pathOffset rest (i + 1)
        { ctx with paths := poke ctx.paths (pathOffset + i) r.1, verts := r.2.1 } r.2.2

/-- The test `npaths == 1 && paths[0].convex` of `nvg_gpu_renderFill`. -/
def isSingleConvex : List NVGpath → Bool
  | [p] => decide (p.convex ≠ 0)
  | _ => false

/-- `nvg_gpu_renderFill`. The record `call` points into `ctx->calls`; its
fields are written back to that slot where the function returns. -/
def nvg_gpu_renderFill (nv : Nanovg) (o : ReallocOracle) (ctx : RenderContext)
    (paint : NVGpaint) (compositeOperation : NVGcompositeOperationState)
    (scissor : NVGscissor) (fringe : ℚ) (bounds : Fin 4 → ℚ) (paths : List NVGpath) :
    RenderContext :=
  let npaths : Int := paths.length
  match INTERNAL_allocCall o.calls ctx with
  | (none, ctx0) => ctx0
  | (some ci, ctx1) =>
    let call1 := { ctx1.calls ci with type := RenderType.RENDERTYPE_FILL, triangleCount := 4 }
    let rp := INTERNAL_allocPaths o.paths ctx1 npaths
    let call2 := { call1 with pathOffset := rp.1 }
    if call2.pathOffset = -1 then
      rollbackCall { rp.2 with calls := poke rp.2.calls ci call2 }
    else
      let call3 := { call2 with pathCount := npaths, image := paint.image,
                                blendOp := compositeOperation }
      let call4 :=
        if isSingleConvex paths = true then
          { call3 with type := RenderType.RENDERTYPE_CONVEXFILL, triangleCount := 0 }
        else call3
      let maxverts := INTERNAL_maxVertCount paths + call4.triangleCount
      let rv := INTERNAL_allocVerts o.verts rp.2 maxverts
      if rv.1 = -1 then
        rollbackCall { rv.2 with calls := poke rv.2.calls ci call4 }
      else
        let lp := fillCopyPaths call4.pathOffset paths 0 rv.2 rv.1
        if call4.type = RenderType.RENDERTYPE_FILL then
          let call5 := { call4 with triangleOffset := lp.2 }
          let quad := call5.triangleOffset
          let verts5 :=
            poke (poke (poke (poke lp.1.verts
              quad { x := bounds 2, y := bounds 3, u := 1 / 2, v := 1 })
              (quad + 1) { x := bounds 2, y := bounds 1, u := 1 / 2, v := 1 })
              (quad + 2) { x := bounds 0, y := bounds 3, u := 1 / 2, v := 1 })
              (quad + 3) { x := bounds 0, y := bounds 1, u := 1 / 2, v := 1 }
          let ru := INTERNAL_allocFragUniforms o.uniforms { lp.1 with verts := verts5 } 2
          let call6 := { call5 with uniformOffset := ru.1 }
          if call6.uniformOffset = -1 then
            rollbackCall { ru.2 with calls := poke ru.2.calls ci call6 }
          else
            let frag0 := { memsetUniforms (ru.2.uniforms call6.uniformOffset) with
                           strokeThr := -1, type := RENDERSHADER_SIMPLE }
            let ctx6 := { ru.2 with uniforms := poke ru.2.uniforms call6.uniformOffset frag0 }
            let cp := INTERNAL_convertPaint nv ctx6
              (ctx6.uniforms (call6.uniformOffset + ctx6.fragSize))
              paint scissor fringe fringe (-1)
            { ctx6 with
                calls := poke ctx6.calls ci call6,
                uniforms := poke ctx6.uniforms (call6.uniformOffset + ctx6.fragSize) cp.2 }
        else
          let ru := INTERNAL_allocFragUniforms o.uniforms lp.1 1
          let call6 := { call4 with uniformOffset := ru.1 }
          if call6.uniformOffset = -1 then
            rollbackCall { ru.2 with calls := poke ru.2.calls ci call6 }
          else
            let cp := INTERNAL_convertPaint nv ru.2 (ru.2.uniforms call6.uniformOffset)
              paint scissor fringe fringe (-1)
            { ru.2 with
                calls := poke ru.2.calls ci call6,
                uniforms := poke ru.2.uniforms call6.uniformOffset cp.2 }

/-- The body of the sub-path loop of `nvg_gpu_renderStroke` for one sub-path. -/
def strokeCopyPath (path : NVGpath) (verts : Int → NVGvertex) (offset : Int) :
    RenderPath × (Int → NVGvertex) × Int :=
  let copy := RenderPath.zero
  if path.nstroke ≠ 0 then
    ({ copy with strokeOffset := offset, strokeCount := path.nstroke },
      memcpy verts offset path.stroke path.nstroke,
      offset + path.nstroke)
  else (copy, verts, offset)

/-- The sub-path loop of `nvg_gpu_renderStroke`, from sub-path index `i` on. -/
def strokeCopyPaths (pathOffset : Int) :
    List NVGpath → Int → RenderContext → Int → RenderContext × Int
  | [], _, gl, offset => (gl, offset)
  | path :: rest, i, gl, offset =>
      let r := strokeCopyPath path gl.verts offset
      strokeCopyPaths pathOffset rest (i + 1)
        { gl with paths := poke gl.paths (pathOffset + i) r.1, verts := r.2.1 } r.2.2

/-- `nvg_gpu_renderStroke`. -/
def nvg_gpu_renderStroke (nv : Nanovg) (o : ReallocOracle) (gl : RenderContext)
    (paint : NVGpaint) (compositeOperation : NVGcompositeOperationState)
    (scissor : NVGscissor) (fringe strokeWidth : ℚ) (paths : List NVGpath) :
    RenderContext :=
  let npaths : Int := paths.length
  match INTERNAL_allocCall o.calls gl with
  | (none, gl0) => gl0
  | (some ci, gl1) =>
    let call1 := { gl1.calls ci with type := RenderType.RENDERTYPE_STROKE }
    let rp := INTERNAL_allocPaths o.paths gl1 npaths
    let call2 := { call1 with pathOffset := rp.1 }
    if call2.pathOffset = -1 then
      rollbackCall { rp.2 with calls := poke rp.2.calls ci call2 }
    else
      let call3 := { call2 with pathCount := npaths, image := paint.image,
                                blendOp := compositeOperation }
      let maxverts := INTERNAL_maxVertCount paths
      let rv := INTERNAL_allocVerts o.verts rp.2 maxverts
      if rv.1 = -1 then
        rollbackCall { rv.2 with calls := poke rv.2.calls ci call3 }
      else
        let lp := strokeCopyPaths call3.pathOffset paths 0 rv.2 rv.1
        if (lp.1.flags &&& NVG_STENCIL_STROKES) ≠ 0 then
          let ru := INTERNAL_allocFragUniforms o.uniforms lp.1 2
          let call4 := { call3 with uniformOffset := ru.1 }
          if call4.uniformOffset = -1 then
            rollbackCall { ru.2 with calls := poke ru.2.calls ci call4 }
          else
            let cp0 := INTERNAL_convertPaint nv ru.2 (ru.2.uniforms call4.uniformOffset)
              paint scissor strokeWidth fringe (-1)
            let gl5 := { ru.2 with uniforms := poke ru.2.uniforms call4.uniformOffset cp0.2 }
            let cp1 := INTERNAL_convertPaint nv gl5
              (gl5.uniforms (call4.uniformOffset + gl5.fragSize))
              paint scissor strokeWidth fringe (1 - (1 / 2) / 255)
            { gl5 with
                calls := poke gl5.calls ci call4,
                uniforms := poke gl5.uniforms (call4.uniformOffset + gl5.fragSize) cp1.2 }
        else
          let ru := INTERNAL_allocFragUniforms o.uniforms lp.1 1
          let call4 := { call3 with uniformOffset := ru.1 }
          if call4.uniformOffset = -1 then
            rollbackCall { ru.2 with calls := poke ru.2.calls ci call4 }
          else
            let cp := INTERNAL_convertPaint nv ru.2 (ru.2.uniforms call4.uniformOffset)
              paint scissor strokeWidth fringe (-1)
            { ru.2 with
                calls := poke ru.2.calls ci call4,
                uniforms := poke ru.2.uniforms call4.uniformOffset cp.2 }

/-- `nvg_gpu_renderTriangles`. -/
def nvg_gpu_renderTriangles (nv : Nanovg) (o : ReallocOracle) (gl : RenderContext)
    (paint : NVGpaint) (compositeOperation : NVGcompositeOperationState)
    (scissor : NVGscissor) (verts : Int → NVGvertex) (nverts : Int) (fringe : ℚ) :
    RenderContext :=
  match INTERNAL_allocCall o.calls gl with
  | (none, gl0) => gl0
  | (some ci, gl1) =>
    let call1 := { gl1.calls ci with type := RenderType.RENDERTYPE_TRIANGLES,
                                     image := paint.image, blendOp := compositeOperation }
    let rv := INTERNAL_allocVerts o.verts gl1 nverts
    let call2 := { call1 with triangleOffset := rv.1 }
    if call2.triangleOffset = -1 then
      rollbackCall { rv.2 with calls := poke rv.2.calls ci call2 }
    else
      let call3 := { call2 with triangleCount := nverts }
      let gl3 := { rv.2 with verts := memcpy rv.2.verts call3.triangleOffset verts nverts }
      let ru := INTERNAL_allocFragUniforms o.uniforms gl3 1
      let call4 := { call3 with uniformOffset := ru.1 }
      if call4.uniformOffset = -1 then
        rollbackCall { ru.2 with calls := poke ru.2.calls ci call4 }
      else
        let cp := INTERNAL_convertPaint nv ru.2 (ru.2.uniforms call4.uniformOffset)
          paint scissor 1 fringe (-1)
        let frag := { cp.2 with type := RENDERSHADER_IMG }
        { ru.2 with
            calls := poke ru.2.calls ci call4,
            uniforms := poke ru.2.uniforms call4.uniformOffset frag }

/-! ## Sequences of reservations -/

/-- A reserve operation run over a list of requests `(realloc outcome, n)`:
the return value of each call and the context after it, in order. -/
def reserveSeq (reserve : Bool → RenderContext → Int → Int × RenderContext) :
    RenderContext → List (Bool × Int) → List (Int × RenderContext)
  | _, [] => []
  | gl, (ok, n) :: rest => reserve ok gl n :: reserveSeq reserve (reserve ok gl n).2 rest

/-! ## Renderer creation -/

/-- The size `sizeof(RenderUniforms)`: 42 floats and 2 ints. -/
def sizeofRenderUniforms : Int := 176

/-- `nvg_gpu_renderCreate`: the return value, the context after the call and
the backend invocations. -/
def nvg_gpu_renderCreate (ctx : RenderContext) : Int × RenderContext × List GpuOp :=
  let align : Int := 4
  (1,
   { ctx with fragSize := sizeofRenderUniforms + align - Int.tmod sizeofRenderUniforms align },
   [GpuOp.createContext])

/-! ## Sequences of submit operations and views of a backend trace -/

/-- One submit operation with its arguments and the outcomes of its `realloc`
attempts. -/
inductive Submit where
  | fill (o : ReallocOracle) (paint : NVGpaint)
      (compositeOperation : NVGcompositeOperationState) (scissor : NVGscissor)
      (fringe : ℚ) (bounds : Fin 4 → ℚ) (paths : List NVGpath)
  | stroke (o : ReallocOracle) (paint : NVGpaint)
      (compositeOperation : NVGcompositeOperationState) (scissor : NVGscissor)
      (fringe : ℚ) (strokeWidth : ℚ) (paths : List NVGpath)
  | triangles (o : ReallocOracle) (paint : NVGpaint)
      (compositeOperation : NVGcompositeOperationState) (scissor : NVGscissor)
      (verts : Int → NVGvertex) (nverts : Int) (fringe : ℚ)

/-- The context after one submit operation. -/
def Submit.run (nv : Nanovg) (ctx : RenderContext) : Submit → RenderContext
  | Submit.fill o paint op scissor fringe bounds paths =>
      nvg_gpu_renderFill nv o ctx paint op scissor fringe bounds paths
  | Submit.stroke o paint op scissor fringe strokeWidth paths =>
      nvg_gpu_renderStroke nv o ctx paint op scissor fringe strokeWidth paths
  | Submit.triangles o paint op scissor verts nverts fringe =>
      nvg_gpu_renderTriangles nv o ctx paint op scissor verts nverts fringe

/-- The composite-op a submit operation was given. -/
def Submit.blendOp : Submit → NVGcompositeOperationState
  | Submit.fill _ _ op _ _ _ _ => op
  | Submit.stroke _ _ op _ _ _ _ => op
  | Submit.triangles _ _ op _ _ _ _ => op

/-- The context after a list of submit operations, run in order. -/
def submitAll (nv : Nanovg) : RenderContext → List Submit → RenderContext
  | ctx, [] => ctx
  | ctx, s :: rest => submitAll nv (s.run nv ctx) rest

/-- The composite-ops of those submit operations of the list that recorded
their call (the call-count went up by one), in submission order. -/
def recordedOps (nv : Nanovg) : RenderContext → List Submit → List NVGcompositeOperationState
  | _, [] => []
  | ctx, s :: rest =>
      if (s.run nv ctx).ncalls = ctx.ncalls + 1 then
        s.blendOp :: recordedOps nv (s.run nv ctx) rest
      else recordedOps nv (s.run nv ctx) rest

/-- The composite-ops of the blend-function updates of a backend trace, in order. -/
def blendUpdates (ops : List GpuOp) : List NVGcompositeOperationState :=
  ops.filterMap fun e =>
    match e with
    | GpuOp.updateBlendFunction b => some b
    | _ => none

/-- Whether a backend invocation is a blend-function update. -/
def GpuOp.isBlendUpdate : GpuOp → Bool
  | GpuOp.updateBlendFunction _ => true
  | _ => false

/-- Whether a backend invocation is a draw-primitives call. -/
def GpuOp.isDraw : GpuOp → Bool
  | GpuOp.drawPrimitives _ _ _ => true
  | _ => false

/-- Whether a backend invocation is a vertex-buffer upload. -/
def GpuOp.isVertexUpload : GpuOp → Bool
  | GpuOp.updateVertexBuffer _ _ _ _ => true
  | _ => false

/-! ## Example inputs -/

/-- An instance of the nanovg utilities for the examples: the affine-transform
formulas of nanovg.c over exact rationals, the rational square root of
Mathlib, which is exact on squares, and the constants of nanovg.h. -/
def exampleNanovg : Nanovg :=
  { nvgTransformInverse := fun t =>
      let det := t.t0 * t.t3 - t.t2 * t.t1
      if det > -(1 / 1000000) ∧ det < 1 / 1000000 then
        { t0 := 1, t1 := 0, t2 := 0, t3 := 1, t4 := 0, t5 := 0 }
      else
        { t0 := t.t3 / det, t2 := -t.t2 / det, t4 := (t.t2 * t.t5 - t.t3 * t.t4) / det,
          t1 := -t.t1 / det, t3 := t.t0 / det, t5 := (t.t1 * t.t4 - t.t0 * t.t5) / det },
    nvgTransformTranslate := fun tx ty =>
      { t0 := 1, t1 := 0, t2 := 0, t3 := 1, t4 := tx, t5 := ty },
    nvgTransformScale := fun sx sy =>
      { t0 := sx, t1 := 0, t2 := 0, t3 := sy, t4 := 0, t5 := 0 },
    nvgTransformMultiply := fun t s =>
      { t0 := t.t0 * s.t0 + t.t1 * s.t2, t2 := t.t2 * s.t0 + t.t3 * s.t2,
        t4 := t.t4 * s.t0 + t.t5 * s.t2 + s.t4,
        t1 := t.t0 * s.t1 + t.t1 * s.t3, t3 := t.t2 * s.t1 + t.t3 * s.t3,
        t5 := t.t4 * s.t1 + t.t5 * s.t3 + s.t5 },
    sqrtf := fun x => Rat.sqrt x,
    NVG_IMAGE_FLIPY := 8,
    NVG_IMAGE_PREMULTIPLIED := 16,
    NVG_TEXTURE_RGBA := 2,
    NVG_IMAGE_GENERATE_MIPMAPS := 1,
    NVG_IMAGE_REPEATX := 2,
    NVG_IMAGE_REPEATY := 4,
    NVG_IMAGE_NEAREST := 32 }

/-- A backend for the examples: every created vertex buffer gets handle 1,
and a created texture gets its width plus 100 as handle. -/
def exampleBackend : Backend :=
  { createVertexBuffer := fun _ => 1,
    createTexture := fun _ w _ _ _ _ => w.toNat + 100 }

/-- The renderer right after `nvgGpuCreate` and `nvg_gpu_renderCreate`. -/
def exampleCtx : RenderContext := (nvg_gpu_renderCreate nvgGpuCreate).2.1

/-- A vertex with integer position and texture coordinate `(0, 0)`. -/
def vtx (x y : Int) : NVGvertex := { x := x, y := y, u := 0, v := 0 }

/-- The identity transform. -/
def exampleXform : Xform := { t0 := 1, t1 := 0, t2 := 0, t3 := 1, t4 := 0, t5 := 0 }

/-- A solid white paint, no image. -/
def examplePaint : NVGpaint :=
  { xform := exampleXform, extent0 := 0, extent1 := 0, radius := 0, feather := 1,
    innerColor := { r := 1, g := 1, b := 1, a := 1 },
    outerColor := { r := 1, g := 1, b := 1, a := 1 }, image := 0 }

/-- The same paint naming image 5, which no texture slot of `exampleCtx` holds. -/
def examplePaintNoTexture : NVGpaint := { examplePaint with image := 5 }

/-- The "no scissor" value: both extents are `-1`. -/
def exampleScissor : NVGscissor := { xform := exampleXform, extent0 := -1, extent1 := -1 }

/-- A composite-op with the given source-RGB factor, to tell submits apart. -/
def exampleOp (k : Int) : NVGcompositeOperationState :=
  { srcRGB := k, dstRGB := 0, srcAlpha := 0, dstAlpha := 0 }

/-- A `realloc` that always succeeds. -/
def reallocOk : ReallocOracle := { calls := true, paths := true, verts := true, uniforms := true }

/-- A `realloc` that succeeds for the call arena and fails for the vertex arena. -/
def reallocVertsFail : ReallocOracle :=
  { calls := true, paths := true, verts := false, uniforms := true }

/-- A sub-path with a fan of 3 points and a stroke of 2 points. -/
def exampleTriangle : NVGpath :=
  { fill := fun i => vtx i 0, nfill := 3, stroke := fun i => vtx i 1, nstroke := 2,
    convex := 0 }

/-- A convex sub-path with a fan of 5 points and a stroke of 3 points. -/
def examplePentagon : NVGpath :=
  { fill := fun i => vtx i (i * i), nfill := 5, stroke := fun i => vtx i 7, nstroke := 3,
    convex := 1 }

/-- A bounding box. -/
def exampleBounds : Fin 4 → ℚ := fun i => if i = 0 then 0 else if i = 1 then 0 else 10

/-- The scenario Fill(A), Stroke(B), Triangles(C) with three distinct
composite-ops, every `realloc` succeeding. -/
def exampleScene : List Submit :=
  [Submit.fill reallocOk examplePaint (exampleOp 1) exampleScissor 1 exampleBounds
     [exampleTriangle, examplePentagon],
   Submit.stroke reallocOk examplePaint (exampleOp 2) exampleScissor 1 2 [exampleTriangle],
   Submit.triangles reallocOk examplePaint (exampleOp 3) exampleScissor (fun i => vtx i i) 3 1]

/-- Two fills on one frame: the first with one sub-path, the second with 128
sub-paths, every `realloc` succeeding. -/
def exampleManyPaths : List Submit :=
  [Submit.fill reallocOk examplePaint (exampleOp 1) exampleScissor 1 exampleBounds
     [exampleTriangle],
   Submit.fill reallocOk examplePaint (exampleOp 2) exampleScissor 1 exampleBounds
     (List.replicate 128 exampleTriangle)]

/-! ## The texture table -/

/-- The slot search of `nvg_gpu_renderCreateTexture`,
`for (int i = 0; i < NVG_MAX_TEXTURES; i += 1)` with `break` at the first
slot whose handle is `NULL`: the first argument is the number of iterations
left, `i` the loop variable; `none` is `dst == NULL` after the loop, `some i`
is `dst == &ctx->textures[i]`. -/
def findFreeSlot (textures : Int → RenderTexture) : Nat → Int → Option Int
  | 0, _ => none
  | n + 1, i =>
      if (textures i).userdata = 0 then some i else findFreeSlot textures n (i + 1)

/-- `nvg_gpu_renderCreateTexture`. `data` is the pixel pointer, `0` for
`NULL`. The result is `none` when the `assert` on `NVG_IMAGE_GENERATE_MIPMAPS`
fails, else the return value, the context after the call and the backend
invocations. -/
def nvg_gpu_renderCreateTexture (nv : Nanovg) (be : Backend) (ctx : RenderContext)
    (type w h : Int) (imageFlags : Nat) (data : Nat) :
    Option (Int × RenderContext × List GpuOp) :=
  if (imageFlags &&& nv.NVG_IMAGE_GENERATE_MIPMAPS) ≠ 0 then none
  else
    match findFreeSlot ctx.textures NVG_MAX_TEXTURES.toNat 0 with
    | none => some (0, ctx, [])
    | some i =>
      let isRGBA : Int := if type = nv.NVG_TEXTURE_RGBA then 1 else 0
      let nearest : Int := if (imageFlags &&& nv.NVG_IMAGE_NEAREST) ≠ 0 then 1 else 0
      let repeatX : Int := if (imageFlags &&& nv.NVG_IMAGE_REPEATX) ≠ 0 then 1 else 0
      let repeatY : Int := if (imageFlags &&& nv.NVG_IMAGE_REPEATY) ≠ 0 then 1 else 0
      let dst : RenderTexture :=
        { ctx.textures i with
            type := type, flags := imageFlags, width := w, height := h,
            userdata := be.createTexture isRGBA w h nearest repeatX repeatY }
      some (1,
        { ctx with textures := poke ctx.textures i dst },
        [GpuOp.createTexture isRGBA w h nearest repeatX repeatY]
          ++ (if data ≠ 0 then [GpuOp.updateTexture dst.userdata 0 0 w h data] else []))

/-- `nvg_gpu_renderDeleteTexture`: the return value, the context after the
call and the backend invocations. -/
def nvg_gpu_renderDeleteTexture (ctx : RenderContext) (image : Int) :
    Int × RenderContext × List GpuOp :=
  if image < 0 ∨ image ≥ NVG_MAX_TEXTURES then (0, ctx, [])
  else
    let userdata := (ctx.textures image).userdata
    if userdata = 0 then (0, ctx, [])
    else
      (1,
       { ctx with textures := poke ctx.textures image { ctx.textures image with userdata := 0 } },
       [GpuOp.deleteTexture userdata])

/-- `nvg_gpu_renderUpdateTexture`: the return value and the backend
invocations; the function does not write to the context. -/
def nvg_gpu_renderUpdateTexture (ctx : RenderContext) (image x y w h : Int) (data : Nat) :
    Int × List GpuOp :=
  if image < 0 ∨ image ≥ NVG_MAX_TEXTURES then (0, [])
  else
    let userdata := (ctx.textures image).userdata
    if userdata = 0 then (0, [])
    else (1, [GpuOp.updateTexture userdata x y w h data])

/-- `nvg_gpu_renderGetTextureSize`. An output pointer is `none` when it is
`NULL` and `some v` when it points to an `int` holding `v`; the result is the
return value and the two pointees after the call. The function calls no
backend function and does not write to the context. -/
def nvg_gpu_renderGetTextureSize (ctx : RenderContext) (image : Int)
    (w h : Option Int) : Int × Option Int × Option Int :=
  if image < 0 ∨ image ≥ NVG_MAX_TEXTURES then (0, w, h)
  else if (ctx.textures image).userdata = 0 then (0, w, h)
  else
    (1,
     (match w with
      | some _ => some (ctx.textures image).width
      | none => none),
     (match h with
      | some _ => some (ctx.textures image).height
      | none => none))

/-! ## The SVG drawer (`nanovg_svg.c`)

A `float` that may be `NAN` is an `Option ℚ`, `none` for `NAN`; an ordered
comparison with `NAN` is false. The linked list `shape->paths` is a `List`, and
the pointer test `path2 == path` compares positions in it. The nanovg calls
that build the path are recorded as a list of `NvgCall`. -/

/-- The `Vec` of `nanovg_svg.c`. -/
structure Vec where
  x : ℚ
  y : ℚ

/-- The fields of nanosvg's `NSVGpath` that the drawer reads: the coordinate
array `pts` (two floats per point) as a total map, the point count, the closed
flag and the bounding box `[minx, miny, maxx, maxy]`. -/
structure NSVGpath where
  pts : Int → ℚ
  npts : Int
  closed : Int
  bounds : Int → ℚ

/-- The `NVGsolidity` values passed to `nvgPathWinding`. -/
inductive NVGsolidity where
  | NVG_SOLID
  | NVG_HOLE
  deriving DecidableEq, Repr

/-- One nanovg path call issued by the path loop of `nvgDrawSVG`. -/
inductive NvgCall where
  | nvgMoveTo (x y : ℚ)
  | nvgBezierTo (c1x c1y c2x c2y x y : ℚ)
  | nvgClosePath
  | nvgPathWinding (dir : NVGsolidity)

/-- The comparison `a <= b` of two floats. -/
def floatLe (a b : Option ℚ) : Bool :=
  match a, b with
  | some x, some y => decide (x ≤ y)
  | _, _ => false

/-- The comparison `a < b` of two floats. -/
def floatLt (a b : Option ℚ) : Bool :=
  match a, b with
  | some x, some y => decide (x < y)
  | _, _ => false

/-- `getLineCrossing`, with the arithmetic of `float` taken as exact: the
differences, products and the quotient are those of `ℚ`, and NaN is `none`.
The source computes them in binary32, where each operation rounds;
`getLineCrossingF32` below is that reading. -/
def getLineCrossing (p0 p1 p2 p3 : Vec) : Option ℚ :=
  let b : Vec := ⟨p2.x - p0.x, p2.y - p0.y⟩
  let d : Vec := ⟨p1.x - p0.x, p1.y - p0.y⟩
  let e : Vec := ⟨p3.x - p2.x, p3.y - p2.y⟩
  let m : ℚ := d.x * e.y - d.y * e.x
  if |m| < 1 / 1000000 then none
  else some (-(d.x * b.y - d.y * b.x) / m)

/-- The test `0.0 <= crossing && crossing < 1.0 && 0.0 <= crossing2` of
`nvgDrawSVG`. -/
def crossingTest (crossing crossing2 : Option ℚ) : Bool :=
  floatLe (some 0) crossing && floatLt crossing (some 1) && floatLe (some 0) crossing2

/-- The loop `for (int i = 1; i < path2->npts + 3; i += 3)` of `nvgDrawSVG`
over the lines of one sibling path: the first argument bounds the remaining
iterations, `i` is the loop variable, `crossings` the running count. -/
def walkSegments (path2 : NSVGpath) (p0 p1 : Vec) : Nat → Int → Int → Int
  | 0, _, crossings => crossings
  | fuel + 1, i, crossings =>
      if i < path2.npts + 3 then
        let p2 : Vec := ⟨path2.pts (2 * i - 2), path2.pts (2 * i - 1)⟩
        let p3 : Vec :=
          if i < path2.npts then ⟨path2.pts (2 * i + 4), path2.pts (2 * i + 5)⟩
          else ⟨path2.pts 0, path2.pts 1⟩
        let crossing := getLineCrossing p0 p1 p2 p3
        let crossing2 := getLineCrossing p2 p3 p0 p1
        walkSegments path2 p0 p1 fuel (i + 3)
          (if crossingTest crossing crossing2 then crossings + 1 else crossings)
      else crossings

/-- The pairs `(p2, p3)` that the loop of `walkSegments` forms, in order:
the same loop, collecting the two end points instead of counting. -/
def walkedSegments (path2 : NSVGpath) : Nat → Int → List (Vec × Vec)
  | 0, _ => []
  | fuel + 1, i =>
      if i < path2.npts + 3 then
        let p2 : Vec := ⟨path2.pts (2 * i - 2), path2.pts (2 * i - 1)⟩
        let p3 : Vec :=
          if i < path2.npts then ⟨path2.pts (2 * i + 4), path2.pts (2 * i + 5)⟩
          else ⟨path2.pts 0, path2.pts 1⟩
        (p2, p3) :: walkedSegments path2 fuel (i + 3)
      else []

/-- The loop `for (NSVGpath *path2 = shape->paths; ...)` of `nvgDrawSVG` for
the path at position `self`: the list is the rest of the path list, `j` the
position of its head. The segment walk gets `npts + 3` iterations, which it
never uses up since `i` starts at 1 and grows by 3. -/
def countCrossings (self : Nat) (p0 p1 : Vec) : List NSVGpath → Nat → Int → Int
  | [], _, crossings => crossings
  | path2 :: rest, j, crossings =>
      if j = self then countCrossings self p0 p1 rest (j + 1) crossings
      else if path2.npts < 4 then countCrossings self p0 p1 rest (j + 1) crossings
      else
        countCrossings self p0 p1 rest (j + 1)
          (walkSegments path2 p0 p1 (path2.npts + 3).toNat 1 crossings)

/-- The value of `crossings` that `nvgDrawSVG` computes for the path at
position `self` of the path list `paths`. -/
def pathCrossings (paths : List NSVGpath) (self : Nat) (path : NSVGpath) : Int :=
  let p0 : Vec := ⟨path.pts 0, path.pts 1⟩
  let p1 : Vec := ⟨path.bounds 0 - 1, path.bounds 1 - 1⟩
  countCrossings self p0 p1 paths 0 0

/-- The argument of the `nvgPathWinding` call for the path at position
`self`. -/
def pathWinding (paths : List NSVGpath) (self : Nat) (path : NSVGpath) : NVGsolidity :=
  if Int.tmod (pathCrossings paths self path) 2 = 0 then NVGsolidity.NVG_SOLID
  else NVGsolidity.NVG_HOLE

/-- The loop `for (int i = 1; i < path->npts; i += 3)` of `nvgDrawSVG` that
issues one `nvgBezierTo` per cubic segment. -/
def bezierCalls (path : NSVGpath) : Nat → Int → List NvgCall
  | 0, _ => []
  | fuel + 1, i =>
      if i < path.npts then
        NvgCall.nvgBezierTo (path.pts (2 * i)) (path.pts (2 * i + 1)) (path.pts (2 * i + 2))
            (path.pts (2 * i + 3)) (path.pts (2 * i + 4)) (path.pts (2 * i + 5))
          :: bezierCalls path fuel (i + 3)
      else []

/-- The body of the path loop of `nvgDrawSVG` for the path at position
`self`. -/
def drawPath (paths : List NSVGpath) (self : Nat) (path : NSVGpath) : List NvgCall :=
  [NvgCall.nvgMoveTo (path.pts 0) (path.pts 1)]
    ++ bezierCalls path path.npts.toNat 1
    ++ (if path.closed ≠ 0 then [NvgCall.nvgClosePath] else [])
    ++ [NvgCall.nvgPathWinding (pathWinding paths self path)]

/-- The path loop of `nvgDrawSVG` over the rest `todo` of the path list
`paths`, whose head is at position `self`. -/
def drawPathsFrom (paths : List NSVGpath) : List NSVGpath → Nat → List NvgCall
  | [], _ => []
  | path :: rest, self => drawPath paths self path ++ drawPathsFrom paths rest (self + 1)

/-- The path loop of `nvgDrawSVG` for a shape with path list `paths`. -/
def drawPaths (paths : List NSVGpath) : List NvgCall :=
  drawPathsFrom paths paths 0

/-- The claim-side count for one sibling: how many of the segments walked on
`path2` pass the crossing test against the ray from `p0` through `p1`. -/
def countedSegments (p0 p1 : Vec) (path2 : NSVGpath) : Nat :=
  ((walkedSegments path2 (path2.npts + 3).toNat 1).filter fun sg =>
    crossingTest (getLineCrossing p0 p1 sg.1 sg.2) (getLineCrossing sg.1 sg.2 p0 p1)).length

/-- The claim-side total: the sum of `countedSegments` over the paths of the
list at a position other than `self` that have at least 4 points. -/
def siblingSegmentCount (paths : List NSVGpath) (self : Nat) (p0 p1 : Vec) : Nat :=
  (((paths.enumFrom 0).filter fun x => decide (x.1 ≠ self ∧ 4 ≤ x.2.npts)).map
    fun x => countedSegments p0 p1 x.2).sum

/-- Point `k` of a path: the floats `pts[2k]` and `pts[2k + 1]`. -/
def pointOf (P : NSVGpath) (k : Int) : Vec := ⟨P.pts (2 * k), P.pts (2 * k + 1)⟩

/-- Claim-side description of an axis-parallel square sub-path with minimum
corner `(a, c)` and side `S`, listed from that corner as straight cubic
segments: along the x axis first when `xFirst`, along the y axis first
otherwise; with the closing segment stored (13 points, the last repeating the
first) when `closing`, without it (10 points) otherwise. The bounds hold the
minimum corner. -/
def IsAxisSquare (P : NSVGpath) (a c S : ℚ) (xFirst closing : Bool) : Prop :=
  P.npts = (if closing then 13 else 10)
  ∧ P.bounds 0 = a ∧ P.bounds 1 = c
  ∧ pointOf P 0 = ⟨a, c⟩
  ∧ pointOf P 3 = (if xFirst then ⟨a + S, c⟩ else ⟨a, c + S⟩)
  ∧ pointOf P 6 = ⟨a + S, c + S⟩
  ∧ pointOf P 9 = (if xFirst then ⟨a, c + S⟩ else ⟨a + S, c⟩)
  ∧ (closing = true → pointOf P 12 = ⟨a, c⟩)

/-- Claim-side description of a sub-path of `k` cubic segments (`3k + 1`
points) whose on-curve points `0, 3, ..., 3k` all lie strictly inside the
square with minimum corner `(a, c)` and side `S`, and whose bounds' minimum
corner is not beyond its first point. -/
def IsInsideSquare (P : NSVGpath) (k : Int) (a c S : ℚ) : Prop :=
  1 ≤ k ∧ P.npts = 3 * k + 1
  ∧ P.bounds 0 ≤ P.pts 0 ∧ P.bounds 1 ≤ P.pts 1
  ∧ ∀ j, 0 ≤ j → j ≤ k →
      a < (pointOf P (3 * j)).x ∧ (pointOf P (3 * j)).x < a + S
      ∧ c < (pointOf P (3 * j)).y ∧ (pointOf P (3 * j)).y < c + S

/-! ## More example inputs -/

/-- A scissor with a non-trivial transform whose second extent alone is
below -0.5. -/
def exampleScissorY : NVGscissor :=
  { xform := { t0 := 2, t1 := 1, t2 := 0, t3 := 3, t4 := 5, t5 := 7 },
    extent0 := 3, extent1 := -1 }

/-- A renderer whose 128 texture slots all hold a texture: slot `j` has
handle `j + 1` and size `j` by `2 * j`. -/
def exampleFullCtx : RenderContext :=
  { exampleCtx with
      textures := fun j =>
        { userdata := j.toNat + 1, type := 2, flags := 0, width := j, height := 2 * j } }

/-- The float array holding the given values from index `base` on, zero
elsewhere. -/
def floatsFrom : List ℚ → Int → Int → ℚ
  | [], _ => fun _ => 0
  | v :: rest, base => fun k => if k = base then v else floatsFrom rest (base + 1) k

/-- The three points a straight cubic segment from `a` to `b` appends: the two
control points at one third and two thirds of the way, then `b`. -/
def lineToPts (a b : Vec) : List ℚ :=
  [a.x + (b.x - a.x) / 3, a.y + (b.y - a.y) / 3,
   b.x - (b.x - a.x) / 3, b.y - (b.y - a.y) / 3, b.x, b.y]

/-- A closed quadrilateral stored as four straight cubic segments, the last
one back to the first corner: 13 points. -/
def quadPath (c0 c1 c2 c3 : Vec) (minx miny maxx maxy : ℚ) : NSVGpath :=
  { pts := floatsFrom ([c0.x, c0.y] ++ lineToPts c0 c1 ++ lineToPts c1 c2
             ++ lineToPts c2 c3 ++ lineToPts c3 c0) 0,
    npts := 13,
    closed := 1,
    bounds := floatsFrom [minx, miny, maxx, maxy] 0 }

/-- The square with corners (0,0) and (10,10), listed counter-clockwise from
its corner (10,10). -/
def exampleOuterSquare : NSVGpath :=
  quadPath ⟨10, 10⟩ ⟨0, 10⟩ ⟨0, 0⟩ ⟨10, 0⟩ 0 0 10 10

/-- The square with corners (2,4) and (4,6), listed clockwise from its corner
(2,4); it lies strictly inside `exampleOuterSquare` and touches the diagonal
of that square at its corner (4,4) only. -/
def exampleInnerSquare : NSVGpath :=
  quadPath ⟨2, 4⟩ ⟨2, 6⟩ ⟨4, 6⟩ ⟨4, 4⟩ 2 4 4 6

/-- The square with corners (0,0) and (10,10), listed from its minimum corner
along the x axis first. -/
def exampleOuterFromMin : NSVGpath :=
  quadPath ⟨0, 0⟩ ⟨10, 0⟩ ⟨10, 10⟩ ⟨0, 10⟩ 0 0 10 10

/-! ## More views of a backend trace -/

/-- Whether a backend invocation is an apply-state call. -/
def GpuOp.isApplyState : GpuOp → Bool
  | GpuOp.applyState _ => true
  | _ => false

/-- Whether a backend invocation creates or deletes a vertex buffer. -/
def GpuOp.isBufferOp : GpuOp → Bool
  | GpuOp.createVertexBuffer _ => true
  | GpuOp.deleteVertexBuffer _ => true
  | _ => false

/-- A backend trace without its apply-state calls. -/
def withoutApplyState (ops : List GpuOp) : List GpuOp :=
  ops.filter fun e => !e.isApplyState

/-- The vertex-buffer creations and deletions of a backend trace, in order. -/
def bufferOps (ops : List GpuOp) : List GpuOp :=
  ops.filter fun e => e.isBufferOp

/-- The stencil-function updates of a backend trace, in order. -/
def stencilUpdates (ops : List GpuOp) : List GpuOp :=
  ops.filter fun e =>
    match e with
    | GpuOp.updateStencilFunction _ _ _ _ _ _ _ => true
    | _ => false

/-- The renderer after the three submits of `exampleScene`. -/
def exampleSceneCtx : RenderContext := submitAll exampleNanovg exampleCtx exampleScene

/-- A backend whose buffer and texture creation fail: both return `NULL`. -/
def nullBackend : Backend :=
  { createVertexBuffer := fun _ => 0,
    createTexture := fun _ _ _ _ _ _ => 0 }

/-- The renderer after the example scene was flushed on `nullBackend` and one
more triangle list of 3 vertices was submitted. -/
def exampleAfterFailedBuffer : RenderContext :=
  nvg_gpu_renderTriangles exampleNanovg reallocOk
    (nvg_gpu_renderFlush nullBackend exampleSceneCtx).1
    examplePaint (exampleOp 4) exampleScissor (fun i => vtx i i) 3 1

/-! ## Vertex demand of a fill -/

/-- Claim-side vertex demand of a fill: per sub-path `3 * (nfill - 2)` when it
has at least 3 fill points and 0 otherwise, plus its stroke point count; plus
4 for the quad of a general fill. -/
def claimedVertCount (paths : List NVGpath) (quad : Bool) : Int :=
  (paths.map fun p => (if 3 ≤ p.nfill then 3 * (p.nfill - 2) else 0) + p.nstroke).sum
    + if quad then 4 else 0

/-- A sub-path with a single fill point and no stroke. -/
def examplePoint : NVGpath :=
  { fill := fun i => vtx i 0, nfill := 1, stroke := fun i => vtx i 1, nstroke := 0,
    convex := 0 }

/-- A sub-path with a single fill point and no stroke, marked convex. -/
def examplePointConvex : NVGpath := { examplePoint with convex := 1 }

/-- The renderer after a fill of `examplePentagon` alone on the fresh
renderer. -/
def exampleAfterPentagon : RenderContext :=
  nvg_gpu_renderFill exampleNanovg reallocOk exampleCtx examplePaint (exampleOp 1)
    exampleScissor 1 exampleBounds [examplePentagon]

/-- Claim-side length of the fill range of a sub-path: `3 * (nfill - 2)` when
it has at least 3 fill points, 0 otherwise. -/
def fillRangeLen (p : NVGpath) : Int := if 3 ≤ p.nfill then 3 * (p.nfill - 2) else 0

/-- Claim-side vertex demand of one sub-path of a fill. -/
def pathDemand (p : NVGpath) : Int := fillRangeLen p + p.nstroke

/-! ## Views of the dispatch of one call -/

/-- Whether a backend invocation is a stencil, color-mask or culling
operation. -/
def GpuOp.isStateOp : GpuOp → Bool
  | GpuOp.toggleColorWriteMask _ => true
  | GpuOp.toggleStencil _ => true
  | GpuOp.updateStencilFunction _ _ _ _ _ _ _ => true
  | GpuOp.toggleCullMode _ => true
  | _ => false

/-- Whether a backend invocation is a uniform-buffer update. -/
def GpuOp.isUniformUpdate : GpuOp → Bool
  | GpuOp.updateUniformBuffer _ _ => true
  | _ => false

/-- The draw-primitives calls of a backend trace, in order. -/
def drawsOf (ops : List GpuOp) : List GpuOp :=
  ops.filter fun e => e.isDraw

/-- The apply-state calls of a backend trace, in order. -/
def applyStatesOf (ops : List GpuOp) : List GpuOp :=
  ops.filter fun e => e.isApplyState

/-- The uniform-buffer updates of a backend trace, in order. -/
def uniformUpdatesOf (ops : List GpuOp) : List GpuOp :=
  ops.filter fun e => e.isUniformUpdate

/-- The path ranges of a recorded call, `paths[0]` .. `paths[pathCount - 1]`
with `paths = &gl->paths[call->pathOffset]`, in order. -/
def callPaths (gl : RenderContext) (call : RenderDrawCall) : List RenderPath :=
  (List.range call.pathCount.toNat).map fun (i : Nat) => gl.paths (call.pathOffset + i)

/-- Claim-side draws of a convex fill over a list of path ranges: per range
one triangle-list draw of the fill range, followed by one triangle-strip draw
of the stroke range when the stroke count is positive. -/
def convexDraws : List RenderPath → List GpuOp
  | [] => []
  | p :: rest =>
      GpuOp.drawPrimitives 0 p.fillOffset p.fillCount
        :: ((if 0 < p.strokeCount then [GpuOp.drawPrimitives 1 p.strokeOffset p.strokeCount]
             else [])
            ++ convexDraws rest)

/-! ## The toggles of the example backend (`example_native.c`) -/

/-- The three toggled fields of `FNA3D_UserData`: whether
`blendState.colorWriteEnable` is `FNA3D_COLORWRITECHANNELS_ALL` (the other
value written is `FNA3D_COLORWRITECHANNELS_NONE`), the integer
`depthStencilState.stencilEnable`, and whether `rasterizerState.cullMode` is
`FNA3D_CULLMODE_CULLCLOCKWISEFACE` (the other value written is
`FNA3D_CULLMODE_NONE`). -/
structure ToggleState where
  colorWriteAll : Bool
  stencilEnable : Int
  cullClockwise : Bool
deriving DecidableEq

/-- `CALLBACK_resetState`, on the three toggled fields. -/
def CALLBACK_resetState (_s : ToggleState) : ToggleState :=
  { colorWriteAll := true, stencilEnable := 0, cullClockwise := true }

/-- `CALLBACK_toggleColorWriteMask`. -/
def CALLBACK_toggleColorWriteMask (s : ToggleState) (enabled : Int) : ToggleState :=
  { s with colorWriteAll := if enabled ≠ 0 then true else false }

/-- `CALLBACK_toggleStencil`. -/
def CALLBACK_toggleStencil (s : ToggleState) (enabled : Int) : ToggleState :=
  { s with stencilEnable := enabled }

/-- `CALLBACK_toggleCullMode`. -/
def CALLBACK_toggleCullMode (s : ToggleState) (enabled : Int) : ToggleState :=
  { s with cullClockwise := if enabled ≠ 0 then true else false }

/-- The effect of one backend invocation on the three toggled fields; the
callbacks other than these four do not write them. -/
def toggleStep (s : ToggleState) : GpuOp → ToggleState
  | GpuOp.resetState => CALLBACK_resetState s
  | GpuOp.toggleColorWriteMask enabled => CALLBACK_toggleColorWriteMask s enabled
  | GpuOp.toggleStencil enabled => CALLBACK_toggleStencil s enabled
  | GpuOp.toggleCullMode enabled => CALLBACK_toggleCullMode s enabled
  | _ => s

/-- The three toggled fields after a backend trace. -/
def toggleRun (s : ToggleState) (ops : List GpuOp) : ToggleState :=
  ops.foldl toggleStep s

/-- The toggle baseline: color-write enabled, stencil test disabled, culling
enabled. -/
def toggleBaseline : ToggleState :=
  { colorWriteAll := true, stencilEnable := 0, cullClockwise := true }

/-! ## Apply-state before a draw -/

/-- Claim-side scan of a backend trace. `pending` says whether a
blend-function update or a uniform, shader or sampler bind has occurred since
the last apply-state call; the result says whether every draw-primitives call
of the trace is reached with nothing pending. -/
def drawsApplied : Bool → List GpuOp → Bool
  | _, [] => true
  | pending, e :: rest =>
      match e with
      | GpuOp.applyState _ => drawsApplied false rest
      | GpuOp.drawPrimitives _ _ _ => !pending && drawsApplied pending rest
      | GpuOp.updateBlendFunction _ => drawsApplied true rest
      | GpuOp.updateUniformBuffer _ _ => drawsApplied true rest
      | GpuOp.updateShader _ _ _ => drawsApplied true rest
      | GpuOp.updateSampler _ => drawsApplied true rest
      | _ => drawsApplied pending rest

/-- The renderer after one triangle list of 3 vertices was submitted to the
fresh renderer. -/
def exampleTrianglesOnly : RenderContext :=
  nvg_gpu_renderTriangles exampleNanovg reallocOk exampleCtx examplePaint (exampleOp 3)
    exampleScissor (fun i => vtx i i) 3 1

/-! ## Sequences of arena operations -/

/-- One operation on the call, vertex and uniform arenas: a reservation with
the outcome of its `realloc` attempt and, for the vertex and uniform arenas,
the requested count; a reset; or the rollback of the last call. -/
inductive ArenaOp where
  | allocCall (ok : Bool)
  | allocVerts (ok : Bool) (n : Int)
  | allocFragUniforms (ok : Bool) (n : Int)
  | reset
  | rollback

/-- The context after one arena operation. -/
def ArenaOp.run (gl : RenderContext) : ArenaOp → RenderContext
  | ArenaOp.allocCall ok => (INTERNAL_allocCall ok gl).2
  | ArenaOp.allocVerts ok n => (INTERNAL_allocVerts ok gl n).2
  | ArenaOp.allocFragUniforms ok n => (INTERNAL_allocFragUniforms ok gl n).2
  | ArenaOp.reset => nvg_gpu_renderCancel gl
  | ArenaOp.rollback => rollbackCall gl

/-- The count an arena operation requests: 1 for a call, `n` for vertices and
uniform blocks, 0 for a reset and a rollback. -/
def ArenaOp.amount : ArenaOp → Int
  | ArenaOp.allocCall _ => 1
  | ArenaOp.allocVerts _ n => n
  | ArenaOp.allocFragUniforms _ n => n
  | ArenaOp.reset => 0
  | ArenaOp.rollback => 0

/-- The contexts after each operation of a list of arena operations run in
order. -/
def arenaStates : RenderContext → List ArenaOp → List RenderContext
  | _, [] => []
  | gl, op :: rest => op.run gl :: arenaStates (op.run gl) rest

/-- An example sequence: two calls, the second rolled back; a vertex
reservation whose `realloc` fails and one that succeeds; a reset; uniform
blocks. -/
def exampleArenaOps : List ArenaOp :=
  [ArenaOp.allocCall true, ArenaOp.allocCall true, ArenaOp.rollback,
   ArenaOp.allocVerts false 5000, ArenaOp.allocVerts true 5000,
   ArenaOp.allocFragUniforms true 2, ArenaOp.reset,
   ArenaOp.allocVerts true 7000, ArenaOp.allocFragUniforms false 300]

/-! ## Reads of the segment walk -/

/-- The indices of `path2->pts` that the loop of `walkSegments` reads, in
order: the same loop, collecting the indices of the four floats of `p2` and
`p3` instead of counting. -/
def walkedReads (path2 : NSVGpath) : Nat → Int → List Int
  | 0, _ => []
  | fuel + 1, i =>
      if i < path2.npts + 3 then
        [2 * i - 2, 2 * i - 1]
          ++ (if i < path2.npts then [2 * i + 4, 2 * i + 5] else [0, 1])
          ++ walkedReads path2 fuel (i + 3)
      else []

/-- Claim-side list of segments of a sub-path of `k` cubic segments: the `k`
chords from point `3j` to point `3j + 3`, then the closing segment from point
`3k` to point 0. -/
def claimedSegments (P : NSVGpath) (k : Nat) : List (Vec × Vec) :=
  ((List.range k).map fun (j : Nat) => (pointOf P (3 * j), pointOf P (3 * j + 3)))
    ++ [(pointOf P (3 * k), pointOf P 0)]

/-- A renderer whose texture slot 1 holds an RGBA texture with the
premultiplied flag, slot 2 an RGBA texture without it and slot 3 a texture of
another type. -/
def exampleTexturedCtx : RenderContext :=
  { exampleCtx with
      textures := fun j =>
        if j = 1 then { userdata := 11, type := 2, flags := 16, width := 4, height := 4 }
        else if j = 2 then { userdata := 12, type := 2, flags := 0, width := 4, height := 4 }
        else if j = 3 then { userdata := 13, type := 1, flags := 16, width := 4, height := 4 }
        else RenderTexture.zero }

/-- The example paint naming image 1. -/
def examplePaintImage : NVGpaint := { examplePaint with image := 1 }

/-! ## A fill whose later sub-path has a single fill point -/

/-- A sub-path with a fan of 4 points and no stroke. -/
def exampleQuadFan : NVGpath :=
  { fill := fun i => vtx i (i * i), nfill := 4, stroke := fun i => vtx i 7, nstroke := 0,
    convex := 0 }

/-- A sub-path with a single fill point and a stroke of 3 points. -/
def examplePointStroked : NVGpath :=
  { fill := fun i => vtx i 0, nfill := 1, stroke := fun i => vtx (10 + i) 1, nstroke := 3,
    convex := 0 }

/-- The renderer after a fill of `exampleQuadFan` followed by
`examplePointStroked` on the fresh renderer. -/
def exampleAfterOverwrite : RenderContext :=
  nvg_gpu_renderFill exampleNanovg reallocOk exampleCtx examplePaint (exampleOp 1)
    exampleScissor 1 exampleBounds [exampleQuadFan, examplePointStroked]

/-! ## The crossing test in binary32 arithmetic

The definitions of the SVG drawer above take the arithmetic of `float` as
exact. The definitions below round instead: a `float` is an IEEE 754 binary32
value, and every subtraction, multiplication and division is the exact
operation followed by rounding to the nearest binary32 value, ties to even,
which is what a C implementation does that evaluates `float` expressions in
`float` (`FLT_EVAL_METHOD` 0) and does not contract a product and a difference
into one fused operation. A comparison of a `float` with a `double` constant
converts the `float` to `double`, which is exact. -/

/-- A binary32 value: a finite value, an infinity with its sign, or NaN. The
sign of a zero is not kept: `getLineCrossing` never divides by a zero, and no
other operation it uses tells the two zeros apart. -/
inductive F32 where
  | fin (q : ℚ)
  | inf (negative : Bool)
  | nan
deriving DecidableEq

/-- The search for the exponent of the rounding grid: counting up from `s`,
the least `s` with `n / d < 2 ^ 24 * 2 ^ s`. The first argument bounds the
number of steps. -/
def ulpShift (n d : Nat) : Nat → Nat → Nat
  | 0, s => s
  | fuel + 1, s => if n < 2 ^ 24 * d * 2 ^ s then s else ulpShift n d fuel (s + 1)

/-- Rounding to nearest, ties to even, of the non-negative rational `n / d`
to a 24-bit significand, where `n / d` and the result count units of
`2 ^ (-149)`, the smallest positive binary32 value. Below `2 ^ 24` units the
grid is every unit (the subnormal values and the first binade of normal
values); from `2 ^ (23 + s)` units on it is every `2 ^ s` units. A result of
`2 ^ 277` units (the value `2 ^ 128`) or more is an overflow, which 256 search
steps always reach. -/
def roundUnits (n d : Nat) : Nat :=
  let s := ulpShift n d 256 0
  let g := d * 2 ^ s
  let q := n / g
  let r := n % g
  let q1 := if 2 * r < g then q else if g < 2 * r then q + 1
            else if q % 2 = 0 then q else q + 1
  q1 * 2 ^ s

/-- The binary32 value nearest to the rational `x`, ties to even; an infinity
when the rounded magnitude is `2 ^ 128` or more. -/
def roundF32 (x : ℚ) : F32 :=
  let u := roundUnits (x.num.natAbs * 2 ^ 149) x.den
  if 2 ^ 277 ≤ u then F32.inf (decide (x < 0))
  else F32.fin ((if x < 0 then -1 else 1) * ((u : ℚ) / 2 ^ 149))

/-- The unary minus of binary32. -/
def F32.neg : F32 → F32
  | F32.fin q => F32.fin (-q)
  | F32.inf s => F32.inf (!s)
  | F32.nan => F32.nan

/-- The function `fabsf`. -/
def F32.abs : F32 → F32
  | F32.fin q => F32.fin |q|
  | F32.inf _ => F32.inf false
  | F32.nan => F32.nan

/-- The subtraction of binary32. -/
def F32.sub : F32 → F32 → F32
  | F32.fin a, F32.fin b => roundF32 (a - b)
  | F32.fin _, F32.inf t => F32.inf (!t)
  | F32.inf s, F32.fin _ => F32.inf s
  | F32.inf s, F32.inf t => if s = t then F32.nan else F32.inf s
  | F32.nan, _ => F32.nan
  | _, F32.nan => F32.nan

/-- The multiplication of binary32. -/
def F32.mul : F32 → F32 → F32
  | F32.fin a, F32.fin b => roundF32 (a * b)
  | F32.fin a, F32.inf t => if a = 0 then F32.nan else F32.inf (xor (decide (a < 0)) t)
  | F32.inf s, F32.fin b => if b = 0 then F32.nan else F32.inf (xor s (decide (b < 0)))
  | F32.inf s, F32.inf t => F32.inf (xor s t)
  | F32.nan, _ => F32.nan
  | _, F32.nan => F32.nan

/-- The division of binary32 by a divisor that is not a zero. For a zero
divisor the result depends on the sign of the zero, which is not kept; the
value given for that case, NaN, is never reached by `getLineCrossingF32`,
which returns before it divides by a value of magnitude below `1e-6`. -/
def F32.div : F32 → F32 → F32
  | F32.fin a, F32.fin b => if b = 0 then F32.nan else roundF32 (a / b)
  | F32.fin _, F32.inf _ => F32.fin 0
  | F32.inf s, F32.fin b => if b = 0 then F32.nan else F32.inf (xor s (decide (b < 0)))
  | F32.inf _, F32.inf _ => F32.nan
  | F32.nan, _ => F32.nan
  | _, F32.nan => F32.nan

/-- The comparison `a < c` of a `float` with a `double` constant of exact
value `c`. -/
def F32.ltConst (a : F32) (c : ℚ) : Bool :=
  match a with
  | F32.fin q => decide (q < c)
  | F32.inf s => s
  | F32.nan => false

/-- The comparison `c <= a` of a `double` constant of exact value `c` with a
`float`. -/
def F32.constLe (c : ℚ) (a : F32) : Bool :=
  match a with
  | F32.fin q => decide (c ≤ q)
  | F32.inf s => !s
  | F32.nan => false

/-- The `Vec` of `nanovg_svg.c` with binary32 coordinates. -/
structure VecF where
  x : F32
  y : F32
deriving DecidableEq

/-- The macro `VEC_MINUS`, in binary32. -/
def VEC_MINUS (a b : VecF) : VecF := ⟨F32.sub a.x b.x, F32.sub a.y b.y⟩

/-- The `double` constant `1e-6`: the binary64 value nearest to one
millionth. -/
def DOUBLE_1EM6 : ℚ := 4722366482869645 / 2 ^ 72

/-- `getLineCrossing`, in binary32. -/
def getLineCrossingF32 (p0 p1 p2 p3 : VecF) : F32 :=
  let b := VEC_MINUS p2 p0
  let d := VEC_MINUS p1 p0
  let e := VEC_MINUS p3 p2
  let m := F32.sub (F32.mul d.x e.y) (F32.mul d.y e.x)
  if F32.ltConst (F32.abs m) DOUBLE_1EM6 = true then F32.nan
  else F32.div (F32.neg (F32.sub (F32.mul d.x b.y) (F32.mul d.y b.x))) m

/-- The test `0.0 <= crossing && crossing < 1.0 && 0.0 <= crossing2` of
`nvgDrawSVG`, in binary32. -/
def crossingTestF32 (crossing crossing2 : F32) : Bool :=
  F32.constLe 0 crossing && F32.ltConst crossing 1 && F32.constLe 0 crossing2

/-- A point with finite binary32 coordinates. -/
def VecF.ofRat (x y : ℚ) : VecF := ⟨F32.fin x, F32.fin y⟩

/-! ## Theorems: arena reservation -/

theorem INTERNAL_allocPaths_success (ok : Bool) (gl : RenderContext) (n : Int)
    (h : (INTERNAL_allocPaths ok gl n).1 ≠ -1) :
    (INTERNAL_allocPaths ok gl n).1 = gl.npaths
      ∧ (INTERNAL_allocPaths ok gl n).2.npaths = gl.npaths + n := by
  unfold INTERNAL_allocPaths at h ⊢
  split_ifs at h ⊢ <;> simp_all

theorem INTERNAL_allocVerts_success (ok : Bool) (gl : RenderContext) (n : Int)
    (h : (INTERNAL_allocVerts ok gl n).1 ≠ -1) :
    (INTERNAL_allocVerts ok gl n).1 = gl.nverts
      ∧ (INTERNAL_allocVerts ok gl n).2.nverts = gl.nverts + n := by
  unfold INTERNAL_allocVerts at h ⊢
  split_ifs at h ⊢ <;> simp_all

theorem INTERNAL_allocFragUniforms_success (ok : Bool) (gl : RenderContext) (n : Int)
    (h : (INTERNAL_allocFragUniforms ok gl n).1 ≠ -1) :
    (INTERNAL_allocFragUniforms ok gl n).1 = gl.nuniforms * gl.fragSize
      ∧ (INTERNAL_allocFragUniforms ok gl n).2.nuniforms = gl.nuniforms + n
      ∧ (INTERNAL_allocFragUniforms ok gl n).2.fragSize = gl.fragSize := by
  unfold INTERNAL_allocFragUniforms at h ⊢
  split_ifs at h ⊢ <;> simp_all

set_option maxRecDepth 100000 in
/-- C1, evaluated on the code: on a fresh renderer, reserving one path range
and then 128 more both succeed (returning the indices 0 and 1), and leave the
path arena with used-count 129 above its capacity 128, because
`INTERNAL_allocPaths` grows only when the used-count equals the capacity. The
same state is reached through the submit operations: after a fill with one
sub-path and a fill with 128 sub-paths, both recorded, the path used-count is
129 and the path capacity 128. -/
theorem allocPaths_used_exceeds_capacity :
    (INTERNAL_allocPaths true nvgGpuCreate 1).1 = 0
      ∧ (INTERNAL_allocPaths true (INTERNAL_allocPaths true nvgGpuCreate 1).2 128).1 = 1
      ∧ (INTERNAL_allocPaths true (INTERNAL_allocPaths true nvgGpuCreate 1).2 128).2.npaths = 129
      ∧ (INTERNAL_allocPaths true (INTERNAL_allocPaths true nvgGpuCreate 1).2 128).2.cpaths = 128
      ∧ ¬ ((INTERNAL_allocPaths true (INTERNAL_allocPaths true nvgGpuCreate 1).2 128).2.npaths
            ≤ (INTERNAL_allocPaths true (INTERNAL_allocPaths true nvgGpuCreate 1).2 128).2.cpaths)
      ∧ (submitAll exampleNanovg exampleCtx exampleManyPaths).ncalls = 2
      ∧ (submitAll exampleNanovg exampleCtx exampleManyPaths).npaths = 129
      ∧ (submitAll exampleNanovg exampleCtx exampleManyPaths).cpaths = 128 := by
  decide

/-- C9: for each of the four reserve operations, if growth is needed (the
test the operation makes before calling `realloc` holds) and the reallocation
fails, the operation returns its failure sentinel (`NULL` for calls, `-1` for
the others) and leaves the context as it was; in particular the used-count
and the capacity of the arena keep their values. -/
theorem reserve_failure_leaves_arena (gl : RenderContext) (n : Int) :
    (gl.ncalls = gl.ccalls →
      (INTERNAL_allocCall false gl).1 = none
        ∧ (INTERNAL_allocCall false gl).2.ncalls = gl.ncalls
        ∧ (INTERNAL_allocCall false gl).2.ccalls = gl.ccalls
        ∧ (INTERNAL_allocCall false gl).2 = gl)
    ∧ (gl.npaths = gl.cpaths →
      (INTERNAL_allocPaths false gl n).1 = -1
        ∧ (INTERNAL_allocPaths false gl n).2.npaths = gl.npaths
        ∧ (INTERNAL_allocPaths false gl n).2.cpaths = gl.cpaths
        ∧ (INTERNAL_allocPaths false gl n).2 = gl)
    ∧ (gl.nverts + n > gl.cverts →
      (INTERNAL_allocVerts false gl n).1 = -1
        ∧ (INTERNAL_allocVerts false gl n).2.nverts = gl.nverts
        ∧ (INTERNAL_allocVerts false gl n).2.cverts = gl.cverts
        ∧ (INTERNAL_allocVerts false gl n).2 = gl)
    ∧ (gl.nuniforms + n > gl.cuniforms →
      (INTERNAL_allocFragUniforms false gl n).1 = -1
        ∧ (INTERNAL_allocFragUniforms false gl n).2.nuniforms = gl.nuniforms
        ∧ (INTERNAL_allocFragUniforms false gl n).2.cuniforms = gl.cuniforms
        ∧ (INTERNAL_allocFragUniforms false gl n).2 = gl) := by
  refine ⟨?_, ?_, ?_, ?_⟩
  · intro h
    simp [INTERNAL_allocCall, h]
  · intro h
    simp [INTERNAL_allocPaths, h]
  · intro h
    simp [INTERNAL_allocVerts, h]
  · intro h
    simp [INTERNAL_allocFragUniforms, h]

theorem reserveSeq_length (reserve : Bool → RenderContext → Int → Int × RenderContext)
    (gl : RenderContext) (reqs : List (Bool × Int)) :
    (reserveSeq reserve gl reqs).length = reqs.length := by
  induction reqs generalizing gl with
  | nil => rfl
  | cons q rest ih => simp [reserveSeq, ih]

/-- The running-sum law of a sequence of successful reservations, for any
reserve operation whose successful call adds `n` to the used-count `used gl`
and which never changes `inv gl`. -/
theorem reserveSeq_sum (reserve : Bool → RenderContext → Int → Int × RenderContext)
    (used inv : RenderContext → Int)
    (step : ∀ ok gl n, (reserve ok gl n).1 ≠ -1 → used (reserve ok gl n).2 = used gl + n)
    (keep : ∀ ok gl n, inv (reserve ok gl n).2 = inv gl)
    (reqs : List (Bool × Int)) :
    ∀ (gl : RenderContext) (j : Nat) (r : Int × RenderContext),
      (∀ q ∈ reserveSeq reserve gl reqs, q.1 ≠ -1) →
      (reserveSeq reserve gl reqs)[j]? = some r →
      used r.2 = used gl + ((reqs.take (j + 1)).map Prod.snd).sum
        ∧ ∃ gl0 ok n, r = reserve ok gl0 n
            ∧ used gl0 = used gl + ((reqs.take j).map Prod.snd).sum
            ∧ inv gl0 = inv gl := by
  induction reqs with
  | nil => intro gl j r _ h; simp [reserveSeq] at h
  | cons q rest ih =>
    intro gl j r hall hr
    obtain ⟨ok, n⟩ := q
    have h0 : (reserve ok gl n).1 ≠ -1 := hall _ (by simp [reserveSeq])
    cases j with
    | zero =>
      simp only [reserveSeq, List.getElem?_cons_zero, Option.some.injEq] at hr
      subst hr
      refine ⟨?_, gl, ok, n, rfl, ?_, rfl⟩
      · simp [step ok gl n h0]
      · simp
    | succ j =>
      simp only [reserveSeq, List.getElem?_cons_succ] at hr
      have hall2 : ∀ q ∈ reserveSeq reserve (reserve ok gl n).2 rest, q.1 ≠ -1 := by
        intro q hq
        exact hall q (by simp [reserveSeq, hq])
      obtain ⟨h1, gl0, ok0, n0, h2, h3, h4⟩ := ih (reserve ok gl n).2 j r hall2 hr
      refine ⟨?_, gl0, ok0, n0, h2, ?_, ?_⟩
      · rw [h1, step ok gl n h0]; simp [add_assoc]
      · rw [h3, step ok gl n h0]; simp [add_assoc]
      · rw [h4, keep]

theorem INTERNAL_allocFragUniforms_fragSize (ok : Bool) (gl : RenderContext) (n : Int) :
    (INTERNAL_allocFragUniforms ok gl n).2.fragSize = gl.fragSize := by
  unfold INTERNAL_allocFragUniforms
  split_ifs <;> rfl

/-- C10: in every sequence of reserve calls on the path, vertex or uniform
arena that starts from a reset store (used-count 0) and in which every call
succeeds (returns a value other than the sentinel `-1`), the `j`-th call
(counting from 0) leaves the used-count equal to the sum of the first `j + 1`
requested sizes and returns the used-count before the call, that is the sum of
the first `j` requested sizes: as an element index for paths and vertices, and
multiplied by the block stride `fragSize` as a byte offset for uniforms. -/
theorem reserve_running_sum (gl : RenderContext) (reqs : List (Bool × Int)) (j : Nat)
    (hj : j < reqs.length) :
    (gl.npaths = 0 → (∀ q ∈ reserveSeq INTERNAL_allocPaths gl reqs, q.1 ≠ -1) →
      ∃ r, (reserveSeq INTERNAL_allocPaths gl reqs)[j]? = some r
        ∧ r.2.npaths = ((reqs.take (j + 1)).map Prod.snd).sum
        ∧ r.1 = ((reqs.take j).map Prod.snd).sum)
    ∧ (gl.nverts = 0 → (∀ q ∈ reserveSeq INTERNAL_allocVerts gl reqs, q.1 ≠ -1) →
      ∃ r, (reserveSeq INTERNAL_allocVerts gl reqs)[j]? = some r
        ∧ r.2.nverts = ((reqs.take (j + 1)).map Prod.snd).sum
        ∧ r.1 = ((reqs.take j).map Prod.snd).sum)
    ∧ (gl.nuniforms = 0 → (∀ q ∈ reserveSeq INTERNAL_allocFragUniforms gl reqs, q.1 ≠ -1) →
      ∃ r, (reserveSeq INTERNAL_allocFragUniforms gl reqs)[j]? = some r
        ∧ r.2.nuniforms = ((reqs.take (j + 1)).map Prod.snd).sum
        ∧ r.1 = ((reqs.take j).map Prod.snd).sum * gl.fragSize) := by
  refine ⟨?_, ?_, ?_⟩
  · intro h0 hall
    have hlen : j < (reserveSeq INTERNAL_allocPaths gl reqs).length := by
      rw [reserveSeq_length]; exact hj
    refine ⟨(reserveSeq INTERNAL_allocPaths gl reqs)[j], List.getElem?_eq_getElem hlen, ?_⟩
    obtain ⟨h1, gl0, ok, n, h2, h3, -⟩ :=
      reserveSeq_sum INTERNAL_allocPaths (fun g => g.npaths) (fun _ => 0)
        (fun ok g n h => (INTERNAL_allocPaths_success ok g n h).2) (fun _ _ _ => rfl)
        reqs gl j _ hall (List.getElem?_eq_getElem hlen)
    have hne := hall _ (List.getElem_mem hlen)
    rw [h2] at hne h1 ⊢
    refine ⟨by simpa [h0] using h1, ?_⟩
    rw [(INTERNAL_allocPaths_success ok gl0 n hne).1]
    simpa [h0] using h3
  · intro h0 hall
    have hlen : j < (reserveSeq INTERNAL_allocVerts gl reqs).length := by
      rw [reserveSeq_length]; exact hj
    refine ⟨(reserveSeq INTERNAL_allocVerts gl reqs)[j], List.getElem?_eq_getElem hlen, ?_⟩
    obtain ⟨h1, gl0, ok, n, h2, h3, -⟩ :=
      reserveSeq_sum INTERNAL_allocVerts (fun g => g.nverts) (fun _ => 0)
        (fun ok g n h => (INTERNAL_allocVerts_success ok g n h).2) (fun _ _ _ => rfl)
        reqs gl j _ hall (List.getElem?_eq_getElem hlen)
    have hne := hall _ (List.getElem_mem hlen)
    rw [h2] at hne h1 ⊢
    refine ⟨by simpa [h0] using h1, ?_⟩
    rw [(INTERNAL_allocVerts_success ok gl0 n hne).1]
    simpa [h0] using h3
  · intro h0 hall
    have hlen : j < (reserveSeq INTERNAL_allocFragUniforms gl reqs).length := by
      rw [reserveSeq_length]; exact hj
    refine ⟨(reserveSeq INTERNAL_allocFragUniforms gl reqs)[j],
      List.getElem?_eq_getElem hlen, ?_⟩
    obtain ⟨h1, gl0, ok, n, h2, h3, h4⟩ :=
      reserveSeq_sum INTERNAL_allocFragUniforms (fun g => g.nuniforms) (fun g => g.fragSize)
        (fun ok g n h => (INTERNAL_allocFragUniforms_success ok g n h).2.1)
        INTERNAL_allocFragUniforms_fragSize
        reqs gl j _ hall (List.getElem?_eq_getElem hlen)
    have hne := hall _ (List.getElem_mem hlen)
    rw [h2] at hne h1 ⊢
    refine ⟨by simpa [h0] using h1, ?_⟩
    rw [(INTERNAL_allocFragUniforms_success ok gl0 n hne).1]
    rw [h3, h4, h0]; simp

/-- Witness for C10: three successful reservations of 3, 5 and 2 slots on a
fresh renderer with block stride 180; the last one returns index 8 (byte
offset 1440 for uniforms) and leaves the used-count at 10. -/
theorem reserve_running_sum_witness :
    (∃ r, (reserveSeq INTERNAL_allocPaths { nvgGpuCreate with fragSize := 180 }
            [(true, 3), (true, 5), (false, 2)])[2]? = some r
        ∧ r.2.npaths = 10 ∧ r.1 = 8)
    ∧ (∃ r, (reserveSeq INTERNAL_allocVerts { nvgGpuCreate with fragSize := 180 }
            [(true, 3), (true, 5), (false, 2)])[2]? = some r
        ∧ r.2.nverts = 10 ∧ r.1 = 8)
    ∧ (∃ r, (reserveSeq INTERNAL_allocFragUniforms { nvgGpuCreate with fragSize := 180 }
            [(true, 3), (true, 5), (false, 2)])[2]? = some r
        ∧ r.2.nuniforms = 10 ∧ r.1 = 1440) := by
  have h := reserve_running_sum { nvgGpuCreate with fragSize := 180 }
    [(true, 3), (true, 5), (false, 2)] 2 (by decide)
  refine ⟨?_, ?_, ?_⟩
  · simpa using h.1 rfl (by decide)
  · simpa using h.2.1 rfl (by decide)
  · simpa using h.2.2 rfl (by decide)

/-! ## Theorems: fan-to-list expansion -/

theorem poke_same {α : Type} (a : Int → α) (i : Int) (v : α) : poke a i v i = v := by
  simp [poke]

theorem poke_other {α : Type} (a : Int → α) (i j : Int) (v : α) (h : j ≠ i) :
    poke a i v j = a j := by
  simp [poke, h]

theorem fanToList_outside (fill : Int → NVGvertex) :
    ∀ (n : Nat) (i dst : Int) (verts : Int → NVGvertex) (j : Int),
      j < dst ∨ dst + 3 * n ≤ j → fanToList fill n i dst verts j = verts j := by
  intro n
  induction n with
  | zero => intro i dst verts j _; rfl
  | succ n ih =>
    intro i dst verts j hj
    rw [fanToList, ih (i + 1) (dst + 3) _ j (by push_cast at hj; omega)]
    rw [poke_other _ _ _ _ (by push_cast at hj; omega),
      poke_other _ _ _ _ (by push_cast at hj; omega),
      poke_other _ _ _ _ (by push_cast at hj; omega)]

theorem fanToList_triangle (fill : Int → NVGvertex) :
    ∀ (n : Nat) (i dst : Int) (verts : Int → NVGvertex) (m : Nat), m < n →
      fanToList fill n i dst verts (dst + 3 * m) = fill (i + m - 1)
        ∧ fanToList fill n i dst verts (dst + 3 * m + 1) = fill (i + m)
        ∧ fanToList fill n i dst verts (dst + 3 * m + 2) = fill 0 := by
  intro n
  induction n with
  | zero => intro i dst verts m hm; omega
  | succ n ih =>
    intro i dst verts m hm
    cases m with
    | zero =>
      simp only [fanToList, Nat.cast_zero, mul_zero, add_zero]
      rw [fanToList_outside fill n _ _ _ _ (Or.inl (by omega)),
        fanToList_outside fill n _ _ _ _ (Or.inl (by omega)),
        fanToList_outside fill n _ _ _ _ (Or.inl (by omega))]
      refine ⟨?_, ?_, ?_⟩
      · rw [poke_other _ _ _ _ (by omega), poke_other _ _ _ _ (by omega), poke_same]
      · rw [poke_other _ _ _ _ (by omega), poke_same]
      · rw [poke_same]
    | succ m =>
      have h := ih (i + 1) (dst + 3) (poke (poke (poke verts dst (fill (i - 1)))
        (dst + 1) (fill i)) (dst + 2) (fill 0)) m (by omega)
      have e1 : dst + 3 * ((m + 1 : Nat) : Int) = dst + 3 + 3 * (m : Int) := by
        push_cast; ring
      have e2 : i + ((m + 1 : Nat) : Int) = i + 1 + (m : Int) := by push_cast; ring
      rw [fanToList, e1, e2]
      exact h

theorem fillCopyPaths_append (pathOffset : Int) (l1 l2 : List NVGpath) :
    ∀ (i : Int) (ctx : RenderContext) (offset : Int),
      fillCopyPaths pathOffset (l1 ++ l2) i ctx offset
        = fillCopyPaths pathOffset l2 (i + l1.length)
            (fillCopyPaths pathOffset l1 i ctx offset).1
            (fillCopyPaths pathOffset l1 i ctx offset).2 := by
  induction l1 with
  | nil => intro i ctx offset; simp [fillCopyPaths]
  | cons p rest ih =>
    intro i ctx offset
    rw [List.cons_append, fillCopyPaths, fillCopyPaths, ih]
    simp only [List.length_cons, Nat.cast_add, Nat.cast_one]
    congr 1
    ring

/-- The fan-to-list expansion at the end of its iteration: when the sub-path
loop of `nvg_gpu_renderFill` has processed the sub-paths `pre` and then a
sub-path `p` with `k = p.nfill ≥ 3` fan points, and no sub-path after it yet,
the path range recorded for `p` has `fillOffset` equal to the running vertex
offset at which the loop reached `p` and `fillCount = 3 * (k - 2)`; for each
`i` from 2 to `k - 1` the three consecutive vertices at
`fillOffset + 3 * (i - 2)` are `fan[i - 1]`, `fan[i]`, `fan[0]`; and the
iteration wrote nothing below `fillOffset` and nothing from the end of the
`k - 2` triangles and of the stroke copy on, so exactly `k - 2` triangles were
written. -/
theorem fill_fan_to_list (pathOffset : Int) (pre : List NVGpath) (p : NVGpath)
    (ctx : RenderContext) (offset : Int) (hk : 3 ≤ p.nfill) :
    ((fillCopyPaths pathOffset (pre ++ [p]) 0 ctx offset).1.paths
        (pathOffset + pre.length)).fillOffset
      = (fillCopyPaths pathOffset pre 0 ctx offset).2
    ∧ ((fillCopyPaths pathOffset (pre ++ [p]) 0 ctx offset).1.paths
        (pathOffset + pre.length)).fillCount = 3 * (p.nfill - 2)
    ∧ (∀ i : Int, 2 ≤ i → i < p.nfill →
        (fillCopyPaths pathOffset (pre ++ [p]) 0 ctx offset).1.verts
            ((fillCopyPaths pathOffset pre 0 ctx offset).2 + 3 * (i - 2)) = p.fill (i - 1)
        ∧ (fillCopyPaths pathOffset (pre ++ [p]) 0 ctx offset).1.verts
            ((fillCopyPaths pathOffset pre 0 ctx offset).2 + 3 * (i - 2) + 1) = p.fill i
        ∧ (fillCopyPaths pathOffset (pre ++ [p]) 0 ctx offset).1.verts
            ((fillCopyPaths pathOffset pre 0 ctx offset).2 + 3 * (i - 2) + 2) = p.fill 0)
    ∧ (∀ j : Int, j < (fillCopyPaths pathOffset pre 0 ctx offset).2 →
        (fillCopyPaths pathOffset (pre ++ [p]) 0 ctx offset).1.verts j
          = (fillCopyPaths pathOffset pre 0 ctx offset).1.verts j)
    ∧ (∀ j : Int,
        (fillCopyPaths pathOffset pre 0 ctx offset).2 + 3 * (p.nfill - 2)
          + max p.nstroke 0 ≤ j →
        (fillCopyPaths pathOffset (pre ++ [p]) 0 ctx offset).1.verts j
          = (fillCopyPaths pathOffset pre 0 ctx offset).1.verts j) := by
  rw [fillCopyPaths_append]
  generalize (fillCopyPaths pathOffset pre 0 ctx offset).1 = c0
  generalize (fillCopyPaths pathOffset pre 0 ctx offset).2 = off
  have hpos : p.nfill > 0 := by omega
  have hn : (((p.nfill - 2).toNat : Nat) : Int) = p.nfill - 2 := Int.toNat_of_nonneg (by omega)
  simp only [fillCopyPaths, fillCopyPath, hpos, if_true, zero_add]
  by_cases hs : p.nstroke > 0
  · simp only [hs, if_true, poke_same]
    refine ⟨trivial, by ring, ?_, ?_, ?_⟩
    · intro i h2 hi
      obtain ⟨m, hm⟩ := Int.eq_ofNat_of_zero_le (show 0 ≤ i - 2 by omega)
      have hlt : m < (p.nfill - 2).toNat := by omega
      have ht := fanToList_triangle p.fill (p.nfill - 2).toNat 2 off c0.verts m hlt
      have e : (2 : Int) + m = i := by omega
      simp only [memcpy]
      rw [hm]
      rw [if_neg (by omega), if_neg (by omega), if_neg (by omega)]
      rw [ht.1, ht.2.1, ht.2.2, e]
      exact ⟨rfl, rfl, rfl⟩
    · intro j hj
      simp only [memcpy]
      rw [if_neg (by omega)]
      exact fanToList_outside _ _ _ _ _ _ (Or.inl hj)
    · intro j hj
      have hmax : max p.nstroke 0 = p.nstroke := max_eq_left (by omega)
      simp only [memcpy]
      rw [if_neg (by omega)]
      exact fanToList_outside _ _ _ _ _ _ (Or.inr (by omega))
  · simp only [hs, if_false, poke_same]
    refine ⟨trivial, by ring, ?_, ?_, ?_⟩
    · intro i h2 hi
      obtain ⟨m, hm⟩ := Int.eq_ofNat_of_zero_le (show 0 ≤ i - 2 by omega)
      have hlt : m < (p.nfill - 2).toNat := by omega
      have ht := fanToList_triangle p.fill (p.nfill - 2).toNat 2 off c0.verts m hlt
      have e : (2 : Int) + m = i := by omega
      rw [hm, ht.1, ht.2.1, ht.2.2, e]
      exact ⟨rfl, rfl, rfl⟩
    · intro j hj
      exact fanToList_outside _ _ _ _ _ _ (Or.inl hj)
    · intro j hj
      have hmax : max p.nstroke 0 = 0 := max_eq_right (by omega)
      exact fanToList_outside _ _ _ _ _ _ (Or.inr (by omega))


/-- The expansion at a concrete input: the sub-path loop run on a triangle (3 fan points, 2 stroke
points) followed by a pentagon (5 fan points): the pentagon's range starts at
vertex 5, holds 9 vertices, and its first triangle is `fan[1]`, `fan[2]`,
`fan[0]`. -/
theorem fill_fan_to_list_witness :
    ((fillCopyPaths 0 ([exampleTriangle] ++ [examplePentagon]) 0 exampleCtx 0).1.paths
        (0 + ([exampleTriangle].length : Int))).fillCount = 3 * (examplePentagon.nfill - 2)
    ∧ (fillCopyPaths 0 [exampleTriangle] 0 exampleCtx 0).2 = 5
    ∧ (fillCopyPaths 0 ([exampleTriangle] ++ [examplePentagon]) 0 exampleCtx 0).1.verts
        ((fillCopyPaths 0 [exampleTriangle] 0 exampleCtx 0).2 + 3 * (2 - 2))
      = examplePentagon.fill (2 - 1) :=
  have h := fill_fan_to_list 0 [exampleTriangle] examplePentagon exampleCtx 0 (by decide)
  ⟨h.2.1, by decide, (h.2.2.1 2 (by decide) (by decide)).1⟩

/-! ## Theorems: what each operation leaves unchanged -/

theorem INTERNAL_allocCall_frame (ok : Bool) (gl : RenderContext) :
    (INTERNAL_allocCall ok gl).2.flags = gl.flags
    ∧ (INTERNAL_allocCall ok gl).2.vertexBuffer = gl.vertexBuffer
    ∧ (INTERNAL_allocCall ok gl).2.vertexBufferSize = gl.vertexBufferSize
    ∧ (INTERNAL_allocCall ok gl).2.textures = gl.textures
    ∧ (INTERNAL_allocCall ok gl).2.paths = gl.paths
    ∧ (INTERNAL_allocCall ok gl).2.cpaths = gl.cpaths
    ∧ (INTERNAL_allocCall ok gl).2.npaths = gl.npaths
    ∧ (INTERNAL_allocCall ok gl).2.verts = gl.verts
    ∧ (INTERNAL_allocCall ok gl).2.cverts = gl.cverts
    ∧ (INTERNAL_allocCall ok gl).2.nverts = gl.nverts
    ∧ (INTERNAL_allocCall ok gl).2.uniforms = gl.uniforms
    ∧ (INTERNAL_allocCall ok gl).2.cuniforms = gl.cuniforms
    ∧ (INTERNAL_allocCall ok gl).2.nuniforms = gl.nuniforms
    ∧ (INTERNAL_allocCall ok gl).2.fragSize = gl.fragSize := by
  unfold INTERNAL_allocCall
  split_ifs <;> simp

theorem INTERNAL_allocPaths_frame (ok : Bool) (gl : RenderContext) (n : Int) :
    (INTERNAL_allocPaths ok gl n).2.flags = gl.flags
    ∧ (INTERNAL_allocPaths ok gl n).2.vertexBuffer = gl.vertexBuffer
    ∧ (INTERNAL_allocPaths ok gl n).2.vertexBufferSize = gl.vertexBufferSize
    ∧ (INTERNAL_allocPaths ok gl n).2.textures = gl.textures
    ∧ (INTERNAL_allocPaths ok gl n).2.calls = gl.calls
    ∧ (INTERNAL_allocPaths ok gl n).2.ccalls = gl.ccalls
    ∧ (INTERNAL_allocPaths ok gl n).2.ncalls = gl.ncalls
    ∧ (INTERNAL_allocPaths ok gl n).2.paths = gl.paths
    ∧ (INTERNAL_allocPaths ok gl n).2.verts = gl.verts
    ∧ (INTERNAL_allocPaths ok gl n).2.cverts = gl.cverts
    ∧ (INTERNAL_allocPaths ok gl n).2.nverts = gl.nverts
    ∧ (INTERNAL_allocPaths ok gl n).2.uniforms = gl.uniforms
    ∧ (INTERNAL_allocPaths ok gl n).2.cuniforms = gl.cuniforms
    ∧ (INTERNAL_allocPaths ok gl n).2.nuniforms = gl.nuniforms
    ∧ (INTERNAL_allocPaths ok gl n).2.fragSize = gl.fragSize := by
  unfold INTERNAL_allocPaths
  split_ifs <;> simp

theorem INTERNAL_allocVerts_frame (ok : Bool) (gl : RenderContext) (n : Int) :
    (INTERNAL_allocVerts ok gl n).2.flags = gl.flags
    ∧ (INTERNAL_allocVerts ok gl n).2.vertexBuffer = gl.vertexBuffer
    ∧ (INTERNAL_allocVerts ok gl n).2.vertexBufferSize = gl.vertexBufferSize
    ∧ (INTERNAL_allocVerts ok gl n).2.textures = gl.textures
    ∧ (INTERNAL_allocVerts ok gl n).2.calls = gl.calls
    ∧ (INTERNAL_allocVerts ok gl n).2.ccalls = gl.ccalls
    ∧ (INTERNAL_allocVerts ok gl n).2.ncalls = gl.ncalls
    ∧ (INTERNAL_allocVerts ok gl n).2.paths = gl.paths
    ∧ (INTERNAL_allocVerts ok gl n).2.cpaths = gl.cpaths
    ∧ (INTERNAL_allocVerts ok gl n).2.npaths = gl.npaths
    ∧ (INTERNAL_allocVerts ok gl n).2.verts = gl.verts
    ∧ (INTERNAL_allocVerts ok gl n).2.uniforms = gl.uniforms
    ∧ (INTERNAL_allocVerts ok gl n).2.cuniforms = gl.cuniforms
    ∧ (INTERNAL_allocVerts ok gl n).2.nuniforms = gl.nuniforms
    ∧ (INTERNAL_allocVerts ok gl n).2.fragSize = gl.fragSize := by
  unfold INTERNAL_allocVerts
  split_ifs <;> simp

theorem INTERNAL_allocFragUniforms_frame (ok : Bool) (gl : RenderContext) (n : Int) :
    (INTERNAL_allocFragUniforms ok gl n).2.flags = gl.flags
    ∧ (INTERNAL_allocFragUniforms ok gl n).2.vertexBuffer = gl.vertexBuffer
    ∧ (INTERNAL_allocFragUniforms ok gl n).2.vertexBufferSize = gl.vertexBufferSize
    ∧ (INTERNAL_allocFragUniforms ok gl n).2.textures = gl.textures
    ∧ (INTERNAL_allocFragUniforms ok gl n).2.calls = gl.calls
    ∧ (INTERNAL_allocFragUniforms ok gl n).2.ccalls = gl.ccalls
    ∧ (INTERNAL_allocFragUniforms ok gl n).2.ncalls = gl.ncalls
    ∧ (INTERNAL_allocFragUniforms ok gl n).2.paths = gl.paths
    ∧ (INTERNAL_allocFragUniforms ok gl n).2.cpaths = gl.cpaths
    ∧ (INTERNAL_allocFragUniforms ok gl n).2.npaths = gl.npaths
    ∧ (INTERNAL_allocFragUniforms ok gl n).2.verts = gl.verts
    ∧ (INTERNAL_allocFragUniforms ok gl n).2.cverts = gl.cverts
    ∧ (INTERNAL_allocFragUniforms ok gl n).2.nverts = gl.nverts
    ∧ (INTERNAL_allocFragUniforms ok gl n).2.uniforms = gl.uniforms
    ∧ (INTERNAL_allocFragUniforms ok gl n).2.fragSize = gl.fragSize := by
  unfold INTERNAL_allocFragUniforms
  split_ifs <;> simp

theorem rollbackCall_frame (ctx : RenderContext) :
    (rollbackCall ctx).flags = ctx.flags
    ∧ (rollbackCall ctx).vertexBuffer = ctx.vertexBuffer
    ∧ (rollbackCall ctx).vertexBufferSize = ctx.vertexBufferSize
    ∧ (rollbackCall ctx).textures = ctx.textures
    ∧ (rollbackCall ctx).calls = ctx.calls
    ∧ (rollbackCall ctx).ccalls = ctx.ccalls
    ∧ (rollbackCall ctx).paths = ctx.paths
    ∧ (rollbackCall ctx).cpaths = ctx.cpaths
    ∧ (rollbackCall ctx).npaths = ctx.npaths
    ∧ (rollbackCall ctx).verts = ctx.verts
    ∧ (rollbackCall ctx).cverts = ctx.cverts
    ∧ (rollbackCall ctx).nverts = ctx.nverts
    ∧ (rollbackCall ctx).uniforms = ctx.uniforms
    ∧ (rollbackCall ctx).cuniforms = ctx.cuniforms
    ∧ (rollbackCall ctx).nuniforms = ctx.nuniforms
    ∧ (rollbackCall ctx).fragSize = ctx.fragSize := by
  unfold rollbackCall
  split_ifs <;> simp

theorem fillCopyPaths_frame (pathOffset : Int) (l : List NVGpath) :
    ∀ (i : Int) (ctx : RenderContext) (offset : Int),
      (fillCopyPaths pathOffset l i ctx offset).1.flags = ctx.flags
      ∧ (fillCopyPaths pathOffset l i ctx offset).1.vertexBuffer = ctx.vertexBuffer
      ∧ (fillCopyPaths pathOffset l i ctx offset).1.vertexBufferSize = ctx.vertexBufferSize
      ∧ (fillCopyPaths pathOffset l i ctx offset).1.textures = ctx.textures
      ∧ (fillCopyPaths pathOffset l i ctx offset).1.calls = ctx.calls
      ∧ (fillCopyPaths pathOffset l i ctx offset).1.ccalls = ctx.ccalls
      ∧ (fillCopyPaths pathOffset l i ctx offset).1.ncalls = ctx.ncalls
      ∧ (fillCopyPaths pathOffset l i ctx offset).1.cpaths = ctx.cpaths
      ∧ (fillCopyPaths pathOffset l i ctx offset).1.npaths = ctx.npaths
      ∧ (fillCopyPaths pathOffset l i ctx offset).1.cverts = ctx.cverts
      ∧ (fillCopyPaths pathOffset l i ctx offset).1.nverts = ctx.nverts
      ∧ (fillCopyPaths pathOffset l i ctx offset).1.uniforms = ctx.uniforms
      ∧ (fillCopyPaths pathOffset l i ctx offset).1.cuniforms = ctx.cuniforms
      ∧ (fillCopyPaths pathOffset l i ctx offset).1.nuniforms = ctx.nuniforms
      ∧ (fillCopyPaths pathOffset l i ctx offset).1.fragSize = ctx.fragSize := by
  induction l with
  | nil => intro i ctx offset; simp [fillCopyPaths]
  | cons p rest ih =>
    intro i ctx offset
    rw [fillCopyPaths]
    simpa using ih (i + 1) _ _

theorem strokeCopyPaths_frame (pathOffset : Int) (l : List NVGpath) :
    ∀ (i : Int) (ctx : RenderContext) (offset : Int),
      (strokeCopyPaths pathOffset l i ctx offset).1.flags = ctx.flags
      ∧ (strokeCopyPaths pathOffset l i ctx offset).1.vertexBuffer = ctx.vertexBuffer
      ∧ (strokeCopyPaths pathOffset l i ctx offset).1.vertexBufferSize = ctx.vertexBufferSize
      ∧ (strokeCopyPaths pathOffset l i ctx offset).1.textures = ctx.textures
      ∧ (strokeCopyPaths pathOffset l i ctx offset).1.calls = ctx.calls
      ∧ (strokeCopyPaths pathOffset l i ctx offset).1.ccalls = ctx.ccalls
      ∧ (strokeCopyPaths pathOffset l i ctx offset).1.ncalls = ctx.ncalls
      ∧ (strokeCopyPaths pathOffset l i ctx offset).1.cpaths = ctx.cpaths
      ∧ (strokeCopyPaths pathOffset l i ctx offset).1.npaths = ctx.npaths
      ∧ (strokeCopyPaths pathOffset l i ctx offset).1.cverts = ctx.cverts
      ∧ (strokeCopyPaths pathOffset l i ctx offset).1.nverts = ctx.nverts
      ∧ (strokeCopyPaths pathOffset l i ctx offset).1.uniforms = ctx.uniforms
      ∧ (strokeCopyPaths pathOffset l i ctx offset).1.cuniforms = ctx.cuniforms
      ∧ (strokeCopyPaths pathOffset l i ctx offset).1.nuniforms = ctx.nuniforms
      ∧ (strokeCopyPaths pathOffset l i ctx offset).1.fragSize = ctx.fragSize := by
  induction l with
  | nil => intro i ctx offset; simp [strokeCopyPaths]
  | cons p rest ih =>
    intro i ctx offset
    rw [strokeCopyPaths]
    simpa using ih (i + 1) _ _

theorem INTERNAL_allocCall_fst (ok : Bool) (gl : RenderContext) :
    (INTERNAL_allocCall ok gl).1
      = if gl.ncalls = gl.ccalls ∧ ok = false then none else some gl.ncalls := by
  unfold INTERNAL_allocCall
  split_ifs <;> simp_all

theorem INTERNAL_allocCall_snd (ok : Bool) (gl : RenderContext) :
    (INTERNAL_allocCall ok gl).2.ncalls
        = (if gl.ncalls = gl.ccalls ∧ ok = false then gl.ncalls else gl.ncalls + 1)
    ∧ (INTERNAL_allocCall ok gl).2.calls
        = (if gl.ncalls = gl.ccalls ∧ ok = false then gl.calls
            else poke gl.calls gl.ncalls RenderDrawCall.zero) := by
  unfold INTERNAL_allocCall
  split_ifs <;> simp_all

theorem INTERNAL_allocCall_none (ok : Bool) (gl : RenderContext)
    (h : (INTERNAL_allocCall ok gl).1 = none) : (INTERNAL_allocCall ok gl).2 = gl := by
  unfold INTERNAL_allocCall at h ⊢
  split_ifs at h ⊢
  simp_all

theorem INTERNAL_allocPaths_fst (ok : Bool) (gl : RenderContext) (n : Int) :
    (INTERNAL_allocPaths ok gl n).1
      = if gl.npaths = gl.cpaths ∧ ok = false then -1 else gl.npaths := by
  unfold INTERNAL_allocPaths
  split_ifs <;> simp_all

theorem INTERNAL_allocVerts_fst (ok : Bool) (gl : RenderContext) (n : Int) :
    (INTERNAL_allocVerts ok gl n).1
      = if gl.nverts + n > gl.cverts ∧ ok = false then -1 else gl.nverts := by
  unfold INTERNAL_allocVerts
  split_ifs <;> simp_all

theorem INTERNAL_allocFragUniforms_fst (ok : Bool) (gl : RenderContext) (n : Int) :
    (INTERNAL_allocFragUniforms ok gl n).1
      = if gl.nuniforms + n > gl.cuniforms ∧ ok = false then -1
        else gl.nuniforms * gl.fragSize := by
  unfold INTERNAL_allocFragUniforms
  split_ifs <;> simp_all


theorem rollbackCall_ncalls (ctx : RenderContext) :
    (rollbackCall ctx).ncalls = if ctx.ncalls > 0 then ctx.ncalls - 1 else ctx.ncalls := by
  unfold rollbackCall
  split_ifs <;> rfl

theorem INTERNAL_allocCall_some (ok : Bool) (gl gl1 : RenderContext) (ci : Int)
    (h : INTERNAL_allocCall ok gl = (some ci, gl1)) :
    ci = gl.ncalls ∧ gl1 = (INTERNAL_allocCall ok gl).2
      ∧ ¬ (gl.ncalls = gl.ccalls ∧ ok = false)
      ∧ (INTERNAL_allocCall ok gl).2.ncalls = gl.ncalls + 1
      ∧ (INTERNAL_allocCall ok gl).2.calls = poke gl.calls gl.ncalls RenderDrawCall.zero := by
  have h1 : (INTERNAL_allocCall ok gl).1 = some ci := by rw [h]
  have h2 : gl1 = (INTERNAL_allocCall ok gl).2 := by rw [h]
  have hs := INTERNAL_allocCall_snd ok gl
  rw [INTERNAL_allocCall_fst] at h1
  split_ifs at h1 with hfail
  rw [if_neg hfail, if_neg hfail] at hs
  simp only [Option.some.injEq] at h1
  exact ⟨h1.symm, h2, hfail, hs.1, hs.2⟩

theorem INTERNAL_allocCall_none_eq (ok : Bool) (gl gl0 : RenderContext)
    (h : INTERNAL_allocCall ok gl = (none, gl0)) :
    gl0 = gl ∧ (gl.ncalls = gl.ccalls ∧ ok = false) := by
  have h1 : (INTERNAL_allocCall ok gl).1 = none := by rw [h]
  have h2 : gl0 = (INTERNAL_allocCall ok gl).2 := by rw [h]
  refine ⟨by rw [h2]; exact INTERNAL_allocCall_none ok gl h1, ?_⟩
  rw [INTERNAL_allocCall_fst] at h1
  by_contra hc
  rw [if_neg hc] at h1
  exact absurd h1 (by simp)

/-! ## Theorems: the three submit operations, case by case -/

theorem nvg_gpu_renderTriangles_summary (nv : Nanovg) (o : ReallocOracle) (gl : RenderContext)
    (paint : NVGpaint) (op : NVGcompositeOperationState)
    (scissor : NVGscissor) (verts : Int → NVGvertex) (nverts : Int) (fringe : ℚ) :
    (∀ j, j ≠ gl.ncalls →
      (nvg_gpu_renderTriangles nv o gl paint op scissor verts nverts fringe).calls j = gl.calls j)
    ∧ (((INTERNAL_allocCall o.calls gl).1 = none
        ∧ nvg_gpu_renderTriangles nv o gl paint op scissor verts nverts fringe = gl)
      ∨ ((INTERNAL_allocCall o.calls gl).1 ≠ none
        ∧ ((INTERNAL_allocVerts o.verts gl nverts).1 = -1
          ∨ (INTERNAL_allocFragUniforms o.uniforms gl 1).1 = -1)
        ∧ (nvg_gpu_renderTriangles nv o gl paint op scissor verts nverts fringe).ncalls
          = if gl.ncalls + 1 > 0 then gl.ncalls else gl.ncalls + 1)
      ∨ ((INTERNAL_allocCall o.calls gl).1 ≠ none
        ∧ (INTERNAL_allocVerts o.verts gl nverts).1 ≠ -1
        ∧ (INTERNAL_allocFragUniforms o.uniforms gl 1).1 ≠ -1
        ∧ (nvg_gpu_renderTriangles nv o gl paint op scissor verts nverts fringe).ncalls
          = gl.ncalls + 1
        ∧ ((nvg_gpu_renderTriangles nv o gl paint op scissor verts nverts fringe).calls
            gl.ncalls).blendOp = op)) := by
  unfold nvg_gpu_renderTriangles
  split
  · rename_i gl0 heq
    obtain ⟨h1, h2⟩ := INTERNAL_allocCall_none_eq _ _ _ heq
    subst h1
    refine ⟨fun _ _ => rfl, Or.inl ⟨by rw [heq], rfl⟩⟩
  · rename_i ci gl1 heq
    obtain ⟨h1, h2, h3, h4, h5⟩ := INTERNAL_allocCall_some _ _ _ _ heq
    have hc : (INTERNAL_allocCall o.calls gl).1 ≠ none := by rw [heq]; simp
    subst h1 h2
    clear heq
    have e1 : (INTERNAL_allocVerts o.verts (INTERNAL_allocCall o.calls gl).2 nverts).1
        = (INTERNAL_allocVerts o.verts gl nverts).1 := by
      simp only [INTERNAL_allocVerts_fst, INTERNAL_allocCall_frame]
    have e2 : ∀ V, (INTERNAL_allocFragUniforms o.uniforms
        { (INTERNAL_allocVerts o.verts (INTERNAL_allocCall o.calls gl).2 nverts).2 with
            verts := V } 1).1
        = (INTERNAL_allocFragUniforms o.uniforms gl 1).1 := by
      intro V
      simp only [INTERNAL_allocFragUniforms_fst, INTERNAL_allocCall_frame,
        INTERNAL_allocVerts_frame]
    simp only [e1, e2]
    by_cases hv : (INTERNAL_allocVerts o.verts gl nverts).1 = -1
    · simp only [hv, if_true]
      refine ⟨fun j hj => ?_, Or.inr (Or.inl ⟨hc, Or.inl trivial, ?_⟩)⟩
      · simp only [rollbackCall_frame, INTERNAL_allocVerts_frame, h5]
        rw [poke_other _ _ _ _ hj, poke_other _ _ _ _ hj]
      · simp only [rollbackCall_ncalls, INTERNAL_allocVerts_frame, h4]
        split_ifs <;> omega
    · simp only [hv, if_false]
      by_cases hu : (INTERNAL_allocFragUniforms o.uniforms gl 1).1 = -1
      · simp only [hu, if_true]
        refine ⟨fun j hj => ?_, Or.inr (Or.inl ⟨hc, Or.inr trivial, ?_⟩)⟩
        · simp only [rollbackCall_frame, INTERNAL_allocVerts_frame,
            INTERNAL_allocFragUniforms_frame, h5]
          rw [poke_other _ _ _ _ hj, poke_other _ _ _ _ hj]
        · simp only [rollbackCall_ncalls, INTERNAL_allocVerts_frame,
            INTERNAL_allocFragUniforms_frame, h4]
          split_ifs <;> omega
      · simp only [hu, if_false]
        refine ⟨fun j hj => ?_, Or.inr (Or.inr ⟨hc, hv, hu, ?_, ?_⟩)⟩
        · simp only [INTERNAL_allocVerts_frame, INTERNAL_allocFragUniforms_frame, h5]
          rw [poke_other _ _ _ _ hj, poke_other _ _ _ _ hj]
        · simp only [INTERNAL_allocVerts_frame, INTERNAL_allocFragUniforms_frame, h4]
        · simp only [poke_same]


theorem nvg_gpu_renderStroke_summary (nv : Nanovg) (o : ReallocOracle) (gl : RenderContext)
    (paint : NVGpaint) (op : NVGcompositeOperationState)
    (scissor : NVGscissor) (fringe strokeWidth : ℚ) (paths : List NVGpath) :
    (∀ j, j ≠ gl.ncalls →
      (nvg_gpu_renderStroke nv o gl paint op scissor fringe strokeWidth paths).calls j
        = gl.calls j)
    ∧ (((INTERNAL_allocCall o.calls gl).1 = none
        ∧ nvg_gpu_renderStroke nv o gl paint op scissor fringe strokeWidth paths = gl)
      ∨ ((INTERNAL_allocCall o.calls gl).1 ≠ none
        ∧ ((INTERNAL_allocPaths o.paths gl paths.length).1 = -1
          ∨ (INTERNAL_allocVerts o.verts gl (INTERNAL_maxVertCount paths)).1 = -1
          ∨ (INTERNAL_allocFragUniforms o.uniforms gl
              (if (gl.flags &&& NVG_STENCIL_STROKES) ≠ 0 then 2 else 1)).1 = -1)
        ∧ (nvg_gpu_renderStroke nv o gl paint op scissor fringe strokeWidth paths).ncalls
          = if gl.ncalls + 1 > 0 then gl.ncalls else gl.ncalls + 1)
      ∨ ((INTERNAL_allocCall o.calls gl).1 ≠ none
        ∧ (INTERNAL_allocPaths o.paths gl paths.length).1 ≠ -1
        ∧ (INTERNAL_allocVerts o.verts gl (INTERNAL_maxVertCount paths)).1 ≠ -1
        ∧ (INTERNAL_allocFragUniforms o.uniforms gl
              (if (gl.flags &&& NVG_STENCIL_STROKES) ≠ 0 then 2 else 1)).1 ≠ -1
        ∧ (nvg_gpu_renderStroke nv o gl paint op scissor fringe strokeWidth paths).ncalls
          = gl.ncalls + 1
        ∧ ((nvg_gpu_renderStroke nv o gl paint op scissor fringe strokeWidth paths).calls
            gl.ncalls).blendOp = op)) := by
  unfold nvg_gpu_renderStroke
  split
  · rename_i gl0 heq
    obtain ⟨h1, h2⟩ := INTERNAL_allocCall_none_eq _ _ _ heq
    subst h1
    refine ⟨fun _ _ => rfl, Or.inl ⟨by rw [heq], rfl⟩⟩
  · rename_i ci gl1 heq
    obtain ⟨h1, h2, h3, h4, h5⟩ := INTERNAL_allocCall_some _ _ _ _ heq
    have hc : (INTERNAL_allocCall o.calls gl).1 ≠ none := by rw [heq]; simp
    subst h1 h2
    clear heq
    have ep : ∀ n, (INTERNAL_allocPaths o.paths (INTERNAL_allocCall o.calls gl).2 n).1
        = (INTERNAL_allocPaths o.paths gl n).1 := by
      intro n
      simp only [INTERNAL_allocPaths_fst, INTERNAL_allocCall_frame]
    have ev : ∀ n m, (INTERNAL_allocVerts o.verts
        (INTERNAL_allocPaths o.paths (INTERNAL_allocCall o.calls gl).2 n).2 m).1
        = (INTERNAL_allocVerts o.verts gl m).1 := by
      intro n m
      simp only [INTERNAL_allocVerts_fst, INTERNAL_allocCall_frame, INTERNAL_allocPaths_frame]
    have eu : ∀ n m po off k, (INTERNAL_allocFragUniforms o.uniforms
        (strokeCopyPaths po paths 0 (INTERNAL_allocVerts o.verts
          (INTERNAL_allocPaths o.paths (INTERNAL_allocCall o.calls gl).2 n).2 m).2 off).1 k).1
        = (INTERNAL_allocFragUniforms o.uniforms gl k).1 := by
      intro n m po off k
      simp only [INTERNAL_allocFragUniforms_fst, INTERNAL_allocCall_frame,
        INTERNAL_allocPaths_frame, INTERNAL_allocVerts_frame, strokeCopyPaths_frame]
    have ef : ∀ n m po off, (strokeCopyPaths po paths 0 (INTERNAL_allocVerts o.verts
          (INTERNAL_allocPaths o.paths (INTERNAL_allocCall o.calls gl).2 n).2 m).2 off).1.flags
        = gl.flags := by
      intro n m po off
      simp only [INTERNAL_allocCall_frame,
        INTERNAL_allocPaths_frame, INTERNAL_allocVerts_frame, strokeCopyPaths_frame]
    simp only [ep, ev, eu, ef]
    by_cases hp : (INTERNAL_allocPaths o.paths gl paths.length).1 = -1
    · simp only [hp, if_true]
      refine ⟨fun j hj => ?_, Or.inr (Or.inl ⟨hc, Or.inl trivial, ?_⟩)⟩
      · simp only [rollbackCall_frame, INTERNAL_allocPaths_frame, h5]
        rw [poke_other _ _ _ _ hj, poke_other _ _ _ _ hj]
      · simp only [rollbackCall_ncalls, INTERNAL_allocPaths_frame, h4]
        split_ifs <;> omega
    · simp only [hp, if_false]
      by_cases hv : (INTERNAL_allocVerts o.verts gl (INTERNAL_maxVertCount paths)).1 = -1
      · simp only [hv, if_true]
        refine ⟨fun j hj => ?_, Or.inr (Or.inl ⟨hc, Or.inr (Or.inl trivial), ?_⟩)⟩
        · simp only [rollbackCall_frame, INTERNAL_allocPaths_frame,
            INTERNAL_allocVerts_frame, h5]
          rw [poke_other _ _ _ _ hj, poke_other _ _ _ _ hj]
        · simp only [rollbackCall_ncalls, INTERNAL_allocPaths_frame,
            INTERNAL_allocVerts_frame, h4]
          split_ifs <;> omega
      · simp only [hv, if_false]
        by_cases hf : (gl.flags &&& NVG_STENCIL_STROKES) ≠ 0
        · simp only [if_pos hf]
          by_cases hu : (INTERNAL_allocFragUniforms o.uniforms gl 2).1 = -1
          · simp only [hu, if_true]
            refine ⟨fun j hj => ?_, Or.inr (Or.inl ⟨hc, Or.inr (Or.inr trivial), ?_⟩)⟩
            · simp only [rollbackCall_frame, INTERNAL_allocPaths_frame,
                INTERNAL_allocVerts_frame, INTERNAL_allocFragUniforms_frame,
                strokeCopyPaths_frame, h5]
              rw [poke_other _ _ _ _ hj, poke_other _ _ _ _ hj]
            · simp only [rollbackCall_ncalls, INTERNAL_allocPaths_frame,
                INTERNAL_allocVerts_frame, INTERNAL_allocFragUniforms_frame,
                strokeCopyPaths_frame, h4]
              split_ifs <;> omega
          · simp only [hu, if_false]
            refine ⟨fun j hj => ?_, Or.inr (Or.inr ⟨hc, hp, hv, hu, ?_, ?_⟩)⟩
            · simp only [INTERNAL_allocPaths_frame,
                INTERNAL_allocVerts_frame, INTERNAL_allocFragUniforms_frame,
                strokeCopyPaths_frame, h5]
              rw [poke_other _ _ _ _ hj, poke_other _ _ _ _ hj]
            · simp only [INTERNAL_allocPaths_frame,
                INTERNAL_allocVerts_frame, INTERNAL_allocFragUniforms_frame,
                strokeCopyPaths_frame, h4]
            · simp only [poke_same]
        · simp only [if_neg hf]
          by_cases hu : (INTERNAL_allocFragUniforms o.uniforms gl 1).1 = -1
          · simp only [hu, if_true]
            refine ⟨fun j hj => ?_, Or.inr (Or.inl ⟨hc, Or.inr (Or.inr trivial), ?_⟩)⟩
            · simp only [rollbackCall_frame, INTERNAL_allocPaths_frame,
                INTERNAL_allocVerts_frame, INTERNAL_allocFragUniforms_frame,
                strokeCopyPaths_frame, h5]
              rw [poke_other _ _ _ _ hj, poke_other _ _ _ _ hj]
            · simp only [rollbackCall_ncalls, INTERNAL_allocPaths_frame,
                INTERNAL_allocVerts_frame, INTERNAL_allocFragUniforms_frame,
                strokeCopyPaths_frame, h4]
              split_ifs <;> omega
          · simp only [hu, if_false]
            refine ⟨fun j hj => ?_, Or.inr (Or.inr ⟨hc, hp, hv, hu, ?_, ?_⟩)⟩
            · simp only [INTERNAL_allocPaths_frame,
                INTERNAL_allocVerts_frame, INTERNAL_allocFragUniforms_frame,
                strokeCopyPaths_frame, h5]
              rw [poke_other _ _ _ _ hj, poke_other _ _ _ _ hj]
            · simp only [INTERNAL_allocPaths_frame,
                INTERNAL_allocVerts_frame, INTERNAL_allocFragUniforms_frame,
                strokeCopyPaths_frame, h4]
            · simp only [poke_same]


theorem nvg_gpu_renderFill_summary (nv : Nanovg) (o : ReallocOracle) (ctx : RenderContext)
    (paint : NVGpaint) (op : NVGcompositeOperationState)
    (scissor : NVGscissor) (fringe : ℚ) (bounds : Fin 4 → ℚ) (paths : List NVGpath) :
    (∀ j, j ≠ ctx.ncalls →
      (nvg_gpu_renderFill nv o ctx paint op scissor fringe bounds paths).calls j
        = ctx.calls j)
    ∧ (((INTERNAL_allocCall o.calls ctx).1 = none
        ∧ nvg_gpu_renderFill nv o ctx paint op scissor fringe bounds paths = ctx)
      ∨ ((INTERNAL_allocCall o.calls ctx).1 ≠ none
        ∧ ((INTERNAL_allocPaths o.paths ctx paths.length).1 = -1
          ∨ (INTERNAL_allocVerts o.verts ctx
              (INTERNAL_maxVertCount paths + if isSingleConvex paths = true then 0 else 4)).1 = -1
          ∨ (INTERNAL_allocFragUniforms o.uniforms ctx
              (if isSingleConvex paths = true then 1 else 2)).1 = -1)
        ∧ (nvg_gpu_renderFill nv o ctx paint op scissor fringe bounds paths).ncalls
          = if ctx.ncalls + 1 > 0 then ctx.ncalls else ctx.ncalls + 1)
      ∨ ((INTERNAL_allocCall o.calls ctx).1 ≠ none
        ∧ (INTERNAL_allocPaths o.paths ctx paths.length).1 ≠ -1
        ∧ (INTERNAL_allocVerts o.verts ctx
              (INTERNAL_maxVertCount paths + if isSingleConvex paths = true then 0 else 4)).1 ≠ -1
        ∧ (INTERNAL_allocFragUniforms o.uniforms ctx
              (if isSingleConvex paths = true then 1 else 2)).1 ≠ -1
        ∧ (nvg_gpu_renderFill nv o ctx paint op scissor fringe bounds paths).ncalls
          = ctx.ncalls + 1
        ∧ ((nvg_gpu_renderFill nv o ctx paint op scissor fringe bounds paths).calls
            ctx.ncalls).blendOp = op)) := by
  unfold nvg_gpu_renderFill
  split
  · rename_i gl0 heq
    obtain ⟨h1, h2⟩ := INTERNAL_allocCall_none_eq _ _ _ heq
    subst h1
    refine ⟨fun _ _ => rfl, Or.inl ⟨by rw [heq], rfl⟩⟩
  · rename_i ci gl1 heq
    obtain ⟨h1, h2, h3, h4, h5⟩ := INTERNAL_allocCall_some _ _ _ _ heq
    have hc : (INTERNAL_allocCall o.calls ctx).1 ≠ none := by rw [heq]; simp
    subst h1 h2
    clear heq
    have ep : ∀ n, (INTERNAL_allocPaths o.paths (INTERNAL_allocCall o.calls ctx).2 n).1
        = (INTERNAL_allocPaths o.paths ctx n).1 := by
      intro n
      simp only [INTERNAL_allocPaths_fst, INTERNAL_allocCall_frame]
    have ev : ∀ n m, (INTERNAL_allocVerts o.verts
        (INTERNAL_allocPaths o.paths (INTERNAL_allocCall o.calls ctx).2 n).2 m).1
        = (INTERNAL_allocVerts o.verts ctx m).1 := by
      intro n m
      simp only [INTERNAL_allocVerts_fst, INTERNAL_allocCall_frame, INTERNAL_allocPaths_frame]
    have eu : ∀ n m po off k, (INTERNAL_allocFragUniforms o.uniforms
        (fillCopyPaths po paths 0 (INTERNAL_allocVerts o.verts
          (INTERNAL_allocPaths o.paths (INTERNAL_allocCall o.calls ctx).2 n).2 m).2 off).1 k).1
        = (INTERNAL_allocFragUniforms o.uniforms ctx k).1 := by
      intro n m po off k
      simp only [INTERNAL_allocFragUniforms_fst, INTERNAL_allocCall_frame,
        INTERNAL_allocPaths_frame, INTERNAL_allocVerts_frame, fillCopyPaths_frame]
    have eu2 : ∀ n m po off k V, (INTERNAL_allocFragUniforms o.uniforms
        { (fillCopyPaths po paths 0 (INTERNAL_allocVerts o.verts
          (INTERNAL_allocPaths o.paths (INTERNAL_allocCall o.calls ctx).2 n).2 m).2 off).1 with
          verts := V } k).1
        = (INTERNAL_allocFragUniforms o.uniforms ctx k).1 := by
      intro n m po off k V
      simp only [INTERNAL_allocFragUniforms_fst, INTERNAL_allocCall_frame,
        INTERNAL_allocPaths_frame, INTERNAL_allocVerts_frame, fillCopyPaths_frame]
    simp only [ep, ev, eu, eu2]
    by_cases hp : (INTERNAL_allocPaths o.paths ctx paths.length).1 = -1
    · simp only [hp, if_true]
      refine ⟨fun j hj => ?_, Or.inr (Or.inl ⟨hc, Or.inl trivial, ?_⟩)⟩
      · simp only [rollbackCall_frame, INTERNAL_allocPaths_frame, h5]
        rw [poke_other _ _ _ _ hj, poke_other _ _ _ _ hj]
      · simp only [rollbackCall_ncalls, INTERNAL_allocPaths_frame, h4]
        split_ifs <;> omega
    · simp only [hp, if_false]
      by_cases hx : isSingleConvex paths = true
      · simp only [hx, if_true, add_zero, reduceCtorEq, if_false]
        by_cases hv : (INTERNAL_allocVerts o.verts ctx (INTERNAL_maxVertCount paths)).1 = -1
        · simp only [hv, if_true]
          refine ⟨fun j hj => ?_, Or.inr (Or.inl ⟨hc, Or.inr (Or.inl trivial), ?_⟩)⟩
          · simp only [rollbackCall_frame, INTERNAL_allocPaths_frame,
              INTERNAL_allocVerts_frame, h5]
            rw [poke_other _ _ _ _ hj, poke_other _ _ _ _ hj]
          · simp only [rollbackCall_ncalls, INTERNAL_allocPaths_frame,
              INTERNAL_allocVerts_frame, h4]
            split_ifs <;> omega
        · simp only [hv, if_false]
          by_cases hu : (INTERNAL_allocFragUniforms o.uniforms ctx 1).1 = -1
          · simp only [hu, if_true]
            refine ⟨fun j hj => ?_, Or.inr (Or.inl ⟨hc, Or.inr (Or.inr trivial), ?_⟩)⟩
            · simp only [rollbackCall_frame, INTERNAL_allocPaths_frame,
                INTERNAL_allocVerts_frame, INTERNAL_allocFragUniforms_frame,
                fillCopyPaths_frame, h5]
              rw [poke_other _ _ _ _ hj, poke_other _ _ _ _ hj]
            · simp only [rollbackCall_ncalls, INTERNAL_allocPaths_frame,
                INTERNAL_allocVerts_frame, INTERNAL_allocFragUniforms_frame,
                fillCopyPaths_frame, h4]
              split_ifs <;> omega
          · simp only [hu, if_false]
            refine ⟨fun j hj => ?_, Or.inr (Or.inr ⟨hc, hp, hv, hu, ?_, ?_⟩)⟩
            · simp only [INTERNAL_allocPaths_frame,
                INTERNAL_allocVerts_frame, INTERNAL_allocFragUniforms_frame,
                fillCopyPaths_frame, h5]
              rw [poke_other _ _ _ _ hj, poke_other _ _ _ _ hj]
            · simp only [INTERNAL_allocPaths_frame,
                INTERNAL_allocVerts_frame, INTERNAL_allocFragUniforms_frame,
                fillCopyPaths_frame, h4]
            · simp only [poke_same]
      · simp only [hx, Bool.false_eq_true, if_false, if_true]
        by_cases hv : (INTERNAL_allocVerts o.verts ctx (INTERNAL_maxVertCount paths + 4)).1 = -1
        · simp only [hv, if_true]
          refine ⟨fun j hj => ?_, Or.inr (Or.inl ⟨hc, Or.inr (Or.inl trivial), ?_⟩)⟩
          · simp only [rollbackCall_frame, INTERNAL_allocPaths_frame,
              INTERNAL_allocVerts_frame, h5]
            rw [poke_other _ _ _ _ hj, poke_other _ _ _ _ hj]
          · simp only [rollbackCall_ncalls, INTERNAL_allocPaths_frame,
              INTERNAL_allocVerts_frame, h4]
            split_ifs <;> omega
        · simp only [hv, if_false]
          by_cases hu : (INTERNAL_allocFragUniforms o.uniforms ctx 2).1 = -1
          · simp only [hu, if_true]
            refine ⟨fun j hj => ?_, Or.inr (Or.inl ⟨hc, Or.inr (Or.inr trivial), ?_⟩)⟩
            · simp only [rollbackCall_frame, INTERNAL_allocPaths_frame,
                INTERNAL_allocVerts_frame, INTERNAL_allocFragUniforms_frame,
                fillCopyPaths_frame, h5]
              rw [poke_other _ _ _ _ hj, poke_other _ _ _ _ hj]
            · simp only [rollbackCall_ncalls, INTERNAL_allocPaths_frame,
                INTERNAL_allocVerts_frame, INTERNAL_allocFragUniforms_frame,
                fillCopyPaths_frame, h4]
              split_ifs <;> omega
          · simp only [hu, if_false]
            refine ⟨fun j hj => ?_, Or.inr (Or.inr ⟨hc, hp, hv, hu, ?_, ?_⟩)⟩
            · simp only [INTERNAL_allocPaths_frame,
                INTERNAL_allocVerts_frame, INTERNAL_allocFragUniforms_frame,
                fillCopyPaths_frame, h5]
              rw [poke_other _ _ _ _ hj, poke_other _ _ _ _ hj]
            · simp only [INTERNAL_allocPaths_frame,
                INTERNAL_allocVerts_frame, INTERNAL_allocFragUniforms_frame,
                fillCopyPaths_frame, h4]
            · simp only [poke_same]

/-! ## Theorems: paint conversion with an unresolved image -/

theorem INTERNAL_findTexture_unresolved (gl : RenderContext) (id : Int)
    (h : id < 0 ∨ id ≥ NVG_MAX_TEXTURES ∨ (gl.textures id).userdata = 0) :
    INTERNAL_findTexture gl id = none := by
  unfold INTERNAL_findTexture
  rcases h with h | h | h
  · rw [if_pos (Or.inl h)]
  · rw [if_pos (Or.inr h)]
  · split_ifs <;> rfl

theorem INTERNAL_findTexture_congr (g1 g2 : RenderContext) (id : Int)
    (h : g1.textures = g2.textures) :
    INTERNAL_findTexture g1 id = INTERNAL_findTexture g2 id := by
  unfold INTERNAL_findTexture
  rw [h]

theorem INTERNAL_convertPaint_fails (nv : Nanovg) (gl : RenderContext) (frag : RenderUniforms)
    (paint : NVGpaint) (scissor : NVGscissor) (width fringe strokeThr : ℚ)
    (himg : paint.image ≠ 0) (hun : INTERNAL_findTexture gl paint.image = none) :
    (INTERNAL_convertPaint nv gl frag paint scissor width fringe strokeThr).1 = 0 := by
  unfold INTERNAL_convertPaint
  simp only [himg, ne_eq, not_false_eq_true, if_true, hun]

/-- C5, as amended: for every paint whose image id is non-zero and unresolved
(negative, at least 128, or naming a slot whose handle is null),
`INTERNAL_convertPaint` returns 0, and the destination block after the call
does not depend on what it held before: it is the zeroed block with the
premultiplied colours, the scissor matrix, extent and scale, the paint extent,
the stroke multiplier and the alpha threshold written, while paint matrix,
radius, feather, texture kind and shader variant are left zero. -/
theorem convertPaint_unresolved_image (nv : Nanovg) (gl : RenderContext)
    (frag : RenderUniforms) (paint : NVGpaint) (scissor : NVGscissor)
    (width fringe strokeThr : ℚ) (himg : paint.image ≠ 0)
    (hun : paint.image < 0 ∨ paint.image ≥ NVG_MAX_TEXTURES
      ∨ (gl.textures paint.image).userdata = 0) :
    (INTERNAL_convertPaint nv gl frag paint scissor width fringe strokeThr).1 = 0
    ∧ (INTERNAL_convertPaint nv gl frag paint scissor width fringe strokeThr).2
      = { scissorMat :=
            if scissor.extent0 < -(1 / 2) ∨ scissor.extent1 < -(1 / 2) then Mat3x4.zero
            else INTERNAL_xformToMat3x4 (nv.nvgTransformInverse scissor.xform),
          paintMat := Mat3x4.zero,
          innerCol := INTERNAL_premulColor paint.innerColor,
          outerCol := INTERNAL_premulColor paint.outerColor,
          scissorExt0 :=
            if scissor.extent0 < -(1 / 2) ∨ scissor.extent1 < -(1 / 2) then 1
            else scissor.extent0,
          scissorExt1 :=
            if scissor.extent0 < -(1 / 2) ∨ scissor.extent1 < -(1 / 2) then 1
            else scissor.extent1,
          scissorScale0 :=
            if scissor.extent0 < -(1 / 2) ∨ scissor.extent1 < -(1 / 2) then 1
            else nv.sqrtf (scissor.xform.t0 * scissor.xform.t0
              + scissor.xform.t2 * scissor.xform.t2) / fringe,
          scissorScale1 :=
            if scissor.extent0 < -(1 / 2) ∨ scissor.extent1 < -(1 / 2) then 1
            else nv.sqrtf (scissor.xform.t1 * scissor.xform.t1
              + scissor.xform.t3 * scissor.xform.t3) / fringe,
          extent0 := paint.extent0,
          extent1 := paint.extent1,
          radius := 0,
          feather := 0,
          strokeMult := (width * (1 / 2) + fringe * (1 / 2)) / fringe,
          strokeThr := strokeThr,
          texType := 0,
          type := 0 } := by
  have hnone := INTERNAL_findTexture_unresolved gl paint.image hun
  refine ⟨INTERNAL_convertPaint_fails nv gl frag paint scissor width fringe strokeThr himg hnone,
    ?_⟩
  unfold INTERNAL_convertPaint
  simp only [himg, ne_eq, not_false_eq_true, if_true, hnone, memsetUniforms,
    RenderUniforms.zero]
  split_ifs <;> rfl

/-- Witness for C5 as amended: the paint naming image 5 on a renderer without
textures, converted over a block that held shader variant 3. -/
theorem convertPaint_unresolved_image_witness :
    (INTERNAL_convertPaint exampleNanovg exampleCtx
        { RenderUniforms.zero with type := RENDERSHADER_IMG }
        examplePaintNoTexture exampleScissor 4 2 (-1)).1 = 0
    ∧ (INTERNAL_convertPaint exampleNanovg exampleCtx
        { RenderUniforms.zero with type := RENDERSHADER_IMG }
        examplePaintNoTexture exampleScissor 4 2 (-1)).2.type = 0
    ∧ (INTERNAL_convertPaint exampleNanovg exampleCtx
        { RenderUniforms.zero with type := RENDERSHADER_IMG }
        examplePaintNoTexture exampleScissor 4 2 (-1)).2.strokeMult = 3 / 2 := by
  have h := convertPaint_unresolved_image exampleNanovg exampleCtx
    { RenderUniforms.zero with type := RENDERSHADER_IMG }
    examplePaintNoTexture exampleScissor 4 2 (-1) (by decide) (Or.inr (Or.inr (by decide)))
  refine ⟨h.1, ?_, ?_⟩
  · rw [h.2]
  · rw [h.2]
    norm_num

/-- C5, refuted as stated: the paint naming image 5 is unresolved on a renderer
without textures, `INTERNAL_convertPaint` returns 0, and the destination
block, all zero before the call, is not all zero after it (its inner colour
is the premultiplied white of the paint). -/
theorem convertPaint_unresolved_writes_block :
    examplePaintNoTexture.image ≠ 0
    ∧ INTERNAL_findTexture exampleCtx examplePaintNoTexture.image = none
    ∧ (INTERNAL_convertPaint exampleNanovg exampleCtx RenderUniforms.zero
        examplePaintNoTexture exampleScissor 4 2 (-1)).1 = 0
    ∧ (INTERNAL_convertPaint exampleNanovg exampleCtx RenderUniforms.zero
        examplePaintNoTexture exampleScissor 4 2 (-1)).2 ≠ RenderUniforms.zero := by
  refine ⟨by decide, by decide, by decide, ?_⟩
  intro h
  have h2 := congrArg (fun b => b.innerCol.r) h
  simp [INTERNAL_convertPaint, examplePaintNoTexture, examplePaint, INTERNAL_findTexture,
    exampleCtx, nvg_gpu_renderCreate, nvgGpuCreate, RenderTexture.zero, NVG_MAX_TEXTURES,
    memsetUniforms, RenderUniforms.zero, INTERNAL_premulColor, NVGcolor.zero] at h2
  split_ifs at h2 <;> simp at h2

/-! ## Theorems: the flush trace -/

theorem INTERNAL_setUniforms_quiet (gl : RenderContext) (uniformOffset image : Int) :
    ∀ e ∈ INTERNAL_setUniforms gl uniformOffset image,
      e.isVertexUpload = false ∧ e.isBlendUpdate = false ∧ e.isDraw = false := by
  intro e he
  unfold INTERNAL_setUniforms at he
  simp only [List.mem_append, List.mem_cons, List.mem_singleton, List.not_mem_nil,
    or_false] at he
  rcases he with (he | he) | he
  · subst he; exact ⟨rfl, rfl, rfl⟩
  · subst he; exact ⟨rfl, rfl, rfl⟩
  · split_ifs at he
    · split at he
      · simp only [List.mem_singleton] at he
        subst he; exact ⟨rfl, rfl, rfl⟩
      · simp at he
    · simp at he

theorem drawFills_quiet (gl : RenderContext) (pathOffset npaths : Int) :
    ∀ e ∈ drawFills gl pathOffset npaths,
      e.isVertexUpload = false ∧ e.isBlendUpdate = false := by
  intro e he
  unfold drawFills at he
  simp only [List.mem_map] at he
  obtain ⟨i, -, rfl⟩ := he
  exact ⟨rfl, rfl⟩

theorem drawStrokes_quiet (gl : RenderContext) (pathOffset npaths : Int) :
    ∀ e ∈ drawStrokes gl pathOffset npaths,
      e.isVertexUpload = false ∧ e.isBlendUpdate = false := by
  intro e he
  unfold drawStrokes at he
  simp only [List.mem_map] at he
  obtain ⟨i, -, rfl⟩ := he
  exact ⟨rfl, rfl⟩

/-- No dispatch of a recorded call uploads the vertex buffer or updates the
blend function. -/
theorem dispatchCall_quiet (ctx : RenderContext) (call : RenderDrawCall) :
    ∀ e ∈ dispatchCall ctx call, e.isVertexUpload = false ∧ e.isBlendUpdate = false := by
  intro e he
  have hu := fun o i h => (INTERNAL_setUniforms_quiet ctx o i e h)
  have hf := fun o n h => (drawFills_quiet ctx o n e h)
  have hs := fun o n h => (drawStrokes_quiet ctx o n e h)
  unfold dispatchCall at he
  split_ifs at he
  · unfold INTERNAL_fill at he
    split_ifs at he <;>
      simp only [List.mem_append, List.mem_cons, List.mem_singleton, List.not_mem_nil,
        or_false] at he <;>
      casesm* _ ∨ _ <;>
      rename_i he <;>
      first
        | (subst he; exact ⟨rfl, rfl⟩)
        | exact ⟨(hu _ _ he).1, (hu _ _ he).2.1⟩
        | exact hf _ _ he
        | exact hs _ _ he
  · unfold INTERNAL_convexFill at he
    simp only [List.mem_append, List.mem_cons, List.mem_singleton, List.not_mem_nil,
      or_false, List.mem_flatMap] at he
    rcases he with (he | he) | ⟨i, -, he | he⟩
    · exact ⟨(hu _ _ he).1, (hu _ _ he).2.1⟩
    · subst he; exact ⟨rfl, rfl⟩
    · subst he; exact ⟨rfl, rfl⟩
    · split_ifs at he
      · simp only [List.mem_singleton] at he
        subst he; exact ⟨rfl, rfl⟩
      · simp at he
  · unfold INTERNAL_stroke at he
    split_ifs at he <;>
      simp only [List.mem_append, List.mem_cons, List.mem_singleton, List.not_mem_nil,
        or_false] at he <;>
      casesm* _ ∨ _ <;>
      rename_i he <;>
      first
        | (subst he; exact ⟨rfl, rfl⟩)
        | exact ⟨(hu _ _ he).1, (hu _ _ he).2.1⟩
        | exact hs _ _ he
  · unfold INTERNAL_triangles at he
    simp only [List.mem_append, List.mem_cons, List.mem_singleton, List.not_mem_nil,
      or_false] at he
    rcases he with he | he
    · exact ⟨(hu _ _ he).1, (hu _ _ he).2.1⟩
    · subst he; exact ⟨rfl, rfl⟩
  · simp at he

theorem flushCalls_eq_flatMap (ctx : RenderContext) :
    ∀ (n : Nat) (i : Int),
      flushCalls ctx n i
        = (List.range n).flatMap fun (k : Nat) =>
            GpuOp.updateBlendFunction (ctx.calls (i + (k : Int))).blendOp
              :: dispatchCall ctx (ctx.calls (i + (k : Int))) := by
  intro n
  induction n with
  | zero => intro i; rfl
  | succ n ih =>
    intro i
    rw [flushCalls, ih, List.range_succ_eq_map, List.flatMap_cons, List.flatMap_map]
    simp only [Nat.cast_zero, add_zero, List.cons_append, List.cons.injEq, true_and,
      List.append_cancel_left_eq]
    congr 1
    funext k
    have e : i + 1 + (k : Int) = i + ((k + 1 : Nat) : Int) := by push_cast; ring
    simp only [Function.comp, Nat.succ_eq_add_one, e]

theorem blendUpdates_append (a b : List GpuOp) :
    blendUpdates (a ++ b) = blendUpdates a ++ blendUpdates b := by
  simp [blendUpdates, List.filterMap_append]

theorem blendUpdates_quiet (l : List GpuOp) (h : ∀ e ∈ l, e.isBlendUpdate = false) :
    blendUpdates l = [] := by
  induction l with
  | nil => rfl
  | cons a rest ih =>
    have ha := h a (by simp)
    have hr := ih (fun e he => h e (by simp [he]))
    unfold blendUpdates at hr ⊢
    cases a <;> simp_all [GpuOp.isBlendUpdate]

theorem blendUpdates_flushCalls (ctx : RenderContext) :
    ∀ (n : Nat) (i : Int),
      blendUpdates (flushCalls ctx n i)
        = (List.range n).map fun (k : Nat) => (ctx.calls (i + (k : Int))).blendOp := by
  intro n
  induction n with
  | zero => intro i; rfl
  | succ n ih =>
    intro i
    rw [flushCalls, blendUpdates_append, ih, List.range_succ_eq_map, List.map_cons,
      List.map_map]
    have h1 : blendUpdates (GpuOp.updateBlendFunction (ctx.calls i).blendOp
        :: dispatchCall ctx (ctx.calls i)) = [(ctx.calls i).blendOp] := by
      have h2 := blendUpdates_quiet _ (fun e he => (dispatchCall_quiet ctx (ctx.calls i) e he).2)
      unfold blendUpdates at h2 ⊢
      simp [h2]
    rw [h1]
    simp only [Nat.cast_zero, add_zero, List.singleton_append, List.cons.injEq, true_and]
    congr 1
    funext k
    have e : i + 1 + (k : Int) = i + ((k + 1 : Nat) : Int) := by push_cast; ring
    simp only [Function.comp, Nat.succ_eq_add_one, e]

theorem flushVertexBuffer_frame (be : Backend) (ctx : RenderContext) :
    (flushVertexBuffer be ctx).1.calls = ctx.calls
    ∧ (flushVertexBuffer be ctx).1.ncalls = ctx.ncalls
    ∧ (flushVertexBuffer be ctx).1.verts = ctx.verts
    ∧ (flushVertexBuffer be ctx).1.nverts = ctx.nverts := by
  unfold flushVertexBuffer
  split_ifs <;> simp

theorem flushVertexBuffer_quiet (be : Backend) (ctx : RenderContext) :
    ∀ e ∈ (flushVertexBuffer be ctx).2,
      e.isVertexUpload = false ∧ e.isBlendUpdate = false ∧ e.isDraw = false := by
  intro e he
  unfold flushVertexBuffer at he
  split_ifs at he <;>
    simp only [List.mem_append, List.mem_cons, List.mem_singleton, List.not_mem_nil,
      or_false, false_or] at he
  · rcases he with he | he <;> (subst he; exact ⟨rfl, rfl, rfl⟩)
  · subst he; exact ⟨rfl, rfl, rfl⟩

/-- The trace of a flush with at least one recorded call. -/
theorem nvg_gpu_renderFlush_trace (be : Backend) (ctx : RenderContext) (h : 0 < ctx.ncalls) :
    (nvg_gpu_renderFlush be ctx).2
      = ([GpuOp.resetState] ++ (flushVertexBuffer be ctx).2)
        ++ [GpuOp.updateVertexBuffer (flushVertexBuffer be ctx).1.vertexBuffer
            ((List.range ctx.nverts.toNat).map fun (i : Nat) => ctx.verts (i : Int))
            ctx.nverts sizeofNVGvertex]
        ++ flushCalls (flushVertexBuffer be ctx).1 ctx.ncalls.toNat 0 := by
  unfold nvg_gpu_renderFlush
  rw [if_neg (by omega)]
  simp only [flushVertexBuffer_frame]

/-! ## Theorems: flush -/

/-- C7: a flush with call-count zero invokes no backend operation, leaves the
vertex-buffer handle and size unchanged, and leaves all four used-counts at
zero, whatever the vertex, path and uniform used-counts were before. -/
theorem flush_without_calls (be : Backend) (ctx : RenderContext) (h : ctx.ncalls = 0) :
    (nvg_gpu_renderFlush be ctx).2 = []
    ∧ (nvg_gpu_renderFlush be ctx).1.vertexBuffer = ctx.vertexBuffer
    ∧ (nvg_gpu_renderFlush be ctx).1.vertexBufferSize = ctx.vertexBufferSize
    ∧ (nvg_gpu_renderFlush be ctx).1.ncalls = 0
    ∧ (nvg_gpu_renderFlush be ctx).1.npaths = 0
    ∧ (nvg_gpu_renderFlush be ctx).1.nverts = 0
    ∧ (nvg_gpu_renderFlush be ctx).1.nuniforms = 0 := by
  unfold nvg_gpu_renderFlush
  rw [if_pos (by omega)]
  exact ⟨rfl, rfl, rfl, rfl, rfl, rfl, rfl⟩

/-- Witness for C7: no call recorded, but 7 vertices, 2 path ranges and 3
uniform blocks left over and a vertex buffer 9 of 64 bytes. -/
theorem flush_without_calls_witness :
    (nvg_gpu_renderFlush exampleBackend
        { exampleCtx with nverts := 7, npaths := 2, nuniforms := 3,
                          vertexBuffer := 9, vertexBufferSize := 64 }).2 = []
    ∧ (nvg_gpu_renderFlush exampleBackend
        { exampleCtx with nverts := 7, npaths := 2, nuniforms := 3,
                          vertexBuffer := 9, vertexBufferSize := 64 }).1.vertexBuffer = 9
    ∧ (nvg_gpu_renderFlush exampleBackend
        { exampleCtx with nverts := 7, npaths := 2, nuniforms := 3,
                          vertexBuffer := 9, vertexBufferSize := 64 }).1.nverts = 0 :=
  have h := flush_without_calls exampleBackend
    { exampleCtx with nverts := 7, npaths := 2, nuniforms := 3,
                      vertexBuffer := 9, vertexBufferSize := 64 } rfl
  ⟨h.1, h.2.1, h.2.2.2.2.2.1⟩

/-- C8: in a flush with at least one recorded call the trace splits around
one update-vertex-buffer invocation, which carries the buffer handle in use,
the vertices of the vertex array from index 0 up to the vertex used-count,
that used-count and the vertex size; no vertex upload and no draw-primitives
invocation comes before it, and no other vertex upload comes after it. -/
theorem flush_uploads_once (be : Backend) (ctx : RenderContext) (h : 0 < ctx.ncalls) :
    ∃ before after,
      (nvg_gpu_renderFlush be ctx).2
        = before
          ++ [GpuOp.updateVertexBuffer (flushVertexBuffer be ctx).1.vertexBuffer
              ((List.range ctx.nverts.toNat).map fun (i : Nat) => ctx.verts (i : Int))
              ctx.nverts sizeofNVGvertex]
          ++ after
      ∧ (∀ e ∈ before, e.isVertexUpload = false ∧ e.isDraw = false)
      ∧ (∀ e ∈ after, e.isVertexUpload = false) := by
  refine ⟨[GpuOp.resetState] ++ (flushVertexBuffer be ctx).2,
    flushCalls (flushVertexBuffer be ctx).1 ctx.ncalls.toNat 0,
    nvg_gpu_renderFlush_trace be ctx h, ?_, ?_⟩
  · intro e he
    simp only [List.mem_append, List.mem_singleton] at he
    rcases he with he | he
    · subst he; exact ⟨rfl, rfl⟩
    · exact ⟨(flushVertexBuffer_quiet be ctx e he).1, (flushVertexBuffer_quiet be ctx e he).2.2⟩
  · intro e he
    rw [flushCalls_eq_flatMap] at he
    simp only [List.mem_flatMap, List.mem_cons] at he
    obtain ⟨k, -, he | he⟩ := he
    · subst he; rfl
    · exact (dispatchCall_quiet _ _ e he).1

/-- Witness for C8: the scene Fill, Stroke, Triangles on a fresh renderer
records three calls, so its flush uploads the vertex array once. -/
theorem flush_uploads_once_witness :
    ∃ before after,
      (nvg_gpu_renderFlush exampleBackend (submitAll exampleNanovg exampleCtx exampleScene)).2
        = before
          ++ [GpuOp.updateVertexBuffer
              (flushVertexBuffer exampleBackend
                (submitAll exampleNanovg exampleCtx exampleScene)).1.vertexBuffer
              ((List.range (submitAll exampleNanovg exampleCtx exampleScene).nverts.toNat).map
                fun (i : Nat) => (submitAll exampleNanovg exampleCtx exampleScene).verts (i : Int))
              (submitAll exampleNanovg exampleCtx exampleScene).nverts sizeofNVGvertex]
          ++ after
      ∧ (∀ e ∈ before, e.isVertexUpload = false ∧ e.isDraw = false)
      ∧ (∀ e ∈ after, e.isVertexUpload = false) :=
  flush_uploads_once exampleBackend (submitAll exampleNanovg exampleCtx exampleScene)
    (by decide)

/-! ## Theorems: submission order -/

/-- One submit operation either leaves the call-count as it was or raises it
by one and records its composite-op at the old call-count; no other call
record changes. -/
theorem Submit.run_step (nv : Nanovg) (ctx : RenderContext) (s : Submit)
    (h0 : 0 ≤ ctx.ncalls) :
    (∀ j, j ≠ ctx.ncalls → (s.run nv ctx).calls j = ctx.calls j)
    ∧ ((s.run nv ctx).ncalls = ctx.ncalls
      ∨ ((s.run nv ctx).ncalls = ctx.ncalls + 1
        ∧ ((s.run nv ctx).calls ctx.ncalls).blendOp = s.blendOp)) := by
  have hroll : (if ctx.ncalls + 1 > 0 then ctx.ncalls else ctx.ncalls + 1) = ctx.ncalls := by
    rw [if_pos (by omega)]
  cases s with
  | fill o paint op scissor fringe bounds paths =>
    obtain ⟨hf, h | h | h⟩ :=
      nvg_gpu_renderFill_summary nv o ctx paint op scissor fringe bounds paths
    · exact ⟨hf, Or.inl (by simp only [Submit.run]; rw [h.2])⟩
    · exact ⟨hf, Or.inl (by simp only [Submit.run]; rw [h.2.2, hroll])⟩
    · exact ⟨hf, Or.inr ⟨h.2.2.2.2.1, h.2.2.2.2.2⟩⟩
  | stroke o paint op scissor fringe strokeWidth paths =>
    obtain ⟨hf, h | h | h⟩ :=
      nvg_gpu_renderStroke_summary nv o ctx paint op scissor fringe strokeWidth paths
    · exact ⟨hf, Or.inl (by simp only [Submit.run]; rw [h.2])⟩
    · exact ⟨hf, Or.inl (by simp only [Submit.run]; rw [h.2.2, hroll])⟩
    · exact ⟨hf, Or.inr ⟨h.2.2.2.2.1, h.2.2.2.2.2⟩⟩
  | triangles o paint op scissor verts nverts fringe =>
    obtain ⟨hf, h | h | h⟩ :=
      nvg_gpu_renderTriangles_summary nv o ctx paint op scissor verts nverts fringe
    · exact ⟨hf, Or.inl (by simp only [Submit.run]; rw [h.2])⟩
    · exact ⟨hf, Or.inl (by simp only [Submit.run]; rw [h.2.2, hroll])⟩
    · exact ⟨hf, Or.inr ⟨h.2.2.2.1, h.2.2.2.2⟩⟩

/-- After a list of submit operations the call-count has grown by the number
of recorded calls, the records below the old call-count are untouched, and
the `i`-th record above it carries the `i`-th recorded composite-op. -/
theorem submitAll_recorded (nv : Nanovg) (subs : List Submit) :
    ∀ ctx : RenderContext, 0 ≤ ctx.ncalls →
      (submitAll nv ctx subs).ncalls = ctx.ncalls + (recordedOps nv ctx subs).length
      ∧ (∀ j, j < ctx.ncalls → (submitAll nv ctx subs).calls j = ctx.calls j)
      ∧ (∀ (i : Nat) (hi : i < (recordedOps nv ctx subs).length),
          ((submitAll nv ctx subs).calls (ctx.ncalls + i)).blendOp
            = (recordedOps nv ctx subs)[i]) := by
  induction subs with
  | nil =>
    intro ctx _
    refine ⟨by simp [submitAll, recordedOps], fun _ _ => rfl, ?_⟩
    intro i hi
    simp [recordedOps] at hi
  | cons s rest ih =>
    intro ctx h0
    obtain ⟨hf, hstep⟩ := Submit.run_step nv ctx s h0
    rcases hstep with hn | ⟨hn, hb⟩
    · have hne : ¬ (s.run nv ctx).ncalls = ctx.ncalls + 1 := by omega
      obtain ⟨i1, i2, i3⟩ := ih (s.run nv ctx) (by omega)
      simp only [submitAll, recordedOps, if_neg hne]
      refine ⟨by rw [i1, hn], ?_, ?_⟩
      · intro j hj
        rw [i2 j (by omega), hf j (by omega)]
      · intro i hi
        have h3 := i3 i hi
        rw [hn] at h3
        exact h3
    · obtain ⟨i1, i2, i3⟩ := ih (s.run nv ctx) (by omega)
      simp only [submitAll, recordedOps, if_pos hn]
      refine ⟨by rw [i1, hn, List.length_cons]; push_cast; ring, ?_, ?_⟩
      · intro j hj
        rw [i2 j (by omega), hf j (by omega)]
      · intro i hi
        cases i with
        | zero =>
          simp only [Nat.cast_zero, add_zero, List.getElem_cons_zero]
          rw [i2 _ (by omega), hb]
        | succ i =>
          simp only [List.getElem_cons_succ]
          have e : ctx.ncalls + ((i + 1 : Nat) : Int) = (s.run nv ctx).ncalls + (i : Int) := by
            rw [hn]; push_cast; ring
          rw [e]
          exact i3 i (by simpa using hi)

/-- C6: run any list of submit operations (fills, convex fills, strokes,
triangles, each succeeding or failing) on a store with call-count zero and
flush once. The blend-function updates of the flush are, in order, exactly the
composite-ops of the submits that recorded their call. The trace is a head
without blend update or draw-primitives invocation followed by one group per
recorded call, in submission order; the group of the `i`-th recorded call is
its blend update, carrying its composite-op, followed by its dispatch, which
holds all its draw-primitives invocations and no blend update. -/
theorem flush_dispatch_order (nv : Nanovg) (be : Backend) (ctx : RenderContext)
    (subs : List Submit) (h0 : ctx.ncalls = 0) :
    blendUpdates (nvg_gpu_renderFlush be (submitAll nv ctx subs)).2 = recordedOps nv ctx subs
    ∧ ∃ head,
        (nvg_gpu_renderFlush be (submitAll nv ctx subs)).2
          = head ++ (List.range (recordedOps nv ctx subs).length).flatMap (fun (i : Nat) =>
              GpuOp.updateBlendFunction
                  (((flushVertexBuffer be (submitAll nv ctx subs)).1.calls (i : Int)).blendOp)
                :: dispatchCall (flushVertexBuffer be (submitAll nv ctx subs)).1
                    ((flushVertexBuffer be (submitAll nv ctx subs)).1.calls (i : Int)))
        ∧ (∀ e ∈ head, e.isBlendUpdate = false ∧ e.isDraw = false)
        ∧ (∀ (i : Nat) (hi : i < (recordedOps nv ctx subs).length),
            ((flushVertexBuffer be (submitAll nv ctx subs)).1.calls (i : Int)).blendOp
              = (recordedOps nv ctx subs)[i]
            ∧ ∀ e ∈ dispatchCall (flushVertexBuffer be (submitAll nv ctx subs)).1
                  ((flushVertexBuffer be (submitAll nv ctx subs)).1.calls (i : Int)),
                e.isBlendUpdate = false) := by
  obtain ⟨hn, -, hops⟩ := submitAll_recorded nv subs ctx (by omega)
  rw [h0, zero_add] at hn
  have hops2 : ∀ (i : Nat) (hi : i < (recordedOps nv ctx subs).length),
      ((flushVertexBuffer be (submitAll nv ctx subs)).1.calls (i : Int)).blendOp
        = (recordedOps nv ctx subs)[i] := by
    intro i hi
    have := hops i hi
    rw [h0, zero_add] at this
    rw [(flushVertexBuffer_frame be _).1]
    exact this
  by_cases hk : (recordedOps nv ctx subs).length = 0
  · have hz : (submitAll nv ctx subs).ncalls = 0 := by rw [hn, hk]; rfl
    have ht : (nvg_gpu_renderFlush be (submitAll nv ctx subs)).2 = [] := by
      unfold nvg_gpu_renderFlush
      rw [if_pos (by omega)]
    rw [ht]
    refine ⟨?_, [], ?_, ?_, ?_⟩
    · rw [List.length_eq_zero.mp hk]; rfl
    · rw [hk]; rfl
    · intro e he; simp at he
    · intro i hi; omega
  · have hpos : 0 < (submitAll nv ctx subs).ncalls := by
      rw [hn]; exact_mod_cast Nat.pos_of_ne_zero hk
    have hnat : (submitAll nv ctx subs).ncalls.toNat = (recordedOps nv ctx subs).length := by
      rw [hn]; simp
    have ht := nvg_gpu_renderFlush_trace be _ hpos
    have hupd : blendUpdates (([GpuOp.resetState]
        ++ (flushVertexBuffer be (submitAll nv ctx subs)).2)
        ++ [GpuOp.updateVertexBuffer (flushVertexBuffer be (submitAll nv ctx subs)).1.vertexBuffer
            ((List.range (submitAll nv ctx subs).nverts.toNat).map
              fun (i : Nat) => (submitAll nv ctx subs).verts (i : Int))
            (submitAll nv ctx subs).nverts sizeofNVGvertex]) = [] := by
      apply blendUpdates_quiet
      intro e he
      simp only [List.mem_append, List.mem_singleton] at he
      rcases he with (he | he) | he
      · subst he; rfl
      · exact (flushVertexBuffer_quiet be _ e he).2.1
      · subst he; rfl
    refine ⟨?_, ([GpuOp.resetState] ++ (flushVertexBuffer be (submitAll nv ctx subs)).2)
        ++ [GpuOp.updateVertexBuffer (flushVertexBuffer be (submitAll nv ctx subs)).1.vertexBuffer
            ((List.range (submitAll nv ctx subs).nverts.toNat).map
              fun (i : Nat) => (submitAll nv ctx subs).verts (i : Int))
            (submitAll nv ctx subs).nverts sizeofNVGvertex],
      by rw [ht, flushCalls_eq_flatMap, hnat]; simp only [zero_add], ?_, ?_⟩
    · rw [ht, blendUpdates_append, hupd, List.nil_append, blendUpdates_flushCalls, hnat]
      apply List.ext_getElem
      · simp
      · intro i h1 h2
        simp only [List.getElem_map, List.getElem_range, zero_add]
        exact hops2 i h2
    · intro e he
      simp only [List.mem_append, List.mem_singleton] at he
      rcases he with (he | he) | he
      · subst he; exact ⟨rfl, rfl⟩
      · exact ⟨(flushVertexBuffer_quiet be _ e he).2.1, (flushVertexBuffer_quiet be _ e he).2.2⟩
      · subst he; exact ⟨rfl, rfl⟩
    · intro i hi
      exact ⟨hops2 i hi, fun e he => (dispatchCall_quiet _ _ e he).2⟩

/-- Witness for C6: Fill(A), Stroke(B), Triangles(C) with three distinct
composite-ops on a fresh renderer, flushed once: the blend-function updates of
the flush are A, B, C in that order. -/
theorem flush_dispatch_order_witness :
    blendUpdates
        (nvg_gpu_renderFlush exampleBackend (submitAll exampleNanovg exampleCtx exampleScene)).2
      = [exampleOp 1, exampleOp 2, exampleOp 3] :=
  (flush_dispatch_order exampleNanovg exampleBackend exampleCtx exampleScene rfl).1.trans
    (by decide)

/-! ## Theorems: rollback of a submit operation -/

/-- C3: for each of `nvg_gpu_renderFill`, `nvg_gpu_renderStroke` and
`nvg_gpu_renderTriangles`, on a store whose call-count is not negative: if
the call record is allocated and a later path, vertex or uniform reservation
of that submit returns the failure sentinel `-1`, then on return the
call-count equals its value before the submit and every call record below
that count is unchanged. (The reservations of one submit act on three
different arenas, so each is the reservation made on the store as the submit
found it.) -/
theorem submit_rollback (nv : Nanovg) (o : ReallocOracle) (ctx : RenderContext)
    (paint : NVGpaint) (op : NVGcompositeOperationState) (scissor : NVGscissor)
    (fringe strokeWidth : ℚ) (bounds : Fin 4 → ℚ) (paths : List NVGpath)
    (verts : Int → NVGvertex) (nverts : Int)
    (h0 : 0 ≤ ctx.ncalls) (hcall : (INTERNAL_allocCall o.calls ctx).1 ≠ none) :
    (((INTERNAL_allocPaths o.paths ctx paths.length).1 = -1
        ∨ (INTERNAL_allocVerts o.verts ctx
            (INTERNAL_maxVertCount paths + if isSingleConvex paths = true then 0 else 4)).1 = -1
        ∨ (INTERNAL_allocFragUniforms o.uniforms ctx
            (if isSingleConvex paths = true then 1 else 2)).1 = -1) →
      (nvg_gpu_renderFill nv o ctx paint op scissor fringe bounds paths).ncalls = ctx.ncalls
      ∧ ∀ j, j < ctx.ncalls →
          (nvg_gpu_renderFill nv o ctx paint op scissor fringe bounds paths).calls j
            = ctx.calls j)
    ∧ (((INTERNAL_allocPaths o.paths ctx paths.length).1 = -1
        ∨ (INTERNAL_allocVerts o.verts ctx (INTERNAL_maxVertCount paths)).1 = -1
        ∨ (INTERNAL_allocFragUniforms o.uniforms ctx
            (if (ctx.flags &&& NVG_STENCIL_STROKES) ≠ 0 then 2 else 1)).1 = -1) →
      (nvg_gpu_renderStroke nv o ctx paint op scissor fringe strokeWidth paths).ncalls
        = ctx.ncalls
      ∧ ∀ j, j < ctx.ncalls →
          (nvg_gpu_renderStroke nv o ctx paint op scissor fringe strokeWidth paths).calls j
            = ctx.calls j)
    ∧ (((INTERNAL_allocVerts o.verts ctx nverts).1 = -1
        ∨ (INTERNAL_allocFragUniforms o.uniforms ctx 1).1 = -1) →
      (nvg_gpu_renderTriangles nv o ctx paint op scissor verts nverts fringe).ncalls
        = ctx.ncalls
      ∧ ∀ j, j < ctx.ncalls →
          (nvg_gpu_renderTriangles nv o ctx paint op scissor verts nverts fringe).calls j
            = ctx.calls j) := by
  have hroll : (if ctx.ncalls + 1 > 0 then ctx.ncalls else ctx.ncalls + 1) = ctx.ncalls := by
    rw [if_pos (by omega)]
  refine ⟨?_, ?_, ?_⟩
  · intro hfail
    obtain ⟨hf, h | h | h⟩ :=
      nvg_gpu_renderFill_summary nv o ctx paint op scissor fringe bounds paths
    · exact absurd h.1 hcall
    · exact ⟨by rw [h.2.2, hroll], fun j hj => hf j (by omega)⟩
    · rcases hfail with hx | hx | hx
      · exact absurd hx h.2.1
      · exact absurd hx h.2.2.1
      · exact absurd hx h.2.2.2.1
  · intro hfail
    obtain ⟨hf, h | h | h⟩ :=
      nvg_gpu_renderStroke_summary nv o ctx paint op scissor fringe strokeWidth paths
    · exact absurd h.1 hcall
    · exact ⟨by rw [h.2.2, hroll], fun j hj => hf j (by omega)⟩
    · rcases hfail with hx | hx | hx
      · exact absurd hx h.2.1
      · exact absurd hx h.2.2.1
      · exact absurd hx h.2.2.2.1
  · intro hfail
    obtain ⟨hf, h | h | h⟩ :=
      nvg_gpu_renderTriangles_summary nv o ctx paint op scissor verts nverts fringe
    · exact absurd h.1 hcall
    · exact ⟨by rw [h.2.2, hroll], fun j hj => hf j (by omega)⟩
    · rcases hfail with hx | hx
      · exact absurd hx h.2.1
      · exact absurd hx h.2.2.1

/-- Witness for C3: on a renderer holding the three calls of the example
scene, a triangles submit, a stroke submit and a fill submit whose vertex
reservation fails each leave the call-count at 3. -/
theorem submit_rollback_witness :
    (nvg_gpu_renderFill exampleNanovg reallocVertsFail
        { submitAll exampleNanovg exampleCtx exampleScene with cverts := 0 }
        examplePaint (exampleOp 4) exampleScissor 1 exampleBounds [exampleTriangle]).ncalls = 3
    ∧ (nvg_gpu_renderStroke exampleNanovg reallocVertsFail
        { submitAll exampleNanovg exampleCtx exampleScene with cverts := 0 }
        examplePaint (exampleOp 4) exampleScissor 1 2 [exampleTriangle]).ncalls = 3
    ∧ (nvg_gpu_renderTriangles exampleNanovg reallocVertsFail
        { submitAll exampleNanovg exampleCtx exampleScene with cverts := 0 }
        examplePaint (exampleOp 4) exampleScissor (fun i => vtx i i) 3 1).ncalls = 3 :=
  have h := submit_rollback exampleNanovg reallocVertsFail
    { submitAll exampleNanovg exampleCtx exampleScene with cverts := 0 }
    examplePaint (exampleOp 4) exampleScissor 1 2 exampleBounds [exampleTriangle]
    (fun i => vtx i i) 3 (by decide) (by decide)
  ⟨(h.1 (Or.inr (Or.inl (by decide)))).1.trans (by decide),
   (h.2.1 (Or.inr (Or.inl (by decide)))).1.trans (by decide),
   (h.2.2 (Or.inl (by decide))).1.trans (by decide)⟩

/-! ## Theorems: a submit whose paint names an unresolved image -/

theorem nvg_gpu_renderFlush_dispatches (be : Backend) (ctx : RenderContext) (n : Int)
    (h0 : 0 ≤ n) (hlt : n < ctx.ncalls) :
    GpuOp.updateBlendFunction (ctx.calls n).blendOp ∈ (nvg_gpu_renderFlush be ctx).2 := by
  rw [nvg_gpu_renderFlush_trace be ctx (by omega), flushCalls_eq_flatMap]
  apply List.mem_append_right
  rw [List.mem_flatMap]
  refine ⟨n.toNat, by simp; omega, ?_⟩
  rw [(flushVertexBuffer_frame be ctx).1, zero_add, Int.toNat_of_nonneg h0]
  exact List.mem_cons_self _ _

/-- C4, as amended: when the paint of a submit names a non-zero image id that
is out of range or refers to an empty texture slot, every paint conversion on
that texture table fails (returns 0), but no submit operation tests that
result: if the call record is allocated and no reservation returns `-1`, then
on return the call-count is one more than before the submit, the call is not
rolled back, and the next flush dispatches it (its blend-function update is in
the trace of the flush). This holds for `nvg_gpu_renderFill`,
`nvg_gpu_renderStroke` and `nvg_gpu_renderTriangles`. -/
theorem unresolved_image_call_recorded (nv : Nanovg) (be : Backend) (o : ReallocOracle)
    (ctx : RenderContext) (paint : NVGpaint) (op : NVGcompositeOperationState)
    (scissor : NVGscissor) (fringe strokeWidth : ℚ) (bounds : Fin 4 → ℚ)
    (paths : List NVGpath) (verts : Int → NVGvertex) (nverts : Int)
    (h0 : 0 ≤ ctx.ncalls) (himg : paint.image ≠ 0)
    (hun : paint.image < 0 ∨ paint.image ≥ NVG_MAX_TEXTURES
      ∨ (ctx.textures paint.image).userdata = 0)
    (hcall : (INTERNAL_allocCall o.calls ctx).1 ≠ none) :
    (∀ (g : RenderContext) (frag : RenderUniforms) (w f t : ℚ), g.textures = ctx.textures →
      (INTERNAL_convertPaint nv g frag paint scissor w f t).1 = 0)
    ∧ ((INTERNAL_allocPaths o.paths ctx paths.length).1 ≠ -1 →
        (INTERNAL_allocVerts o.verts ctx
          (INTERNAL_maxVertCount paths + if isSingleConvex paths = true then 0 else 4)).1 ≠ -1 →
        (INTERNAL_allocFragUniforms o.uniforms ctx
          (if isSingleConvex paths = true then 1 else 2)).1 ≠ -1 →
        (nvg_gpu_renderFill nv o ctx paint op scissor fringe bounds paths).ncalls
          = ctx.ncalls + 1
        ∧ GpuOp.updateBlendFunction op
          ∈ (nvg_gpu_renderFlush be
              (nvg_gpu_renderFill nv o ctx paint op scissor fringe bounds paths)).2)
    ∧ ((INTERNAL_allocPaths o.paths ctx paths.length).1 ≠ -1 →
        (INTERNAL_allocVerts o.verts ctx (INTERNAL_maxVertCount paths)).1 ≠ -1 →
        (INTERNAL_allocFragUniforms o.uniforms ctx
          (if (ctx.flags &&& NVG_STENCIL_STROKES) ≠ 0 then 2 else 1)).1 ≠ -1 →
        (nvg_gpu_renderStroke nv o ctx paint op scissor fringe strokeWidth paths).ncalls
          = ctx.ncalls + 1
        ∧ GpuOp.updateBlendFunction op
          ∈ (nvg_gpu_renderFlush be
              (nvg_gpu_renderStroke nv o ctx paint op scissor fringe strokeWidth paths)).2)
    ∧ ((INTERNAL_allocVerts o.verts ctx nverts).1 ≠ -1 →
        (INTERNAL_allocFragUniforms o.uniforms ctx 1).1 ≠ -1 →
        (nvg_gpu_renderTriangles nv o ctx paint op scissor verts nverts fringe).ncalls
          = ctx.ncalls + 1
        ∧ GpuOp.updateBlendFunction op
          ∈ (nvg_gpu_renderFlush be
              (nvg_gpu_renderTriangles nv o ctx paint op scissor verts nverts fringe)).2) := by
  refine ⟨?_, ?_, ?_, ?_⟩
  · intro g frag w f t hg
    apply INTERNAL_convertPaint_fails nv g frag paint scissor w f t himg
    rw [INTERNAL_findTexture_congr g ctx _ hg]
    exact INTERNAL_findTexture_unresolved ctx paint.image hun
  · intro hp hv hu
    obtain ⟨-, h | h | h⟩ :=
      nvg_gpu_renderFill_summary nv o ctx paint op scissor fringe bounds paths
    · exact absurd h.1 hcall
    · rcases h.2.1 with hx | hx | hx
      · exact absurd hx hp
      · exact absurd hx hv
      · exact absurd hx hu
    · refine ⟨h.2.2.2.2.1, ?_⟩
      have hd := nvg_gpu_renderFlush_dispatches be
        (nvg_gpu_renderFill nv o ctx paint op scissor fringe bounds paths) ctx.ncalls h0
        (by rw [h.2.2.2.2.1]; omega)
      rw [h.2.2.2.2.2] at hd
      exact hd
  · intro hp hv hu
    obtain ⟨-, h | h | h⟩ :=
      nvg_gpu_renderStroke_summary nv o ctx paint op scissor fringe strokeWidth paths
    · exact absurd h.1 hcall
    · rcases h.2.1 with hx | hx | hx
      · exact absurd hx hp
      · exact absurd hx hv
      · exact absurd hx hu
    · refine ⟨h.2.2.2.2.1, ?_⟩
      have hd := nvg_gpu_renderFlush_dispatches be
        (nvg_gpu_renderStroke nv o ctx paint op scissor fringe strokeWidth paths) ctx.ncalls h0
        (by rw [h.2.2.2.2.1]; omega)
      rw [h.2.2.2.2.2] at hd
      exact hd
  · intro hv hu
    obtain ⟨-, h | h | h⟩ :=
      nvg_gpu_renderTriangles_summary nv o ctx paint op scissor verts nverts fringe
    · exact absurd h.1 hcall
    · rcases h.2.1 with hx | hx
      · exact absurd hx hv
      · exact absurd hx hu
    · refine ⟨h.2.2.2.1, ?_⟩
      have hd := nvg_gpu_renderFlush_dispatches be
        (nvg_gpu_renderTriangles nv o ctx paint op scissor verts nverts fringe) ctx.ncalls h0
        (by rw [h.2.2.2.1]; omega)
      rw [h.2.2.2.2] at hd
      exact hd

/-- Witness for C4 as amended: a triangles submit with the paint naming image
5 on a fresh renderer, every `realloc` succeeding. -/
theorem unresolved_image_call_recorded_witness :
    (nvg_gpu_renderTriangles exampleNanovg reallocOk exampleCtx examplePaintNoTexture
        (exampleOp 1) exampleScissor (fun i => vtx i i) 3 1).ncalls = exampleCtx.ncalls + 1
    ∧ GpuOp.updateBlendFunction (exampleOp 1)
        ∈ (nvg_gpu_renderFlush exampleBackend
            (nvg_gpu_renderTriangles exampleNanovg reallocOk exampleCtx examplePaintNoTexture
              (exampleOp 1) exampleScissor (fun i => vtx i i) 3 1)).2 :=
  (unresolved_image_call_recorded exampleNanovg exampleBackend reallocOk exampleCtx
    examplePaintNoTexture (exampleOp 1) exampleScissor 1 2 exampleBounds [exampleTriangle]
    (fun i => vtx i i) 3 (by decide) (by decide) (Or.inr (Or.inr (by decide)))
    (by decide)).2.2.2 (by decide) (by decide)

/-- C4, refuted as stated: on a fresh renderer without textures the paint
naming image 5 is unresolved and its conversion returns 0, yet after a fill, a
stroke or a triangles submit with that paint the call-count is 1, not its
value 0 before the submit, and the flush that follows issues the blend-function
update of the call. -/
theorem unresolved_image_not_rolled_back :
    examplePaintNoTexture.image ≠ 0
    ∧ INTERNAL_findTexture exampleCtx examplePaintNoTexture.image = none
    ∧ (INTERNAL_convertPaint exampleNanovg exampleCtx RenderUniforms.zero
        examplePaintNoTexture exampleScissor 1 1 (-1)).1 = 0
    ∧ exampleCtx.ncalls = 0
    ∧ (nvg_gpu_renderFill exampleNanovg reallocOk exampleCtx examplePaintNoTexture
        (exampleOp 1) exampleScissor 1 exampleBounds [exampleTriangle]).ncalls = 1
    ∧ (nvg_gpu_renderStroke exampleNanovg reallocOk exampleCtx examplePaintNoTexture
        (exampleOp 1) exampleScissor 1 2 [exampleTriangle]).ncalls = 1
    ∧ (nvg_gpu_renderTriangles exampleNanovg reallocOk exampleCtx examplePaintNoTexture
        (exampleOp 1) exampleScissor (fun i => vtx i i) 3 1).ncalls = 1
    ∧ blendUpdates (nvg_gpu_renderFlush exampleBackend
        (nvg_gpu_renderTriangles exampleNanovg reallocOk exampleCtx examplePaintNoTexture
          (exampleOp 1) exampleScissor (fun i => vtx i i) 3 1)).2 = [exampleOp 1] := by
  decide

/-! ## Growth of the arenas, reset, and the scissor encoding -/

theorem INTERNAL_maxi_eq (a b : Int) : INTERNAL_maxi a b = max a b := by
  unfold INTERNAL_maxi
  split_ifs with h
  · exact (max_eq_left (le_of_lt h)).symm
  · exact (max_eq_right (not_lt.mp h)).symm

theorem tdiv_two_eq (c : Int) (h : 0 ≤ c) : Int.tdiv c 2 = c / 2 :=
  Int.tdiv_eq_ediv h (by decide)

/-- C11: when a reservation grows its arena (the used count equals the
capacity for calls and paths, the request exceeds the capacity for vertices
and uniform blocks) and the reallocation succeeds, the new capacity is
`max(used + n, minimum) + floor(old capacity / 2)` with minimum 128 for calls
(`n = 1`), paths and uniform blocks and 4096 for vertices; and whatever the
reallocation outcome, no reservation lowers the capacity of an arena whose
capacity is not negative (for paths, when the request is not negative). -/
theorem growth_capacity (gl : RenderContext) (n : Int) :
    (gl.ncalls = gl.ccalls → 0 ≤ gl.ccalls →
      (INTERNAL_allocCall true gl).2.ccalls = max (gl.ncalls + 1) 128 + gl.ccalls / 2)
    ∧ (gl.npaths = gl.cpaths → 0 ≤ gl.cpaths →
      (INTERNAL_allocPaths true gl n).2.cpaths = max (gl.npaths + n) 128 + gl.cpaths / 2)
    ∧ (gl.nverts + n > gl.cverts → 0 ≤ gl.cverts →
      (INTERNAL_allocVerts true gl n).2.cverts = max (gl.nverts + n) 4096 + gl.cverts / 2)
    ∧ (gl.nuniforms + n > gl.cuniforms → 0 ≤ gl.cuniforms →
      (INTERNAL_allocFragUniforms true gl n).2.cuniforms
        = max (gl.nuniforms + n) 128 + gl.cuniforms / 2)
    ∧ (∀ ok, 0 ≤ gl.ccalls → gl.ccalls ≤ (INTERNAL_allocCall ok gl).2.ccalls)
    ∧ (∀ ok, 0 ≤ gl.cpaths → 0 ≤ n → gl.cpaths ≤ (INTERNAL_allocPaths ok gl n).2.cpaths)
    ∧ (∀ ok, 0 ≤ gl.cverts → gl.cverts ≤ (INTERNAL_allocVerts ok gl n).2.cverts)
    ∧ (∀ ok, 0 ≤ gl.cuniforms →
        gl.cuniforms ≤ (INTERNAL_allocFragUniforms ok gl n).2.cuniforms) := by
  refine ⟨?_, ?_, ?_, ?_, ?_, ?_, ?_, ?_⟩
  · intro h h0
    simp [INTERNAL_allocCall, h, INTERNAL_maxi_eq, tdiv_two_eq _ h0]
  · intro h h0
    simp [INTERNAL_allocPaths, h, INTERNAL_maxi_eq, tdiv_two_eq _ h0]
  · intro h h0
    simp [INTERNAL_allocVerts, h, INTERNAL_maxi_eq, tdiv_two_eq _ h0]
  · intro h h0
    simp [INTERNAL_allocFragUniforms, h, INTERNAL_maxi_eq, tdiv_two_eq _ h0]
  · intro ok h0
    unfold INTERNAL_allocCall
    split_ifs <;> simp only [INTERNAL_maxi_eq, tdiv_two_eq _ h0] <;> omega
  · intro ok h0 hn
    unfold INTERNAL_allocPaths
    split_ifs <;> simp only [INTERNAL_maxi_eq, tdiv_two_eq _ h0] <;> omega
  · intro ok h0
    unfold INTERNAL_allocVerts
    split_ifs <;> simp only [INTERNAL_maxi_eq, tdiv_two_eq _ h0] <;> omega
  · intro ok h0
    unfold INTERNAL_allocFragUniforms
    split_ifs <;> simp only [INTERNAL_maxi_eq, tdiv_two_eq _ h0] <;> omega

theorem flushVertexBuffer_caps (be : Backend) (ctx : RenderContext) :
    (flushVertexBuffer be ctx).1.ccalls = ctx.ccalls
    ∧ (flushVertexBuffer be ctx).1.cpaths = ctx.cpaths
    ∧ (flushVertexBuffer be ctx).1.cverts = ctx.cverts
    ∧ (flushVertexBuffer be ctx).1.cuniforms = ctx.cuniforms
    ∧ (flushVertexBuffer be ctx).1.textures = ctx.textures := by
  unfold flushVertexBuffer
  split_ifs <;> simp

/-- C12: `nvg_gpu_renderCancel`, and `nvg_gpu_renderFlush` whatever it
dispatched, leave the four used counts at zero and keep the four capacities
and the texture table; the cancel is a function of the context alone and the
flush of an empty call list invokes no backend function. -/
theorem reset_zeroes_counts (be : Backend) (ctx : RenderContext) :
    ((nvg_gpu_renderCancel ctx).ncalls = 0 ∧ (nvg_gpu_renderCancel ctx).npaths = 0
      ∧ (nvg_gpu_renderCancel ctx).nverts = 0 ∧ (nvg_gpu_renderCancel ctx).nuniforms = 0
      ∧ (nvg_gpu_renderCancel ctx).ccalls = ctx.ccalls
      ∧ (nvg_gpu_renderCancel ctx).cpaths = ctx.cpaths
      ∧ (nvg_gpu_renderCancel ctx).cverts = ctx.cverts
      ∧ (nvg_gpu_renderCancel ctx).cuniforms = ctx.cuniforms
      ∧ (nvg_gpu_renderCancel ctx).textures = ctx.textures)
    ∧ ((nvg_gpu_renderFlush be ctx).1.ncalls = 0 ∧ (nvg_gpu_renderFlush be ctx).1.npaths = 0
      ∧ (nvg_gpu_renderFlush be ctx).1.nverts = 0 ∧ (nvg_gpu_renderFlush be ctx).1.nuniforms = 0
      ∧ (nvg_gpu_renderFlush be ctx).1.ccalls = ctx.ccalls
      ∧ (nvg_gpu_renderFlush be ctx).1.cpaths = ctx.cpaths
      ∧ (nvg_gpu_renderFlush be ctx).1.cverts = ctx.cverts
      ∧ (nvg_gpu_renderFlush be ctx).1.cuniforms = ctx.cuniforms
      ∧ (nvg_gpu_renderFlush be ctx).1.textures = ctx.textures)
    ∧ (ctx.ncalls ≤ 0 → nvg_gpu_renderFlush be ctx = (nvg_gpu_renderCancel ctx, [])) := by
  refine ⟨by simp [nvg_gpu_renderCancel], ?_, ?_⟩
  · unfold nvg_gpu_renderFlush
    split_ifs
    · simp [nvg_gpu_renderCancel]
    · simp [nvg_gpu_renderCancel, flushVertexBuffer_caps]
  · intro h
    simp [nvg_gpu_renderFlush, h]

/-- C20: when either scissor extent is below -0.5, the block that
`INTERNAL_convertPaint` writes has `scissorExt = (1, 1)`,
`scissorScale = (1, 1)` and an all-zero scissor matrix, for every context,
previous block content, paint, scissor transform, other extent, width, fringe
and stroke threshold, and on both return paths. -/
theorem no_scissor_encoding (nv : Nanovg) (gl : RenderContext) (frag : RenderUniforms)
    (paint : NVGpaint) (scissor : NVGscissor) (width fringe strokeThr : ℚ)
    (h : scissor.extent0 < -(1 / 2) ∨ scissor.extent1 < -(1 / 2)) :
    (INTERNAL_convertPaint nv gl frag paint scissor width fringe strokeThr).2.scissorExt0 = 1
    ∧ (INTERNAL_convertPaint nv gl frag paint scissor width fringe strokeThr).2.scissorExt1 = 1
    ∧ (INTERNAL_convertPaint nv gl frag paint scissor width fringe strokeThr).2.scissorScale0 = 1
    ∧ (INTERNAL_convertPaint nv gl frag paint scissor width fringe strokeThr).2.scissorScale1 = 1
    ∧ (INTERNAL_convertPaint nv gl frag paint scissor width fringe strokeThr).2.scissorMat
        = Mat3x4.zero := by
  unfold INTERNAL_convertPaint
  simp only [h, if_true]
  split_ifs
  · split <;> (try split_ifs) <;> simp
  · simp

theorem no_scissor_encoding_witness :
    (exampleScissorY.extent0 < -(1 / 2) ∨ exampleScissorY.extent1 < -(1 / 2))
    ∧ (INTERNAL_convertPaint exampleNanovg exampleCtx RenderUniforms.zero examplePaint
          exampleScissorY 2 1 0).2.scissorExt0 = 1
    ∧ (INTERNAL_convertPaint exampleNanovg exampleCtx RenderUniforms.zero examplePaint
          exampleScissorY 2 1 0).2.scissorExt1 = 1
    ∧ (INTERNAL_convertPaint exampleNanovg exampleCtx RenderUniforms.zero examplePaint
          exampleScissorY 2 1 0).2.scissorScale0 = 1
    ∧ (INTERNAL_convertPaint exampleNanovg exampleCtx RenderUniforms.zero examplePaint
          exampleScissorY 2 1 0).2.scissorScale1 = 1
    ∧ (INTERNAL_convertPaint exampleNanovg exampleCtx RenderUniforms.zero examplePaint
          exampleScissorY 2 1 0).2.scissorMat = Mat3x4.zero :=
  ⟨Or.inr (by norm_num [exampleScissorY]),
   no_scissor_encoding exampleNanovg exampleCtx RenderUniforms.zero examplePaint
     exampleScissorY 2 1 0 (Or.inr (by norm_num [exampleScissorY]))⟩

/-! ## The texture table -/

theorem findFreeSlot_none (t : Int → RenderTexture) :
    ∀ (n : Nat) (i : Int), (∀ j, i ≤ j → j < i + n → (t j).userdata ≠ 0) →
      findFreeSlot t n i = none := by
  intro n
  induction n with
  | zero => intro i _; rfl
  | succ n ih =>
    intro i h
    unfold findFreeSlot
    rw [if_neg (h i (le_refl i) (by push_cast; omega))]
    exact ih (i + 1) (fun j h1 h2 => h j (by omega) (by push_cast; omega))

theorem findFreeSlot_some (t : Int → RenderTexture) :
    ∀ (n : Nat) (i s : Int), findFreeSlot t n i = some s →
      i ≤ s ∧ s < i + n ∧ (t s).userdata = 0 ∧ ∀ j, i ≤ j → j < s → (t j).userdata ≠ 0 := by
  intro n
  induction n with
  | zero => intro i s h; simp [findFreeSlot] at h
  | succ n ih =>
    intro i s h
    unfold findFreeSlot at h
    by_cases h0 : (t i).userdata = 0
    · rw [if_pos h0] at h
      have hs : i = s := Option.some.inj h
      subst hs
      exact ⟨le_refl _, by push_cast; omega, h0, fun j h1 h2 => absurd h2 (by omega)⟩
    · rw [if_neg h0] at h
      obtain ⟨h1, h2, h3, h4⟩ := ih (i + 1) s h
      refine ⟨by omega, by push_cast; omega, h3, ?_⟩
      intro j hj1 hj2
      by_cases hji : j = i
      · subst hji; exact h0
      · exact h4 j (by omega) hj2

theorem findFreeSlot_exists (t : Int → RenderTexture) (n : Nat) (i k : Int)
    (h1 : i ≤ k) (h2 : k < i + n) (h0 : (t k).userdata = 0) :
    ∃ s, findFreeSlot t n i = some s := by
  cases h : findFreeSlot t n i with
  | some s => exact ⟨s, rfl⟩
  | none =>
    exfalso
    revert i
    induction n with
    | zero => intro i h1 h2 _; simp at h2; omega
    | succ n ih =>
      intro i h1 h2 h
      unfold findFreeSlot at h
      by_cases hi : (t i).userdata = 0
      · rw [if_pos hi] at h; cases h
      · rw [if_neg hi] at h
        have hne : k ≠ i := fun e => hi (e ▸ h0)
        exact ih (i + 1) (by omega) (by push_cast at h2 ⊢; omega) h

theorem nvg_gpu_renderCreateTexture_some (nv : Nanovg) (be : Backend) (ctx : RenderContext)
    (type w h : Int) (imageFlags data : Nat) (s : Int)
    (hflags : (imageFlags &&& nv.NVG_IMAGE_GENERATE_MIPMAPS) = 0)
    (hs : findFreeSlot ctx.textures NVG_MAX_TEXTURES.toNat 0 = some s) :
    nvg_gpu_renderCreateTexture nv be ctx type w h imageFlags data
      = some (1,
          { ctx with
              textures := poke ctx.textures s
                { ctx.textures s with
                    type := type, flags := imageFlags, width := w, height := h,
                    userdata := be.createTexture (if type = nv.NVG_TEXTURE_RGBA then 1 else 0) w h
                      (if (imageFlags &&& nv.NVG_IMAGE_NEAREST) ≠ 0 then 1 else 0)
                      (if (imageFlags &&& nv.NVG_IMAGE_REPEATX) ≠ 0 then 1 else 0)
                      (if (imageFlags &&& nv.NVG_IMAGE_REPEATY) ≠ 0 then 1 else 0) } },
          [GpuOp.createTexture (if type = nv.NVG_TEXTURE_RGBA then 1 else 0) w h
              (if (imageFlags &&& nv.NVG_IMAGE_NEAREST) ≠ 0 then 1 else 0)
              (if (imageFlags &&& nv.NVG_IMAGE_REPEATX) ≠ 0 then 1 else 0)
              (if (imageFlags &&& nv.NVG_IMAGE_REPEATY) ≠ 0 then 1 else 0)]
            ++ (if data ≠ 0 then
                  [GpuOp.updateTexture
                    (be.createTexture (if type = nv.NVG_TEXTURE_RGBA then 1 else 0) w h
                      (if (imageFlags &&& nv.NVG_IMAGE_NEAREST) ≠ 0 then 1 else 0)
                      (if (imageFlags &&& nv.NVG_IMAGE_REPEATX) ≠ 0 then 1 else 0)
                      (if (imageFlags &&& nv.NVG_IMAGE_REPEATY) ≠ 0 then 1 else 0))
                    0 0 w h data]
                else [])) := by
  unfold nvg_gpu_renderCreateTexture
  rw [if_neg (not_not.mpr hflags), hs]

theorem nvg_gpu_renderDeleteTexture_ok (ctx : RenderContext) (i : Int)
    (hdel : (nvg_gpu_renderDeleteTexture ctx i).1 = 1) :
    0 ≤ i ∧ i < NVG_MAX_TEXTURES ∧ (ctx.textures i).userdata ≠ 0
    ∧ (nvg_gpu_renderDeleteTexture ctx i).2.1.textures
        = poke ctx.textures i { ctx.textures i with userdata := 0 } := by
  unfold nvg_gpu_renderDeleteTexture at hdel ⊢
  by_cases h1 : i < 0 ∨ i ≥ NVG_MAX_TEXTURES
  · rw [if_pos h1] at hdel; simp at hdel
  · rw [if_neg h1] at hdel ⊢
    by_cases h2 : (ctx.textures i).userdata = 0
    · simp only [h2, if_true] at hdel; simp at hdel
    · simp only [h2, if_false]
      exact ⟨by omega, by omega, h2, trivial⟩

/-- C15: with every one of the 128 slots holding a texture, and flags that
pass the mipmap assertion, `nvg_gpu_renderCreateTexture` returns 0, invokes no
backend function and leaves the context, hence every slot, as it was. -/
theorem create_on_full_table (nv : Nanovg) (be : Backend) (ctx : RenderContext)
    (type w h : Int) (imageFlags data : Nat)
    (hflags : (imageFlags &&& nv.NVG_IMAGE_GENERATE_MIPMAPS) = 0)
    (hfull : ∀ j, 0 ≤ j → j < NVG_MAX_TEXTURES → (ctx.textures j).userdata ≠ 0) :
    nvg_gpu_renderCreateTexture nv be ctx type w h imageFlags data = some (0, ctx, []) := by
  unfold nvg_gpu_renderCreateTexture
  rw [if_neg (not_not.mpr hflags),
    findFreeSlot_none ctx.textures NVG_MAX_TEXTURES.toNat 0
      (fun j h1 h2 => hfull j h1 (by simp [NVG_MAX_TEXTURES] at h2 ⊢; omega))]

theorem create_on_full_table_witness :
    nvg_gpu_renderCreateTexture exampleNanovg exampleBackend exampleFullCtx 2 16 16 0 1
      = some (0, exampleFullCtx, []) :=
  create_on_full_table exampleNanovg exampleBackend exampleFullCtx 2 16 16 0 1 (by decide)
    (fun j _ _ => by simp [exampleFullCtx])

theorem texture_ops_reject (ctx : RenderContext) (image x y w h : Int) (data : Nat)
    (ow oh : Option Int)
    (hbad : image < 0 ∨ image ≥ NVG_MAX_TEXTURES ∨ (ctx.textures image).userdata = 0) :
    nvg_gpu_renderGetTextureSize ctx image ow oh = (0, ow, oh)
    ∧ nvg_gpu_renderUpdateTexture ctx image x y w h data = (0, [])
    ∧ nvg_gpu_renderDeleteTexture ctx image = (0, ctx, []) := by
  unfold nvg_gpu_renderGetTextureSize nvg_gpu_renderUpdateTexture nvg_gpu_renderDeleteTexture
  by_cases h1 : image < 0 ∨ image ≥ NVG_MAX_TEXTURES
  · simp only [if_pos h1, and_self]
  · have h2 : (ctx.textures image).userdata = 0 := by tauto
    simp only [if_neg h1, h2, if_true, and_self]

/-- C16: for an id that is negative, at least 128, or names a slot whose
handle is null, `nvg_gpu_renderGetTextureSize`, `nvg_gpu_renderUpdateTexture`
and `nvg_gpu_renderDeleteTexture` return 0; none invokes a backend function,
the size query leaves both output integers as they were, and the delete
leaves the context, hence the table, as it was. -/
theorem invalid_id_rejected (ctx : RenderContext) (image x y w h : Int) (data : Nat)
    (ow oh : Option Int)
    (hbad : image < 0 ∨ image ≥ NVG_MAX_TEXTURES ∨ (ctx.textures image).userdata = 0) :
    nvg_gpu_renderGetTextureSize ctx image ow oh = (0, ow, oh)
    ∧ nvg_gpu_renderUpdateTexture ctx image x y w h data = (0, [])
    ∧ nvg_gpu_renderDeleteTexture ctx image = (0, ctx, []) :=
  texture_ops_reject ctx image x y w h data ow oh hbad

theorem invalid_id_rejected_witness :
    ((5 : Int) < 0 ∨ (5 : Int) ≥ NVG_MAX_TEXTURES ∨ (exampleCtx.textures 5).userdata = 0)
    ∧ nvg_gpu_renderGetTextureSize exampleCtx 5 (some 7) (some 9) = (0, some 7, some 9)
    ∧ nvg_gpu_renderUpdateTexture exampleCtx 5 0 0 4 4 1 = (0, [])
    ∧ nvg_gpu_renderDeleteTexture exampleCtx 5 = (0, exampleCtx, []) :=
  ⟨Or.inr (Or.inr (by decide)),
   invalid_id_rejected exampleCtx 5 0 0 4 4 1 (some 7) (some 9) (Or.inr (Or.inr (by decide)))⟩

/-- C17: after `nvg_gpu_renderDeleteTexture` returned 1 for id `i`, the handle
of slot `i` is null, so that lookup, size query, update and a second delete of
`i` fail; every other slot is as before; and the next
`nvg_gpu_renderCreateTexture` (with flags that pass the mipmap assertion)
returns 1 and writes the new texture, with the handle the backend returned,
into the lowest-indexed slot `s` whose handle was null, touching no other
slot; `s` then resolves whenever that handle is not null. -/
theorem delete_then_create (nv : Nanovg) (be : Backend) (ctx : RenderContext) (i : Int)
    (type w h : Int) (imageFlags data : Nat) (x y uw uh : Int) (udata : Nat)
    (ow oh : Option Int)
    (hdel : (nvg_gpu_renderDeleteTexture ctx i).1 = 1)
    (hflags : (imageFlags &&& nv.NVG_IMAGE_GENERATE_MIPMAPS) = 0) :
    (((nvg_gpu_renderDeleteTexture ctx i).2.1.textures i).userdata = 0
      ∧ INTERNAL_findTexture (nvg_gpu_renderDeleteTexture ctx i).2.1 i = none
      ∧ nvg_gpu_renderGetTextureSize (nvg_gpu_renderDeleteTexture ctx i).2.1 i ow oh
          = (0, ow, oh)
      ∧ nvg_gpu_renderUpdateTexture (nvg_gpu_renderDeleteTexture ctx i).2.1 i x y uw uh udata
          = (0, [])
      ∧ nvg_gpu_renderDeleteTexture (nvg_gpu_renderDeleteTexture ctx i).2.1 i
          = (0, (nvg_gpu_renderDeleteTexture ctx i).2.1, []))
    ∧ (∀ j, j ≠ i → (nvg_gpu_renderDeleteTexture ctx i).2.1.textures j = ctx.textures j)
    ∧ ∃ (s : Int) (ctx2 : RenderContext) (ops : List GpuOp),
        nvg_gpu_renderCreateTexture nv be (nvg_gpu_renderDeleteTexture ctx i).2.1
            type w h imageFlags data = some (1, ctx2, ops)
        ∧ 0 ≤ s ∧ s < NVG_MAX_TEXTURES
        ∧ ((nvg_gpu_renderDeleteTexture ctx i).2.1.textures s).userdata = 0
        ∧ (∀ j, 0 ≤ j → j < s →
            ((nvg_gpu_renderDeleteTexture ctx i).2.1.textures j).userdata ≠ 0)
        ∧ ctx2.textures s =
            { userdata := be.createTexture (if type = nv.NVG_TEXTURE_RGBA then 1 else 0) w h
                (if (imageFlags &&& nv.NVG_IMAGE_NEAREST) ≠ 0 then 1 else 0)
                (if (imageFlags &&& nv.NVG_IMAGE_REPEATX) ≠ 0 then 1 else 0)
                (if (imageFlags &&& nv.NVG_IMAGE_REPEATY) ≠ 0 then 1 else 0),
              type := type, flags := imageFlags, width := w, height := h }
        ∧ (∀ j, j ≠ s → ctx2.textures j = (nvg_gpu_renderDeleteTexture ctx i).2.1.textures j)
        ∧ ((ctx2.textures s).userdata ≠ 0 →
            INTERNAL_findTexture ctx2 s = some (ctx2.textures s)) := by
  obtain ⟨hi0, hi1, _, htex⟩ := nvg_gpu_renderDeleteTexture_ok ctx i hdel
  have hnull : ((nvg_gpu_renderDeleteTexture ctx i).2.1.textures i).userdata = 0 := by
    rw [htex, poke_same]
  refine ⟨⟨hnull, ?_, ?_⟩, ?_, ?_⟩
  · exact INTERNAL_findTexture_unresolved _ i (Or.inr (Or.inr hnull))
  · exact texture_ops_reject _ i x y uw uh udata ow oh (Or.inr (Or.inr hnull))
  · intro j hj
    rw [htex, poke_other _ _ _ _ hj]
  · obtain ⟨s, hs⟩ := findFreeSlot_exists (nvg_gpu_renderDeleteTexture ctx i).2.1.textures
      NVG_MAX_TEXTURES.toNat 0 i hi0 (by simp [NVG_MAX_TEXTURES] at hi1 ⊢; omega) hnull
    obtain ⟨h1, h2, h3, h4⟩ := findFreeSlot_some _ _ _ _ hs
    have hlt : s < NVG_MAX_TEXTURES := by simp [NVG_MAX_TEXTURES] at h2 ⊢; omega
    refine ⟨s, _, _, nvg_gpu_renderCreateTexture_some nv be _ type w h imageFlags data s
      hflags hs, h1, hlt, h3, h4, ?_, ?_, ?_⟩
    · simp only [poke_same]
    · intro j hj
      simp only [poke_other _ _ _ _ hj]
    · intro hne
      unfold INTERNAL_findTexture
      rw [if_neg (by omega), if_neg hne]

theorem delete_then_create_witness :
    (nvg_gpu_renderDeleteTexture exampleFullCtx 5).1 = 1
    ∧ ((0 : Nat) &&& exampleNanovg.NVG_IMAGE_GENERATE_MIPMAPS) = 0
    ∧ ((nvg_gpu_renderDeleteTexture exampleFullCtx 5).2.1.textures 5).userdata = 0
    ∧ INTERNAL_findTexture (nvg_gpu_renderDeleteTexture exampleFullCtx 5).2.1 5 = none :=
  ⟨by decide, by decide,
   (delete_then_create exampleNanovg exampleBackend exampleFullCtx 5 2 16 16 0 1 0 0 4 4 1
      (some 0) (some 0) (by decide) (by decide)).1.1,
   (delete_then_create exampleNanovg exampleBackend exampleFullCtx 5 2 16 16 0 1 0 0 4 4 1
      (some 0) (some 0) (by decide) (by decide)).1.2.1⟩

/-- C13: on the fresh renderer, creating a 16 by 8 texture fills slot 0,
leaves slot 1 empty and returns 1, and the size query on the returned id fails
and leaves both outputs as they were: the returned id is not the slot that
was filled. -/
theorem create_returns_one :
    (nvg_gpu_renderCreateTexture exampleNanovg exampleBackend exampleCtx 2 16 8 0 0).map
        (fun r => (r.1, r.2.1.textures 0, (r.2.1.textures 1).userdata))
      = some (1, { userdata := 116, type := 2, flags := 0, width := 16, height := 8 }, 0)
    ∧ (nvg_gpu_renderCreateTexture exampleNanovg exampleBackend exampleCtx 2 16 8 0 0).map
        (fun r => nvg_gpu_renderGetTextureSize r.2.1 r.1 (some 0) (some 0))
      = some (0, some 0, some 0) := by
  decide

/-- C14: on the fresh renderer, creating a 16 by 8 texture puts the backend
handle into slot 0, after which `INTERNAL_findTexture`, the size query, the
update and the delete all succeed on id 0. -/
theorem create_occupies_slot_zero :
    (nvg_gpu_renderCreateTexture exampleNanovg exampleBackend exampleCtx 2 16 8 0 0).map
        (fun r => ((r.2.1.textures 0).userdata, (INTERNAL_findTexture r.2.1 0).isSome))
      = some (116, true)
    ∧ (nvg_gpu_renderCreateTexture exampleNanovg exampleBackend exampleCtx 2 16 8 0 0).map
        (fun r => nvg_gpu_renderGetTextureSize r.2.1 0 (some 0) (some 0))
      = some (1, some 16, some 8)
    ∧ (nvg_gpu_renderCreateTexture exampleNanovg exampleBackend exampleCtx 2 16 8 0 0).map
        (fun r => nvg_gpu_renderUpdateTexture r.2.1 0 0 0 16 8 1)
      = some (1, [GpuOp.updateTexture 116 0 0 16 8 1])
    ∧ (nvg_gpu_renderCreateTexture exampleNanovg exampleBackend exampleCtx 2 16 8 0 0).map
        (fun r => ((nvg_gpu_renderDeleteTexture r.2.1 0).1,
          (nvg_gpu_renderDeleteTexture r.2.1 0).2.2))
      = some (1, [GpuOp.deleteTexture 116]) := by
  decide

/-! ## The hole classifier of the SVG drawer -/

theorem getLineCrossing_some (p0 p1 p2 p3 : Vec)
    (h : ¬ |(p1.x - p0.x) * (p3.y - p2.y) - (p1.y - p0.y) * (p3.x - p2.x)| < 1 / 1000000) :
    getLineCrossing p0 p1 p2 p3
      = some (-((p1.x - p0.x) * (p2.y - p0.y) - (p1.y - p0.y) * (p2.x - p0.x))
          / ((p1.x - p0.x) * (p3.y - p2.y) - (p1.y - p0.y) * (p3.x - p2.x))) := by
  unfold getLineCrossing
  simp only [if_neg h]

theorem getLineCrossing_none (p0 p1 p2 p3 : Vec)
    (h : |(p1.x - p0.x) * (p3.y - p2.y) - (p1.y - p0.y) * (p3.x - p2.x)| < 1 / 1000000) :
    getLineCrossing p0 p1 p2 p3 = none := by
  unfold getLineCrossing
  simp only [if_pos h]

theorem det_swap (p0 p1 p2 p3 : Vec) :
    (p3.x - p2.x) * (p1.y - p0.y) - (p3.y - p2.y) * (p1.x - p0.x)
      = -((p1.x - p0.x) * (p3.y - p2.y) - (p1.y - p0.y) * (p3.x - p2.x)) := by
  ring

/-- The test of the segment walk in closed form: the determinant is not near
zero and the two quotients are in range. -/
theorem crossingTest_iff (p0 p1 p2 p3 : Vec) :
    crossingTest (getLineCrossing p0 p1 p2 p3) (getLineCrossing p2 p3 p0 p1) = true
    ↔ 1 / 1000000 ≤ |(p1.x - p0.x) * (p3.y - p2.y) - (p1.y - p0.y) * (p3.x - p2.x)|
      ∧ ∃ s t : ℚ, 0 ≤ s ∧ s < 1 ∧ 0 ≤ t
          ∧ p2.x + s * (p3.x - p2.x) = p0.x + t * (p1.x - p0.x)
          ∧ p2.y + s * (p3.y - p2.y) = p0.y + t * (p1.y - p0.y) := by
  by_cases h : |(p1.x - p0.x) * (p3.y - p2.y) - (p1.y - p0.y) * (p3.x - p2.x)| < 1 / 1000000
  · rw [getLineCrossing_none p0 p1 p2 p3 h]
    simp only [crossingTest, floatLe, floatLt, Bool.false_and, Bool.and_false]
    constructor
    · intro hf; cases hf
    · intro hf; exact absurd hf.1 (not_le.mpr h)
  · have h2 : ¬ |(p3.x - p2.x) * (p1.y - p0.y) - (p3.y - p2.y) * (p1.x - p0.x)|
        < 1 / 1000000 := by
      rw [det_swap, abs_neg]; exact h
    have hm : (p1.x - p0.x) * (p3.y - p2.y) - (p1.y - p0.y) * (p3.x - p2.x) ≠ 0 := by
      intro h0
      rw [h0] at h
      norm_num at h
    have hm2 : (p3.x - p2.x) * (p1.y - p0.y) - (p3.y - p2.y) * (p1.x - p0.x) ≠ 0 := by
      rw [det_swap]; exact neg_ne_zero.mpr hm
    rw [getLineCrossing_some p0 p1 p2 p3 h, getLineCrossing_some p2 p3 p0 p1 h2]
    simp only [crossingTest, floatLe, floatLt, Bool.and_eq_true, decide_eq_true_eq]
    constructor
    · rintro ⟨⟨hs0, hs1⟩, ht0⟩
      refine ⟨not_lt.mp h, _, _, hs0, hs1, ht0, ?_, ?_⟩
      · field_simp
        ring
      · field_simp
        ring
    · rintro ⟨_, s, t, hs0, hs1, ht0, hx, hy⟩
      have es : -((p1.x - p0.x) * (p2.y - p0.y) - (p1.y - p0.y) * (p2.x - p0.x))
          / ((p1.x - p0.x) * (p3.y - p2.y) - (p1.y - p0.y) * (p3.x - p2.x)) = s := by
        rw [div_eq_iff hm]
        linear_combination (-(p1.x - p0.x)) * hy + (p1.y - p0.y) * hx
      have et : -((p3.x - p2.x) * (p0.y - p2.y) - (p3.y - p2.y) * (p0.x - p2.x))
          / ((p3.x - p2.x) * (p1.y - p0.y) - (p3.y - p2.y) * (p1.x - p0.x)) = t := by
        rw [div_eq_iff hm2]
        linear_combination (p3.x - p2.x) * hy - (p3.y - p2.y) * hx
      rw [es, et]
      exact ⟨⟨hs0, hs1⟩, ht0⟩

theorem walkSegments_count (path2 : NSVGpath) (p0 p1 : Vec) :
    ∀ (fuel : Nat) (i crossings : Int),
      walkSegments path2 p0 p1 fuel i crossings
        = crossings + (((walkedSegments path2 fuel i).filter fun sg =>
            crossingTest (getLineCrossing p0 p1 sg.1 sg.2)
              (getLineCrossing sg.1 sg.2 p0 p1)).length : Nat) := by
  intro fuel
  induction fuel with
  | zero => intro i c; simp [walkSegments, walkedSegments]
  | succ n ih =>
    intro i c
    unfold walkSegments walkedSegments
    by_cases hi : i < path2.npts + 3
    · simp only [if_pos hi]
      rw [ih, List.filter_cons]
      split_ifs <;> simp <;> ring
    · simp only [if_neg hi]
      simp

theorem countCrossings_sum (self : Nat) (p0 p1 : Vec) :
    ∀ (l : List NSVGpath) (j : Nat) (crossings : Int),
      countCrossings self p0 p1 l j crossings
        = crossings + ((((l.enumFrom j).filter fun x => decide (x.1 ≠ self ∧ 4 ≤ x.2.npts)).map
            fun x => countedSegments p0 p1 x.2).sum : Nat) := by
  intro l
  induction l with
  | nil => intro j c; simp [countCrossings]
  | cons q rest ih =>
    intro j c
    unfold countCrossings
    rw [List.enumFrom_cons, List.filter_cons]
    by_cases hj : j = self
    · rw [if_pos hj, ih]
      simp [hj]
    · rw [if_neg hj]
      by_cases hn : q.npts < 4
      · rw [if_pos hn, ih]
        have : ¬ (4 ≤ q.npts) := by omega
        simp [hj, this]
      · rw [if_neg hn, ih, walkSegments_count]
        have : 4 ≤ q.npts := by omega
        simp [hj, this, countedSegments]
        ring

theorem pathCrossings_eq (paths : List NSVGpath) (self : Nat) (path : NSVGpath) :
    pathCrossings paths self path
      = (siblingSegmentCount paths self ⟨path.pts 0, path.pts 1⟩
          ⟨path.bounds 0 - 1, path.bounds 1 - 1⟩ : Nat) := by
  unfold pathCrossings siblingSegmentCount
  rw [countCrossings_sum]
  simp

theorem pathWinding_eq (paths : List NSVGpath) (self : Nat) (path : NSVGpath) :
    pathWinding paths self path
      = if siblingSegmentCount paths self ⟨path.pts 0, path.pts 1⟩
            ⟨path.bounds 0 - 1, path.bounds 1 - 1⟩ % 2 = 0
        then NVGsolidity.NVG_SOLID else NVGsolidity.NVG_HOLE := by
  unfold pathWinding
  rw [pathCrossings_eq, Int.tmod_eq_emod (Int.natCast_nonneg _) (by decide)]
  by_cases h : siblingSegmentCount paths self ⟨path.pts 0, path.pts 1⟩
      ⟨path.bounds 0 - 1, path.bounds 1 - 1⟩ % 2 = 0
  · rw [if_pos h, if_pos (by omega)]
  · rw [if_neg h, if_neg (by omega)]

/-- C19, amended: with the arithmetic of `float` taken as exact, a walked
segment from `p2` to `p3` is counted against the ray from `p0` through `p1`
exactly when the determinant `m` has `|m| ≥ 1e-6` and the
two lines meet at a parameter `s` in `[0, 1)` along the segment and a
parameter `t ≥ 0` along the ray; the crossing count of a path is the number of
counted segments summed over the paths at another position of the list that
have at least 4 points; and the path is marked solid exactly when that total
is even and hole exactly when it is odd. -/
theorem crossing_rule (p0 p1 p2 p3 : Vec) (paths : List NSVGpath) (self : Nat)
    (path : NSVGpath) :
    (crossingTest (getLineCrossing p0 p1 p2 p3) (getLineCrossing p2 p3 p0 p1) = true
      ↔ 1 / 1000000 ≤ |(p1.x - p0.x) * (p3.y - p2.y) - (p1.y - p0.y) * (p3.x - p2.x)|
        ∧ ∃ s t : ℚ, 0 ≤ s ∧ s < 1 ∧ 0 ≤ t
            ∧ p2.x + s * (p3.x - p2.x) = p0.x + t * (p1.x - p0.x)
            ∧ p2.y + s * (p3.y - p2.y) = p0.y + t * (p1.y - p0.y))
    ∧ pathCrossings paths self path
        = (siblingSegmentCount paths self ⟨path.pts 0, path.pts 1⟩
            ⟨path.bounds 0 - 1, path.bounds 1 - 1⟩ : Nat)
    ∧ (pathWinding paths self path = NVGsolidity.NVG_SOLID
        ↔ siblingSegmentCount paths self ⟨path.pts 0, path.pts 1⟩
            ⟨path.bounds 0 - 1, path.bounds 1 - 1⟩ % 2 = 0)
    ∧ (pathWinding paths self path = NVGsolidity.NVG_HOLE
        ↔ siblingSegmentCount paths self ⟨path.pts 0, path.pts 1⟩
            ⟨path.bounds 0 - 1, path.bounds 1 - 1⟩ % 2 = 1) := by
  refine ⟨crossingTest_iff p0 p1 p2 p3, pathCrossings_eq paths self path, ?_, ?_⟩
  · rw [pathWinding_eq]
    split_ifs with h
    · simp [h]
    · simp [h]
  · rw [pathWinding_eq]
    split_ifs with h
    · simp [h]
    · simp only [true_iff]
      omega

theorem crossingTest_miss_x (p0 p1 p2 p3 : Vec) (hq : p1.x ≤ p0.x)
    (h2 : p0.x < p2.x) (h3 : p0.x < p3.x) :
    crossingTest (getLineCrossing p0 p1 p2 p3) (getLineCrossing p2 p3 p0 p1) = false := by
  rw [Bool.eq_false_iff]
  intro h
  obtain ⟨_, s, t, hs0, hs1, ht0, hx, _⟩ := (crossingTest_iff p0 p1 p2 p3).mp h
  nlinarith [mul_pos (sub_pos.mpr hs1) (sub_pos.mpr h2), mul_nonneg hs0 (sub_pos.mpr h3).le,
    mul_nonneg ht0 (sub_nonneg.mpr hq)]

theorem crossingTest_miss_y (p0 p1 p2 p3 : Vec) (hq : p1.y ≤ p0.y)
    (h2 : p0.y < p2.y) (h3 : p0.y < p3.y) :
    crossingTest (getLineCrossing p0 p1 p2 p3) (getLineCrossing p2 p3 p0 p1) = false := by
  rw [Bool.eq_false_iff]
  intro h
  obtain ⟨_, s, t, hs0, hs1, ht0, _, hy⟩ := (crossingTest_iff p0 p1 p2 p3).mp h
  nlinarith [mul_pos (sub_pos.mpr hs1) (sub_pos.mpr h2), mul_nonneg hs0 (sub_pos.mpr h3).le,
    mul_nonneg ht0 (sub_nonneg.mpr hq)]

theorem crossingTest_degenerate (p0 p1 p2 : Vec) :
    crossingTest (getLineCrossing p0 p1 p2 p2) (getLineCrossing p2 p2 p0 p1) = false := by
  rw [Bool.eq_false_iff]
  intro h
  have h1 := ((crossingTest_iff p0 p1 p2 p2).mp h).1
  norm_num at h1

theorem hit_bottom_right (p0 p1 : Vec) (a c S : ℚ) (hS : 1 / 1000000 ≤ S)
    (hqx : p1.x ≤ p0.x - 1) (hqy : p1.y ≤ p0.y - 1)
    (hx2 : p0.x < a + S) (hy1 : c < p0.y) :
    crossingTest (getLineCrossing p0 p1 ⟨a, c⟩ ⟨a + S, c⟩)
        (getLineCrossing ⟨a, c⟩ ⟨a + S, c⟩ p0 p1) = true
      ↔ (p0.x - p1.x) * (p0.y - c) ≤ (p0.y - p1.y) * (p0.x - a) := by
  have hSpos : 0 < S := lt_of_lt_of_le (by norm_num) hS
  have hα : 0 < p0.x - p1.x := by linarith
  have hβ : 1 ≤ p0.y - p1.y := by linarith
  have hβ0 : 0 < p0.y - p1.y := by linarith
  constructor
  · intro h
    obtain ⟨_, s, t, hs0, hs1, ht0, hx, hy⟩ := (crossingTest_iff _ _ _ _).mp h
    dsimp only at hx hy
    have key : (p0.y - p1.y) * (p0.x - a) - (p0.x - p1.x) * (p0.y - c)
        = (p0.y - p1.y) * (s * S) := by
      linear_combination (-(p0.y - p1.y)) * hx + (p0.x - p1.x) * hy
    nlinarith [mul_nonneg hβ0.le (mul_nonneg hs0 hSpos.le)]
  · intro hc
    apply (crossingTest_iff _ _ _ _).mpr
    refine ⟨?_, ((p0.y - p1.y) * (p0.x - a) - (p0.x - p1.x) * (p0.y - c))
        / ((p0.y - p1.y) * S), (p0.y - c) / (p0.y - p1.y), ?_, ?_, ?_, ?_, ?_⟩
    · have e : (p1.x - p0.x) * (c - c) - (p1.y - p0.y) * (a + S - a) = (p0.y - p1.y) * S := by
        ring
      dsimp only
      rw [e, abs_of_pos (mul_pos hβ0 hSpos)]
      nlinarith
    · exact div_nonneg (by linarith) (mul_pos hβ0 hSpos).le
    · rw [div_lt_one (mul_pos hβ0 hSpos)]
      nlinarith [mul_pos hα (sub_pos.mpr hy1), mul_pos hβ0 (sub_pos.mpr hx2)]
    · exact div_nonneg (by linarith) hβ0.le
    · dsimp only
      field_simp
      ring
    · dsimp only
      field_simp
      ring

theorem hit_left_down (p0 p1 : Vec) (a c S : ℚ) (hS : 1 / 1000000 ≤ S)
    (hqx : p1.x ≤ p0.x - 1) (hqy : p1.y ≤ p0.y - 1)
    (hx1 : a < p0.x) (hy2 : p0.y < c + S) :
    crossingTest (getLineCrossing p0 p1 ⟨a, c + S⟩ ⟨a, c⟩)
        (getLineCrossing ⟨a, c + S⟩ ⟨a, c⟩ p0 p1) = true
      ↔ (p0.y - p1.y) * (p0.x - a) < (p0.x - p1.x) * (p0.y - c) := by
  have hSpos : 0 < S := lt_of_lt_of_le (by norm_num) hS
  have hα0 : 0 < p0.x - p1.x := by linarith
  have hβ0 : 0 < p0.y - p1.y := by linarith
  constructor
  · intro h
    obtain ⟨_, s, t, hs0, hs1, ht0, hx, hy⟩ := (crossingTest_iff _ _ _ _).mp h
    dsimp only at hx hy
    have key : (p0.x - p1.x) * (p0.y - c) - (p0.y - p1.y) * (p0.x - a)
        = (p0.x - p1.x) * (S * (1 - s)) := by
      linear_combination (-(p0.x - p1.x)) * hy + (p0.y - p1.y) * hx
    nlinarith [mul_pos hα0 (mul_pos hSpos (sub_pos.mpr hs1))]
  · intro hc
    apply (crossingTest_iff _ _ _ _).mpr
    refine ⟨?_, ((p0.x - p1.x) * (c + S - p0.y) + (p0.y - p1.y) * (p0.x - a))
        / ((p0.x - p1.x) * S), (p0.x - a) / (p0.x - p1.x), ?_, ?_, ?_, ?_, ?_⟩
    · have e : (p1.x - p0.x) * (c - (c + S)) - (p1.y - p0.y) * (a - a) = (p0.x - p1.x) * S := by
        ring
      dsimp only
      rw [e, abs_of_pos (mul_pos hα0 hSpos)]
      nlinarith
    · exact div_nonneg
        (add_nonneg (mul_nonneg hα0.le (by linarith)) (mul_nonneg hβ0.le (by linarith)))
        (mul_pos hα0 hSpos).le
    · rw [div_lt_one (mul_pos hα0 hSpos)]
      nlinarith
    · exact div_nonneg (by linarith) hα0.le
    · dsimp only
      field_simp
      ring
    · dsimp only
      field_simp
      ring

theorem hit_left_up (p0 p1 : Vec) (a c S : ℚ) (hS : 1 / 1000000 ≤ S)
    (hqx : p1.x ≤ p0.x - 1) (hqy : p1.y ≤ p0.y - 1)
    (hx1 : a < p0.x) (hy2 : p0.y < c + S) :
    crossingTest (getLineCrossing p0 p1 ⟨a, c⟩ ⟨a, c + S⟩)
        (getLineCrossing ⟨a, c⟩ ⟨a, c + S⟩ p0 p1) = true
      ↔ (p0.y - p1.y) * (p0.x - a) ≤ (p0.x - p1.x) * (p0.y - c) := by
  have hSpos : 0 < S := lt_of_lt_of_le (by norm_num) hS
  have hα0 : 0 < p0.x - p1.x := by linarith
  have hβ0 : 0 < p0.y - p1.y := by linarith
  constructor
  · intro h
    obtain ⟨_, s, t, hs0, hs1, ht0, hx, hy⟩ := (crossingTest_iff _ _ _ _).mp h
    dsimp only at hx hy
    have key : (p0.x - p1.x) * (p0.y - c) - (p0.y - p1.y) * (p0.x - a)
        = (p0.x - p1.x) * (s * S) := by
      linear_combination (-(p0.x - p1.x)) * hy + (p0.y - p1.y) * hx
    nlinarith [mul_nonneg hα0.le (mul_nonneg hs0 hSpos.le)]
  · intro hc
    apply (crossingTest_iff _ _ _ _).mpr
    refine ⟨?_, ((p0.x - p1.x) * (p0.y - c) - (p0.y - p1.y) * (p0.x - a))
        / ((p0.x - p1.x) * S), (p0.x - a) / (p0.x - p1.x), ?_, ?_, ?_, ?_, ?_⟩
    · have e : (p1.x - p0.x) * (c + S - c) - (p1.y - p0.y) * (a - a)
          = -((p0.x - p1.x) * S) := by
        ring
      dsimp only
      rw [e, abs_neg, abs_of_pos (mul_pos hα0 hSpos)]
      nlinarith
    · exact div_nonneg (by linarith) (mul_pos hα0 hSpos).le
    · rw [div_lt_one (mul_pos hα0 hSpos)]
      nlinarith [mul_pos hβ0 (sub_pos.mpr hx1), mul_pos hα0 (sub_pos.mpr hy2)]
    · exact div_nonneg (by linarith) hα0.le
    · dsimp only
      field_simp
      ring
    · dsimp only
      field_simp
      ring

theorem hit_bottom_left (p0 p1 : Vec) (a c S : ℚ) (hS : 1 / 1000000 ≤ S)
    (hqx : p1.x ≤ p0.x - 1) (hqy : p1.y ≤ p0.y - 1)
    (hx2 : p0.x < a + S) (hy1 : c < p0.y) :
    crossingTest (getLineCrossing p0 p1 ⟨a + S, c⟩ ⟨a, c⟩)
        (getLineCrossing ⟨a + S, c⟩ ⟨a, c⟩ p0 p1) = true
      ↔ (p0.x - p1.x) * (p0.y - c) < (p0.y - p1.y) * (p0.x - a) := by
  have hSpos : 0 < S := lt_of_lt_of_le (by norm_num) hS
  have hα0 : 0 < p0.x - p1.x := by linarith
  have hβ0 : 0 < p0.y - p1.y := by linarith
  constructor
  · intro h
    obtain ⟨_, s, t, hs0, hs1, ht0, hx, hy⟩ := (crossingTest_iff _ _ _ _).mp h
    dsimp only at hx hy
    have key : (p0.y - p1.y) * (p0.x - a) - (p0.x - p1.x) * (p0.y - c)
        = (p0.y - p1.y) * (S * (1 - s)) := by
      linear_combination (-(p0.y - p1.y)) * hx + (p0.x - p1.x) * hy
    nlinarith [mul_pos hβ0 (mul_pos hSpos (sub_pos.mpr hs1))]
  · intro hc
    apply (crossingTest_iff _ _ _ _).mpr
    refine ⟨?_, ((p0.y - p1.y) * (a + S - p0.x) + (p0.x - p1.x) * (p0.y - c))
        / ((p0.y - p1.y) * S), (p0.y - c) / (p0.y - p1.y), ?_, ?_, ?_, ?_, ?_⟩
    · have e : (p1.x - p0.x) * (c - c) - (p1.y - p0.y) * (a - (a + S))
          = -((p0.y - p1.y) * S) := by
        ring
      dsimp only
      rw [e, abs_neg, abs_of_pos (mul_pos hβ0 hSpos)]
      nlinarith
    · exact div_nonneg
        (add_nonneg (mul_nonneg hβ0.le (by linarith)) (mul_nonneg hα0.le (by linarith)))
        (mul_pos hβ0 hSpos).le
    · rw [div_lt_one (mul_pos hβ0 hSpos)]
      nlinarith
    · exact div_nonneg (by linarith) hβ0.le
    · dsimp only
      field_simp
      ring
    · dsimp only
      field_simp
      ring

theorem walkedSegments_13 (P : NSVGpath) (h : P.npts = 13) :
    walkedSegments P (P.npts + 3).toNat 1
      = [(pointOf P 0, pointOf P 3), (pointOf P 3, pointOf P 6), (pointOf P 6, pointOf P 9),
         (pointOf P 9, pointOf P 12), (pointOf P 12, pointOf P 0)] := by
  rw [h]
  norm_num [walkedSegments, pointOf, h]

theorem walkedSegments_10 (P : NSVGpath) (h : P.npts = 10) :
    walkedSegments P (P.npts + 3).toNat 1
      = [(pointOf P 0, pointOf P 3), (pointOf P 3, pointOf P 6), (pointOf P 6, pointOf P 9),
         (pointOf P 9, pointOf P 0)] := by
  rw [h]
  norm_num [walkedSegments, pointOf, h]

theorem walkedSegments_mem (P : NSVGpath) (k : Int) (hn : P.npts = 3 * k + 1) :
    ∀ (fuel : Nat) (j : Int), 0 ≤ j → ∀ sg ∈ walkedSegments P fuel (3 * j + 1),
      ∃ j1 j2 : Int, (0 ≤ j1 ∧ j1 ≤ k) ∧ (0 ≤ j2 ∧ j2 ≤ k)
        ∧ sg.1 = pointOf P (3 * j1) ∧ sg.2 = pointOf P (3 * j2) := by
  intro fuel
  induction fuel with
  | zero => intro j _ sg h; simp [walkedSegments] at h
  | succ n ih =>
    intro j hj sg h
    unfold walkedSegments at h
    by_cases hi : 3 * j + 1 < P.npts + 3
    · rw [if_pos hi] at h
      rcases List.mem_cons.mp h with h1 | h1
      · by_cases hlt : 3 * j + 1 < P.npts
        · refine ⟨j, j + 1, ⟨hj, by omega⟩, ⟨by omega, by omega⟩, ?_, ?_⟩
          · rw [h1]
            simp only [pointOf]
            congr 2 <;> ring
          · rw [h1]
            simp only [pointOf, if_pos hlt]
            congr 2 <;> ring
        · refine ⟨j, 0, ⟨hj, by omega⟩, ⟨le_refl _, by omega⟩, ?_, ?_⟩
          · rw [h1]
            simp only [pointOf]
            congr 2 <;> ring
          · rw [h1]
            simp only [pointOf, if_neg hlt]
            congr 2
      · have e : 3 * j + 1 + 3 = 3 * (j + 1) + 1 := by ring
        rw [e] at h1
        exact ih (j + 1) (by omega) sg h1
    · rw [if_neg hi] at h
      cases h

theorem countedSegments_inside (I : NSVGpath) (k : Int) (a c S : ℚ) (p1 : Vec)
    (hI : IsInsideSquare I k a c S) (hp : p1.x ≤ a) :
    countedSegments ⟨a, c⟩ p1 I = 0 := by
  obtain ⟨_, hn, _, _, hin⟩ := hI
  unfold countedSegments
  rw [List.length_eq_zero, List.filter_eq_nil_iff]
  intro sg hsg
  have hsg1 : sg ∈ walkedSegments I (I.npts + 3).toNat (3 * 0 + 1) := by simpa using hsg
  obtain ⟨j1, j2, ⟨h1a, h1b⟩, ⟨h2a, h2b⟩, e1, e2⟩ :=
    walkedSegments_mem I k hn (I.npts + 3).toNat 0 (le_refl _) sg hsg1
  rw [crossingTest_miss_x ⟨a, c⟩ p1 sg.1 sg.2 hp (by rw [e1]; exact (hin j1 h1a h1b).1)
    (by rw [e2]; exact (hin j2 h2a h2b).1)]
  simp

theorem countedSegments_square (O : NSVGpath) (a c S : ℚ) (xFirst closing : Bool)
    (p0 p1 : Vec) (hO : IsAxisSquare O a c S xFirst closing) (hS : 1 / 1000000 ≤ S)
    (hqx : p1.x ≤ p0.x - 1) (hqy : p1.y ≤ p0.y - 1)
    (hx1 : a < p0.x) (hx2 : p0.x < a + S) (hy1 : c < p0.y) (hy2 : p0.y < c + S) :
    countedSegments p0 p1 O = 1 := by
  obtain ⟨hn, _, _, e0, e3, e6, e9, e12⟩ := hO
  have hSpos : 0 < S := lt_of_lt_of_le (by norm_num) hS
  have mx : ∀ y1 y2 : ℚ,
      crossingTest (getLineCrossing p0 p1 ⟨a + S, y1⟩ ⟨a + S, y2⟩)
        (getLineCrossing ⟨a + S, y1⟩ ⟨a + S, y2⟩ p0 p1) = false :=
    fun y1 y2 => crossingTest_miss_x p0 p1 _ _ (by linarith) hx2 hx2
  have my : ∀ x1 x2 : ℚ,
      crossingTest (getLineCrossing p0 p1 ⟨x1, c + S⟩ ⟨x2, c + S⟩)
        (getLineCrossing ⟨x1, c + S⟩ ⟨x2, c + S⟩ p0 p1) = false :=
    fun x1 x2 => crossingTest_miss_y p0 p1 _ _ (by linarith) hy2 hy2
  have seg : walkedSegments O (O.npts + 3).toNat 1
      = [(pointOf O 0, pointOf O 3), (pointOf O 3, pointOf O 6), (pointOf O 6, pointOf O 9)]
        ++ (if closing then [(pointOf O 9, pointOf O 12), (pointOf O 12, pointOf O 0)]
            else [(pointOf O 9, pointOf O 0)]) := by
    cases closing
    · exact walkedSegments_10 O hn
    · exact walkedSegments_13 O hn
  unfold countedSegments
  rw [seg, e0, e3, e6, e9]
  cases xFirst
  · by_cases hc : (p0.y - p1.y) * (p0.x - a) ≤ (p0.x - p1.x) * (p0.y - c)
    · have b1 := (hit_left_up p0 p1 a c S hS hqx hqy hx1 hy2).mpr hc
      have b4 : crossingTest (getLineCrossing p0 p1 ⟨a + S, c⟩ ⟨a, c⟩)
          (getLineCrossing ⟨a + S, c⟩ ⟨a, c⟩ p0 p1) = false := by
        rw [Bool.eq_false_iff]
        exact fun h => absurd ((hit_bottom_left p0 p1 a c S hS hqx hqy hx2 hy1).mp h)
          (not_lt.mpr hc)
      cases closing
      · simp [List.filter, b1, b4, mx, my]
      · simp [List.filter, b1, b4, mx, my, e12, crossingTest_degenerate]
    · have b1 : crossingTest (getLineCrossing p0 p1 ⟨a, c⟩ ⟨a, c + S⟩)
          (getLineCrossing ⟨a, c⟩ ⟨a, c + S⟩ p0 p1) = false := by
        rw [Bool.eq_false_iff]
        exact fun h => hc ((hit_left_up p0 p1 a c S hS hqx hqy hx1 hy2).mp h)
      have b4 := (hit_bottom_left p0 p1 a c S hS hqx hqy hx2 hy1).mpr (not_le.mp hc)
      cases closing
      · simp [List.filter, b1, b4, mx, my]
      · simp [List.filter, b1, b4, mx, my, e12, crossingTest_degenerate]
  · by_cases hc : (p0.x - p1.x) * (p0.y - c) ≤ (p0.y - p1.y) * (p0.x - a)
    · have b1 := (hit_bottom_right p0 p1 a c S hS hqx hqy hx2 hy1).mpr hc
      have b4 : crossingTest (getLineCrossing p0 p1 ⟨a, c + S⟩ ⟨a, c⟩)
          (getLineCrossing ⟨a, c + S⟩ ⟨a, c⟩ p0 p1) = false := by
        rw [Bool.eq_false_iff]
        exact fun h => absurd ((hit_left_down p0 p1 a c S hS hqx hqy hx1 hy2).mp h)
          (not_lt.mpr hc)
      cases closing
      · simp [List.filter, b1, b4, mx, my]
      · simp [List.filter, b1, b4, mx, my, e12, crossingTest_degenerate]
    · have b1 : crossingTest (getLineCrossing p0 p1 ⟨a, c⟩ ⟨a + S, c⟩)
          (getLineCrossing ⟨a, c⟩ ⟨a + S, c⟩ p0 p1) = false := by
        rw [Bool.eq_false_iff]
        exact fun h => hc ((hit_bottom_right p0 p1 a c S hS hqx hqy hx2 hy1).mp h)
      have b4 := (hit_left_down p0 p1 a c S hS hqx hqy hx1 hy2).mpr (not_le.mp hc)
      cases closing
      · simp [List.filter, b1, b4, mx, my]
      · simp [List.filter, b1, b4, mx, my, e12, crossingTest_degenerate]

theorem siblingSegmentCount_pair (A B : NSVGpath) (p0 p1 : Vec)
    (hA : 4 ≤ A.npts) (hB : 4 ≤ B.npts) :
    siblingSegmentCount [A, B] 0 p0 p1 = countedSegments p0 p1 B
    ∧ siblingSegmentCount [A, B] 1 p0 p1 = countedSegments p0 p1 A := by
  simp [siblingSegmentCount, List.enumFrom, List.filter, hA, hB]

set_option maxRecDepth 100000 in
/-- C18, counterexample: for the square (0,0)-(10,10) listed counter-clockwise
from its corner (10,10) and the clockwise square (2,4)-(4,6) strictly inside
it, the ray from (10,10) runs along the diagonal and meets the inner square at
its corner (4,4) only; the outer square gets crossing count 1 and is marked a
hole. -/
theorem outer_square_marked_hole :
    pathCrossings [exampleOuterSquare, exampleInnerSquare] 0 exampleOuterSquare = 1
    ∧ pathWinding [exampleOuterSquare, exampleInnerSquare] 0 exampleOuterSquare
        = NVGsolidity.NVG_HOLE := by
  have h : pathCrossings [exampleOuterSquare, exampleInnerSquare] 0 exampleOuterSquare = 1 := by
    norm_num [pathCrossings, countCrossings, walkSegments, getLineCrossing, crossingTest,
      floatLe, floatLt, exampleOuterSquare, exampleInnerSquare, quadPath, floatsFrom, lineToPts]
  refine ⟨h, ?_⟩
  rw [pathWinding, h]
  decide

/-- C18, amended: for an outer axis-parallel square of side at least 1e-6
listed from its minimum corner (in either direction, with or without the
stored closing segment) and an inner sub-path of `3k + 1` points, `k ≥ 1`,
whose on-curve points lie strictly inside that square and whose bounds'
minimum corner is not beyond its first point, the classifier computes
crossing count 0 for the outer path and marks it solid, and count 1 for the
inner path and marks it a hole, whichever of the two is listed first. -/
theorem nested_square_classified (O I : NSVGpath) (k : Int) (a c S : ℚ)
    (xFirst closing : Bool) (hO : IsAxisSquare O a c S xFirst closing)
    (hI : IsInsideSquare I k a c S) (hS : 1 / 1000000 ≤ S) :
    (pathCrossings [O, I] 0 O = 0 ∧ pathWinding [O, I] 0 O = NVGsolidity.NVG_SOLID
      ∧ pathCrossings [O, I] 1 I = 1 ∧ pathWinding [O, I] 1 I = NVGsolidity.NVG_HOLE)
    ∧ (pathCrossings [I, O] 1 O = 0 ∧ pathWinding [I, O] 1 O = NVGsolidity.NVG_SOLID
      ∧ pathCrossings [I, O] 0 I = 1 ∧ pathWinding [I, O] 0 I = NVGsolidity.NVG_HOLE) := by
  have hOn : 4 ≤ O.npts := by
    rw [hO.1]; split_ifs <;> decide
  have hIn : 4 ≤ I.npts := by
    rw [hI.2.1]; have := hI.1; omega
  have e0 : (⟨O.pts 0, O.pts 1⟩ : Vec) = ⟨a, c⟩ := by
    have := hO.2.2.2.1
    simpa [pointOf] using this
  have hin0 := hI.2.2.2.2 0 (le_refl _) (by have := hI.1; omega)
  simp only [pointOf, mul_zero, zero_add] at hin0
  have cO : countedSegments ⟨O.pts 0, O.pts 1⟩ ⟨O.bounds 0 - 1, O.bounds 1 - 1⟩ I = 0 := by
    rw [e0]
    exact countedSegments_inside I k a c S _ hI (by rw [hO.2.1]; simp)
  have cI : countedSegments ⟨I.pts 0, I.pts 1⟩ ⟨I.bounds 0 - 1, I.bounds 1 - 1⟩ O = 1 :=
    countedSegments_square O a c S xFirst closing _ _ hO hS
      (by have := hI.2.2.1; simp only; linarith) (by have := hI.2.2.2.1; simp only; linarith)
      hin0.1 hin0.2.1 hin0.2.2.1 hin0.2.2.2
  have s1 := siblingSegmentCount_pair O I
  have s2 := siblingSegmentCount_pair I O
  refine ⟨⟨?_, ?_, ?_, ?_⟩, ⟨?_, ?_, ?_, ?_⟩⟩
  · rw [pathCrossings_eq, (s1 _ _ hOn hIn).1, cO]; rfl
  · rw [pathWinding_eq, (s1 _ _ hOn hIn).1, cO]; rfl
  · rw [pathCrossings_eq, (s1 _ _ hOn hIn).2, cI]; rfl
  · rw [pathWinding_eq, (s1 _ _ hOn hIn).2, cI]; rfl
  · rw [pathCrossings_eq, (s2 _ _ hIn hOn).2, cO]; rfl
  · rw [pathWinding_eq, (s2 _ _ hIn hOn).2, cO]; rfl
  · rw [pathCrossings_eq, (s2 _ _ hIn hOn).1, cI]; rfl
  · rw [pathWinding_eq, (s2 _ _ hIn hOn).1, cI]; rfl

theorem nested_square_classified_witness :
    IsAxisSquare exampleOuterFromMin 0 0 10 true true
    ∧ IsInsideSquare exampleInnerSquare 4 0 0 10
    ∧ (1 : ℚ) / 1000000 ≤ 10
    ∧ pathCrossings [exampleOuterFromMin, exampleInnerSquare] 0 exampleOuterFromMin = 0
    ∧ pathWinding [exampleOuterFromMin, exampleInnerSquare] 0 exampleOuterFromMin
        = NVGsolidity.NVG_SOLID
    ∧ pathCrossings [exampleOuterFromMin, exampleInnerSquare] 1 exampleInnerSquare = 1
    ∧ pathWinding [exampleOuterFromMin, exampleInnerSquare] 1 exampleInnerSquare
        = NVGsolidity.NVG_HOLE :=
  have hO : IsAxisSquare exampleOuterFromMin 0 0 10 true true := by
    norm_num [IsAxisSquare, pointOf, exampleOuterFromMin, quadPath, floatsFrom, lineToPts]
  have hI : IsInsideSquare exampleInnerSquare 4 0 0 10 := by
    refine ⟨by decide, rfl, ?_, ?_, ?_⟩
    · norm_num [exampleInnerSquare, quadPath, floatsFrom, lineToPts]
    · norm_num [exampleInnerSquare, quadPath, floatsFrom, lineToPts]
    · intro j h0 h4
      interval_cases j <;>
        norm_num [pointOf, exampleInnerSquare, quadPath, floatsFrom, lineToPts]
  ⟨hO, hI, by norm_num,
   (nested_square_classified exampleOuterFromMin exampleInnerSquare 4 0 0 10 true true
      hO hI (by norm_num)).1⟩
/-! ## Stroke multiplier -/

theorem INTERNAL_convertPaint_congr (nv : Nanovg) (g1 g2 : RenderContext)
    (f1 f2 : RenderUniforms) (paint : NVGpaint) (scissor : NVGscissor)
    (width fringe strokeThr : ℚ) (h : g1.textures = g2.textures) :
    INTERNAL_convertPaint nv g1 f1 paint scissor width fringe strokeThr
      = INTERNAL_convertPaint nv g2 f2 paint scissor width fringe strokeThr := by
  simp only [INTERNAL_convertPaint, memsetUniforms, INTERNAL_findTexture_congr g1 g2 _ h]

theorem INTERNAL_convertPaint_stroke (nv : Nanovg) (gl : RenderContext) (frag : RenderUniforms)
    (paint : NVGpaint) (scissor : NVGscissor) (width fringe strokeThr : ℚ) :
    (INTERNAL_convertPaint nv gl frag paint scissor width fringe strokeThr).2.strokeMult
      = (width * (1 / 2) + fringe * (1 / 2)) / fringe
    ∧ (INTERNAL_convertPaint nv gl frag paint scissor width fringe strokeThr).2.strokeThr
      = strokeThr := by
  unfold INTERNAL_convertPaint
  dsimp only
  by_cases himg : paint.image ≠ 0
  · rw [if_pos himg]
    cases INTERNAL_findTexture gl paint.image with
    | none => exact ⟨rfl, rfl⟩
    | some tex =>
      dsimp only
      split_ifs <;> exact ⟨rfl, rfl⟩
  · rw [if_neg himg]
    exact ⟨rfl, rfl⟩

/-- C21: for every width and every non-zero fringe, the block that
`INTERNAL_convertPaint` writes has stroke multiplier
`(width / 2 + fringe / 2) / fringe` and the given alpha threshold, on both
return paths; for width 4 and fringe 2 the stroke multiplier is 3/2. -/
theorem stroke_multiplier (nv : Nanovg) (gl : RenderContext) (frag : RenderUniforms)
    (paint : NVGpaint) (scissor : NVGscissor) (width fringe strokeThr : ℚ)
    (hf : fringe ≠ 0) :
    (INTERNAL_convertPaint nv gl frag paint scissor width fringe strokeThr).2.strokeMult
      = (width / 2 + fringe / 2) / fringe
    ∧ (INTERNAL_convertPaint nv gl frag paint scissor width fringe strokeThr).2.strokeMult
        * fringe = width / 2 + fringe / 2
    ∧ (INTERNAL_convertPaint nv gl frag paint scissor width fringe strokeThr).2.strokeThr
      = strokeThr
    ∧ (INTERNAL_convertPaint nv gl frag paint scissor 4 2 strokeThr).2.strokeMult = 3 / 2 := by
  have h := INTERNAL_convertPaint_stroke nv gl frag paint scissor width fringe strokeThr
  have h2 := INTERNAL_convertPaint_stroke nv gl frag paint scissor 4 2 strokeThr
  refine ⟨?_, ?_, h.2, ?_⟩
  · rw [h.1]; ring
  · rw [h.1]; field_simp; ring
  · rw [h2.1]; norm_num

theorem stroke_multiplier_witness :
    (3 : ℚ) ≠ 0
    ∧ (INTERNAL_convertPaint exampleNanovg exampleCtx RenderUniforms.zero examplePaint
        exampleScissor 9 3 (-1)).2.strokeMult = (9 / 2 + 3 / 2) / 3
    ∧ (INTERNAL_convertPaint exampleNanovg exampleCtx RenderUniforms.zero examplePaint
        exampleScissor 9 3 (-1)).2.strokeThr = -1 :=
  ⟨by norm_num,
   (stroke_multiplier exampleNanovg exampleCtx RenderUniforms.zero examplePaint
      exampleScissor 9 3 (-1) (by norm_num)).1,
   (stroke_multiplier exampleNanovg exampleCtx RenderUniforms.zero examplePaint
      exampleScissor 9 3 (-1) (by norm_num)).2.2.1⟩

/-! ## Dispatch of a general fill and of a stroke -/

theorem withoutApplyState_append (a b : List GpuOp) :
    withoutApplyState (a ++ b) = withoutApplyState a ++ withoutApplyState b := by
  simp [withoutApplyState, List.filter_append]

theorem withoutApplyState_setUniforms (gl : RenderContext) (uniformOffset image : Int) :
    withoutApplyState (INTERNAL_setUniforms gl uniformOffset image)
      = INTERNAL_setUniforms gl uniformOffset image := by
  unfold withoutApplyState
  rw [List.filter_eq_self]
  intro e he
  unfold INTERNAL_setUniforms at he
  simp only [List.mem_append, List.mem_cons, List.mem_singleton, List.not_mem_nil,
    or_false] at he
  rcases he with (he | he) | he
  · subst he; rfl
  · subst he; rfl
  · split_ifs at he
    · split at he
      · simp only [List.mem_singleton] at he
        subst he; rfl
      · simp at he
    · simp at he

theorem withoutApplyState_drawFills (gl : RenderContext) (pathOffset npaths : Int) :
    withoutApplyState (drawFills gl pathOffset npaths) = drawFills gl pathOffset npaths := by
  unfold withoutApplyState
  rw [List.filter_eq_self]
  intro e he
  unfold drawFills at he
  simp only [List.mem_map] at he
  obtain ⟨i, -, rfl⟩ := he
  rfl

theorem withoutApplyState_drawStrokes (gl : RenderContext) (pathOffset npaths : Int) :
    withoutApplyState (drawStrokes gl pathOffset npaths) = drawStrokes gl pathOffset npaths := by
  unfold withoutApplyState
  rw [List.filter_eq_self]
  intro e he
  unfold drawStrokes at he
  simp only [List.mem_map] at he
  obtain ⟨i, -, rfl⟩ := he
  rfl

theorem INTERNAL_setUniforms_no_image (gl : RenderContext) (uniformOffset : Int) :
    INTERNAL_setUniforms gl uniformOffset 0
      = [GpuOp.updateUniformBuffer (gl.uniforms uniformOffset) sizeofUniformArray,
         GpuOp.updateShader (if (gl.flags &&& NVG_ANTIALIAS) ≠ 0 then 1 else 0)
           (gl.uniforms uniformOffset).type (gl.uniforms uniformOffset).texType] := by
  simp [INTERNAL_setUniforms]

/-- C29: the flush dispatches a recorded call of kind general fill with quad
count 4 as follows, apply-state calls left aside: color-write off; stencil on;
stencil function ALWAYS with (KEEP, KEEP, INCREMENT) and, for the
counter-clockwise face, (KEEP, KEEP, DECREMENT); culling off; the uniform and
shader update of the block at `uniformOffset`, without sampler; one
triangle-list draw per sub-path of its fill range, in order; color-write on;
culling on; the bind of the block at `uniformOffset + fragSize` with the
call's image; with anti-aliasing, stencil function EQUAL with six KEEP and one
triangle-strip draw per sub-path of its stroke range; stencil function
NOTEQUAL with six ZERO; one triangle-strip draw of `(triangleOffset, 4)`;
stencil off. -/
theorem fill_dispatch_order (gl : RenderContext) (call : RenderDrawCall)
    (htype : call.type = RenderType.RENDERTYPE_FILL) (hquad : call.triangleCount = 4) :
    withoutApplyState (dispatchCall gl call)
      = [GpuOp.toggleColorWriteMask 0,
         GpuOp.toggleStencil 1,
         GpuOp.updateStencilFunction ALWAYS KEEP KEEP INCREMENT KEEP KEEP DECREMENT,
         GpuOp.toggleCullMode 0,
         GpuOp.updateUniformBuffer (gl.uniforms call.uniformOffset) sizeofUniformArray,
         GpuOp.updateShader (if (gl.flags &&& NVG_ANTIALIAS) ≠ 0 then 1 else 0)
           (gl.uniforms call.uniformOffset).type (gl.uniforms call.uniformOffset).texType]
        ++ ((List.range call.pathCount.toNat).map fun (i : Nat) =>
              GpuOp.drawPrimitives 0 (gl.paths (call.pathOffset + i)).fillOffset
                (gl.paths (call.pathOffset + i)).fillCount)
        ++ [GpuOp.toggleColorWriteMask 1, GpuOp.toggleCullMode 1]
        ++ INTERNAL_setUniforms gl (call.uniformOffset + gl.fragSize) call.image
        ++ (if (gl.flags &&& NVG_ANTIALIAS) ≠ 0 then
              GpuOp.updateStencilFunction EQUAL KEEP KEEP KEEP KEEP KEEP KEEP
                :: ((List.range call.pathCount.toNat).map fun (i : Nat) =>
                      GpuOp.drawPrimitives 1 (gl.paths (call.pathOffset + i)).strokeOffset
                        (gl.paths (call.pathOffset + i)).strokeCount)
            else [])
        ++ [GpuOp.updateStencilFunction NOTEQUAL ZERO ZERO ZERO ZERO ZERO ZERO,
            GpuOp.drawPrimitives 1 call.triangleOffset 4,
            GpuOp.toggleStencil 0] := by
  unfold dispatchCall
  rw [if_pos htype]
  unfold INTERNAL_fill
  rw [hquad, INTERNAL_setUniforms_no_image]
  simp only [withoutApplyState_append, withoutApplyState_setUniforms,
    withoutApplyState_drawFills]
  by_cases haa : (gl.flags &&& NVG_ANTIALIAS) ≠ 0
  · simp only [if_pos haa]
    rw [show ∀ l : List GpuOp, withoutApplyState
          ([GpuOp.updateStencilFunction EQUAL KEEP KEEP KEEP KEEP KEEP KEEP,
            GpuOp.applyState gl.vertexBuffer] ++ l)
          = GpuOp.updateStencilFunction EQUAL KEEP KEEP KEEP KEEP KEEP KEEP
              :: withoutApplyState l from fun l => by
        simp [withoutApplyState, GpuOp.isApplyState]]
    rw [withoutApplyState_drawStrokes]
    simp [withoutApplyState, GpuOp.isApplyState, drawFills, drawStrokes]
  · simp only [if_neg haa]
    simp [withoutApplyState, GpuOp.isApplyState, drawFills]

theorem fill_dispatch_order_witness :
    (exampleSceneCtx.calls 0).type = RenderType.RENDERTYPE_FILL
    ∧ (exampleSceneCtx.calls 0).triangleCount = 4
    ∧ (withoutApplyState (dispatchCall exampleSceneCtx (exampleSceneCtx.calls 0))).length
        = 18 :=
  ⟨by decide, by decide, by
    rw [fill_dispatch_order exampleSceneCtx (exampleSceneCtx.calls 0) (by decide) (by decide)]
    have h1 : (exampleSceneCtx.calls 0).pathCount = 2 := by decide
    have h2 : (exampleSceneCtx.calls 0).image = 0 := by decide
    have h3 : (exampleSceneCtx.flags &&& NVG_ANTIALIAS) ≠ 0 := by decide
    simp [h1, h2, h3, INTERNAL_setUniforms_no_image]⟩

/-- C30, refuted as stated: in stencil-stroke mode the stencil-function
updates of the dispatch of the recorded stroke of the example scene are, in
order, EQUAL with (KEEP, KEEP, INCREMENTSATURATION) for both faces, EQUAL with
six KEEP, and ALWAYS with six ZERO; no update has increment-and-saturate as
its fail or depth-fail operation. -/
theorem stroke_first_pass_keeps_on_fail :
    (exampleSceneCtx.calls 1).type = RenderType.RENDERTYPE_STROKE
    ∧ (exampleSceneCtx.flags &&& NVG_STENCIL_STROKES) ≠ 0
    ∧ stencilUpdates (dispatchCall exampleSceneCtx (exampleSceneCtx.calls 1))
        = [GpuOp.updateStencilFunction EQUAL KEEP KEEP INCREMENTSATURATION
             KEEP KEEP INCREMENTSATURATION,
           GpuOp.updateStencilFunction EQUAL KEEP KEEP KEEP KEEP KEEP KEEP,
           GpuOp.updateStencilFunction ALWAYS ZERO ZERO ZERO ZERO ZERO ZERO]
    ∧ GpuOp.updateStencilFunction EQUAL INCREMENTSATURATION INCREMENTSATURATION
          INCREMENTSATURATION INCREMENTSATURATION INCREMENTSATURATION INCREMENTSATURATION
        ∉ dispatchCall exampleSceneCtx (exampleSceneCtx.calls 1) := by
  have ht : (exampleSceneCtx.calls 1).type = RenderType.RENDERTYPE_STROKE := by decide
  have hf : (exampleSceneCtx.flags &&& NVG_STENCIL_STROKES) ≠ 0 := by decide
  have hi : (exampleSceneCtx.calls 1).image = 0 := by decide
  have hn : (exampleSceneCtx.calls 1).pathCount = 1 := by decide
  refine ⟨ht, hf, ?_, ?_⟩
  · simp [dispatchCall, ht, INTERNAL_stroke, hf, hi, hn, INTERNAL_setUniforms_no_image,
      stencilUpdates, drawStrokes, List.filter]
  · simp [dispatchCall, ht, INTERNAL_stroke, hf, hi, hn, INTERNAL_setUniforms_no_image,
      drawStrokes]

/-- C30, amended: the flush dispatches a recorded stroke call as follows,
apply-state calls left aside. In stencil-stroke mode: stencil on; (1) stencil
function EQUAL with KEEP on stencil-fail and depth-fail and
INCREMENTSATURATION on pass, for both faces, the bind of the second block (at
`uniformOffset + fragSize`), one triangle-strip draw per stroke range; (2) the
bind of the base block (at `uniformOffset`), stencil function EQUAL with six
KEEP, the same draws; (3) color-write off, stencil function ALWAYS with six
ZERO, the same draws; (4) color-write on, stencil off. Otherwise: the bind of
the block at `uniformOffset` and one triangle-strip draw per stroke range
(`drawStrokes`), with no stencil or color-mask call. -/
theorem stroke_dispatch_order (gl : RenderContext) (call : RenderDrawCall)
    (htype : call.type = RenderType.RENDERTYPE_STROKE) :
    withoutApplyState (dispatchCall gl call)
      = if (gl.flags &&& NVG_STENCIL_STROKES) ≠ 0 then
          [GpuOp.toggleStencil 1,
           GpuOp.updateStencilFunction EQUAL KEEP KEEP INCREMENTSATURATION
             KEEP KEEP INCREMENTSATURATION]
          ++ INTERNAL_setUniforms gl (call.uniformOffset + gl.fragSize) call.image
          ++ drawStrokes gl call.pathOffset call.pathCount
          ++ INTERNAL_setUniforms gl call.uniformOffset call.image
          ++ [GpuOp.updateStencilFunction EQUAL KEEP KEEP KEEP KEEP KEEP KEEP]
          ++ drawStrokes gl call.pathOffset call.pathCount
          ++ [GpuOp.toggleColorWriteMask 0,
              GpuOp.updateStencilFunction ALWAYS ZERO ZERO ZERO ZERO ZERO ZERO]
          ++ drawStrokes gl call.pathOffset call.pathCount
          ++ [GpuOp.toggleColorWriteMask 1, GpuOp.toggleStencil 0]
        else
          INTERNAL_setUniforms gl call.uniformOffset call.image
          ++ drawStrokes gl call.pathOffset call.pathCount := by
  unfold dispatchCall
  rw [htype, if_neg (by decide), if_neg (by decide), if_pos rfl]
  unfold INTERNAL_stroke
  by_cases hs : (gl.flags &&& NVG_STENCIL_STROKES) ≠ 0
  · simp only [if_pos hs, withoutApplyState_append, withoutApplyState_setUniforms,
      withoutApplyState_drawStrokes]
    simp [withoutApplyState, GpuOp.isApplyState]
  · simp only [if_neg hs, withoutApplyState_append, withoutApplyState_setUniforms,
      withoutApplyState_drawStrokes]
    simp [withoutApplyState, GpuOp.isApplyState]

theorem stroke_dispatch_order_witness :
    (exampleSceneCtx.calls 1).type = RenderType.RENDERTYPE_STROKE
    ∧ (withoutApplyState (dispatchCall exampleSceneCtx (exampleSceneCtx.calls 1))).length
        = 14 :=
  ⟨by decide, by
    rw [stroke_dispatch_order exampleSceneCtx (exampleSceneCtx.calls 1) (by decide)]
    have h1 : (exampleSceneCtx.calls 1).pathCount = 1 := by decide
    have h2 : (exampleSceneCtx.calls 1).image = 0 := by decide
    have h3 : (exampleSceneCtx.flags &&& NVG_STENCIL_STROKES) ≠ 0 := by decide
    simp [h1, h2, h3, INTERNAL_setUniforms_no_image, drawStrokes]⟩

/-! ## The vertex-buffer refit of the flush -/

theorem dispatchCall_no_bufferOp (ctx : RenderContext) (call : RenderDrawCall) :
    ∀ e ∈ dispatchCall ctx call, e.isBufferOp = false := by
  intro e he
  have hu : ∀ o i, e ∈ INTERNAL_setUniforms ctx o i → e.isBufferOp = false := by
    intro o i h
    unfold INTERNAL_setUniforms at h
    simp only [List.mem_append, List.mem_cons, List.mem_singleton, List.not_mem_nil,
      or_false] at h
    rcases h with (h | h) | h
    · subst h; rfl
    · subst h; rfl
    · split_ifs at h
      · split at h
        · simp only [List.mem_singleton] at h
          subst h; rfl
        · simp at h
      · simp at h
  have hf : ∀ o n, e ∈ drawFills ctx o n → e.isBufferOp = false := by
    intro o n h
    unfold drawFills at h
    simp only [List.mem_map] at h
    obtain ⟨i, -, rfl⟩ := h
    rfl
  have hs : ∀ o n, e ∈ drawStrokes ctx o n → e.isBufferOp = false := by
    intro o n h
    unfold drawStrokes at h
    simp only [List.mem_map] at h
    obtain ⟨i, -, rfl⟩ := h
    rfl
  unfold dispatchCall at he
  split_ifs at he
  · unfold INTERNAL_fill at he
    split_ifs at he <;>
      simp only [List.mem_append, List.mem_cons, List.mem_singleton, List.not_mem_nil,
        or_false] at he <;>
      casesm* _ ∨ _ <;>
      rename_i he <;>
      first
        | (subst he; rfl)
        | exact hu _ _ he
        | exact hf _ _ he
        | exact hs _ _ he
  · unfold INTERNAL_convexFill at he
    simp only [List.mem_append, List.mem_cons, List.mem_singleton, List.not_mem_nil,
      or_false, List.mem_flatMap] at he
    rcases he with (he | he) | ⟨i, -, he | he⟩
    · exact hu _ _ he
    · subst he; rfl
    · subst he; rfl
    · split_ifs at he
      · simp only [List.mem_singleton] at he
        subst he; rfl
      · simp at he
  · unfold INTERNAL_stroke at he
    split_ifs at he <;>
      simp only [List.mem_append, List.mem_cons, List.mem_singleton, List.not_mem_nil,
        or_false] at he <;>
      casesm* _ ∨ _ <;>
      rename_i he <;>
      first
        | (subst he; rfl)
        | exact hu _ _ he
        | exact hs _ _ he
  · unfold INTERNAL_triangles at he
    simp only [List.mem_append, List.mem_cons, List.mem_singleton, List.not_mem_nil,
      or_false] at he
    rcases he with he | he
    · exact hu _ _ he
    · subst he; rfl
  · simp at he

theorem bufferOps_flushCalls (ctx : RenderContext) (n : Nat) (i : Int) :
    bufferOps (flushCalls ctx n i) = [] := by
  unfold bufferOps
  rw [List.filter_eq_nil_iff]
  intro e he
  rw [flushCalls_eq_flatMap] at he
  simp only [List.mem_flatMap, List.mem_cons] at he
  obtain ⟨k, -, he | he⟩ := he
  · subst he; simp [GpuOp.isBufferOp]
  · simp [dispatchCall_no_bufferOp _ _ e he]

theorem bufferOps_flush (be : Backend) (ctx : RenderContext) (h : 0 < ctx.ncalls) :
    bufferOps (nvg_gpu_renderFlush be ctx).2 = bufferOps (flushVertexBuffer be ctx).2 := by
  rw [nvg_gpu_renderFlush_trace be ctx h]
  simp only [bufferOps, List.filter_append] 
  have := bufferOps_flushCalls (flushVertexBuffer be ctx).1 ctx.ncalls.toNat 0
  unfold bufferOps at this
  rw [this]
  simp [GpuOp.isBufferOp]

theorem flush_buffer_fields (be : Backend) (ctx : RenderContext) :
    (nvg_gpu_renderFlush be ctx).1.vertexBuffer
      = (if 0 < ctx.ncalls then (flushVertexBuffer be ctx).1.vertexBuffer
         else ctx.vertexBuffer)
    ∧ (nvg_gpu_renderFlush be ctx).1.vertexBufferSize
      = (if 0 < ctx.ncalls then (flushVertexBuffer be ctx).1.vertexBufferSize
         else ctx.vertexBufferSize) := by
  unfold nvg_gpu_renderFlush
  by_cases h : ctx.ncalls ≤ 0
  · rw [if_pos h, if_neg (by omega), if_neg (by omega)]
    exact ⟨rfl, rfl⟩
  · rw [if_neg h, if_pos (by omega), if_pos (by omega)]
    exact ⟨rfl, rfl⟩

/-- C28, amended: in a flush with at least one recorded call, if no vertex
buffer exists or `nverts * sizeof(NVGvertex)` (in `size_t` arithmetic) exceeds
the recorded size, the old buffer, if any, is deleted, a new one is created
and the recorded size becomes exactly that product; otherwise no buffer is
created or deleted and handle and size are unchanged. In both cases the
recorded size after the flush is at least the product; it is not smaller than
before whenever a vertex buffer existed before the flush or the recorded size
was zero. For `0 ≤ nverts < 2^31` the product is `16 * nverts`. -/
theorem flush_refits_vertex_buffer (be : Backend) (ctx : RenderContext)
    (h : 0 < ctx.ncalls) :
    ((ctx.vertexBuffer = 0 ∨ sizeT (ctx.nverts * sizeofNVGvertex) > ctx.vertexBufferSize) →
      bufferOps (nvg_gpu_renderFlush be ctx).2
          = (if ctx.vertexBuffer ≠ 0 then [GpuOp.deleteVertexBuffer ctx.vertexBuffer] else [])
            ++ [GpuOp.createVertexBuffer (sizeT (ctx.nverts * sizeofNVGvertex))]
        ∧ (nvg_gpu_renderFlush be ctx).1.vertexBufferSize
          = sizeT (ctx.nverts * sizeofNVGvertex)
        ∧ (nvg_gpu_renderFlush be ctx).1.vertexBuffer
          = be.createVertexBuffer (sizeT (ctx.nverts * sizeofNVGvertex)))
    ∧ (¬ (ctx.vertexBuffer = 0 ∨ sizeT (ctx.nverts * sizeofNVGvertex) > ctx.vertexBufferSize) →
      bufferOps (nvg_gpu_renderFlush be ctx).2 = []
        ∧ (nvg_gpu_renderFlush be ctx).1.vertexBufferSize = ctx.vertexBufferSize
        ∧ (nvg_gpu_renderFlush be ctx).1.vertexBuffer = ctx.vertexBuffer)
    ∧ sizeT (ctx.nverts * sizeofNVGvertex) ≤ (nvg_gpu_renderFlush be ctx).1.vertexBufferSize
    ∧ (ctx.vertexBuffer ≠ 0 ∨ ctx.vertexBufferSize = 0 →
        ctx.vertexBufferSize ≤ (nvg_gpu_renderFlush be ctx).1.vertexBufferSize)
    ∧ (0 ≤ ctx.nverts → ctx.nverts < 2 ^ 31 →
        sizeT (ctx.nverts * sizeofNVGvertex) = 16 * ctx.nverts) := by
  have hb := bufferOps_flush be ctx h
  obtain ⟨f1, f2⟩ := flush_buffer_fields be ctx
  rw [if_pos h] at f1 f2
  rw [hb, f1, f2]
  have hnn : 0 ≤ sizeT (ctx.nverts * sizeofNVGvertex) := by
    unfold sizeT
    exact Int.emod_nonneg _ (by norm_num)
  unfold flushVertexBuffer
  by_cases hc : ctx.vertexBuffer = 0 ∨ sizeT (ctx.nverts * sizeofNVGvertex) > ctx.vertexBufferSize
  · simp only [if_pos hc]
    refine ⟨fun _ => ⟨?_, trivial, trivial⟩, fun hn => absurd hc hn, le_refl _, ?_, ?_⟩
    · by_cases hv : ctx.vertexBuffer ≠ 0
      · simp [bufferOps, hv, GpuOp.isBufferOp]
      · simp [bufferOps, hv, GpuOp.isBufferOp]
    · rintro (hv | hz)
      · rcases hc with hc | hc
        · exact absurd hc hv
        · exact le_of_lt hc
      · rw [hz]; exact hnn
    · intro h0 h31
      unfold sizeT sizeofNVGvertex
      rw [Int.emod_eq_of_lt (by omega) (by norm_num; omega)]
      ring
  · simp only [if_neg hc]
    refine ⟨fun hp => absurd hp hc, fun _ => ⟨by simp [bufferOps], trivial, trivial⟩, ?_,
      fun _ => le_refl _, ?_⟩
    · push_neg at hc
      exact hc.2
    · intro h0 h31
      unfold sizeT sizeofNVGvertex
      rw [Int.emod_eq_of_lt (by omega) (by norm_num; omega)]
      ring

theorem flush_refits_vertex_buffer_witness :
    0 < exampleSceneCtx.ncalls
    ∧ bufferOps (nvg_gpu_renderFlush exampleBackend exampleSceneCtx).2
        = [GpuOp.createVertexBuffer 464]
    ∧ (nvg_gpu_renderFlush exampleBackend exampleSceneCtx).1.vertexBufferSize = 464 :=
  ⟨by decide, by
    have h := (flush_refits_vertex_buffer exampleBackend exampleSceneCtx (by decide)).1
      (Or.inl (by decide))
    have e : sizeT (exampleSceneCtx.nverts * sizeofNVGvertex) = 464 := by decide
    have hv : ¬ exampleSceneCtx.vertexBuffer ≠ 0 := by decide
    rw [e, if_neg hv] at h
    exact h.1, by decide⟩

/-- C28, refuted as stated: the example scene flushed on a backend whose
buffer creation returns `NULL` leaves no buffer and the recorded size 464;
after one more submit of 3 vertices the next flush finds no buffer and
records the size 48, smaller than before. -/
theorem flush_size_can_shrink :
    (nvg_gpu_renderFlush nullBackend exampleSceneCtx).1.vertexBuffer = 0
    ∧ (nvg_gpu_renderFlush nullBackend exampleSceneCtx).1.vertexBufferSize = 464
    ∧ exampleAfterFailedBuffer.ncalls = 1
    ∧ exampleAfterFailedBuffer.nverts = 3
    ∧ exampleAfterFailedBuffer.vertexBufferSize = 464
    ∧ (nvg_gpu_renderFlush nullBackend exampleAfterFailedBuffer).1.vertexBufferSize = 48 := by
  decide
/-! ## The recorded state after a successful submit -/

theorem INTERNAL_allocPaths_npaths (ok : Bool) (gl : RenderContext) (n : Int) :
    (INTERNAL_allocPaths ok gl n).2.npaths
      = if gl.npaths = gl.cpaths ∧ ok = false then gl.npaths else gl.npaths + n := by
  unfold INTERNAL_allocPaths
  split_ifs <;> simp_all

theorem INTERNAL_allocVerts_nverts (ok : Bool) (gl : RenderContext) (n : Int) :
    (INTERNAL_allocVerts ok gl n).2.nverts
      = if gl.nverts + n > gl.cverts ∧ ok = false then gl.nverts else gl.nverts + n := by
  unfold INTERNAL_allocVerts
  split_ifs <;> simp_all

theorem INTERNAL_allocFragUniforms_nuniforms (ok : Bool) (gl : RenderContext) (n : Int) :
    (INTERNAL_allocFragUniforms ok gl n).2.nuniforms
      = if gl.nuniforms + n > gl.cuniforms ∧ ok = false then gl.nuniforms
        else gl.nuniforms + n := by
  unfold INTERNAL_allocFragUniforms
  split_ifs <;> simp_all

theorem INTERNAL_allocPaths_cond (ok : Bool) (gl : RenderContext) (n : Int)
    (h : (INTERNAL_allocPaths ok gl n).1 ≠ -1) :
    ¬ (gl.npaths = gl.cpaths ∧ ok = false) ∧ ¬ (gl.npaths = -1) := by
  rw [INTERNAL_allocPaths_fst] at h
  split_ifs at h with hc
  · exact absurd rfl h
  · exact ⟨hc, h⟩

theorem INTERNAL_allocVerts_cond (ok : Bool) (gl : RenderContext) (n : Int)
    (h : (INTERNAL_allocVerts ok gl n).1 ≠ -1) :
    ¬ (gl.nverts + n > gl.cverts ∧ ok = false) ∧ ¬ (gl.nverts = -1) := by
  rw [INTERNAL_allocVerts_fst] at h
  split_ifs at h with hc
  · exact absurd rfl h
  · exact ⟨hc, h⟩

theorem INTERNAL_allocFragUniforms_cond (ok : Bool) (gl : RenderContext) (n : Int)
    (h : (INTERNAL_allocFragUniforms ok gl n).1 ≠ -1) :
    ¬ (gl.nuniforms + n > gl.cuniforms ∧ ok = false)
      ∧ ¬ (gl.nuniforms * gl.fragSize = -1) := by
  rw [INTERNAL_allocFragUniforms_fst] at h
  split_ifs at h with hc
  · exact absurd rfl h
  · exact ⟨hc, h⟩

theorem nvg_gpu_renderTriangles_ok (nv : Nanovg) (o : ReallocOracle) (gl : RenderContext)
    (paint : NVGpaint) (op : NVGcompositeOperationState)
    (scissor : NVGscissor) (verts : Int → NVGvertex) (nverts : Int) (fringe : ℚ)
    (hcall : (INTERNAL_allocCall o.calls gl).1 ≠ none)
    (hv : (INTERNAL_allocVerts o.verts gl nverts).1 ≠ -1)
    (hu : (INTERNAL_allocFragUniforms o.uniforms gl 1).1 ≠ -1) :
    (nvg_gpu_renderTriangles nv o gl paint op scissor verts nverts fringe).ncalls
      = gl.ncalls + 1
    ∧ (nvg_gpu_renderTriangles nv o gl paint op scissor verts nverts fringe).calls gl.ncalls
      = { type := RenderType.RENDERTYPE_TRIANGLES, image := paint.image,
          pathOffset := 0, pathCount := 0,
          triangleOffset := gl.nverts, triangleCount := nverts,
          uniformOffset := gl.nuniforms * gl.fragSize, blendOp := op }
    ∧ (nvg_gpu_renderTriangles nv o gl paint op scissor verts nverts fringe).verts
      = memcpy gl.verts gl.nverts verts nverts
    ∧ (nvg_gpu_renderTriangles nv o gl paint op scissor verts nverts fringe).nverts
      = gl.nverts + nverts
    ∧ (nvg_gpu_renderTriangles nv o gl paint op scissor verts nverts fringe).nuniforms
      = gl.nuniforms + 1
    ∧ (nvg_gpu_renderTriangles nv o gl paint op scissor verts nverts fringe).uniforms
      = poke gl.uniforms (gl.nuniforms * gl.fragSize)
          { (INTERNAL_convertPaint nv gl RenderUniforms.zero paint scissor 1 fringe (-1)).2
              with type := RENDERSHADER_IMG }
    ∧ (nvg_gpu_renderTriangles nv o gl paint op scissor verts nverts fringe).paths = gl.paths
    ∧ (nvg_gpu_renderTriangles nv o gl paint op scissor verts nverts fringe).npaths
      = gl.npaths := by
  obtain ⟨cv, hv1⟩ := INTERNAL_allocVerts_cond _ _ _ hv
  obtain ⟨cu, hu1⟩ := INTERNAL_allocFragUniforms_cond _ _ _ hu
  unfold nvg_gpu_renderTriangles
  split
  · rename_i gl0 heq
    exact absurd (by rw [heq]) hcall
  · rename_i ci gl1 heq
    obtain ⟨h1, h2, h3, h4, h5⟩ := INTERNAL_allocCall_some _ _ _ _ heq
    subst h1 h2
    clear heq
    have ecp : ∀ V F, INTERNAL_convertPaint nv (INTERNAL_allocFragUniforms o.uniforms
        { (INTERNAL_allocVerts o.verts (INTERNAL_allocCall o.calls gl).2 nverts).2 with
            verts := V } 1).2 F paint scissor 1 fringe (-1)
        = INTERNAL_convertPaint nv gl RenderUniforms.zero paint scissor 1 fringe (-1) :=
      fun V F => INTERNAL_convertPaint_congr nv _ gl _ _ paint scissor 1 fringe (-1)
        (by simp only [INTERNAL_allocVerts_frame, INTERNAL_allocFragUniforms_frame,
          INTERNAL_allocCall_frame])
    simp only [ecp]
    simp only [INTERNAL_allocVerts_fst, INTERNAL_allocFragUniforms_fst,
      INTERNAL_allocVerts_nverts, INTERNAL_allocFragUniforms_nuniforms,
      INTERNAL_allocVerts_frame, INTERNAL_allocFragUniforms_frame, INTERNAL_allocCall_frame,
      cv, cu, hv1, hu1, if_false, h4, h5, poke_same, true_and, and_true]
    rfl


theorem strokeCopyPaths_congr (pathOffset : Int) (l : List NVGpath) :
    ∀ (i : Int) (c1 c2 : RenderContext) (offset : Int),
      c1.paths = c2.paths → c1.verts = c2.verts →
      (strokeCopyPaths pathOffset l i c1 offset).1.paths
          = (strokeCopyPaths pathOffset l i c2 offset).1.paths
        ∧ (strokeCopyPaths pathOffset l i c1 offset).1.verts
          = (strokeCopyPaths pathOffset l i c2 offset).1.verts
        ∧ (strokeCopyPaths pathOffset l i c1 offset).2
          = (strokeCopyPaths pathOffset l i c2 offset).2 := by
  induction l with
  | nil => intro i c1 c2 offset hp hv; exact ⟨hp, hv, rfl⟩
  | cons p rest ih =>
    intro i c1 c2 offset hp hv
    rw [strokeCopyPaths, strokeCopyPaths, hv]
    exact ih (i + 1) _ _ _ (by simp only [hp]) rfl

theorem nvg_gpu_renderStroke_ok (nv : Nanovg) (o : ReallocOracle) (gl : RenderContext)
    (paint : NVGpaint) (op : NVGcompositeOperationState)
    (scissor : NVGscissor) (fringe strokeWidth : ℚ) (paths : List NVGpath)
    (hcall : (INTERNAL_allocCall o.calls gl).1 ≠ none)
    (hp : (INTERNAL_allocPaths o.paths gl paths.length).1 ≠ -1)
    (hv : (INTERNAL_allocVerts o.verts gl (INTERNAL_maxVertCount paths)).1 ≠ -1)
    (hu : (INTERNAL_allocFragUniforms o.uniforms gl
            (if (gl.flags &&& NVG_STENCIL_STROKES) ≠ 0 then 2 else 1)).1 ≠ -1) :
    (nvg_gpu_renderStroke nv o gl paint op scissor fringe strokeWidth paths).ncalls
      = gl.ncalls + 1
    ∧ (nvg_gpu_renderStroke nv o gl paint op scissor fringe strokeWidth paths).calls gl.ncalls
      = { type := RenderType.RENDERTYPE_STROKE, image := paint.image,
          pathOffset := gl.npaths, pathCount := paths.length,
          triangleOffset := 0, triangleCount := 0,
          uniformOffset := gl.nuniforms * gl.fragSize, blendOp := op }
    ∧ (nvg_gpu_renderStroke nv o gl paint op scissor fringe strokeWidth paths).npaths
      = gl.npaths + paths.length
    ∧ (nvg_gpu_renderStroke nv o gl paint op scissor fringe strokeWidth paths).nverts
      = gl.nverts + INTERNAL_maxVertCount paths
    ∧ (nvg_gpu_renderStroke nv o gl paint op scissor fringe strokeWidth paths).nuniforms
      = gl.nuniforms + (if (gl.flags &&& NVG_STENCIL_STROKES) ≠ 0 then 2 else 1)
    ∧ (nvg_gpu_renderStroke nv o gl paint op scissor fringe strokeWidth paths).paths
      = (strokeCopyPaths gl.npaths paths 0 gl gl.nverts).1.paths
    ∧ (nvg_gpu_renderStroke nv o gl paint op scissor fringe strokeWidth paths).verts
      = (strokeCopyPaths gl.npaths paths 0 gl gl.nverts).1.verts
    ∧ (nvg_gpu_renderStroke nv o gl paint op scissor fringe strokeWidth paths).uniforms
      = (if (gl.flags &&& NVG_STENCIL_STROKES) ≠ 0 then
          poke (poke gl.uniforms (gl.nuniforms * gl.fragSize)
              (INTERNAL_convertPaint nv gl RenderUniforms.zero paint scissor
                strokeWidth fringe (-1)).2)
            (gl.nuniforms * gl.fragSize + gl.fragSize)
            (INTERNAL_convertPaint nv gl RenderUniforms.zero paint scissor
              strokeWidth fringe (1 - (1 / 2) / 255)).2
        else
          poke gl.uniforms (gl.nuniforms * gl.fragSize)
            (INTERNAL_convertPaint nv gl RenderUniforms.zero paint scissor
              strokeWidth fringe (-1)).2)
    ∧ (nvg_gpu_renderStroke nv o gl paint op scissor fringe strokeWidth paths).fragSize
      = gl.fragSize
    ∧ (nvg_gpu_renderStroke nv o gl paint op scissor fringe strokeWidth paths).flags
      = gl.flags := by
  obtain ⟨cp, hp1⟩ := INTERNAL_allocPaths_cond _ _ _ hp
  obtain ⟨cv, hv1⟩ := INTERNAL_allocVerts_cond _ _ _ hv
  unfold nvg_gpu_renderStroke
  split
  · rename_i gl0 heq
    exact absurd (by rw [heq]) hcall
  · rename_i ci gl1 heq
    obtain ⟨h1, h2, h3, h4, h5⟩ := INTERNAL_allocCall_some _ _ _ _ heq
    subst h1 h2
    clear heq
    have etx : ∀ n m X Y, (strokeCopyPaths X paths 0 (INTERNAL_allocVerts o.verts
        (INTERNAL_allocPaths o.paths (INTERNAL_allocCall o.calls gl).2 n).2 m).2 Y).1.textures
        = gl.textures := by
      intro n m X Y
      simp only [strokeCopyPaths_frame, INTERNAL_allocVerts_frame, INTERNAL_allocPaths_frame,
        INTERNAL_allocCall_frame]
    have ecp0 : ∀ n m X Y k F w f t, INTERNAL_convertPaint nv
        (INTERNAL_allocFragUniforms o.uniforms (strokeCopyPaths X paths 0
          (INTERNAL_allocVerts o.verts (INTERNAL_allocPaths o.paths
            (INTERNAL_allocCall o.calls gl).2 n).2 m).2 Y).1 k).2 F paint scissor w f t
        = INTERNAL_convertPaint nv gl RenderUniforms.zero paint scissor w f t :=
      fun n m X Y k F w f t => INTERNAL_convertPaint_congr nv _ gl _ _ paint scissor w f t
        (by simp only [INTERNAL_allocFragUniforms_frame, etx])
    have ecp1 : ∀ n m X Y k U F w f t, INTERNAL_convertPaint nv
        { (INTERNAL_allocFragUniforms o.uniforms (strokeCopyPaths X paths 0
          (INTERNAL_allocVerts o.verts (INTERNAL_allocPaths o.paths
            (INTERNAL_allocCall o.calls gl).2 n).2 m).2 Y).1 k).2 with uniforms := U }
          F paint scissor w f t
        = INTERNAL_convertPaint nv gl RenderUniforms.zero paint scissor w f t :=
      fun n m X Y k U F w f t => INTERNAL_convertPaint_congr nv _ gl _ _ paint scissor w f t
        (by simp only [INTERNAL_allocFragUniforms_frame, etx])
    have esp : ∀ n m X Y, (strokeCopyPaths X paths 0 (INTERNAL_allocVerts o.verts
        (INTERNAL_allocPaths o.paths (INTERNAL_allocCall o.calls gl).2 n).2 m).2 Y).1.paths
        = (strokeCopyPaths X paths 0 gl Y).1.paths := by
      intro n m X Y
      exact (strokeCopyPaths_congr X paths 0 _ gl Y
        (by simp only [INTERNAL_allocVerts_frame, INTERNAL_allocPaths_frame,
          INTERNAL_allocCall_frame])
        (by simp only [INTERNAL_allocVerts_frame, INTERNAL_allocPaths_frame,
          INTERNAL_allocCall_frame])).1
    have esv : ∀ n m X Y, (strokeCopyPaths X paths 0 (INTERNAL_allocVerts o.verts
        (INTERNAL_allocPaths o.paths (INTERNAL_allocCall o.calls gl).2 n).2 m).2 Y).1.verts
        = (strokeCopyPaths X paths 0 gl Y).1.verts := by
      intro n m X Y
      exact (strokeCopyPaths_congr X paths 0 _ gl Y
        (by simp only [INTERNAL_allocVerts_frame, INTERNAL_allocPaths_frame,
          INTERNAL_allocCall_frame])
        (by simp only [INTERNAL_allocVerts_frame, INTERNAL_allocPaths_frame,
          INTERNAL_allocCall_frame])).2.1
    simp only [ecp0, ecp1]
    by_cases hs : (gl.flags &&& NVG_STENCIL_STROKES) ≠ 0
    · rw [if_pos hs] at hu
      obtain ⟨cu, hu1⟩ := INTERNAL_allocFragUniforms_cond _ _ _ hu
      simp only [INTERNAL_allocPaths_fst, INTERNAL_allocVerts_fst, INTERNAL_allocFragUniforms_fst,
        INTERNAL_allocPaths_npaths, INTERNAL_allocVerts_nverts,
        INTERNAL_allocFragUniforms_nuniforms, esp, esv,
        INTERNAL_allocPaths_frame, INTERNAL_allocVerts_frame, INTERNAL_allocFragUniforms_frame,
        INTERNAL_allocCall_frame, strokeCopyPaths_frame,
        cp, cv, cu, hp1, hv1, hu1, hs, if_false, if_true, ne_eq, not_false_eq_true,
        h4, h5, poke_same, true_and, and_true]
      rfl
    · rw [if_neg hs] at hu
      obtain ⟨cu, hu1⟩ := INTERNAL_allocFragUniforms_cond _ _ _ hu
      simp only [INTERNAL_allocPaths_fst, INTERNAL_allocVerts_fst, INTERNAL_allocFragUniforms_fst,
        INTERNAL_allocPaths_npaths, INTERNAL_allocVerts_nverts,
        INTERNAL_allocFragUniforms_nuniforms, esp, esv,
        INTERNAL_allocPaths_frame, INTERNAL_allocVerts_frame, INTERNAL_allocFragUniforms_frame,
        INTERNAL_allocCall_frame, strokeCopyPaths_frame,
        cp, cv, cu, hp1, hv1, hu1, hs, if_false, if_true, ne_eq, not_false_eq_true,
        h4, h5, poke_same, true_and, and_true]
      rfl

theorem fillCopyPaths_congr (pathOffset : Int) (l : List NVGpath) :
    ∀ (i : Int) (c1 c2 : RenderContext) (offset : Int),
      c1.paths = c2.paths → c1.verts = c2.verts →
      (fillCopyPaths pathOffset l i c1 offset).1.paths
          = (fillCopyPaths pathOffset l i c2 offset).1.paths
        ∧ (fillCopyPaths pathOffset l i c1 offset).1.verts
          = (fillCopyPaths pathOffset l i c2 offset).1.verts
        ∧ (fillCopyPaths pathOffset l i c1 offset).2
          = (fillCopyPaths pathOffset l i c2 offset).2 := by
  induction l with
  | nil => intro i c1 c2 offset hp hv; exact ⟨hp, hv, rfl⟩
  | cons p rest ih =>
    intro i c1 c2 offset hp hv
    rw [fillCopyPaths, fillCopyPaths, hv]
    exact ih (i + 1) _ _ _ (by simp only [hp]) rfl

theorem nvg_gpu_renderFill_ok (nv : Nanovg) (o : ReallocOracle) (ctx : RenderContext)
    (paint : NVGpaint) (op : NVGcompositeOperationState)
    (scissor : NVGscissor) (fringe : ℚ) (bounds : Fin 4 → ℚ) (paths : List NVGpath)
    (hcall : (INTERNAL_allocCall o.calls ctx).1 ≠ none)
    (hp : (INTERNAL_allocPaths o.paths ctx paths.length).1 ≠ -1)
    (hv : (INTERNAL_allocVerts o.verts ctx
            (INTERNAL_maxVertCount paths + if isSingleConvex paths = true then 0 else 4)).1 ≠ -1)
    (hu : (INTERNAL_allocFragUniforms o.uniforms ctx
            (if isSingleConvex paths = true then 1 else 2)).1 ≠ -1) :
    (nvg_gpu_renderFill nv o ctx paint op scissor fringe bounds paths).ncalls = ctx.ncalls + 1
    ∧ (nvg_gpu_renderFill nv o ctx paint op scissor fringe bounds paths).calls ctx.ncalls
      = { type := if isSingleConvex paths = true then RenderType.RENDERTYPE_CONVEXFILL
                  else RenderType.RENDERTYPE_FILL,
          image := paint.image,
          pathOffset := ctx.npaths, pathCount := paths.length,
          triangleOffset := if isSingleConvex paths = true then 0
                            else (fillCopyPaths ctx.npaths paths 0 ctx ctx.nverts).2,
          triangleCount := if isSingleConvex paths = true then 0 else 4,
          uniformOffset := ctx.nuniforms * ctx.fragSize, blendOp := op }
    ∧ (nvg_gpu_renderFill nv o ctx paint op scissor fringe bounds paths).npaths
      = ctx.npaths + paths.length
    ∧ (nvg_gpu_renderFill nv o ctx paint op scissor fringe bounds paths).nverts
      = ctx.nverts
        + (INTERNAL_maxVertCount paths + if isSingleConvex paths = true then 0 else 4)
    ∧ (nvg_gpu_renderFill nv o ctx paint op scissor fringe bounds paths).nuniforms
      = ctx.nuniforms + (if isSingleConvex paths = true then 1 else 2)
    ∧ (nvg_gpu_renderFill nv o ctx paint op scissor fringe bounds paths).paths
      = (fillCopyPaths ctx.npaths paths 0 ctx ctx.nverts).1.paths
    ∧ (nvg_gpu_renderFill nv o ctx paint op scissor fringe bounds paths).verts
      = (if isSingleConvex paths = true then
          (fillCopyPaths ctx.npaths paths 0 ctx ctx.nverts).1.verts
        else
          poke (poke (poke (poke (fillCopyPaths ctx.npaths paths 0 ctx ctx.nverts).1.verts
            (fillCopyPaths ctx.npaths paths 0 ctx ctx.nverts).2
              { x := bounds 2, y := bounds 3, u := 1 / 2, v := 1 })
            ((fillCopyPaths ctx.npaths paths 0 ctx ctx.nverts).2 + 1)
              { x := bounds 2, y := bounds 1, u := 1 / 2, v := 1 })
            ((fillCopyPaths ctx.npaths paths 0 ctx ctx.nverts).2 + 2)
              { x := bounds 0, y := bounds 3, u := 1 / 2, v := 1 })
            ((fillCopyPaths ctx.npaths paths 0 ctx ctx.nverts).2 + 3)
              { x := bounds 0, y := bounds 1, u := 1 / 2, v := 1 })
    ∧ (nvg_gpu_renderFill nv o ctx paint op scissor fringe bounds paths).uniforms
      = (if isSingleConvex paths = true then
          poke ctx.uniforms (ctx.nuniforms * ctx.fragSize)
            (INTERNAL_convertPaint nv ctx RenderUniforms.zero paint scissor
              fringe fringe (-1)).2
        else
          poke (poke ctx.uniforms (ctx.nuniforms * ctx.fragSize)
              { RenderUniforms.zero with strokeThr := -1, type := RENDERSHADER_SIMPLE })
            (ctx.nuniforms * ctx.fragSize + ctx.fragSize)
            (INTERNAL_convertPaint nv ctx RenderUniforms.zero paint scissor
              fringe fringe (-1)).2)
    ∧ (nvg_gpu_renderFill nv o ctx paint op scissor fringe bounds paths).fragSize
      = ctx.fragSize
    ∧ (nvg_gpu_renderFill nv o ctx paint op scissor fringe bounds paths).flags
      = ctx.flags := by
  obtain ⟨cp, hp1⟩ := INTERNAL_allocPaths_cond _ _ _ hp
  unfold nvg_gpu_renderFill
  split
  · rename_i gl0 heq
    exact absurd (by rw [heq]) hcall
  · rename_i ci gl1 heq
    obtain ⟨h1, h2, h3, h4, h5⟩ := INTERNAL_allocCall_some _ _ _ _ heq
    subst h1 h2
    clear heq
    have etx : ∀ n m X Y, (fillCopyPaths X paths 0 (INTERNAL_allocVerts o.verts
        (INTERNAL_allocPaths o.paths (INTERNAL_allocCall o.calls ctx).2 n).2 m).2 Y).1.textures
        = ctx.textures := by
      intro n m X Y
      simp only [fillCopyPaths_frame, INTERNAL_allocVerts_frame, INTERNAL_allocPaths_frame,
        INTERNAL_allocCall_frame]
    have ecp0 : ∀ n m X Y k F w f t, INTERNAL_convertPaint nv
        (INTERNAL_allocFragUniforms o.uniforms (fillCopyPaths X paths 0
          (INTERNAL_allocVerts o.verts (INTERNAL_allocPaths o.paths
            (INTERNAL_allocCall o.calls ctx).2 n).2 m).2 Y).1 k).2 F paint scissor w f t
        = INTERNAL_convertPaint nv ctx RenderUniforms.zero paint scissor w f t :=
      fun n m X Y k F w f t => INTERNAL_convertPaint_congr nv _ ctx _ _ paint scissor w f t
        (by simp only [INTERNAL_allocFragUniforms_frame, etx])
    have ecp1 : ∀ n m X Y k V U F w f t, INTERNAL_convertPaint nv
        { (INTERNAL_allocFragUniforms o.uniforms { (fillCopyPaths X paths 0
          (INTERNAL_allocVerts o.verts (INTERNAL_allocPaths o.paths
            (INTERNAL_allocCall o.calls ctx).2 n).2 m).2 Y).1 with verts := V } k).2
          with uniforms := U }
          F paint scissor w f t
        = INTERNAL_convertPaint nv ctx RenderUniforms.zero paint scissor w f t :=
      fun n m X Y k V U F w f t => INTERNAL_convertPaint_congr nv _ ctx _ _ paint scissor w f t
        (by simp only [INTERNAL_allocFragUniforms_frame, etx])
    have esp : ∀ n m X Y, (fillCopyPaths X paths 0 (INTERNAL_allocVerts o.verts
        (INTERNAL_allocPaths o.paths (INTERNAL_allocCall o.calls ctx).2 n).2 m).2 Y).1.paths
        = (fillCopyPaths X paths 0 ctx Y).1.paths := by
      intro n m X Y
      exact (fillCopyPaths_congr X paths 0 _ ctx Y
        (by simp only [INTERNAL_allocVerts_frame, INTERNAL_allocPaths_frame,
          INTERNAL_allocCall_frame])
        (by simp only [INTERNAL_allocVerts_frame, INTERNAL_allocPaths_frame,
          INTERNAL_allocCall_frame])).1
    have esv : ∀ n m X Y, (fillCopyPaths X paths 0 (INTERNAL_allocVerts o.verts
        (INTERNAL_allocPaths o.paths (INTERNAL_allocCall o.calls ctx).2 n).2 m).2 Y).1.verts
        = (fillCopyPaths X paths 0 ctx Y).1.verts := by
      intro n m X Y
      exact (fillCopyPaths_congr X paths 0 _ ctx Y
        (by simp only [INTERNAL_allocVerts_frame, INTERNAL_allocPaths_frame,
          INTERNAL_allocCall_frame])
        (by simp only [INTERNAL_allocVerts_frame, INTERNAL_allocPaths_frame,
          INTERNAL_allocCall_frame])).2.1
    have eso : ∀ n m X Y, (fillCopyPaths X paths 0 (INTERNAL_allocVerts o.verts
        (INTERNAL_allocPaths o.paths (INTERNAL_allocCall o.calls ctx).2 n).2 m).2 Y).2
        = (fillCopyPaths X paths 0 ctx Y).2 := by
      intro n m X Y
      exact (fillCopyPaths_congr X paths 0 _ ctx Y
        (by simp only [INTERNAL_allocVerts_frame, INTERNAL_allocPaths_frame,
          INTERNAL_allocCall_frame])
        (by simp only [INTERNAL_allocVerts_frame, INTERNAL_allocPaths_frame,
          INTERNAL_allocCall_frame])).2.2
    simp only [ecp0, ecp1, memsetUniforms]
    by_cases hx : isSingleConvex paths = true
    · rw [if_pos hx] at hu hv
      obtain ⟨cv, hv1⟩ := INTERNAL_allocVerts_cond _ _ _ hv
      obtain ⟨cu, hu1⟩ := INTERNAL_allocFragUniforms_cond _ _ _ hu
      simp only [add_zero] at cv
      simp only [hx, if_true, add_zero, reduceCtorEq, if_false,
        INTERNAL_allocPaths_fst, INTERNAL_allocVerts_fst, INTERNAL_allocFragUniforms_fst,
        INTERNAL_allocPaths_npaths, INTERNAL_allocVerts_nverts,
        INTERNAL_allocFragUniforms_nuniforms, esp, esv, eso,
        INTERNAL_allocPaths_frame, INTERNAL_allocVerts_frame, INTERNAL_allocFragUniforms_frame,
        INTERNAL_allocCall_frame, fillCopyPaths_frame,
        cp, cv, cu, hp1, hv1, hu1, h4, h5, poke_same, true_and, and_true]
      rfl
    · rw [if_neg hx] at hu hv
      obtain ⟨cv, hv1⟩ := INTERNAL_allocVerts_cond _ _ _ hv
      obtain ⟨cu, hu1⟩ := INTERNAL_allocFragUniforms_cond _ _ _ hu
      simp only [hx, Bool.false_eq_true, if_true, reduceCtorEq, if_false,
        INTERNAL_allocPaths_fst, INTERNAL_allocVerts_fst, INTERNAL_allocFragUniforms_fst,
        INTERNAL_allocPaths_npaths, INTERNAL_allocVerts_nverts,
        INTERNAL_allocFragUniforms_nuniforms, esp, esv, eso,
        INTERNAL_allocPaths_frame, INTERNAL_allocVerts_frame, INTERNAL_allocFragUniforms_frame,
        INTERNAL_allocCall_frame, fillCopyPaths_frame,
        cp, cv, cu, hp1, hv1, hu1, h4, h5, poke_same, true_and, and_true]

/-! ## The sub-path loop of the stroke submit -/

theorem strokeCopyPaths_layout (pathOffset : Int) (l : List NVGpath) :
    ∀ (i : Int) (ctx : RenderContext) (offset : Int), (∀ p ∈ l, 0 ≤ p.nstroke) →
      (strokeCopyPaths pathOffset l i ctx offset).2 = offset + (l.map NVGpath.nstroke).sum
      ∧ (∀ j, j < offset ∨ offset + (l.map NVGpath.nstroke).sum ≤ j →
          (strokeCopyPaths pathOffset l i ctx offset).1.verts j = ctx.verts j)
      ∧ (∀ j, j < pathOffset + i ∨ pathOffset + i + l.length ≤ j →
          (strokeCopyPaths pathOffset l i ctx offset).1.paths j = ctx.paths j)
      ∧ (∀ (k : Nat) (p : NVGpath), l[k]? = some p →
          (strokeCopyPaths pathOffset l i ctx offset).1.paths (pathOffset + i + k)
            = { fillOffset := 0, fillCount := 0,
                strokeOffset := if p.nstroke ≠ 0
                  then offset + ((l.take k).map NVGpath.nstroke).sum else 0,
                strokeCount := p.nstroke }
          ∧ ∀ t, 0 ≤ t → t < p.nstroke →
              (strokeCopyPaths pathOffset l i ctx offset).1.verts
                (offset + ((l.take k).map NVGpath.nstroke).sum + t) = p.stroke t) := by
  induction l with
  | nil =>
    intro i ctx offset _
    refine ⟨by simp [strokeCopyPaths], fun j _ => rfl, fun j _ => rfl, ?_⟩
    intro k p h
    simp at h
  | cons q rest ih =>
    intro i ctx offset hns
    have hq : 0 ≤ q.nstroke := hns q (List.mem_cons_self _ _)
    have hrest : ∀ p ∈ rest, 0 ≤ p.nstroke := fun p hp => hns p (List.mem_cons_of_mem _ hp)
    have hsum : 0 ≤ (rest.map NVGpath.nstroke).sum :=
      List.sum_nonneg (by
        intro x hx
        obtain ⟨p, hp, rfl⟩ := List.mem_map.mp hx
        exact hrest p hp)
    have e2 : (strokeCopyPath q ctx.verts offset).2.2 = offset + q.nstroke := by
      unfold strokeCopyPath
      split_ifs with h0
      · rfl
      · have : q.nstroke = 0 := by simpa using h0
        simp [this]
    have ev : ∀ j, (strokeCopyPath q ctx.verts offset).2.1 j
        = if offset ≤ j ∧ j < offset + q.nstroke then q.stroke (j - offset) else ctx.verts j := by
      intro j
      unfold strokeCopyPath
      split_ifs with h0 h1 h1
      · simp [memcpy, h1]
      · simp [memcpy, h1]
      · have : q.nstroke = 0 := by simpa using h0
        omega
      · rfl
    have e1 : (strokeCopyPath q ctx.verts offset).1
        = { fillOffset := 0, fillCount := 0,
            strokeOffset := if q.nstroke ≠ 0 then offset else 0,
            strokeCount := q.nstroke } := by
      unfold strokeCopyPath
      split_ifs with h0
      · rfl
      · have : q.nstroke = 0 := by simpa using h0
        simp [this, RenderPath.zero]
    rw [strokeCopyPaths]
    obtain ⟨ia, ib, ic, id⟩ := ih (i + 1)
      { ctx with paths := poke ctx.paths (pathOffset + i) (strokeCopyPath q ctx.verts offset).1,
                 verts := (strokeCopyPath q ctx.verts offset).2.1 }
      (strokeCopyPath q ctx.verts offset).2.2 hrest
    simp only [e2] at ia ib ic id
    refine ⟨?_, ?_, ?_, ?_⟩
    · rw [e2, ia, List.map_cons, List.sum_cons]; ring
    · intro j hj
      rw [List.map_cons, List.sum_cons] at hj
      rw [e2, ib j (by omega), ev j, if_neg (by omega)]
    · intro j hj
      rw [List.length_cons] at hj
      push_cast at hj
      rw [e2, ic j (by omega), poke_other _ _ _ _ (by omega)]
    · intro k p hk
      cases k with
      | zero =>
        simp only [List.getElem?_cons_zero, Option.some.injEq] at hk
        subst hk
        simp only [Nat.cast_zero, add_zero, List.take_zero, List.map_nil, List.sum_nil]
        refine ⟨?_, ?_⟩
        · rw [e2, ic (pathOffset + i) (by omega), poke_same, e1]
        · intro t ht0 ht1
          rw [e2, ib (offset + t) (by omega), ev, if_pos (by omega)]
          congr 1
          ring
      | succ k =>
        simp only [List.getElem?_cons_succ] at hk
        obtain ⟨d1, d2⟩ := id k p hk
        simp only [List.take_succ_cons, List.map_cons, List.sum_cons]
        have ei : pathOffset + i + ((k + 1 : Nat) : Int) = pathOffset + (i + 1) + (k : Int) := by
          push_cast; ring
        refine ⟨?_, ?_⟩
        · rw [e2, ei, d1]
          simp only [add_assoc]
        · intro t ht0 ht1
          have := d2 t ht0 ht1
          rw [e2]
          rw [show offset + (q.nstroke + ((rest.take k).map NVGpath.nstroke).sum) + t
            = offset + q.nstroke + ((rest.take k).map NVGpath.nstroke).sum + t by ring]
          exact this
/-! ## What a successful submit records -/

theorem isSingleConvex_iff (paths : List NVGpath) :
    isSingleConvex paths = true ↔ ∃ p, paths = [p] ∧ p.convex ≠ 0 := by
  cases paths with
  | nil => simp [isSingleConvex]
  | cons p rest =>
    cases rest with
    | nil => simp [isSingleConvex]
    | cons q rest2 => simp [isSingleConvex]

/-- C22: a successful `nvg_gpu_renderFill` (the call record and the three
reservations all succeed) records its call at index `ncalls`, with kind convex
fill and quad triangle count 0 exactly when the sub-path list has one element
and that element is marked convex; in every other case the kind is general
fill and the quad triangle count is 4. -/
theorem fill_call_kind (nv : Nanovg) (o : ReallocOracle) (ctx : RenderContext)
    (paint : NVGpaint) (op : NVGcompositeOperationState)
    (scissor : NVGscissor) (fringe : ℚ) (bounds : Fin 4 → ℚ) (paths : List NVGpath)
    (hcall : (INTERNAL_allocCall o.calls ctx).1 ≠ none)
    (hp : (INTERNAL_allocPaths o.paths ctx paths.length).1 ≠ -1)
    (hv : (INTERNAL_allocVerts o.verts ctx
            (INTERNAL_maxVertCount paths + if isSingleConvex paths = true then 0 else 4)).1 ≠ -1)
    (hu : (INTERNAL_allocFragUniforms o.uniforms ctx
            (if isSingleConvex paths = true then 1 else 2)).1 ≠ -1) :
    (nvg_gpu_renderFill nv o ctx paint op scissor fringe bounds paths).ncalls = ctx.ncalls + 1
    ∧ ((((nvg_gpu_renderFill nv o ctx paint op scissor fringe bounds paths).calls
            ctx.ncalls).type = RenderType.RENDERTYPE_CONVEXFILL
          ∧ ((nvg_gpu_renderFill nv o ctx paint op scissor fringe bounds paths).calls
            ctx.ncalls).triangleCount = 0)
        ↔ ∃ p, paths = [p] ∧ p.convex ≠ 0)
    ∧ ((¬ ∃ p, paths = [p] ∧ p.convex ≠ 0) →
        ((nvg_gpu_renderFill nv o ctx paint op scissor fringe bounds paths).calls
            ctx.ncalls).type = RenderType.RENDERTYPE_FILL
          ∧ ((nvg_gpu_renderFill nv o ctx paint op scissor fringe bounds paths).calls
            ctx.ncalls).triangleCount = 4) := by
  obtain ⟨h1, h2, -⟩ := nvg_gpu_renderFill_ok nv o ctx paint op scissor fringe bounds paths
    hcall hp hv hu
  rw [h2, ← isSingleConvex_iff]
  refine ⟨h1, ?_, ?_⟩
  · by_cases hx : isSingleConvex paths = true
    · simp [hx]
    · simp [hx]
  · intro hx
    simp [hx]

theorem fill_call_kind_witness :
    (INTERNAL_allocCall reallocOk.calls exampleCtx).1 ≠ none
    ∧ (INTERNAL_allocPaths reallocOk.paths exampleCtx [examplePentagon].length).1 ≠ -1
    ∧ (INTERNAL_allocVerts reallocOk.verts exampleCtx
        (INTERNAL_maxVertCount [examplePentagon]
          + if isSingleConvex [examplePentagon] = true then 0 else 4)).1 ≠ -1
    ∧ (INTERNAL_allocFragUniforms reallocOk.uniforms exampleCtx
        (if isSingleConvex [examplePentagon] = true then 1 else 2)).1 ≠ -1
    ∧ (nvg_gpu_renderFill exampleNanovg reallocOk exampleCtx examplePaint (exampleOp 1)
        exampleScissor 1 exampleBounds [examplePentagon]).ncalls = exampleCtx.ncalls + 1 :=
  ⟨by decide, by decide, by decide, by decide,
   (fill_call_kind exampleNanovg reallocOk exampleCtx examplePaint (exampleOp 1)
      exampleScissor 1 exampleBounds [examplePentagon]
      (by decide) (by decide) (by decide) (by decide)).1⟩

/-- C27: a successful `nvg_gpu_renderTriangles` with `nverts ≥ 0` vertices records
at index `ncalls` a call of kind triangles with `triangleCount = nverts` and
`triangleOffset` the vertex used-count before the submit; the vertices of the
arena from `triangleOffset` on are the input vertices in order; the uniform
used-count went up by one; and the block at the call's `uniformOffset` has
shader variant `RENDERSHADER_IMG`, whatever the paint. -/
theorem triangles_recorded (nv : Nanovg) (o : ReallocOracle) (gl : RenderContext)
    (paint : NVGpaint) (op : NVGcompositeOperationState)
    (scissor : NVGscissor) (verts : Int → NVGvertex) (nverts : Int) (fringe : ℚ)
    (hn : 0 ≤ nverts)
    (hcall : (INTERNAL_allocCall o.calls gl).1 ≠ none)
    (hv : (INTERNAL_allocVerts o.verts gl nverts).1 ≠ -1)
    (hu : (INTERNAL_allocFragUniforms o.uniforms gl 1).1 ≠ -1) :
    (nvg_gpu_renderTriangles nv o gl paint op scissor verts nverts fringe).ncalls
      = gl.ncalls + 1
    ∧ gl.nverts ≤ (nvg_gpu_renderTriangles nv o gl paint op scissor verts nverts fringe).nverts
    ∧ ((nvg_gpu_renderTriangles nv o gl paint op scissor verts nverts fringe).calls
        gl.ncalls).type = RenderType.RENDERTYPE_TRIANGLES
    ∧ ((nvg_gpu_renderTriangles nv o gl paint op scissor verts nverts fringe).calls
        gl.ncalls).triangleCount = nverts
    ∧ ((nvg_gpu_renderTriangles nv o gl paint op scissor verts nverts fringe).calls
        gl.ncalls).triangleOffset = gl.nverts
    ∧ (∀ i, 0 ≤ i → i < nverts →
        (nvg_gpu_renderTriangles nv o gl paint op scissor verts nverts fringe).verts
          (((nvg_gpu_renderTriangles nv o gl paint op scissor verts nverts fringe).calls
            gl.ncalls).triangleOffset + i) = verts i)
    ∧ (nvg_gpu_renderTriangles nv o gl paint op scissor verts nverts fringe).nverts
      = gl.nverts + nverts
    ∧ (nvg_gpu_renderTriangles nv o gl paint op scissor verts nverts fringe).nuniforms
      = gl.nuniforms + 1
    ∧ ((nvg_gpu_renderTriangles nv o gl paint op scissor verts nverts fringe).calls
        gl.ncalls).uniformOffset = gl.nuniforms * gl.fragSize
    ∧ ((nvg_gpu_renderTriangles nv o gl paint op scissor verts nverts fringe).uniforms
        ((nvg_gpu_renderTriangles nv o gl paint op scissor verts nverts fringe).calls
          gl.ncalls).uniformOffset).type = RENDERSHADER_IMG
    ∧ (∀ j, j ≠ gl.nuniforms * gl.fragSize →
        (nvg_gpu_renderTriangles nv o gl paint op scissor verts nverts fringe).uniforms j
          = gl.uniforms j) := by
  obtain ⟨h1, h2, h3, h4, h5, h6, -⟩ :=
    nvg_gpu_renderTriangles_ok nv o gl paint op scissor verts nverts fringe hcall hv hu
  rw [h2, h3, h6]
  refine ⟨h1, by omega, rfl, rfl, rfl, ?_, h4, h5, rfl, ?_, ?_⟩
  · intro i h0 hn
    simp only [memcpy]
    rw [if_pos (by omega)]
    congr 1
    ring
  · simp only [poke_same]
  · intro j hj
    rw [poke_other _ _ _ _ hj]

theorem triangles_recorded_witness :
    (0 : Int) ≤ 3
    ∧ (INTERNAL_allocCall reallocOk.calls exampleCtx).1 ≠ none
    ∧ (INTERNAL_allocVerts reallocOk.verts exampleCtx 3).1 ≠ -1
    ∧ (INTERNAL_allocFragUniforms reallocOk.uniforms exampleCtx 1).1 ≠ -1
    ∧ ((nvg_gpu_renderTriangles exampleNanovg reallocOk exampleCtx examplePaint (exampleOp 3)
        exampleScissor (fun i => vtx i i) 3 1).calls exampleCtx.ncalls).type
      = RenderType.RENDERTYPE_TRIANGLES :=
  ⟨by decide, by decide, by decide, by decide,
   (triangles_recorded exampleNanovg reallocOk exampleCtx examplePaint (exampleOp 3)
      exampleScissor (fun i => vtx i i) 3 1 (by decide) (by decide) (by decide)
      (by decide)).2.2.1⟩

/-- C25: after a successful `nvg_gpu_renderStroke` on a renderer with non-zero
block stride `fragSize`, the call's `uniformOffset` is the offset of the first
free block. With `NVG_STENCIL_STROKES` set the uniform used-count went up by
two, the block at `uniformOffset` is the paint conversion with the given
stroke width and fringe and alpha threshold -1, and the block at
`uniformOffset + fragSize` the conversion with alpha threshold `1 - 0.5/255`;
with the flag clear the used-count went up by one and the block at
`uniformOffset` is the conversion with alpha threshold -1. No other block is
written. -/
theorem stroke_uniform_blocks (nv : Nanovg) (o : ReallocOracle) (gl : RenderContext)
    (paint : NVGpaint) (op : NVGcompositeOperationState)
    (scissor : NVGscissor) (fringe strokeWidth : ℚ) (paths : List NVGpath)
    (hcall : (INTERNAL_allocCall o.calls gl).1 ≠ none)
    (hp : (INTERNAL_allocPaths o.paths gl paths.length).1 ≠ -1)
    (hv : (INTERNAL_allocVerts o.verts gl (INTERNAL_maxVertCount paths)).1 ≠ -1)
    (hu : (INTERNAL_allocFragUniforms o.uniforms gl
            (if (gl.flags &&& NVG_STENCIL_STROKES) ≠ 0 then 2 else 1)).1 ≠ -1)
    (hfs : gl.fragSize ≠ 0) :
    ((nvg_gpu_renderStroke nv o gl paint op scissor fringe strokeWidth paths).calls
        gl.ncalls).uniformOffset = gl.nuniforms * gl.fragSize
    ∧ ((gl.flags &&& NVG_STENCIL_STROKES) ≠ 0 →
        (nvg_gpu_renderStroke nv o gl paint op scissor fringe strokeWidth paths).nuniforms
          = gl.nuniforms + 2
        ∧ (nvg_gpu_renderStroke nv o gl paint op scissor fringe strokeWidth paths).uniforms
            (gl.nuniforms * gl.fragSize)
          = (INTERNAL_convertPaint nv gl RenderUniforms.zero paint scissor
              strokeWidth fringe (-1)).2
        ∧ (nvg_gpu_renderStroke nv o gl paint op scissor fringe strokeWidth paths).uniforms
            (gl.nuniforms * gl.fragSize + gl.fragSize)
          = (INTERNAL_convertPaint nv gl RenderUniforms.zero paint scissor
              strokeWidth fringe (1 - (1 / 2) / 255)).2
        ∧ ((nvg_gpu_renderStroke nv o gl paint op scissor fringe strokeWidth paths).uniforms
            (gl.nuniforms * gl.fragSize)).strokeThr = -1
        ∧ ((nvg_gpu_renderStroke nv o gl paint op scissor fringe strokeWidth paths).uniforms
            (gl.nuniforms * gl.fragSize + gl.fragSize)).strokeThr = 1 - (1 / 2) / 255
        ∧ ∀ j, j ≠ gl.nuniforms * gl.fragSize →
            j ≠ gl.nuniforms * gl.fragSize + gl.fragSize →
            (nvg_gpu_renderStroke nv o gl paint op scissor fringe strokeWidth paths).uniforms j
              = gl.uniforms j)
    ∧ (¬ (gl.flags &&& NVG_STENCIL_STROKES) ≠ 0 →
        (nvg_gpu_renderStroke nv o gl paint op scissor fringe strokeWidth paths).nuniforms
          = gl.nuniforms + 1
        ∧ (nvg_gpu_renderStroke nv o gl paint op scissor fringe strokeWidth paths).uniforms
            (gl.nuniforms * gl.fragSize)
          = (INTERNAL_convertPaint nv gl RenderUniforms.zero paint scissor
              strokeWidth fringe (-1)).2
        ∧ ((nvg_gpu_renderStroke nv o gl paint op scissor fringe strokeWidth paths).uniforms
            (gl.nuniforms * gl.fragSize)).strokeThr = -1
        ∧ ∀ j, j ≠ gl.nuniforms * gl.fragSize →
            (nvg_gpu_renderStroke nv o gl paint op scissor fringe strokeWidth paths).uniforms j
              = gl.uniforms j) := by
  obtain ⟨-, h2, -, -, h5, -, -, h8, -⟩ :=
    nvg_gpu_renderStroke_ok nv o gl paint op scissor fringe strokeWidth paths hcall hp hv hu
  rw [h2, h5, h8]
  have hne : gl.nuniforms * gl.fragSize ≠ gl.nuniforms * gl.fragSize + gl.fragSize := by
    intro h
    apply hfs
    linarith
  refine ⟨rfl, ?_, ?_⟩
  · intro hs
    simp only [if_pos hs]
    refine ⟨trivial, ?_, ?_, ?_, ?_, ?_⟩
    · rw [poke_other _ _ _ _ hne, poke_same]
    · rw [poke_same]
    · rw [poke_other _ _ _ _ hne, poke_same]
      exact (INTERNAL_convertPaint_stroke nv gl _ paint scissor strokeWidth fringe (-1)).2
    · rw [poke_same]
      exact (INTERNAL_convertPaint_stroke nv gl _ paint scissor strokeWidth fringe _).2
    · intro j h1 h2
      rw [poke_other _ _ _ _ h2, poke_other _ _ _ _ h1]
  · intro hs
    simp only [if_neg hs]
    refine ⟨trivial, ?_, ?_, ?_⟩
    · rw [poke_same]
    · rw [poke_same]
      exact (INTERNAL_convertPaint_stroke nv gl _ paint scissor strokeWidth fringe (-1)).2
    · intro j h1
      rw [poke_other _ _ _ _ h1]

theorem stroke_uniform_blocks_witness :
    (INTERNAL_allocCall reallocOk.calls exampleCtx).1 ≠ none
    ∧ (INTERNAL_allocPaths reallocOk.paths exampleCtx [exampleTriangle].length).1 ≠ -1
    ∧ (INTERNAL_allocVerts reallocOk.verts exampleCtx
        (INTERNAL_maxVertCount [exampleTriangle])).1 ≠ -1
    ∧ (INTERNAL_allocFragUniforms reallocOk.uniforms exampleCtx
        (if (exampleCtx.flags &&& NVG_STENCIL_STROKES) ≠ 0 then 2 else 1)).1 ≠ -1
    ∧ exampleCtx.fragSize ≠ 0
    ∧ (exampleCtx.flags &&& NVG_STENCIL_STROKES) ≠ 0
    ∧ (nvg_gpu_renderStroke exampleNanovg reallocOk exampleCtx examplePaint (exampleOp 2)
        exampleScissor 1 2 [exampleTriangle]).nuniforms = exampleCtx.nuniforms + 2 :=
  ⟨by decide, by decide, by decide, by decide, by decide, by decide,
   ((stroke_uniform_blocks exampleNanovg reallocOk exampleCtx examplePaint (exampleOp 2)
      exampleScissor 1 2 [exampleTriangle]
      (by decide) (by decide) (by decide) (by decide) (by decide)).2.1 (by decide)).1⟩

/-- C26: after a successful `nvg_gpu_renderStroke` whose sub-paths have
non-negative stroke point counts, the call covers the path ranges
`npaths .. npaths + n - 1`, one per sub-path in order; each has fill offset and
fill count 0 and the sub-path's stroke count; for a sub-path with a positive
stroke count the stroke offset is the value the vertex reservation returned
plus the stroke counts of the sub-paths before it, and the vertices from there
on are its stroke vertices in order; no vertex outside these ranges is
written. -/
theorem stroke_paths_copied (nv : Nanovg) (o : ReallocOracle) (gl : RenderContext)
    (paint : NVGpaint) (op : NVGcompositeOperationState)
    (scissor : NVGscissor) (fringe strokeWidth : ℚ) (paths : List NVGpath)
    (hcall : (INTERNAL_allocCall o.calls gl).1 ≠ none)
    (hp : (INTERNAL_allocPaths o.paths gl paths.length).1 ≠ -1)
    (hv : (INTERNAL_allocVerts o.verts gl (INTERNAL_maxVertCount paths)).1 ≠ -1)
    (hu : (INTERNAL_allocFragUniforms o.uniforms gl
            (if (gl.flags &&& NVG_STENCIL_STROKES) ≠ 0 then 2 else 1)).1 ≠ -1)
    (hns : ∀ p ∈ paths, 0 ≤ p.nstroke) :
    ((nvg_gpu_renderStroke nv o gl paint op scissor fringe strokeWidth paths).calls
        gl.ncalls).pathOffset = gl.npaths
    ∧ ((nvg_gpu_renderStroke nv o gl paint op scissor fringe strokeWidth paths).calls
        gl.ncalls).pathCount = paths.length
    ∧ (nvg_gpu_renderStroke nv o gl paint op scissor fringe strokeWidth paths).npaths
        = gl.npaths + paths.length
    ∧ (INTERNAL_allocVerts o.verts gl (INTERNAL_maxVertCount paths)).1 = gl.nverts
    ∧ (∀ (k : Nat) (p : NVGpath), paths[k]? = some p →
        ((nvg_gpu_renderStroke nv o gl paint op scissor fringe strokeWidth paths).paths
            (gl.npaths + k)).fillOffset = 0
        ∧ ((nvg_gpu_renderStroke nv o gl paint op scissor fringe strokeWidth paths).paths
            (gl.npaths + k)).fillCount = 0
        ∧ ((nvg_gpu_renderStroke nv o gl paint op scissor fringe strokeWidth paths).paths
            (gl.npaths + k)).strokeCount = p.nstroke
        ∧ (0 < p.nstroke →
            ((nvg_gpu_renderStroke nv o gl paint op scissor fringe strokeWidth paths).paths
              (gl.npaths + k)).strokeOffset
              = gl.nverts + ((paths.take k).map NVGpath.nstroke).sum
            ∧ ∀ t, 0 ≤ t → t < p.nstroke →
                (nvg_gpu_renderStroke nv o gl paint op scissor fringe strokeWidth paths).verts
                  (gl.nverts + ((paths.take k).map NVGpath.nstroke).sum + t) = p.stroke t))
    ∧ (∀ j, j < gl.nverts ∨ gl.nverts + (paths.map NVGpath.nstroke).sum ≤ j →
        (nvg_gpu_renderStroke nv o gl paint op scissor fringe strokeWidth paths).verts j
          = gl.verts j) := by
  obtain ⟨-, h2, h3, -, -, h6, h7, -⟩ :=
    nvg_gpu_renderStroke_ok nv o gl paint op scissor fringe strokeWidth paths hcall hp hv hu
  obtain ⟨-, lb, -, ld⟩ := strokeCopyPaths_layout gl.npaths paths 0 gl gl.nverts hns
  rw [h2, h3, h6, h7]
  refine ⟨rfl, rfl, rfl, (INTERNAL_allocVerts_success _ _ _ hv).1, ?_, lb⟩
  intro k p hk
  obtain ⟨d1, d2⟩ := ld k p hk
  rw [add_zero] at d1
  rw [d1]
  refine ⟨rfl, rfl, rfl, fun hpos => ⟨?_, d2⟩⟩
  simp only [if_pos (ne_of_gt hpos)]

theorem stroke_paths_copied_witness :
    (INTERNAL_allocCall reallocOk.calls exampleCtx).1 ≠ none
    ∧ (INTERNAL_allocPaths reallocOk.paths exampleCtx
        [exampleTriangle, examplePentagon].length).1 ≠ -1
    ∧ (INTERNAL_allocVerts reallocOk.verts exampleCtx
        (INTERNAL_maxVertCount [exampleTriangle, examplePentagon])).1 ≠ -1
    ∧ (INTERNAL_allocFragUniforms reallocOk.uniforms exampleCtx
        (if (exampleCtx.flags &&& NVG_STENCIL_STROKES) ≠ 0 then 2 else 1)).1 ≠ -1
    ∧ (∀ p ∈ [exampleTriangle, examplePentagon], 0 ≤ p.nstroke)
    ∧ ((nvg_gpu_renderStroke exampleNanovg reallocOk exampleCtx examplePaint (exampleOp 2)
        exampleScissor 1 2 [exampleTriangle, examplePentagon]).calls
          exampleCtx.ncalls).pathCount = [exampleTriangle, examplePentagon].length :=
  ⟨by decide, by decide, by decide, by decide,
   by intro p hp; simp at hp; rcases hp with rfl | rfl <;> decide,
   (stroke_paths_copied exampleNanovg reallocOk exampleCtx examplePaint (exampleOp 2)
      exampleScissor 1 2 [exampleTriangle, examplePentagon]
      (by decide) (by decide) (by decide) (by decide)
      (by intro p hp; simp at hp; rcases hp with rfl | rfl <;> decide)).2.1⟩

/-! ## The vertex demand and the ranges of a fill -/

theorem INTERNAL_maxVertCount_foldl (l : List NVGpath) (c : Int) :
    l.foldl
        (fun count p => (if p.nfill > 0 then count + (p.nfill - 2) * 3 else count) + p.nstroke) c
      = c + (l.map fun p => (if p.nfill > 0 then (p.nfill - 2) * 3 else 0) + p.nstroke).sum := by
  induction l generalizing c with
  | nil => simp
  | cons p rest ih =>
    rw [List.foldl_cons, ih, List.map_cons, List.sum_cons]
    split_ifs <;> ring

theorem INTERNAL_maxVertCount_eq (paths : List NVGpath) :
    INTERNAL_maxVertCount paths
      = (paths.map fun p => (if p.nfill > 0 then (p.nfill - 2) * 3 else 0) + p.nstroke).sum := by
  unfold INTERNAL_maxVertCount
  rw [INTERNAL_maxVertCount_foldl, zero_add]

/-- The reservation of a fill agrees with the claim-side demand when no
sub-path has exactly one fill point. -/
theorem INTERNAL_maxVertCount_claimed (paths : List NVGpath) (quad : Bool)
    (h : ∀ p ∈ paths, p.nfill ≠ 1) :
    INTERNAL_maxVertCount paths + (if quad then 4 else 0) = claimedVertCount paths quad := by
  rw [INTERNAL_maxVertCount_eq, claimedVertCount]
  congr 2
  apply List.map_congr_left
  intro p hp
  have := h p hp
  split_ifs <;> omega

/-- C23, evaluated on the code: for a general fill of one sub-path with a
single fill point and no stroke on the fresh renderer, `INTERNAL_maxVertCount`
is -3 and the submit reserves 1 vertex where the claim-side demand is 4; the
recorded fill range has count -3 and the quad is placed at offset -3, before
the block the call reserved. -/
theorem fill_reserves_too_few :
    INTERNAL_maxVertCount [examplePoint] = -3
    ∧ claimedVertCount [examplePoint] true = 4
    ∧ (nvg_gpu_renderFill exampleNanovg reallocOk exampleCtx examplePaint (exampleOp 1)
        exampleScissor 1 exampleBounds [examplePoint]).ncalls = 1
    ∧ ((nvg_gpu_renderFill exampleNanovg reallocOk exampleCtx examplePaint (exampleOp 1)
        exampleScissor 1 exampleBounds [examplePoint]).calls 0).type
        = RenderType.RENDERTYPE_FILL
    ∧ (nvg_gpu_renderFill exampleNanovg reallocOk exampleCtx examplePaint (exampleOp 1)
        exampleScissor 1 exampleBounds [examplePoint]).nverts = 1
    ∧ ((nvg_gpu_renderFill exampleNanovg reallocOk exampleCtx examplePaint (exampleOp 1)
        exampleScissor 1 exampleBounds [examplePoint]).paths 0).fillCount = -3
    ∧ ((nvg_gpu_renderFill exampleNanovg reallocOk exampleCtx examplePaint (exampleOp 1)
        exampleScissor 1 exampleBounds [examplePoint]).calls 0).triangleOffset = -3 := by
  decide

/-- C24, evaluated on the code: the fill of the pentagon (5 fill points, 3
stroke points) records the stroke range `[9, 12)` below the vertex used-count
12; a following fill of one convex sub-path with a single fill point is
recorded too, reserves -3 vertices and leaves the used-count at 9, below the
end of that stroke range, with no reset in between. -/
theorem fill_ranges_outlive_used_count :
    exampleAfterPentagon.ncalls = 1
    ∧ exampleAfterPentagon.paths 0
        = { fillOffset := 0, fillCount := 9, strokeOffset := 9, strokeCount := 3 }
    ∧ exampleAfterPentagon.nverts = 12
    ∧ (nvg_gpu_renderFill exampleNanovg reallocOk exampleAfterPentagon examplePaint
        (exampleOp 2) exampleScissor 1 exampleBounds [examplePointConvex]).ncalls = 2
    ∧ (nvg_gpu_renderFill exampleNanovg reallocOk exampleAfterPentagon examplePaint
        (exampleOp 2) exampleScissor 1 exampleBounds [examplePointConvex]).paths 0
        = { fillOffset := 0, fillCount := 9, strokeOffset := 9, strokeCount := 3 }
    ∧ (nvg_gpu_renderFill exampleNanovg reallocOk exampleAfterPentagon examplePaint
        (exampleOp 2) exampleScissor 1 exampleBounds [examplePointConvex]).nverts = 9 := by
  decide

theorem fillCopyPath_layout (p : NVGpath) (verts : Int → NVGvertex) (offset : Int)
    (hf : p.nfill = 0 ∨ 3 ≤ p.nfill) (hs : 0 ≤ p.nstroke) :
    (fillCopyPath p verts offset).1
        = { fillOffset := if 3 ≤ p.nfill then offset else 0,
            fillCount := fillRangeLen p,
            strokeOffset := if 0 < p.nstroke then offset + fillRangeLen p else 0,
            strokeCount := p.nstroke }
      ∧ (fillCopyPath p verts offset).2.2 = offset + pathDemand p := by
  unfold fillCopyPath pathDemand fillRangeLen
  have h3 : p.nfill > 0 ↔ 3 ≤ p.nfill := by omega
  by_cases hfill : 3 ≤ p.nfill
  · have hpos : p.nfill > 0 := by omega
    by_cases hst : p.nstroke > 0
    · simp only [hpos, hst, hfill, if_true, gt_iff_lt] 
      constructor
      · congr 1 <;> ring
      · ring
    · have h0 : p.nstroke = 0 := by omega
      simp only [hpos, hst, hfill, if_true, if_false, h0, lt_irrefl, add_zero, RenderPath.zero]
      constructor
      · congr 1; ring
      · ring
  · have hpos : ¬ p.nfill > 0 := by omega
    by_cases hst : p.nstroke > 0
    · simp only [hpos, hst, hfill, if_true, if_false, gt_iff_lt, add_zero, RenderPath.zero]
      exact ⟨trivial, by ring⟩
    · have h0 : p.nstroke = 0 := by omega
      simp only [hpos, hst, hfill, if_false, h0, lt_irrefl, add_zero, RenderPath.zero]
      exact ⟨trivial, trivial⟩

theorem fillCopyPaths_layout (pathOffset : Int) (l : List NVGpath) :
    ∀ (i : Int) (ctx : RenderContext) (offset : Int),
      (∀ p ∈ l, (p.nfill = 0 ∨ 3 ≤ p.nfill) ∧ 0 ≤ p.nstroke) →
      (fillCopyPaths pathOffset l i ctx offset).2 = offset + (l.map pathDemand).sum
      ∧ (∀ j, j < pathOffset + i ∨ pathOffset + i + l.length ≤ j →
          (fillCopyPaths pathOffset l i ctx offset).1.paths j = ctx.paths j)
      ∧ (∀ (k : Nat) (p : NVGpath), l[k]? = some p →
          (fillCopyPaths pathOffset l i ctx offset).1.paths (pathOffset + i + k)
            = { fillOffset := if 3 ≤ p.nfill
                  then offset + ((l.take k).map pathDemand).sum else 0,
                fillCount := fillRangeLen p,
                strokeOffset := if 0 < p.nstroke
                  then offset + ((l.take k).map pathDemand).sum + fillRangeLen p else 0,
                strokeCount := p.nstroke }) := by
  induction l with
  | nil =>
    intro i ctx offset _
    refine ⟨by simp [fillCopyPaths], fun j _ => rfl, ?_⟩
    intro k p h
    simp at h
  | cons q rest ih =>
    intro i ctx offset hg
    obtain ⟨hqf, hqs⟩ := hg q (List.mem_cons_self _ _)
    have hrest : ∀ p ∈ rest, (p.nfill = 0 ∨ 3 ≤ p.nfill) ∧ 0 ≤ p.nstroke :=
      fun p hp => hg p (List.mem_cons_of_mem _ hp)
    obtain ⟨e1, e2⟩ := fillCopyPath_layout q ctx.verts offset hqf hqs
    rw [fillCopyPaths]
    obtain ⟨ia, ic, id⟩ := ih (i + 1)
      { ctx with paths := poke ctx.paths (pathOffset + i) (fillCopyPath q ctx.verts offset).1,
                 verts := (fillCopyPath q ctx.verts offset).2.1 }
      (fillCopyPath q ctx.verts offset).2.2 hrest
    simp only [e2] at ia ic id
    refine ⟨?_, ?_, ?_⟩
    · rw [e2, ia, List.map_cons, List.sum_cons]; ring
    · intro j hj
      rw [List.length_cons] at hj
      push_cast at hj
      rw [e2, ic j (by omega), poke_other _ _ _ _ (by omega)]
    · intro k p hk
      cases k with
      | zero =>
        simp only [List.getElem?_cons_zero, Option.some.injEq] at hk
        subst hk
        simp only [Nat.cast_zero, add_zero, List.take_zero, List.map_nil, List.sum_nil]
        rw [e2, ic (pathOffset + i) (by omega), poke_same, e1]
      | succ k =>
        simp only [List.getElem?_cons_succ] at hk
        have d1 := id k p hk
        simp only [List.take_succ_cons, List.map_cons, List.sum_cons]
        have ei : pathOffset + i + ((k + 1 : Nat) : Int) = pathOffset + (i + 1) + (k : Int) := by
          push_cast; ring
        rw [e2, ei, d1]
        simp only [add_assoc]

theorem pathDemand_nonneg (p : NVGpath) (hs : 0 ≤ p.nstroke) :
    0 ≤ fillRangeLen p ∧ 0 ≤ pathDemand p := by
  unfold pathDemand fillRangeLen
  split_ifs <;> constructor <;> omega

theorem prefix_demand_le (l : List NVGpath) (h : ∀ p ∈ l, 0 ≤ p.nstroke) :
    ∀ (k : Nat) (p : NVGpath), l[k]? = some p →
      0 ≤ ((l.take k).map pathDemand).sum
      ∧ ((l.take k).map pathDemand).sum + pathDemand p ≤ (l.map pathDemand).sum := by
  induction l with
  | nil => intro k p hk; simp at hk
  | cons q rest ih =>
    intro k p hk
    have hq := (pathDemand_nonneg q (h q (List.mem_cons_self _ _))).2
    have hrest : ∀ p ∈ rest, 0 ≤ p.nstroke := fun p hp => h p (List.mem_cons_of_mem _ hp)
    have hsum : 0 ≤ (rest.map pathDemand).sum :=
      List.sum_nonneg (by
        intro x hx
        obtain ⟨p, hp, rfl⟩ := List.mem_map.mp hx
        exact (pathDemand_nonneg p (hrest p hp)).2)
    cases k with
    | zero =>
      simp only [List.getElem?_cons_zero, Option.some.injEq] at hk
      subst hk
      simp only [List.take_zero, List.map_nil, List.sum_nil, List.map_cons, List.sum_cons]
      omega
    | succ k =>
      simp only [List.getElem?_cons_succ] at hk
      obtain ⟨a, b⟩ := ih hrest k p hk
      simp only [List.take_succ_cons, List.map_cons, List.sum_cons]
      omega

/-- The ranges a successful fill records, for sub-paths that each have 0 or
at least 3 fill points and a non-negative stroke point count: the path ranges
are `npaths .. npaths + n - 1`, below the path used-count after the submit; the
fill range and the stroke range of sub-path `k` follow each other from
`nverts` plus the demand of the sub-paths before it, the quad of a general
fill comes after the last sub-path, and the used-count after the submit is
the end of the last range. -/
theorem fill_ranges_layout (nv : Nanovg) (o : ReallocOracle) (ctx : RenderContext)
    (paint : NVGpaint) (op : NVGcompositeOperationState)
    (scissor : NVGscissor) (fringe : ℚ) (bounds : Fin 4 → ℚ) (paths : List NVGpath)
    (hcall : (INTERNAL_allocCall o.calls ctx).1 ≠ none)
    (hp : (INTERNAL_allocPaths o.paths ctx paths.length).1 ≠ -1)
    (hv : (INTERNAL_allocVerts o.verts ctx
            (INTERNAL_maxVertCount paths + if isSingleConvex paths = true then 0 else 4)).1 ≠ -1)
    (hu : (INTERNAL_allocFragUniforms o.uniforms ctx
            (if isSingleConvex paths = true then 1 else 2)).1 ≠ -1)
    (hg : ∀ p ∈ paths, (p.nfill = 0 ∨ 3 ≤ p.nfill) ∧ 0 ≤ p.nstroke) :
    ((nvg_gpu_renderFill nv o ctx paint op scissor fringe bounds paths).calls
        ctx.ncalls).pathOffset
      + ((nvg_gpu_renderFill nv o ctx paint op scissor fringe bounds paths).calls
        ctx.ncalls).pathCount
      = (nvg_gpu_renderFill nv o ctx paint op scissor fringe bounds paths).npaths
    ∧ ((nvg_gpu_renderFill nv o ctx paint op scissor fringe bounds paths).calls
        ctx.ncalls).pathOffset = ctx.npaths
    ∧ (∀ (k : Nat) (p : NVGpath), paths[k]? = some p →
        (nvg_gpu_renderFill nv o ctx paint op scissor fringe bounds paths).paths
            (ctx.npaths + k)
          = { fillOffset := if 3 ≤ p.nfill
                then ctx.nverts + ((paths.take k).map pathDemand).sum else 0,
              fillCount := fillRangeLen p,
              strokeOffset := if 0 < p.nstroke
                then ctx.nverts + ((paths.take k).map pathDemand).sum + fillRangeLen p else 0,
              strokeCount := p.nstroke }
        ∧ 0 ≤ ((paths.take k).map pathDemand).sum
        ∧ 0 ≤ fillRangeLen p
        ∧ ((paths.take k).map pathDemand).sum + fillRangeLen p + p.nstroke
            ≤ (paths.map pathDemand).sum)
    ∧ (isSingleConvex paths = false →
        ((nvg_gpu_renderFill nv o ctx paint op scissor fringe bounds paths).calls
            ctx.ncalls).triangleOffset = ctx.nverts + (paths.map pathDemand).sum
        ∧ ((nvg_gpu_renderFill nv o ctx paint op scissor fringe bounds paths).calls
            ctx.ncalls).triangleCount = 4)
    ∧ (nvg_gpu_renderFill nv o ctx paint op scissor fringe bounds paths).nverts
        = ctx.nverts + (paths.map pathDemand).sum
          + (if isSingleConvex paths = true then 0 else 4)
    ∧ INTERNAL_maxVertCount paths = (paths.map pathDemand).sum := by
  obtain ⟨-, h2, h3, h4, -, h6, -⟩ :=
    nvg_gpu_renderFill_ok nv o ctx paint op scissor fringe bounds paths hcall hp hv hu
  obtain ⟨la, -, ld⟩ := fillCopyPaths_layout ctx.npaths paths 0 ctx ctx.nverts hg
  have hmax : INTERNAL_maxVertCount paths = (paths.map pathDemand).sum := by
    rw [INTERNAL_maxVertCount_eq]
    congr 1
    apply List.map_congr_left
    intro p hp
    have := (hg p hp).1
    unfold pathDemand fillRangeLen
    split_ifs <;> omega
  rw [h2, h3, h4, h6, la, hmax]
  refine ⟨rfl, rfl, ?_, ?_, by ring, rfl⟩
  · intro k p hk
    have d := ld k p hk
    rw [add_zero] at d
    obtain ⟨a, b⟩ := prefix_demand_le paths (fun p hp => (hg p hp).2) k p hk
    have hpm : p ∈ paths := List.getElem?_mem hk
    refine ⟨d, a, (pathDemand_nonneg p (hg p hpm).2).1, ?_⟩
    have hb : pathDemand p = fillRangeLen p + p.nstroke := rfl
    rw [hb] at b
    omega
  · intro hx
    simp [hx]
/-! ## Shader and texture kind of a converted paint -/

/-- C33: `INTERNAL_convertPaint` on a paint whose non-zero image id resolves
to a texture returns 1 and writes the shader variant fill-image, radius 0,
feather 0 and the texture kind 0 for an RGBA texture with the premultiplied
flag, 1 for an RGBA texture without it, 2 for a texture of any other type; on
a paint with image id 0 it returns 1 and writes the shader variant
fill-gradient, texture kind 0 and the radius and feather of the paint, and
its result is the same for every context, hence for every texture table. -/
theorem paint_shader_selection (nv : Nanovg) (gl : RenderContext) (frag : RenderUniforms)
    (paint : NVGpaint) (scissor : NVGscissor) (width fringe strokeThr : ℚ) :
    (∀ tex : RenderTexture, paint.image ≠ 0 → INTERNAL_findTexture gl paint.image = some tex →
      (INTERNAL_convertPaint nv gl frag paint scissor width fringe strokeThr).1 = 1
      ∧ (INTERNAL_convertPaint nv gl frag paint scissor width fringe strokeThr).2.type
          = RENDERSHADER_FILLIMG
      ∧ (tex.type = nv.NVG_TEXTURE_RGBA → (tex.flags &&& nv.NVG_IMAGE_PREMULTIPLIED) ≠ 0 →
          (INTERNAL_convertPaint nv gl frag paint scissor width fringe strokeThr).2.texType = 0)
      ∧ (tex.type = nv.NVG_TEXTURE_RGBA → (tex.flags &&& nv.NVG_IMAGE_PREMULTIPLIED) = 0 →
          (INTERNAL_convertPaint nv gl frag paint scissor width fringe strokeThr).2.texType = 1)
      ∧ (tex.type ≠ nv.NVG_TEXTURE_RGBA →
          (INTERNAL_convertPaint nv gl frag paint scissor width fringe strokeThr).2.texType = 2)
      ∧ (INTERNAL_convertPaint nv gl frag paint scissor width fringe strokeThr).2.radius = 0
      ∧ (INTERNAL_convertPaint nv gl frag paint scissor width fringe strokeThr).2.feather = 0)
    ∧ (paint.image = 0 →
      (INTERNAL_convertPaint nv gl frag paint scissor width fringe strokeThr).1 = 1
      ∧ (INTERNAL_convertPaint nv gl frag paint scissor width fringe strokeThr).2.type
          = RENDERSHADER_FILLGRAD
      ∧ (INTERNAL_convertPaint nv gl frag paint scissor width fringe strokeThr).2.texType = 0
      ∧ (INTERNAL_convertPaint nv gl frag paint scissor width fringe strokeThr).2.radius
          = paint.radius
      ∧ (INTERNAL_convertPaint nv gl frag paint scissor width fringe strokeThr).2.feather
          = paint.feather
      ∧ ∀ (g2 : RenderContext) (f2 : RenderUniforms),
          INTERNAL_convertPaint nv g2 f2 paint scissor width fringe strokeThr
            = INTERNAL_convertPaint nv gl frag paint scissor width fringe strokeThr) := by
  constructor
  · intro tex himg hft
    unfold INTERNAL_convertPaint
    dsimp only
    rw [if_pos himg, hft]
    dsimp only
    refine ⟨rfl, ?_, ?_, ?_, ?_, ?_, ?_⟩
    · split_ifs <;> rfl
    · intro h1 h2
      rw [if_pos h1, if_pos h2]
    · intro h1 h2
      rw [if_pos h1, if_neg (not_not.mpr h2)]
    · intro h1
      rw [if_neg h1]
    · split_ifs <;> rfl
    · split_ifs <;> rfl
  · intro himg
    refine ⟨?_, ?_, ?_, ?_, ?_, ?_⟩
    · unfold INTERNAL_convertPaint
      dsimp only
      rw [if_neg (not_not.mpr himg)]
    · unfold INTERNAL_convertPaint
      dsimp only
      rw [if_neg (not_not.mpr himg)]
    · unfold INTERNAL_convertPaint
      dsimp only
      rw [if_neg (not_not.mpr himg)]
      dsimp only [memsetUniforms, RenderUniforms.zero]
      split_ifs <;> rfl
    · unfold INTERNAL_convertPaint
      dsimp only
      rw [if_neg (not_not.mpr himg)]
    · unfold INTERNAL_convertPaint
      dsimp only
      rw [if_neg (not_not.mpr himg)]
    · intro g2 f2
      unfold INTERNAL_convertPaint
      dsimp only
      rw [if_neg (not_not.mpr himg), if_neg (not_not.mpr himg)]
      rfl

theorem paint_shader_selection_witness :
    examplePaintImage.image ≠ 0
    ∧ INTERNAL_findTexture exampleTexturedCtx examplePaintImage.image
        = some { userdata := 11, type := 2, flags := 16, width := 4, height := 4 }
    ∧ (INTERNAL_convertPaint exampleNanovg exampleTexturedCtx RenderUniforms.zero
        examplePaintImage exampleScissor 1 1 (-1)).2.type = RENDERSHADER_FILLIMG
    ∧ (INTERNAL_convertPaint exampleNanovg exampleTexturedCtx RenderUniforms.zero
        examplePaintImage exampleScissor 1 1 (-1)).2.texType = 0
    ∧ examplePaint.image = 0
    ∧ (INTERNAL_convertPaint exampleNanovg exampleTexturedCtx RenderUniforms.zero
        examplePaint exampleScissor 1 1 (-1)).2.type = RENDERSHADER_FILLGRAD
    ∧ (INTERNAL_convertPaint exampleNanovg exampleTexturedCtx RenderUniforms.zero
        examplePaint exampleScissor 1 1 (-1)).2.feather = 1 :=
  ⟨by decide, by decide,
   ((paint_shader_selection exampleNanovg exampleTexturedCtx RenderUniforms.zero
      examplePaintImage exampleScissor 1 1 (-1)).1
      { userdata := 11, type := 2, flags := 16, width := 4, height := 4 }
      (by decide) (by decide)).2.1,
   ((paint_shader_selection exampleNanovg exampleTexturedCtx RenderUniforms.zero
      examplePaintImage exampleScissor 1 1 (-1)).1
      { userdata := 11, type := 2, flags := 16, width := 4, height := 4 }
      (by decide) (by decide)).2.2.1
      (by decide) (by decide),
   rfl,
   ((paint_shader_selection exampleNanovg exampleTexturedCtx RenderUniforms.zero
      examplePaint exampleScissor 1 1 (-1)).2 rfl).2.1,
   ((paint_shader_selection exampleNanovg exampleTexturedCtx RenderUniforms.zero
      examplePaint exampleScissor 1 1 (-1)).2 rfl).2.2.2.2.1⟩

/-! ## The two parameters of a line crossing -/

/-- C34: over exact arithmetic, when the determinant
`m = (p1 - p0) x (p3 - p2)` has `|m| ≥ 1e-6`, `getLineCrossing p0 p1 p2 p3`
returns a number `s` and `getLineCrossing p2 p3 p0 p1` a number `t` with
`p2 + s (p3 - p2) = p0 + t (p1 - p0)`, and `(s, t)` is the only pair with
that property; when `|m| < 1e-6` both calls return NaN and the crossing test
of the segment walk is false. -/
theorem crossing_parameters (p0 p1 p2 p3 : Vec) :
    (1 / 1000000 ≤ |(p1.x - p0.x) * (p3.y - p2.y) - (p1.y - p0.y) * (p3.x - p2.x)| →
      ∃ s t : ℚ, getLineCrossing p0 p1 p2 p3 = some s ∧ getLineCrossing p2 p3 p0 p1 = some t
        ∧ p2.x + s * (p3.x - p2.x) = p0.x + t * (p1.x - p0.x)
        ∧ p2.y + s * (p3.y - p2.y) = p0.y + t * (p1.y - p0.y)
        ∧ ∀ s2 t2 : ℚ, p2.x + s2 * (p3.x - p2.x) = p0.x + t2 * (p1.x - p0.x) →
            p2.y + s2 * (p3.y - p2.y) = p0.y + t2 * (p1.y - p0.y) → s2 = s ∧ t2 = t)
    ∧ (|(p1.x - p0.x) * (p3.y - p2.y) - (p1.y - p0.y) * (p3.x - p2.x)| < 1 / 1000000 →
      getLineCrossing p0 p1 p2 p3 = none ∧ getLineCrossing p2 p3 p0 p1 = none
      ∧ crossingTest (getLineCrossing p0 p1 p2 p3) (getLineCrossing p2 p3 p0 p1) = false) := by
  constructor
  · intro hm0
    have h : ¬ |(p1.x - p0.x) * (p3.y - p2.y) - (p1.y - p0.y) * (p3.x - p2.x)|
        < 1 / 1000000 := not_lt.mpr hm0
    have h2 : ¬ |(p3.x - p2.x) * (p1.y - p0.y) - (p3.y - p2.y) * (p1.x - p0.x)|
        < 1 / 1000000 := by
      rw [det_swap, abs_neg]; exact h
    have hm : (p1.x - p0.x) * (p3.y - p2.y) - (p1.y - p0.y) * (p3.x - p2.x) ≠ 0 := by
      intro h0
      rw [h0] at h
      norm_num at h
    have hm2 : (p3.x - p2.x) * (p1.y - p0.y) - (p3.y - p2.y) * (p1.x - p0.x) ≠ 0 := by
      rw [det_swap]; exact neg_ne_zero.mpr hm
    refine ⟨_, _, getLineCrossing_some p0 p1 p2 p3 h, getLineCrossing_some p2 p3 p0 p1 h2,
      ?_, ?_, ?_⟩
    · field_simp
      ring
    · field_simp
      ring
    · intro s2 t2 hx hy
      constructor
      · rw [eq_div_iff hm]
        linear_combination (p1.x - p0.x) * hy - (p1.y - p0.y) * hx
      · rw [eq_div_iff hm2]
        linear_combination (-(p3.x - p2.x)) * hy + (p3.y - p2.y) * hx
  · intro h
    have h2 : |(p3.x - p2.x) * (p1.y - p0.y) - (p3.y - p2.y) * (p1.x - p0.x)|
        < 1 / 1000000 := by
      rw [det_swap, abs_neg]; exact h
    rw [getLineCrossing_none p0 p1 p2 p3 h, getLineCrossing_none p2 p3 p0 p1 h2]
    exact ⟨rfl, rfl, rfl⟩

theorem crossing_parameters_witness :
    (1 : ℚ) / 1000000
      ≤ |(((⟨4, 0⟩ : Vec).x - (⟨0, 0⟩ : Vec).x) * ((⟨1, 2⟩ : Vec).y - (⟨1, -2⟩ : Vec).y)
          - ((⟨4, 0⟩ : Vec).y - (⟨0, 0⟩ : Vec).y) * ((⟨1, 2⟩ : Vec).x - (⟨1, -2⟩ : Vec).x))|
    ∧ ∃ s t : ℚ, getLineCrossing ⟨0, 0⟩ ⟨4, 0⟩ ⟨1, -2⟩ ⟨1, 2⟩ = some s
        ∧ getLineCrossing ⟨1, -2⟩ ⟨1, 2⟩ ⟨0, 0⟩ ⟨4, 0⟩ = some t
        ∧ (⟨1, -2⟩ : Vec).x + s * ((⟨1, 2⟩ : Vec).x - (⟨1, -2⟩ : Vec).x)
            = (⟨0, 0⟩ : Vec).x + t * ((⟨4, 0⟩ : Vec).x - (⟨0, 0⟩ : Vec).x)
        ∧ (⟨1, -2⟩ : Vec).y + s * ((⟨1, 2⟩ : Vec).y - (⟨1, -2⟩ : Vec).y)
            = (⟨0, 0⟩ : Vec).y + t * ((⟨4, 0⟩ : Vec).y - (⟨0, 0⟩ : Vec).y) :=
  ⟨by norm_num,
   by
    obtain ⟨s, t, h1, h2, h3, h4, _⟩ :=
      (crossing_parameters ⟨0, 0⟩ ⟨4, 0⟩ ⟨1, -2⟩ ⟨1, 2⟩).1 (by norm_num)
    exact ⟨s, t, h1, h2, h3, h4⟩⟩

/-! ## The segments of the walk -/

theorem walkedSegments_done (P : NSVGpath) (fuel : Nat) (i : Int) (h : ¬ i < P.npts + 3) :
    walkedSegments P fuel i = [] := by
  cases fuel with
  | zero => rfl
  | succ n => rw [walkedSegments, if_neg h]

theorem walkedSegments_from (P : NSVGpath) (k : Nat) (hn : P.npts = 3 * k + 1) :
    ∀ (d j fuel : Nat), j + d = k → d + 1 ≤ fuel →
      walkedSegments P fuel (3 * j + 1)
        = ((List.range d).map fun (m : Nat) =>
            (pointOf P (3 * ((j + m : Nat) : Int)), pointOf P (3 * ((j + m : Nat) : Int) + 3)))
          ++ [(pointOf P (3 * k), pointOf P 0)] := by
  intro d
  induction d with
  | zero =>
    intro j fuel hj hf
    obtain ⟨f, rfl⟩ : ∃ f, fuel = f + 1 := ⟨fuel - 1, by omega⟩
    have hjk : j = k := by omega
    subst hjk
    have h1 : (3 * (j : Int) + 1) < P.npts + 3 := by omega
    have h2 : ¬ (3 * (j : Int) + 1) < P.npts := by omega
    have h3 : ¬ (3 * (j : Int) + 1 + 3) < P.npts + 3 := by omega
    rw [walkedSegments, if_pos h1, if_neg h2, walkedSegments_done P f _ h3]
    simp only [List.range_zero, List.map_nil, List.nil_append, pointOf]
    congr 3 <;> ring_nf
  | succ d ih =>
    intro j fuel hj hf
    obtain ⟨f, rfl⟩ : ∃ f, fuel = f + 1 := ⟨fuel - 1, by omega⟩
    have h1 : (3 * (j : Int) + 1) < P.npts + 3 := by omega
    have h2 : (3 * (j : Int) + 1) < P.npts := by omega
    have e : 3 * (j : Int) + 1 + 3 = 3 * ((j + 1 : Nat) : Int) + 1 := by push_cast; ring
    rw [walkedSegments, if_pos h1, if_pos h2, e, ih (j + 1) f (by omega) (by omega),
      List.range_succ_eq_map, List.map_cons, List.map_map, List.cons_append]
    refine congrArg₂ List.cons ?_ (congrArg₂ HAppend.hAppend ?_ rfl)
    · simp only [pointOf, Nat.add_zero]
      congr 3 <;> ring_nf
    · apply List.map_congr_left
      intro m _
      simp only [Function.comp, Nat.succ_eq_add_one]
      have e2 : j + 1 + m = j + (m + 1) := by omega
      rw [e2]

theorem walkedReads_bound (P : NSVGpath) (k : Nat) (hn : P.npts = 3 * k + 1) :
    ∀ (fuel : Nat) (j : Int), 0 ≤ j → ∀ r ∈ walkedReads P fuel (3 * j + 1),
      0 ≤ r ∧ r < 2 * P.npts := by
  intro fuel
  induction fuel with
  | zero => intro j _ r h; simp [walkedReads] at h
  | succ n ih =>
    intro j hj r h
    unfold walkedReads at h
    by_cases hi : 3 * j + 1 < P.npts + 3
    · rw [if_pos hi] at h
      simp only [List.mem_append, List.mem_cons, List.mem_singleton, List.not_mem_nil,
        or_false] at h
      rcases h with ((h | h) | h) | h
      · omega
      · omega
      · by_cases hlt : 3 * j + 1 < P.npts
        · rw [if_pos hlt] at h
          simp only [List.mem_cons, List.mem_singleton, List.not_mem_nil, or_false] at h
          omega
        · rw [if_neg hlt] at h
          simp only [List.mem_cons, List.mem_singleton, List.not_mem_nil, or_false] at h
          omega
      · have e : 3 * j + 1 + 3 = 3 * (j + 1) + 1 := by ring
        rw [e] at h
        exact ih (j + 1) (by omega) r h
    · rw [if_neg hi] at h
      cases h

/-- C35: for a sibling sub-path of `3k + 1` points, `k ≥ 1`, whatever its
closed mark, the segment walk of `nvgDrawSVG` tests exactly the `k` chords
from point `3j` to point `3j + 3`, `j = 0 .. k - 1`, followed by the closing
segment from point `3k` to point 0, `k + 1` segments in all, and with any
larger iteration bound the same; every index of `pts` it reads is at least 0
and below `2 * npts`, the float index of a point below `npts`; its crossing
count goes up by the number of those segments that pass the crossing test;
and a sibling with fewer than 4 points leaves the crossing count as it is. -/
theorem segment_walk (P : NSVGpath) (k : Nat) (hk : 1 ≤ k) (hn : P.npts = 3 * k + 1) :
    walkedSegments P (P.npts + 3).toNat 1 = claimedSegments P k
    ∧ (walkedSegments P (P.npts + 3).toNat 1).length = k + 1
    ∧ (∀ fuel : Nat, k + 1 ≤ fuel → walkedSegments P fuel 1 = claimedSegments P k)
    ∧ (∀ r ∈ walkedReads P (P.npts + 3).toNat 1, 0 ≤ r ∧ r < 2 * P.npts)
    ∧ (∀ (self j : Nat) (p0 p1 : Vec) (rest : List NSVGpath) (c : Int), j ≠ self →
        countCrossings self p0 p1 (P :: rest) j c
          = countCrossings self p0 p1 rest (j + 1)
              (c + (((claimedSegments P k).filter fun sg =>
                crossingTest (getLineCrossing p0 p1 sg.1 sg.2)
                  (getLineCrossing sg.1 sg.2 p0 p1)).length : Nat)))
    ∧ (∀ (Q : NSVGpath) (self j : Nat) (p0 p1 : Vec) (rest : List NSVGpath) (c : Int),
        Q.npts < 4 →
        countCrossings self p0 p1 (Q :: rest) j c
          = countCrossings self p0 p1 rest (j + 1) c) := by
  have hall : ∀ fuel : Nat, k + 1 ≤ fuel → walkedSegments P fuel 1 = claimedSegments P k := by
    intro fuel hf
    have h := walkedSegments_from P k hn k 0 fuel (by omega) hf
    simp only [Nat.cast_zero, mul_zero, zero_add] at h
    rw [h]
    rfl
  have hfuel : k + 1 ≤ (P.npts + 3).toNat := by omega
  refine ⟨hall _ hfuel, ?_, hall, ?_, ?_, ?_⟩
  · rw [hall _ hfuel]
    simp [claimedSegments]
  · have h := walkedReads_bound P k hn (P.npts + 3).toNat 0 (le_refl _)
    simpa using h
  · intro self j p0 p1 rest c hj
    have h4 : ¬ P.npts < 4 := by omega
    rw [countCrossings, if_neg hj, if_neg h4, walkSegments_count, hall _ hfuel]
  · intro Q self j p0 p1 rest c hQ
    rw [countCrossings]
    split_ifs <;> rfl

theorem segment_walk_witness :
    1 ≤ 4 ∧ exampleOuterSquare.npts = 3 * ((4 : Nat) : Int) + 1
    ∧ walkedSegments exampleOuterSquare (exampleOuterSquare.npts + 3).toNat 1
        = claimedSegments exampleOuterSquare 4
    ∧ (walkedSegments exampleOuterSquare (exampleOuterSquare.npts + 3).toNat 1).length
        = 4 + 1 :=
  ⟨by decide, by decide,
   (segment_walk exampleOuterSquare 4 (by decide) (by decide)).1,
   (segment_walk exampleOuterSquare 4 (by decide) (by decide)).2.1⟩

/-! ## Dispatch of a convex fill and of a triangle list -/

theorem INTERNAL_setUniforms_shape (gl : RenderContext) (uniformOffset image : Int) :
    ∃ tail : List GpuOp,
      INTERNAL_setUniforms gl uniformOffset image
        = GpuOp.updateUniformBuffer (gl.uniforms uniformOffset) sizeofUniformArray
          :: GpuOp.updateShader (if (gl.flags &&& NVG_ANTIALIAS) ≠ 0 then 1 else 0)
              (gl.uniforms uniformOffset).type (gl.uniforms uniformOffset).texType
          :: tail
      ∧ (tail = [] ∨ ∃ t : Nat, tail = [GpuOp.updateSampler t]) := by
  unfold INTERNAL_setUniforms
  by_cases himg : image ≠ 0
  · cases hf : INTERNAL_findTexture gl image with
    | none => exact ⟨[], by simp [himg, hf], Or.inl rfl⟩
    | some tex =>
      exact ⟨[GpuOp.updateSampler tex.userdata], by simp [himg, hf], Or.inr ⟨_, rfl⟩⟩
  · exact ⟨[], by simp [himg], Or.inl rfl⟩

theorem convexDraws_append (a b : List RenderPath) :
    convexDraws (a ++ b) = convexDraws a ++ convexDraws b := by
  induction a with
  | nil => rfl
  | cons p rest ih => simp [convexDraws, ih]

theorem convexDraws_isDraw (l : List RenderPath) :
    ∀ e ∈ convexDraws l, ∃ a b c, e = GpuOp.drawPrimitives a b c := by
  induction l with
  | nil => intro e he; cases he
  | cons p rest ih =>
    intro e he
    simp only [convexDraws, List.mem_cons, List.mem_append] at he
    rcases he with he | he | he
    · exact ⟨_, _, _, he⟩
    · split_ifs at he
      · simp only [List.mem_singleton] at he
        exact ⟨_, _, _, he⟩
      · cases he
    · exact ih e he

theorem INTERNAL_convexFill_eq (gl : RenderContext) (call : RenderDrawCall) :
    INTERNAL_convexFill gl call
      = INTERNAL_setUniforms gl call.uniformOffset call.image
        ++ [GpuOp.applyState gl.vertexBuffer] ++ convexDraws (callPaths gl call) := by
  unfold INTERNAL_convexFill callPaths
  congr 1
  generalize call.pathCount.toNat = n
  induction n with
  | zero => rfl
  | succ n ih =>
    rw [List.range_succ, List.flatMap_append, List.map_append, convexDraws_append, ih]
    simp [convexDraws]

/-- C31: the dispatch of a recorded convex fill is the bind of the block at
`uniformOffset` with the call's image, one apply-state call, and then per
path range of the call, in order, one triangle-list draw of the fill range
followed by one triangle-strip draw of the stroke range exactly when the
stroke count is positive; it contains no stencil, color-mask or culling
operation, one uniform-buffer update and one apply-state call. The dispatch of
a recorded triangle list is the bind of the block at `uniformOffset` followed
by one triangle-list draw of `(triangleOffset, triangleCount)`, its only
draw. -/
theorem convex_and_triangles_dispatch (gl : RenderContext) (call : RenderDrawCall) :
    (call.type = RenderType.RENDERTYPE_CONVEXFILL →
      dispatchCall gl call
        = INTERNAL_setUniforms gl call.uniformOffset call.image
          ++ [GpuOp.applyState gl.vertexBuffer] ++ convexDraws (callPaths gl call)
      ∧ (∀ e ∈ dispatchCall gl call, e.isStateOp = false)
      ∧ uniformUpdatesOf (dispatchCall gl call)
          = [GpuOp.updateUniformBuffer (gl.uniforms call.uniformOffset) sizeofUniformArray]
      ∧ applyStatesOf (dispatchCall gl call) = [GpuOp.applyState gl.vertexBuffer]
      ∧ drawsOf (dispatchCall gl call) = convexDraws (callPaths gl call))
    ∧ (call.type = RenderType.RENDERTYPE_TRIANGLES →
      dispatchCall gl call
        = INTERNAL_setUniforms gl call.uniformOffset call.image
          ++ [GpuOp.drawPrimitives 0 call.triangleOffset call.triangleCount]
      ∧ uniformUpdatesOf (dispatchCall gl call)
          = [GpuOp.updateUniformBuffer (gl.uniforms call.uniformOffset) sizeofUniformArray]
      ∧ drawsOf (dispatchCall gl call)
          = [GpuOp.drawPrimitives 0 call.triangleOffset call.triangleCount]) := by
  obtain ⟨tail, hsu, htail⟩ := INTERNAL_setUniforms_shape gl call.uniformOffset call.image
  constructor
  · intro ht
    have hd : dispatchCall gl call = INTERNAL_convexFill gl call := by
      unfold dispatchCall
      rw [ht]
      simp
    have hdraw := convexDraws_isDraw (callPaths gl call)
    have hA : (convexDraws (callPaths gl call)).filter (fun e => e.isUniformUpdate) = [] := by
      rw [List.filter_eq_nil_iff]
      intro e he
      obtain ⟨a, b, c, rfl⟩ := hdraw e he
      simp [GpuOp.isUniformUpdate]
    have hB : (convexDraws (callPaths gl call)).filter (fun e => e.isApplyState) = [] := by
      rw [List.filter_eq_nil_iff]
      intro e he
      obtain ⟨a, b, c, rfl⟩ := hdraw e he
      simp [GpuOp.isApplyState]
    have hC : (convexDraws (callPaths gl call)).filter (fun e => e.isDraw)
        = convexDraws (callPaths gl call) := by
      rw [List.filter_eq_self]
      intro e he
      obtain ⟨a, b, c, rfl⟩ := hdraw e he
      rfl
    rw [hd, INTERNAL_convexFill_eq, hsu]
    refine ⟨rfl, ?_, ?_, ?_, ?_⟩
    · intro e he
      simp only [List.mem_append, List.mem_cons, List.mem_singleton, List.not_mem_nil,
        or_false] at he
      rcases he with ((he | he | he) | he) | he
      · subst he; rfl
      · subst he; rfl
      · rcases htail with h | ⟨t, h⟩
        · rw [h] at he; cases he
        · rw [h] at he
          simp only [List.mem_singleton] at he
          subst he; rfl
      · subst he; rfl
      · obtain ⟨a, b, c, rfl⟩ := hdraw e he
        rfl
    · rcases htail with h | ⟨t, h⟩ <;> subst h <;>
        simp only [uniformUpdatesOf, List.cons_append, List.nil_append, List.filter_cons, hA] <;>
        rfl
    · rcases htail with h | ⟨t, h⟩ <;> subst h <;>
        simp only [applyStatesOf, List.cons_append, List.nil_append, List.filter_cons, hB] <;>
        rfl
    · rcases htail with h | ⟨t, h⟩ <;> subst h <;>
        simp only [drawsOf, List.cons_append, List.nil_append, List.filter_cons, hC] <;>
        rfl
  · intro ht
    have hd : dispatchCall gl call = INTERNAL_triangles gl call := by
      unfold dispatchCall
      rw [ht]
      simp
    rw [hd]
    unfold INTERNAL_triangles
    rw [hsu]
    refine ⟨rfl, ?_, ?_⟩
    · rcases htail with h | ⟨t, h⟩ <;> subst h <;> rfl
    · rcases htail with h | ⟨t, h⟩ <;> subst h <;> rfl

theorem convex_and_triangles_dispatch_witness :
    (exampleAfterPentagon.calls 0).type = RenderType.RENDERTYPE_CONVEXFILL
    ∧ drawsOf (dispatchCall exampleAfterPentagon (exampleAfterPentagon.calls 0))
        = convexDraws (callPaths exampleAfterPentagon (exampleAfterPentagon.calls 0))
    ∧ convexDraws (callPaths exampleAfterPentagon (exampleAfterPentagon.calls 0))
        = [GpuOp.drawPrimitives 0 0 9, GpuOp.drawPrimitives 1 9 3]
    ∧ (exampleSceneCtx.calls 2).type = RenderType.RENDERTYPE_TRIANGLES
    ∧ drawsOf (dispatchCall exampleSceneCtx (exampleSceneCtx.calls 2))
        = [GpuOp.drawPrimitives 0 (exampleSceneCtx.calls 2).triangleOffset
            (exampleSceneCtx.calls 2).triangleCount] :=
  ⟨by decide,
   ((convex_and_triangles_dispatch exampleAfterPentagon (exampleAfterPentagon.calls 0)).1
      (by decide)).2.2.2.2,
   by decide,
   by decide,
   ((convex_and_triangles_dispatch exampleSceneCtx (exampleSceneCtx.calls 2)).2
      (by decide)).2.2⟩

/-! ## The toggle baseline -/

theorem toggleRun_append (s : ToggleState) (a b : List GpuOp) :
    toggleRun s (a ++ b) = toggleRun (toggleRun s a) b := by
  simp [toggleRun, List.foldl_append]

theorem toggleRun_quiet (l : List GpuOp) (h : ∀ e ∈ l, ∀ s, toggleStep s e = s) :
    ∀ s, toggleRun s l = s := by
  induction l with
  | nil => intro s; rfl
  | cons e rest ih =>
    intro s
    have h1 : toggleStep s e = s := h e (List.mem_cons_self _ _) s
    have h2 := ih (fun e2 he2 => h e2 (List.mem_cons_of_mem _ he2)) s
    simp only [toggleRun, List.foldl_cons, h1] at h2 ⊢
    exact h2

theorem toggleRun_setUniforms (gl : RenderContext) (uniformOffset image : Int)
    (s : ToggleState) :
    toggleRun s (INTERNAL_setUniforms gl uniformOffset image) = s := by
  obtain ⟨tail, hsu, htail⟩ := INTERNAL_setUniforms_shape gl uniformOffset image
  rw [hsu]
  rcases htail with h | ⟨t, h⟩ <;> subst h <;> rfl

theorem toggleRun_drawFills (gl : RenderContext) (pathOffset npaths : Int) (s : ToggleState) :
    toggleRun s (drawFills gl pathOffset npaths) = s := by
  apply toggleRun_quiet
  intro e he s2
  unfold drawFills at he
  simp only [List.mem_map] at he
  obtain ⟨i, -, rfl⟩ := he
  rfl

theorem toggleRun_drawStrokes (gl : RenderContext) (pathOffset npaths : Int)
    (s : ToggleState) :
    toggleRun s (drawStrokes gl pathOffset npaths) = s := by
  apply toggleRun_quiet
  intro e he s2
  unfold drawStrokes at he
  simp only [List.mem_map] at he
  obtain ⟨i, -, rfl⟩ := he
  rfl

theorem toggleRun_convexDraws (l : List RenderPath) (s : ToggleState) :
    toggleRun s (convexDraws l) = s := by
  apply toggleRun_quiet
  intro e he s2
  obtain ⟨a, b, c, rfl⟩ := convexDraws_isDraw l e he
  rfl

theorem toggleRun_fill (gl : RenderContext) (call : RenderDrawCall) :
    toggleRun toggleBaseline (INTERNAL_fill gl call) = toggleBaseline := by
  unfold INTERNAL_fill
  split_ifs <;>
    simp only [toggleRun_append, toggleRun_setUniforms, toggleRun_drawFills,
      toggleRun_drawStrokes] <;>
    rfl

theorem toggleRun_convexFill (gl : RenderContext) (call : RenderDrawCall) :
    toggleRun toggleBaseline (INTERNAL_convexFill gl call) = toggleBaseline := by
  rw [INTERNAL_convexFill_eq]
  simp only [toggleRun_append, toggleRun_setUniforms, toggleRun_convexDraws]
  rfl

theorem toggleRun_stroke (gl : RenderContext) (call : RenderDrawCall) :
    toggleRun toggleBaseline (INTERNAL_stroke gl call) = toggleBaseline := by
  unfold INTERNAL_stroke
  split_ifs <;>
    simp only [toggleRun_append, toggleRun_setUniforms, toggleRun_drawStrokes] <;>
    rfl

theorem toggleRun_triangles (gl : RenderContext) (call : RenderDrawCall) :
    toggleRun toggleBaseline (INTERNAL_triangles gl call) = toggleBaseline := by
  unfold INTERNAL_triangles
  simp only [toggleRun_append, toggleRun_setUniforms]
  rfl

theorem toggleRun_dispatchCall (gl : RenderContext) (call : RenderDrawCall) :
    toggleRun toggleBaseline (dispatchCall gl call) = toggleBaseline := by
  unfold dispatchCall
  split_ifs
  · exact toggleRun_fill gl call
  · exact toggleRun_convexFill gl call
  · exact toggleRun_stroke gl call
  · exact toggleRun_triangles gl call
  · rfl

theorem toggleRun_flushCalls (gl : RenderContext) :
    ∀ (k : Nat) (i : Int), toggleRun toggleBaseline (flushCalls gl k i) = toggleBaseline := by
  intro k
  induction k with
  | zero => intro i; rfl
  | succ k ih =>
    intro i
    rw [flushCalls, toggleRun_append, ← List.singleton_append, toggleRun_append]
    have h0 : toggleRun toggleBaseline [GpuOp.updateBlendFunction (gl.calls i).blendOp]
        = toggleBaseline := rfl
    rw [h0, toggleRun_dispatchCall, ih]

theorem flushCalls_split (gl : RenderContext) :
    ∀ (k n : Nat) (i : Int), k ≤ n →
      flushCalls gl n i = flushCalls gl k i ++ flushCalls gl (n - k) (i + k) := by
  intro k
  induction k with
  | zero => intro n i _; simp [flushCalls]
  | succ k ih =>
    intro n i h
    obtain ⟨m, rfl⟩ : ∃ m, n = m + 1 := ⟨n - 1, by omega⟩
    rw [flushCalls, flushCalls, ih m (i + 1) (by omega), List.append_assoc]
    have e1 : m + 1 - (k + 1) = m - k := by omega
    have e2 : i + 1 + (k : Int) = i + ((k + 1 : Nat) : Int) := by push_cast; ring
    rw [e1, e2]

/-- C36: started with color-write enabled, stencil test disabled and culling
enabled, each of `INTERNAL_fill`, `INTERNAL_convexFill`, `INTERNAL_stroke` and
`INTERNAL_triangles`, for every context (so for either setting of the
anti-alias and stencil-stroke flags) and every call, ends in the same state of
the three toggles, and so does the dispatch by call type. In the call loop of
the flush the calls before call number `k` end in that state as well, so call
number `k` starts from it; and in a whole flush with at least one call,
whatever the toggles were before, the reset and everything up to call number
`k` leave them at that baseline. -/
theorem dispatch_keeps_toggle_baseline (gl : RenderContext) (call : RenderDrawCall)
    (n k : Nat) (i : Int) (hk : k ≤ n) :
    toggleRun toggleBaseline (INTERNAL_fill gl call) = toggleBaseline
    ∧ toggleRun toggleBaseline (INTERNAL_convexFill gl call) = toggleBaseline
    ∧ toggleRun toggleBaseline (INTERNAL_stroke gl call) = toggleBaseline
    ∧ toggleRun toggleBaseline (INTERNAL_triangles gl call) = toggleBaseline
    ∧ toggleRun toggleBaseline (dispatchCall gl call) = toggleBaseline
    ∧ flushCalls gl n i = flushCalls gl k i ++ flushCalls gl (n - k) (i + k)
    ∧ toggleRun toggleBaseline (flushCalls gl k i) = toggleBaseline
    ∧ (∀ (be : Backend) (s : ToggleState), 0 < gl.ncalls → n = gl.ncalls.toNat →
        ∃ before : List GpuOp,
          (nvg_gpu_renderFlush be gl).2
            = before ++ flushCalls (flushVertexBuffer be gl).1 (n - k) k
          ∧ toggleRun s before = toggleBaseline) := by
  refine ⟨toggleRun_fill gl call, toggleRun_convexFill gl call, toggleRun_stroke gl call,
    toggleRun_triangles gl call, toggleRun_dispatchCall gl call, flushCalls_split gl k n i hk,
    toggleRun_flushCalls gl k i, ?_⟩
  intro be s hc hn
  refine ⟨([GpuOp.resetState] ++ (flushVertexBuffer be gl).2)
        ++ [GpuOp.updateVertexBuffer (flushVertexBuffer be gl).1.vertexBuffer
            ((List.range gl.nverts.toNat).map fun (i : Nat) => gl.verts (i : Int))
            gl.nverts sizeofNVGvertex]
        ++ flushCalls (flushVertexBuffer be gl).1 k 0, ?_, ?_⟩
  · rw [nvg_gpu_renderFlush_trace be gl hc, ← hn,
      flushCalls_split (flushVertexBuffer be gl).1 k n 0 hk]
    simp only [List.append_assoc, zero_add]
  · have hvb : ∀ s2, toggleRun s2 (flushVertexBuffer be gl).2 = s2 := by
      apply toggleRun_quiet
      intro e he s2
      unfold flushVertexBuffer at he
      split_ifs at he <;>
        simp only [List.mem_append, List.mem_cons, List.mem_singleton, List.not_mem_nil,
          or_false, false_or] at he
      · rcases he with he | he <;> (subst he; rfl)
      · subst he; rfl
    simp only [toggleRun_append, hvb]
    have h0 : toggleRun s [GpuOp.resetState] = toggleBaseline := rfl
    rw [h0]
    have h1 : ∀ b l c d, toggleRun toggleBaseline [GpuOp.updateVertexBuffer b l c d]
        = toggleBaseline := fun _ _ _ _ => rfl
    rw [h1, toggleRun_flushCalls]

theorem dispatch_keeps_toggle_baseline_witness :
    1 ≤ 3
    ∧ toggleRun toggleBaseline (dispatchCall exampleSceneCtx (exampleSceneCtx.calls 0))
        = toggleBaseline
    ∧ toggleRun toggleBaseline (flushCalls exampleSceneCtx 1 0) = toggleBaseline :=
  ⟨by decide,
   (dispatch_keeps_toggle_baseline exampleSceneCtx (exampleSceneCtx.calls 0) 3 1 0
      (by decide)).2.2.2.2.1,
   (dispatch_keeps_toggle_baseline exampleSceneCtx (exampleSceneCtx.calls 0) 3 1 0
      (by decide)).2.2.2.2.2.2.1⟩

/-! ## Apply-state before the draws of a call -/

theorem drawsApplied_setUniforms (gl : RenderContext) (uniformOffset image : Int)
    (pending : Bool) (rest : List GpuOp) :
    drawsApplied pending (INTERNAL_setUniforms gl uniformOffset image ++ rest)
      = drawsApplied true rest := by
  obtain ⟨tail, hsu, htail⟩ := INTERNAL_setUniforms_shape gl uniformOffset image
  rw [hsu]
  rcases htail with h | ⟨t, h⟩ <;> subst h <;> rfl

theorem drawsApplied_draws (l rest : List GpuOp)
    (h : ∀ e ∈ l, ∃ a b c, e = GpuOp.drawPrimitives a b c) :
    drawsApplied false (l ++ rest) = drawsApplied false rest := by
  induction l with
  | nil => rfl
  | cons e tl ih =>
    obtain ⟨a, b, c, rfl⟩ := h e (List.mem_cons_self _ _)
    have h2 := ih (fun e2 he2 => h e2 (List.mem_cons_of_mem _ he2))
    simp only [List.cons_append, drawsApplied, Bool.not_false, Bool.true_and]
    exact h2

theorem drawFills_isDraw (gl : RenderContext) (pathOffset npaths : Int) :
    ∀ e ∈ drawFills gl pathOffset npaths, ∃ a b c, e = GpuOp.drawPrimitives a b c := by
  intro e he
  unfold drawFills at he
  simp only [List.mem_map] at he
  obtain ⟨i, -, rfl⟩ := he
  exact ⟨_, _, _, rfl⟩

theorem drawStrokes_isDraw (gl : RenderContext) (pathOffset npaths : Int) :
    ∀ e ∈ drawStrokes gl pathOffset npaths, ∃ a b c, e = GpuOp.drawPrimitives a b c := by
  intro e he
  unfold drawStrokes at he
  simp only [List.mem_map] at he
  obtain ⟨i, -, rfl⟩ := he
  exact ⟨_, _, _, rfl⟩

theorem drawsApplied_blend (p : Bool) (b : NVGcompositeOperationState) (rest : List GpuOp) :
    drawsApplied p (GpuOp.updateBlendFunction b :: rest) = drawsApplied true rest := rfl

theorem drawsApplied_apply (p : Bool) (v : Nat) (rest : List GpuOp) :
    drawsApplied p (GpuOp.applyState v :: rest) = drawsApplied false rest := rfl

theorem drawsApplied_draw (a b c : Int) (rest : List GpuOp) :
    drawsApplied false (GpuOp.drawPrimitives a b c :: rest) = drawsApplied false rest := rfl

theorem drawsApplied_colorMask (p : Bool) (e : Int) (rest : List GpuOp) :
    drawsApplied p (GpuOp.toggleColorWriteMask e :: rest) = drawsApplied p rest := rfl

theorem drawsApplied_stencil (p : Bool) (e : Int) (rest : List GpuOp) :
    drawsApplied p (GpuOp.toggleStencil e :: rest) = drawsApplied p rest := rfl

theorem drawsApplied_cull (p : Bool) (e : Int) (rest : List GpuOp) :
    drawsApplied p (GpuOp.toggleCullMode e :: rest) = drawsApplied p rest := rfl

theorem drawsApplied_stencilFunction (p : Bool) (f : nvgStencilCompareFunction)
    (a b c d e g : nvgStencilOperation) (rest : List GpuOp) :
    drawsApplied p (GpuOp.updateStencilFunction f a b c d e g :: rest)
      = drawsApplied p rest := rfl

theorem drawsApplied_nil (p : Bool) : drawsApplied p [] = true := by
  cases p <;> rfl

/-- The dispatch of a recorded fill, convex fill or stroke, preceded by the
blend-function update of the call, reaches each of its draws with an
apply-state call after the last blend-function update and bind. -/
theorem dispatch_applies_state (gl : RenderContext) (call : RenderDrawCall) (pending : Bool)
    (h : call.type = RenderType.RENDERTYPE_FILL ∨ call.type = RenderType.RENDERTYPE_CONVEXFILL
      ∨ call.type = RenderType.RENDERTYPE_STROKE) :
    drawsApplied pending (GpuOp.updateBlendFunction call.blendOp :: dispatchCall gl call)
      = true := by
  have hF := fun rest => drawsApplied_draws (drawFills gl call.pathOffset call.pathCount) rest
    (drawFills_isDraw gl call.pathOffset call.pathCount)
  have hS := fun rest => drawsApplied_draws (drawStrokes gl call.pathOffset call.pathCount) rest
    (drawStrokes_isDraw gl call.pathOffset call.pathCount)
  have hC := fun rest => drawsApplied_draws (convexDraws (callPaths gl call)) rest
    (convexDraws_isDraw (callPaths gl call))
  have hS0 := hS []
  have hC0 := hC []
  simp only [List.append_nil] at hS0 hC0
  rw [drawsApplied_blend]
  unfold dispatchCall
  rcases h with h | h | h
  · rw [if_pos h]
    unfold INTERNAL_fill
    split_ifs <;>
      simp only [List.append_assoc, List.cons_append, List.nil_append, List.append_nil,
        drawsApplied_setUniforms, hF, hS, drawsApplied_apply, drawsApplied_draw,
        drawsApplied_colorMask, drawsApplied_stencil, drawsApplied_cull,
        drawsApplied_stencilFunction, drawsApplied_nil]
  · rw [h]
    simp only [reduceCtorEq, if_false, if_true]
    rw [INTERNAL_convexFill_eq]
    simp only [List.append_assoc, List.cons_append, List.nil_append,
      drawsApplied_setUniforms, drawsApplied_apply, hC0, drawsApplied_nil]
  · rw [h]
    simp only [reduceCtorEq, if_false, if_true]
    unfold INTERNAL_stroke
    split_ifs <;>
      simp only [List.append_assoc, List.cons_append, List.nil_append, List.append_nil,
        drawsApplied_setUniforms, hS, hS0, drawsApplied_apply, drawsApplied_draw,
        drawsApplied_colorMask, drawsApplied_stencil, drawsApplied_cull,
        drawsApplied_stencilFunction, drawsApplied_nil]

set_option maxRecDepth 100000 in
/-- C37, at the failing input: a frame whose only recorded call is a triangle
list of 3 vertices is flushed without any apply-state call, although it
issues the draw `(0, 0, 3)` after a blend-function update and a bind; and the
triangle list recorded third in the example scene is drawn with nothing
applied since its blend-function update and bind, while the fill and the
stroke recorded before it pass the same check. -/
theorem triangles_drawn_without_apply_state :
    exampleTrianglesOnly.ncalls = 1
    ∧ (exampleTrianglesOnly.calls 0).type = RenderType.RENDERTYPE_TRIANGLES
    ∧ applyStatesOf (nvg_gpu_renderFlush exampleBackend exampleTrianglesOnly).2 = []
    ∧ drawsOf (nvg_gpu_renderFlush exampleBackend exampleTrianglesOnly).2
        = [GpuOp.drawPrimitives 0 0 3]
    ∧ drawsApplied false (nvg_gpu_renderFlush exampleBackend exampleTrianglesOnly).2 = false
    ∧ drawsApplied false
        (GpuOp.updateBlendFunction (exampleSceneCtx.calls 0).blendOp
          :: dispatchCall exampleSceneCtx (exampleSceneCtx.calls 0)) = true
    ∧ drawsApplied false
        (GpuOp.updateBlendFunction (exampleSceneCtx.calls 1).blendOp
          :: dispatchCall exampleSceneCtx (exampleSceneCtx.calls 1)) = true
    ∧ drawsApplied false
        (GpuOp.updateBlendFunction (exampleSceneCtx.calls 2).blendOp
          :: dispatchCall exampleSceneCtx (exampleSceneCtx.calls 2)) = false := by
  refine ⟨by decide, by decide, by decide, by decide, by decide, by decide, by decide,
    by decide⟩

/-! ## The quad and the uniform blocks of a fill -/

/-- C32: after a successful fill on a renderer with a non-zero block stride
(`nvg_gpu_renderCreate` sets it to 180), with bounds `(x0, y0, x1, y1)`. A
general fill (not a single convex sub-path) has the vertices `(x1, y1)`,
`(x1, y0)`, `(x0, y1)`, `(x0, y0)`, each with texture coordinate `(1/2, 1)`,
at `triangleOffset` .. `triangleOffset + 3`; its uniform used-count went up by
2; the block at `uniformOffset` has shader variant simple, alpha threshold -1
and every other field zero; the block one stride further is the conversion of
the submitted paint and scissor with width and fringe `fringe` and alpha
threshold -1; no other block changed. A convex fill has quad count 0 and its
vertex array is the one the sub-path loop left, no quad written; its uniform
used-count went up by 1 and the block at `uniformOffset` is that same
conversion; no other block changed. -/
theorem fill_quad_and_blocks (nv : Nanovg) (o : ReallocOracle) (ctx : RenderContext)
    (paint : NVGpaint) (op : NVGcompositeOperationState)
    (scissor : NVGscissor) (fringe : ℚ) (bounds : Fin 4 → ℚ) (paths : List NVGpath)
    (hfs : ctx.fragSize ≠ 0)
    (hcall : (INTERNAL_allocCall o.calls ctx).1 ≠ none)
    (hp : (INTERNAL_allocPaths o.paths ctx paths.length).1 ≠ -1)
    (hv : (INTERNAL_allocVerts o.verts ctx
            (INTERNAL_maxVertCount paths + if isSingleConvex paths = true then 0 else 4)).1 ≠ -1)
    (hu : (INTERNAL_allocFragUniforms o.uniforms ctx
            (if isSingleConvex paths = true then 1 else 2)).1 ≠ -1) :
    (isSingleConvex paths = false →
      ((nvg_gpu_renderFill nv o ctx paint op scissor fringe bounds paths).calls ctx.ncalls).type
          = RenderType.RENDERTYPE_FILL
      ∧ (nvg_gpu_renderFill nv o ctx paint op scissor fringe bounds paths).verts
          ((nvg_gpu_renderFill nv o ctx paint op scissor fringe bounds paths).calls
            ctx.ncalls).triangleOffset
          = { x := bounds 2, y := bounds 3, u := 1 / 2, v := 1 }
      ∧ (nvg_gpu_renderFill nv o ctx paint op scissor fringe bounds paths).verts
          (((nvg_gpu_renderFill nv o ctx paint op scissor fringe bounds paths).calls
            ctx.ncalls).triangleOffset + 1)
          = { x := bounds 2, y := bounds 1, u := 1 / 2, v := 1 }
      ∧ (nvg_gpu_renderFill nv o ctx paint op scissor fringe bounds paths).verts
          (((nvg_gpu_renderFill nv o ctx paint op scissor fringe bounds paths).calls
            ctx.ncalls).triangleOffset + 2)
          = { x := bounds 0, y := bounds 3, u := 1 / 2, v := 1 }
      ∧ (nvg_gpu_renderFill nv o ctx paint op scissor fringe bounds paths).verts
          (((nvg_gpu_renderFill nv o ctx paint op scissor fringe bounds paths).calls
            ctx.ncalls).triangleOffset + 3)
          = { x := bounds 0, y := bounds 1, u := 1 / 2, v := 1 }
      ∧ (nvg_gpu_renderFill nv o ctx paint op scissor fringe bounds paths).nuniforms
          = ctx.nuniforms + 2
      ∧ ((nvg_gpu_renderFill nv o ctx paint op scissor fringe bounds paths).calls
            ctx.ncalls).uniformOffset = ctx.nuniforms * ctx.fragSize
      ∧ (nvg_gpu_renderFill nv o ctx paint op scissor fringe bounds paths).uniforms
          ((nvg_gpu_renderFill nv o ctx paint op scissor fringe bounds paths).calls
            ctx.ncalls).uniformOffset
          = { RenderUniforms.zero with strokeThr := -1, type := RENDERSHADER_SIMPLE }
      ∧ (nvg_gpu_renderFill nv o ctx paint op scissor fringe bounds paths).uniforms
          (((nvg_gpu_renderFill nv o ctx paint op scissor fringe bounds paths).calls
            ctx.ncalls).uniformOffset
            + (nvg_gpu_renderFill nv o ctx paint op scissor fringe bounds paths).fragSize)
          = (INTERNAL_convertPaint nv ctx RenderUniforms.zero paint scissor
              fringe fringe (-1)).2
      ∧ ((nvg_gpu_renderFill nv o ctx paint op scissor fringe bounds paths).uniforms
          (((nvg_gpu_renderFill nv o ctx paint op scissor fringe bounds paths).calls
            ctx.ncalls).uniformOffset
            + (nvg_gpu_renderFill nv o ctx paint op scissor fringe bounds paths).fragSize)
          ).strokeThr = -1
      ∧ ∀ j : Int, j ≠ ctx.nuniforms * ctx.fragSize →
          j ≠ ctx.nuniforms * ctx.fragSize + ctx.fragSize →
          (nvg_gpu_renderFill nv o ctx paint op scissor fringe bounds paths).uniforms j
            = ctx.uniforms j)
    ∧ (isSingleConvex paths = true →
      ((nvg_gpu_renderFill nv o ctx paint op scissor fringe bounds paths).calls ctx.ncalls).type
          = RenderType.RENDERTYPE_CONVEXFILL
      ∧ ((nvg_gpu_renderFill nv o ctx paint op scissor fringe bounds paths).calls
            ctx.ncalls).triangleCount = 0
      ∧ (nvg_gpu_renderFill nv o ctx paint op scissor fringe bounds paths).verts
          = (fillCopyPaths ctx.npaths paths 0 ctx ctx.nverts).1.verts
      ∧ (nvg_gpu_renderFill nv o ctx paint op scissor fringe bounds paths).nverts
          = ctx.nverts + INTERNAL_maxVertCount paths
      ∧ (nvg_gpu_renderFill nv o ctx paint op scissor fringe bounds paths).nuniforms
          = ctx.nuniforms + 1
      ∧ ((nvg_gpu_renderFill nv o ctx paint op scissor fringe bounds paths).calls
            ctx.ncalls).uniformOffset = ctx.nuniforms * ctx.fragSize
      ∧ (nvg_gpu_renderFill nv o ctx paint op scissor fringe bounds paths).uniforms
          ((nvg_gpu_renderFill nv o ctx paint op scissor fringe bounds paths).calls
            ctx.ncalls).uniformOffset
          = (INTERNAL_convertPaint nv ctx RenderUniforms.zero paint scissor
              fringe fringe (-1)).2
      ∧ ((nvg_gpu_renderFill nv o ctx paint op scissor fringe bounds paths).uniforms
          ((nvg_gpu_renderFill nv o ctx paint op scissor fringe bounds paths).calls
            ctx.ncalls).uniformOffset).strokeThr = -1
      ∧ ∀ j : Int, j ≠ ctx.nuniforms * ctx.fragSize →
          (nvg_gpu_renderFill nv o ctx paint op scissor fringe bounds paths).uniforms j
            = ctx.uniforms j) := by
  obtain ⟨-, hc, -, hnv, hnu, -, hverts, hunif, hfrag, -⟩ :=
    nvg_gpu_renderFill_ok nv o ctx paint op scissor fringe bounds paths hcall hp hv hu
  have hthr := (INTERNAL_convertPaint_stroke nv ctx RenderUniforms.zero paint scissor
    fringe fringe (-1)).2
  constructor
  · intro hx
    have hx2 : ¬ isSingleConvex paths = true := by rw [hx]; decide
    rw [if_neg hx2] at hverts hunif hnu
    rw [hc, hverts, hunif, hnu, hfrag]
    simp only [if_neg hx2]
    have d0 : ctx.nuniforms * ctx.fragSize ≠ ctx.nuniforms * ctx.fragSize + ctx.fragSize := by
      omega
    refine ⟨trivial, ?_, ?_, ?_, ?_, trivial, trivial, ?_, ?_, ?_, ?_⟩
    · rw [poke_other _ _ _ _ (by omega), poke_other _ _ _ _ (by omega),
        poke_other _ _ _ _ (by omega), poke_same]
    · rw [poke_other _ _ _ _ (by omega), poke_other _ _ _ _ (by omega), poke_same]
    · rw [poke_other _ _ _ _ (by omega), poke_same]
    · rw [poke_same]
    · rw [poke_other _ _ _ _ d0, poke_same]
    · rw [poke_same]
    · rw [poke_same]
      exact hthr
    · intro j h1 h2
      rw [poke_other _ _ _ _ h2, poke_other _ _ _ _ h1]
  · intro hx
    rw [if_pos hx] at hverts hunif hnu hnv
    rw [hc, hverts, hunif, hnu, hnv]
    simp only [if_pos hx]
    refine ⟨trivial, trivial, trivial, by rw [add_zero], trivial, trivial, ?_, ?_, ?_⟩
    · rw [poke_same]
    · rw [poke_same]
      exact hthr
    · intro j h1
      rw [poke_other _ _ _ _ h1]

theorem fill_quad_and_blocks_witness :
    exampleCtx.fragSize ≠ 0
    ∧ (INTERNAL_allocCall reallocOk.calls exampleCtx).1 ≠ none
    ∧ (INTERNAL_allocPaths reallocOk.paths exampleCtx [exampleTriangle].length).1 ≠ -1
    ∧ (INTERNAL_allocVerts reallocOk.verts exampleCtx
        (INTERNAL_maxVertCount [exampleTriangle]
          + if isSingleConvex [exampleTriangle] = true then 0 else 4)).1 ≠ -1
    ∧ (INTERNAL_allocFragUniforms reallocOk.uniforms exampleCtx
        (if isSingleConvex [exampleTriangle] = true then 1 else 2)).1 ≠ -1
    ∧ isSingleConvex [exampleTriangle] = false
    ∧ (nvg_gpu_renderFill exampleNanovg reallocOk exampleCtx examplePaint (exampleOp 1)
        exampleScissor 1 exampleBounds [exampleTriangle]).verts
          ((nvg_gpu_renderFill exampleNanovg reallocOk exampleCtx examplePaint (exampleOp 1)
            exampleScissor 1 exampleBounds [exampleTriangle]).calls
              exampleCtx.ncalls).triangleOffset
        = { x := exampleBounds 2, y := exampleBounds 3, u := 1 / 2, v := 1 }
    ∧ (nvg_gpu_renderFill exampleNanovg reallocOk exampleCtx examplePaint (exampleOp 1)
        exampleScissor 1 exampleBounds [exampleTriangle]).nuniforms
        = exampleCtx.nuniforms + 2 :=
  ⟨by decide, by decide, by decide, by decide, by decide, by decide,
   ((fill_quad_and_blocks exampleNanovg reallocOk exampleCtx examplePaint (exampleOp 1)
      exampleScissor 1 exampleBounds [exampleTriangle]
      (by decide) (by decide) (by decide) (by decide) (by decide)).1 (by decide)).2.1,
   ((fill_quad_and_blocks exampleNanovg reallocOk exampleCtx examplePaint (exampleOp 1)
      exampleScissor 1 exampleBounds [exampleTriangle]
      (by decide) (by decide) (by decide) (by decide) (by decide)).1
      (by decide)).2.2.2.2.2.1⟩

/-! ## Used-count and capacity of the call, vertex and uniform arenas -/

/-- One arena operation with a non-negative count keeps the invariant of the
three arenas: no capacity is negative and no used-count exceeds its
capacity. -/
theorem arena_step (gl : RenderContext) (op : ArenaOp) (hn : 0 ≤ op.amount)
    (h : (0 ≤ gl.ccalls ∧ gl.ncalls ≤ gl.ccalls) ∧ (0 ≤ gl.cverts ∧ gl.nverts ≤ gl.cverts)
      ∧ (0 ≤ gl.cuniforms ∧ gl.nuniforms ≤ gl.cuniforms)) :
    (0 ≤ (op.run gl).ccalls ∧ (op.run gl).ncalls ≤ (op.run gl).ccalls)
    ∧ (0 ≤ (op.run gl).cverts ∧ (op.run gl).nverts ≤ (op.run gl).cverts)
    ∧ (0 ≤ (op.run gl).cuniforms ∧ (op.run gl).nuniforms ≤ (op.run gl).cuniforms) := by
  obtain ⟨⟨a1, a2⟩, ⟨b1, b2⟩, c1, c2⟩ := h
  have t1 := tdiv_two_eq gl.ccalls a1
  have t2 := tdiv_two_eq gl.cverts b1
  have t3 := tdiv_two_eq gl.cuniforms c1
  cases op with
  | allocCall ok =>
    simp only [ArenaOp.run, INTERNAL_allocCall, INTERNAL_maxi]
    cases ok <;> split_ifs <;> refine ⟨⟨?_, ?_⟩, ⟨?_, ?_⟩, ?_, ?_⟩ <;> (try dsimp only) <;>
      omega
  | allocVerts ok n =>
    simp only [ArenaOp.amount] at hn
    simp only [ArenaOp.run, INTERNAL_allocVerts, INTERNAL_maxi]
    cases ok <;> split_ifs <;> refine ⟨⟨?_, ?_⟩, ⟨?_, ?_⟩, ?_, ?_⟩ <;> (try dsimp only) <;>
      omega
  | allocFragUniforms ok n =>
    simp only [ArenaOp.amount] at hn
    simp only [ArenaOp.run, INTERNAL_allocFragUniforms, INTERNAL_maxi]
    cases ok <;> split_ifs <;> refine ⟨⟨?_, ?_⟩, ⟨?_, ?_⟩, ?_, ?_⟩ <;> (try dsimp only) <;>
      omega
  | reset =>
    simp only [ArenaOp.run, nvg_gpu_renderCancel]
    refine ⟨⟨?_, ?_⟩, ⟨?_, ?_⟩, ?_, ?_⟩ <;> (try dsimp only) <;> omega
  | rollback =>
    simp only [ArenaOp.run, rollbackCall]
    split_ifs <;> refine ⟨⟨?_, ?_⟩, ⟨?_, ?_⟩, ?_, ?_⟩ <;> (try dsimp only) <;> omega

theorem arena_invariant (ops : List ArenaOp) :
    ∀ gl : RenderContext,
      ((0 ≤ gl.ccalls ∧ gl.ncalls ≤ gl.ccalls) ∧ (0 ≤ gl.cverts ∧ gl.nverts ≤ gl.cverts)
        ∧ (0 ≤ gl.cuniforms ∧ gl.nuniforms ≤ gl.cuniforms)) →
      (∀ op ∈ ops, 0 ≤ op.amount) →
      (arenaStates gl ops).length = ops.length
      ∧ ∀ s ∈ arenaStates gl ops,
          (0 ≤ s.ccalls ∧ s.ncalls ≤ s.ccalls) ∧ (0 ≤ s.cverts ∧ s.nverts ≤ s.cverts)
          ∧ (0 ≤ s.cuniforms ∧ s.nuniforms ≤ s.cuniforms) := by
  induction ops with
  | nil => intro gl _ _; exact ⟨rfl, fun s hs => by cases hs⟩
  | cons op rest ih =>
    intro gl h hn
    have h1 := arena_step gl op (hn op (List.mem_cons_self _ _)) h
    have h2 := ih (op.run gl) h1 (fun o ho => hn o (List.mem_cons_of_mem _ ho))
    refine ⟨by simp only [arenaStates, List.length_cons, h2.1], ?_⟩
    intro s hs
    simp only [arenaStates, List.mem_cons] at hs
    rcases hs with hs | hs
    · rw [hs]; exact h1
    · exact h2.2 s hs

/-- C38: start from a renderer whose call, vertex and uniform arenas have a
non-negative capacity and a used-count within it (the created renderer has all
six at zero), and run any list of operations, each a call reservation, a
vertex or uniform reservation of `n ≥ 0` elements, with a succeeding or a
failing `realloc`, a reset, or the rollback of the last call. Then after every
operation the used-count of each of the three arenas is at most its capacity.
The reason: a reservation whose request `used + n` exceeds the capacity takes
the growth path (for calls the test `ncalls == ccalls` is that test), where a
failing `realloc` leaves used-count and capacity as they were and a succeeding
one raises the capacity to at least `used + n`; any other reservation leaves
the capacity as it is. -/
theorem used_within_capacity (gl : RenderContext) (ops : List ArenaOp)
    (hc : 0 ≤ gl.ccalls ∧ gl.ncalls ≤ gl.ccalls)
    (hv : 0 ≤ gl.cverts ∧ gl.nverts ≤ gl.cverts)
    (hu : 0 ≤ gl.cuniforms ∧ gl.nuniforms ≤ gl.cuniforms)
    (hn : ∀ op ∈ ops, 0 ≤ op.amount) :
    (arenaStates gl ops).length = ops.length
    ∧ (∀ s ∈ arenaStates gl ops,
        s.ncalls ≤ s.ccalls ∧ s.nverts ≤ s.cverts ∧ s.nuniforms ≤ s.cuniforms)
    ∧ (gl.ncalls = gl.ccalls ↔ gl.ncalls + 1 > gl.ccalls)
    ∧ (gl.ncalls + 1 > gl.ccalls →
        (INTERNAL_allocCall false gl).2.ncalls = gl.ncalls
        ∧ (INTERNAL_allocCall false gl).2.ccalls = gl.ccalls
        ∧ gl.ncalls + 1 ≤ (INTERNAL_allocCall true gl).2.ccalls)
    ∧ (∀ ok, gl.ncalls + 1 ≤ gl.ccalls → (INTERNAL_allocCall ok gl).2.ccalls = gl.ccalls)
    ∧ (∀ n : Int, 0 ≤ n → gl.nverts + n > gl.cverts →
        (INTERNAL_allocVerts false gl n).2.nverts = gl.nverts
        ∧ (INTERNAL_allocVerts false gl n).2.cverts = gl.cverts
        ∧ gl.nverts + n ≤ (INTERNAL_allocVerts true gl n).2.cverts)
    ∧ (∀ (ok : Bool) (n : Int), gl.nverts + n ≤ gl.cverts →
        (INTERNAL_allocVerts ok gl n).2.cverts = gl.cverts)
    ∧ (∀ n : Int, 0 ≤ n → gl.nuniforms + n > gl.cuniforms →
        (INTERNAL_allocFragUniforms false gl n).2.nuniforms = gl.nuniforms
        ∧ (INTERNAL_allocFragUniforms false gl n).2.cuniforms = gl.cuniforms
        ∧ gl.nuniforms + n ≤ (INTERNAL_allocFragUniforms true gl n).2.cuniforms)
    ∧ (∀ (ok : Bool) (n : Int), gl.nuniforms + n ≤ gl.cuniforms →
        (INTERNAL_allocFragUniforms ok gl n).2.cuniforms = gl.cuniforms) := by
  have hinv := arena_invariant ops gl ⟨hc, hv, hu⟩ hn
  have t1 := tdiv_two_eq gl.ccalls hc.1
  have t2 := tdiv_two_eq gl.cverts hv.1
  have t3 := tdiv_two_eq gl.cuniforms hu.1
  refine ⟨hinv.1, fun s hs => ⟨(hinv.2 s hs).1.2, (hinv.2 s hs).2.1.2, (hinv.2 s hs).2.2.2⟩,
    by omega, ?_, ?_, ?_, ?_, ?_, ?_⟩
  · intro h
    have e : gl.ncalls = gl.ccalls := by omega
    refine ⟨?_, ?_, ?_⟩
    · simp [INTERNAL_allocCall, e]
    · simp [INTERNAL_allocCall, e]
    · unfold INTERNAL_allocCall INTERNAL_maxi
      rw [if_pos e]
      simp only [Bool.true_eq_false, if_false]
      split_ifs <;> omega
  · intro ok h
    have e : ¬ gl.ncalls = gl.ccalls := by omega
    simp only [INTERNAL_allocCall, if_neg e]
  · intro n _ h
    refine ⟨?_, ?_, ?_⟩
    · simp [INTERNAL_allocVerts, h]
    · simp [INTERNAL_allocVerts, h]
    · unfold INTERNAL_allocVerts INTERNAL_maxi
      rw [if_pos h]
      simp only [Bool.true_eq_false, if_false]
      split_ifs <;> omega
  · intro ok n h
    have e : ¬ gl.nverts + n > gl.cverts := by omega
    simp only [INTERNAL_allocVerts, if_neg e]
  · intro n _ h
    refine ⟨?_, ?_, ?_⟩
    · simp [INTERNAL_allocFragUniforms, h]
    · simp [INTERNAL_allocFragUniforms, h]
    · unfold INTERNAL_allocFragUniforms INTERNAL_maxi
      simp only [if_pos h, Bool.true_eq_false, if_false]
      split_ifs <;> omega
  · intro ok n h
    have e : ¬ gl.nuniforms + n > gl.cuniforms := by omega
    simp only [INTERNAL_allocFragUniforms, if_neg e]

theorem used_within_capacity_witness :
    (0 ≤ nvgGpuCreate.ccalls ∧ nvgGpuCreate.ncalls ≤ nvgGpuCreate.ccalls)
    ∧ (0 ≤ nvgGpuCreate.cverts ∧ nvgGpuCreate.nverts ≤ nvgGpuCreate.cverts)
    ∧ (0 ≤ nvgGpuCreate.cuniforms ∧ nvgGpuCreate.nuniforms ≤ nvgGpuCreate.cuniforms)
    ∧ (∀ op ∈ exampleArenaOps, 0 ≤ op.amount)
    ∧ (arenaStates nvgGpuCreate exampleArenaOps).length = exampleArenaOps.length
    ∧ ∀ s ∈ arenaStates nvgGpuCreate exampleArenaOps,
        s.ncalls ≤ s.ccalls ∧ s.nverts ≤ s.cverts ∧ s.nuniforms ≤ s.cuniforms :=
  ⟨by decide, by decide, by decide, by decide,
   (used_within_capacity nvgGpuCreate exampleArenaOps (by decide) (by decide) (by decide)
      (by decide)).1,
   (used_within_capacity nvgGpuCreate exampleArenaOps (by decide) (by decide) (by decide)
      (by decide)).2.1⟩

/-! ## Theorems: the fan of a sub-path in the state a fill returns -/

theorem fillCopyPath_below (q : NVGpath) (verts : Int → NVGvertex) (offset : Int)
    (hq : q.nfill ≠ 1) :
    offset ≤ (fillCopyPath q verts offset).2.2
    ∧ ∀ j : Int, j < offset → (fillCopyPath q verts offset).2.1 j = verts j := by
  unfold fillCopyPath
  by_cases hf : q.nfill > 0
  · by_cases hs : q.nstroke > 0
    · simp only [hf, hs, if_true]
      refine ⟨by omega, ?_⟩
      intro j hj
      simp only [memcpy]
      rw [if_neg (by omega)]
      exact fanToList_outside _ _ _ _ _ _ (Or.inl hj)
    · simp only [hf, hs, if_true, if_false]
      exact ⟨by omega, fun j hj => fanToList_outside _ _ _ _ _ _ (Or.inl hj)⟩
  · by_cases hs : q.nstroke > 0
    · simp only [hf, hs, if_true, if_false]
      refine ⟨by omega, ?_⟩
      intro j hj
      simp only [memcpy]
      rw [if_neg (by omega)]
    · simp only [hf, hs, if_false]
      exact ⟨le_refl _, fun _ _ => trivial⟩

theorem fillCopyPaths_below (pathOffset : Int) (l : List NVGpath) :
    ∀ (i : Int) (ctx : RenderContext) (offset : Int),
      (∀ q ∈ l, q.nfill ≠ 1) →
      offset ≤ (fillCopyPaths pathOffset l i ctx offset).2
      ∧ (∀ j : Int, j < offset →
          (fillCopyPaths pathOffset l i ctx offset).1.verts j = ctx.verts j)
      ∧ (∀ j : Int, j < pathOffset + i →
          (fillCopyPaths pathOffset l i ctx offset).1.paths j = ctx.paths j) := by
  induction l with
  | nil => intro i ctx offset _; exact ⟨le_refl _, fun _ _ => rfl, fun _ _ => rfl⟩
  | cons q rest ih =>
    intro i ctx offset h
    have hq := fillCopyPath_below q ctx.verts offset (h q (List.mem_cons_self _ _))
    have hr := ih (i + 1)
      { ctx with paths := poke ctx.paths (pathOffset + i) (fillCopyPath q ctx.verts offset).1,
                 verts := (fillCopyPath q ctx.verts offset).2.1 }
      (fillCopyPath q ctx.verts offset).2.2
      (fun q2 h2 => h q2 (List.mem_cons_of_mem _ h2))
    rw [fillCopyPaths]
    refine ⟨le_trans hq.1 hr.1, ?_, ?_⟩
    · intro j hj
      rw [hr.2.1 j (by omega)]
      exact hq.2 j hj
    · intro j hj
      rw [hr.2.2 j (by omega)]
      exact poke_other _ _ _ _ (by omega)

theorem fillCopyPath_end (p : NVGpath) (verts : Int → NVGvertex) (offset : Int)
    (hk : 3 ≤ p.nfill) :
    (fillCopyPath p verts offset).2.2 = offset + 3 * (p.nfill - 2) + max p.nstroke 0 := by
  unfold fillCopyPath
  have hf : p.nfill > 0 := by omega
  by_cases hs : p.nstroke > 0
  · simp only [hf, hs, if_true]
    rw [max_eq_left (by omega)]
    ring
  · simp only [hf, hs, if_true, if_false]
    rw [max_eq_right (by omega)]
    ring

/-- The fan of a sub-path in the state `nvg_gpu_renderFill` returns: when the
submit succeeds and no sub-path after `p` has exactly one fill point, the
range recorded for a sub-path `p` with `k = p.nfill ≥ 3` fan points has
`fillOffset` equal to the offset at which the loop reached `p` and
`fillCount = 3 * (k - 2)`, and for each `i` from 2 to `k - 1` the vertices at
`fillOffset + 3 * (i - 2)` are `fan[i - 1]`, `fan[i]`, `fan[0]`. -/
theorem fill_fan_kept (nv : Nanovg) (o : ReallocOracle) (ctx : RenderContext)
    (paint : NVGpaint) (op : NVGcompositeOperationState)
    (scissor : NVGscissor) (fringe : ℚ) (bounds : Fin 4 → ℚ)
    (pre : List NVGpath) (p : NVGpath) (post : List NVGpath)
    (hcall : (INTERNAL_allocCall o.calls ctx).1 ≠ none)
    (hp : (INTERNAL_allocPaths o.paths ctx (pre ++ p :: post).length).1 ≠ -1)
    (hv : (INTERNAL_allocVerts o.verts ctx
            (INTERNAL_maxVertCount (pre ++ p :: post)
              + if isSingleConvex (pre ++ p :: post) = true then 0 else 4)).1 ≠ -1)
    (hu : (INTERNAL_allocFragUniforms o.uniforms ctx
            (if isSingleConvex (pre ++ p :: post) = true then 1 else 2)).1 ≠ -1)
    (hk : 3 ≤ p.nfill) (hpost : ∀ q ∈ post, q.nfill ≠ 1) :
    ((nvg_gpu_renderFill nv o ctx paint op scissor fringe bounds (pre ++ p :: post)).paths
        (ctx.npaths + pre.length)).fillOffset
      = (fillCopyPaths ctx.npaths pre 0 ctx ctx.nverts).2
    ∧ ((nvg_gpu_renderFill nv o ctx paint op scissor fringe bounds (pre ++ p :: post)).paths
        (ctx.npaths + pre.length)).fillCount = 3 * (p.nfill - 2)
    ∧ (∀ i : Int, 2 ≤ i → i < p.nfill →
        (nvg_gpu_renderFill nv o ctx paint op scissor fringe bounds (pre ++ p :: post)).verts
            ((fillCopyPaths ctx.npaths pre 0 ctx ctx.nverts).2 + 3 * (i - 2)) = p.fill (i - 1)
        ∧ (nvg_gpu_renderFill nv o ctx paint op scissor fringe bounds (pre ++ p :: post)).verts
            ((fillCopyPaths ctx.npaths pre 0 ctx ctx.nverts).2 + 3 * (i - 2) + 1) = p.fill i
        ∧ (nvg_gpu_renderFill nv o ctx paint op scissor fringe bounds (pre ++ p :: post)).verts
            ((fillCopyPaths ctx.npaths pre 0 ctx ctx.nverts).2 + 3 * (i - 2) + 2)
          = p.fill 0) := by
  obtain ⟨-, -, -, -, -, hpaths, hverts, -⟩ :=
    nvg_gpu_renderFill_ok nv o ctx paint op scissor fringe bounds (pre ++ p :: post)
      hcall hp hv hu
  have e : pre ++ p :: post = (pre ++ [p]) ++ post := by simp
  have hfan := fill_fan_to_list ctx.npaths pre p ctx ctx.nverts hk
  have hend : (fillCopyPaths ctx.npaths (pre ++ [p]) 0 ctx ctx.nverts).2
      = (fillCopyPaths ctx.npaths pre 0 ctx ctx.nverts).2 + 3 * (p.nfill - 2)
        + max p.nstroke 0 := by
    rw [fillCopyPaths_append]
    simp only [fillCopyPaths]
    exact fillCopyPath_end p _ _ hk
  have hfr := fillCopyPaths_below ctx.npaths post (0 + ((pre ++ [p]).length : Int))
    (fillCopyPaths ctx.npaths (pre ++ [p]) 0 ctx ctx.nverts).1
    (fillCopyPaths ctx.npaths (pre ++ [p]) 0 ctx ctx.nverts).2 hpost
  have happ := fillCopyPaths_append ctx.npaths (pre ++ [p]) post 0 ctx ctx.nverts
  rw [← e] at happ
  rw [← happ] at hfr
  obtain ⟨hge, hfv, hfp⟩ := hfr
  have hlen : ((pre ++ [p]).length : Int) = pre.length + 1 := by simp
  have hm : 0 ≤ max p.nstroke 0 := le_max_right _ _
  generalize (fillCopyPaths ctx.npaths (pre ++ p :: post) 0 ctx ctx.nverts).1 = cN
      at hpaths hverts hfv hfp
  generalize (fillCopyPaths ctx.npaths (pre ++ p :: post) 0 ctx ctx.nverts).2 = offN
      at hverts hge
  generalize (fillCopyPaths ctx.npaths (pre ++ [p]) 0 ctx ctx.nverts).1 = c1
      at hfan hfv hfp
  generalize (fillCopyPaths ctx.npaths (pre ++ [p]) 0 ctx ctx.nverts).2 = off1
      at hend hge hfv
  generalize (fillCopyPaths ctx.npaths pre 0 ctx ctx.nverts).2 = off0 at hfan hend ⊢
  have hkeep : ∀ j : Int, j < off1 →
      (nvg_gpu_renderFill nv o ctx paint op scissor fringe bounds (pre ++ p :: post)).verts j
        = c1.verts j := by
    intro j hj
    rw [hverts]
    split_ifs
    · exact hfv j hj
    · rw [poke_other _ _ _ _ (by omega), poke_other _ _ _ _ (by omega),
        poke_other _ _ _ _ (by omega), poke_other _ _ _ _ (by omega)]
      exact hfv j hj
  rw [hpaths, hfp _ (by omega)]
  refine ⟨hfan.1, hfan.2.1, ?_⟩
  intro i h2 hi
  rw [hkeep _ (by omega), hkeep _ (by omega), hkeep _ (by omega)]
  exact hfan.2.2.1 i h2 hi

/-- The fan kept, on the fresh renderer: a fill of a triangle (3 fan points,
2 stroke points) followed by a pentagon (5 fan points) returns with the
pentagon's 9 fan vertices from vertex 5 on, the first triangle being
`fan[1]`, `fan[2]`, `fan[0]`. -/
theorem fill_fan_kept_witness :
    ((nvg_gpu_renderFill exampleNanovg reallocOk exampleCtx examplePaint (exampleOp 1)
        exampleScissor 1 exampleBounds ([exampleTriangle] ++ examplePentagon :: [])).paths
        (exampleCtx.npaths + ([exampleTriangle].length : Int))).fillCount
      = 3 * (examplePentagon.nfill - 2)
    ∧ (fillCopyPaths exampleCtx.npaths [exampleTriangle] 0 exampleCtx exampleCtx.nverts).2 = 5
    ∧ (nvg_gpu_renderFill exampleNanovg reallocOk exampleCtx examplePaint (exampleOp 1)
        exampleScissor 1 exampleBounds ([exampleTriangle] ++ examplePentagon :: [])).verts
        ((fillCopyPaths exampleCtx.npaths [exampleTriangle] 0 exampleCtx exampleCtx.nverts).2
          + 3 * (2 - 2))
      = examplePentagon.fill (2 - 1) :=
  have h := fill_fan_kept exampleNanovg reallocOk exampleCtx examplePaint (exampleOp 1)
    exampleScissor 1 exampleBounds [exampleTriangle] examplePentagon []
    (by decide) (by decide) (by decide) (by decide) (by decide)
    (fun _ hq => absurd hq (List.not_mem_nil _))
  ⟨h.2.1, by decide, (h.2.2 2 (by decide) (by decide)).1⟩

set_option maxRecDepth 100000 in
/-- C2: a fan overwritten before the fill returns. On the fresh renderer, with
every `realloc` succeeding, the general fill of a sub-path `A` with 4 fan
points followed by a sub-path `B` with 1 fill point and 3 stroke points is
recorded (one call over the two path ranges 0 and 1). The range of `A` has
`fillOffset = 0` and `fillCount = 3 * (4 - 2) = 6`, and its first triangle
(`i = 2`) is in place at vertex 0; but the vertex at
`fillOffset + 3 * (i - 2)` for `i = 3` is the first stroke vertex of `B`, not
`fan[2]` of `A`. The range of `B` has `fillOffset = 6` and `fillCount = -3`:
the loop moved the running offset back to 3 and copied the stroke of `B` to
the vertices 3 to 5. -/
theorem fan_overwritten_by_point_subpath :
    exampleAfterOverwrite.ncalls = 1
    ∧ (exampleAfterOverwrite.calls 0).pathOffset = 0
    ∧ (exampleAfterOverwrite.calls 0).pathCount = 2
    ∧ (exampleAfterOverwrite.paths 0).fillOffset = 0
    ∧ (exampleAfterOverwrite.paths 0).fillCount = 3 * (exampleQuadFan.nfill - 2)
    ∧ exampleAfterOverwrite.verts (0 + 3 * (2 - 2)) = exampleQuadFan.fill (2 - 1)
    ∧ exampleAfterOverwrite.verts (0 + 3 * (3 - 2)) = examplePointStroked.stroke 0
    ∧ exampleAfterOverwrite.verts (0 + 3 * (3 - 2)) ≠ exampleQuadFan.fill (3 - 1)
    ∧ (exampleAfterOverwrite.paths 1).fillOffset = 6
    ∧ (exampleAfterOverwrite.paths 1).fillCount = -3
    ∧ (exampleAfterOverwrite.paths 1).strokeOffset = 3
    ∧ (exampleAfterOverwrite.paths 1).strokeCount = 3
    ∧ (exampleAfterOverwrite.calls 0).triangleOffset = 6
    ∧ exampleAfterOverwrite.nverts = 10 := by
  decide!

/-! ## Theorems: the crossing test under binary32 rounding -/

set_option maxRecDepth 100000 in
/-- Counterexample to C19 as stated: a segment that meets the ray within
`[0, 1)` and is not counted. Take a sub-path whose first point is
`p0 = (0, 0)` and whose bounds have the minimum corner `(0, 0)`, so that the
probe is `p1 = (-1, -1)`, and the sibling segment from `p2 = (-2, 8388606)` to
`p3 = (-2, -2.25)`; the eight coordinates are binary32 values. The determinant
is `8388608.25`, far from zero; the lines meet at the parameter
`s = 33554432 / 33554433` along the segment, which lies in `[0, 1)`, and at
`t = 2 ≥ 0` along the ray, and with exact arithmetic the test of `nvgDrawSVG`
holds. In binary32 the difference `p3.y - p2.y = -8388608.25` is stored as
`-8388608`, every later operation is exact, `getLineCrossing` returns `1.0`
for the segment and `2.0` for the ray, and the test `crossing < 1.0` fails:
the segment is not counted. -/
theorem crossing_lost_to_rounding :
    (roundF32 0 = F32.fin 0 ∧ roundF32 (-1) = F32.fin (-1) ∧ roundF32 (-2) = F32.fin (-2)
      ∧ roundF32 8388606 = F32.fin 8388606 ∧ roundF32 (-9 / 4) = F32.fin (-9 / 4))
    ∧ (1 / 1000000 : ℚ) ≤ |((-1) - 0) * ((-9 / 4) - 8388606) - ((-1) - 0) * ((-2) - (-2))|
    ∧ ((0 : ℚ) ≤ 33554432 / 33554433 ∧ (33554432 / 33554433 : ℚ) < 1 ∧ (0 : ℚ) ≤ 2
      ∧ (-2 : ℚ) + 33554432 / 33554433 * ((-2) - (-2)) = 0 + 2 * ((-1) - 0)
      ∧ (8388606 : ℚ) + 33554432 / 33554433 * ((-9 / 4) - 8388606) = 0 + 2 * ((-1) - 0))
    ∧ crossingTest (getLineCrossing ⟨0, 0⟩ ⟨-1, -1⟩ ⟨-2, 8388606⟩ ⟨-2, -9 / 4⟩)
        (getLineCrossing ⟨-2, 8388606⟩ ⟨-2, -9 / 4⟩ ⟨0, 0⟩ ⟨-1, -1⟩) = true
    ∧ F32.sub (F32.fin (-9 / 4)) (F32.fin 8388606) = F32.fin (-8388608)
    ∧ getLineCrossingF32 (VecF.ofRat 0 0) (VecF.ofRat (-1) (-1))
        (VecF.ofRat (-2) 8388606) (VecF.ofRat (-2) (-9 / 4)) = F32.fin 1
    ∧ getLineCrossingF32 (VecF.ofRat (-2) 8388606) (VecF.ofRat (-2) (-9 / 4))
        (VecF.ofRat 0 0) (VecF.ofRat (-1) (-1)) = F32.fin 2
    ∧ crossingTestF32
        (getLineCrossingF32 (VecF.ofRat 0 0) (VecF.ofRat (-1) (-1))
          (VecF.ofRat (-2) 8388606) (VecF.ofRat (-2) (-9 / 4)))
        (getLineCrossingF32 (VecF.ofRat (-2) 8388606) (VecF.ofRat (-2) (-9 / 4))
          (VecF.ofRat 0 0) (VecF.ofRat (-1) (-1))) = false := by
  decide!

end SVG4FNA
